import Mathlib

/-!
# AxisLayout (loader/src/cocos2d-ext/Layout.cpp)

A shallow embedding of the flex-style layout solver of `Layout.cpp`.

Modelling conventions
* C++ `float` values are exact rationals (`ℚ`): rounding, infinities and NaN
  are not modelled, and a division by zero yields `0` as in Mathlib.
  Statements that depend on what the floats really do are made over a second
  embedding of the solver (section `Floating point`, namespace `Fp`), which
  takes the float type and its operations as parameters.
* `int` priorities are `Int`, `size_t` counters are `Nat`.
* A `CCNode*` is a record carrying the fields the solver reads or writes.
  A `CCArray` of children is a `List CCNode`; the children of a container
  are distinct objects, so a write through one array entry is a write to
  that list entry.  The field `tag` stands for the object identity.
* The container argument `on` of the source is called `parent` here.
* `AXISLAYOUT_DEFAULT_PRIORITY` and `AXISLAYOUT_DEFAULT_MIN_SCALE` come from
  a header that is not part of the sources at hand; they are taken as the
  parameter `K : Defaults`.
-/

namespace Geode

/-! ## Data model -/

/-- The two macro constants of the layout header, taken as parameters. -/
structure Defaults where
  AXISLAYOUT_DEFAULT_PRIORITY : Int
  AXISLAYOUT_DEFAULT_MIN_SCALE : ℚ
deriving DecidableEq

/-- The cocos2d size record. -/
structure CCSize where
  width : ℚ
  height : ℚ
deriving DecidableEq

/-- The cocos2d point record. -/
structure CCPoint where
  x : ℚ
  y : ℚ
deriving DecidableEq

/-- Primary direction of a layout. -/
inductive Axis where
  | Row
  | Column
deriving DecidableEq

/-- Alignment modes along either axis. -/
inductive AxisAlignment where
  | Start
  | Center
  | End
  | Even
deriving DecidableEq

/-- Per-child options; every field is named after the getter the solver calls. -/
structure AxisLayoutOptions where
  getAutoScale : Option Bool
  getMaxScale : ℚ
  getMinScale : ℚ
  getRelativeScale : ℚ
  getLength : Option ℚ
  getPrevGap : Option ℚ
  getNextGap : Option ℚ
  getBreakLine : Bool
  getSameLine : Bool
  getScalePriority : Int
deriving DecidableEq

/-- The part of a scene-graph node the solver reads or writes.
`axisOpts` is the result of `axisOpts(node)` (none when the node has no
`AxisLayoutOptions`), `m_offButton` is present exactly for a
`CCMenuItemToggler` and holds `m_offButton->getScaledContentSize()`,
`m_baseScale` is present exactly for a `CCMenuItemSpriteExtra`. -/
structure CCNode where
  tag : Nat
  m_obContentSize : CCSize
  m_fScaleX : ℚ
  m_fScaleY : ℚ
  m_obAnchorPoint : CCPoint
  m_obPosition : CCPoint
  axisOpts : Option AxisLayoutOptions
  m_offButton : Option CCSize
  m_baseScale : Option ℚ
deriving DecidableEq

/-- The configuration fields of `AxisLayout`. -/
structure AxisLayout where
  m_axis : Axis
  m_axisAlignment : AxisAlignment
  m_crossAlignment : AxisAlignment
  m_gap : ℚ
  m_axisReverse : Bool
  m_crossReverse : Bool
  m_autoScale : Bool
  m_growCrossAxis : Bool
  m_allowCrossAxisOverflow : Bool
deriving DecidableEq

/-- Result of `nodeAxis`. -/
structure AxisPosition where
  axisLength : ℚ
  axisAnchor : ℚ
  crossLength : ℚ
  crossAnchor : ℚ
deriving DecidableEq

/-- The solver-internal row record `AxisLayout::Row`. -/
structure Row where
  nextOverflowScaleDownFactor : ℚ
  nextOverflowSquishFactor : ℚ
  axisLength : ℚ
  crossLength : ℚ
  axisEndsLength : ℚ
  nodes : List CCNode
deriving DecidableEq

/-! ## Node accessors (cocos2d) -/

/-- Function `CCNode::getScaledContentSize`: content size times the node's scale. -/
def CCNode.getScaledContentSize (n : CCNode) : CCSize :=
  { width := n.m_obContentSize.width * n.m_fScaleX
    height := n.m_obContentSize.height * n.m_fScaleY }

/-- Function `CCNode::setScale`: writes both scale factors. -/
def CCNode.setScale (n : CCNode) (s : ℚ) : CCNode :=
  { n with m_fScaleX := s, m_fScaleY := s }

/-- Function `CCNode::setPosition(x, y)`. -/
def CCNode.setPosition (n : CCNode) (x y : ℚ) : CCNode :=
  { n with m_obPosition := { x := x, y := y } }

/-- Function `CCNode::setContentSize`. -/
def CCNode.setContentSize (n : CCNode) (s : CCSize) : CCNode :=
  { n with m_obContentSize := s }

/-- The write `btn->m_baseScale = scale`, performed only when the node is a
`CCMenuItemSpriteExtra`. -/
def CCNode.setBaseScale (n : CCNode) (s : ℚ) : CCNode :=
  match n.m_baseScale with
  | some _ => { n with m_baseScale := some s }
  | none => n

/-- Product of a size and a factor, `CCSize * float`. -/
def CCSize.scale (s : CCSize) (k : ℚ) : CCSize :=
  { width := s.width * k, height := s.height * k }

/-! ## Option accessors (Layout.cpp 46-86) -/

/-- Function `isOptsBreakLine` (Layout.cpp 46-51). -/
def isOptsBreakLine (opts : Option AxisLayoutOptions) : Bool :=
  match opts with
  | some o => o.getBreakLine
  | none => false

/-- Function `isOptsSameLine` (Layout.cpp 53-58). -/
def isOptsSameLine (opts : Option AxisLayoutOptions) : Bool :=
  match opts with
  | some o => o.getSameLine
  | none => false

/-- Function `optsScalePrio` (Layout.cpp 60-65). -/
def optsScalePrio (K : Defaults) (opts : Option AxisLayoutOptions) : Int :=
  match opts with
  | some o => o.getScalePriority
  | none => K.AXISLAYOUT_DEFAULT_PRIORITY

/-- Function `optsMinScale` (Layout.cpp 67-72). -/
def optsMinScale (K : Defaults) (opts : Option AxisLayoutOptions) : ℚ :=
  match opts with
  | some o => o.getMinScale
  | none => K.AXISLAYOUT_DEFAULT_MIN_SCALE

/-- Function `optsMaxScale` (Layout.cpp 74-79). -/
def optsMaxScale (opts : Option AxisLayoutOptions) : ℚ :=
  match opts with
  | some o => o.getMaxScale
  | none => 1

/-- Function `optsRelScale` (Layout.cpp 81-86). -/
def optsRelScale (opts : Option AxisLayoutOptions) : ℚ :=
  match opts with
  | some o => o.getRelativeScale
  | none => 1

/-- Function `scaleByOpts` (Layout.cpp 88-109). -/
def scaleByOpts (K : Defaults) (opts : Option AxisLayoutOptions) (scale : ℚ) (prio : Int) : ℚ :=
  if prio > optsScalePrio K opts then
    optsMaxScale opts * optsRelScale opts
  else if prio = optsScalePrio K opts then
    let trueScale := scale
    let min := optsMinScale K opts
    let max := optsMaxScale opts
    let trueScale := if trueScale < min then min else trueScale
    let trueScale := if trueScale > max then max else trueScale
    trueScale * optsRelScale opts
  else
    optsMinScale K opts * optsRelScale opts

/-- Function `nodeAxis` (Layout.cpp 145-172). -/
def nodeAxis (node : CCNode) (axis : Axis) (scale : ℚ) : AxisPosition :=
  let scaledSize := node.getScaledContentSize.scale scale
  let axisLength : Option ℚ :=
    match node.axisOpts with
    | some opts => opts.getLength
    | none => none
  let scaledSize :=
    match node.m_offButton with
    | some off => off
    | none => scaledSize
  let anchor := node.m_obAnchorPoint
  match axis with
  | Axis.Row =>
    { axisLength := axisLength.getD scaledSize.width
      axisAnchor := anchor.x
      crossLength := scaledSize.height
      crossAnchor := anchor.y }
  | Axis.Column =>
    { axisLength := axisLength.getD scaledSize.height
      axisAnchor := anchor.y
      crossLength := scaledSize.width
      crossAnchor := anchor.x }

namespace AxisLayout

/-- Function `AxisLayout::nextGap` (Layout.cpp 174-183).  The comparison
`gap.value() < next->getPrevGap()` compares a `float` with an
`optional<float>`, which is false when the optional is empty. -/
def nextGap (L : AxisLayout) (now next : Option AxisLayoutOptions) : ℚ :=
  let gap : Option ℚ :=
    match now with
    | some n => n.getNextGap
    | none => none
  let gap : Option ℚ :=
    match next with
    | some nx =>
      let lt : Bool :=
        match gap, nx.getPrevGap with
        | some g, some p => decide (g < p)
        | _, _ => false
      if gap.isNone || lt then nx.getPrevGap else gap
    | none => gap
  gap.getD L.m_gap

/-- Function `AxisLayout::shouldAutoScale` (Layout.cpp 185-188). -/
def shouldAutoScale (L : AxisLayout) (opts : Option AxisLayoutOptions) : Bool :=
  match opts with
  | none => L.m_autoScale
  | some o => o.getAutoScale.getD L.m_autoScale

/-- Function `AxisLayout::minScaleForPrio` (Layout.cpp 190-204); `prio` is not read. -/
def minScaleForPrio (_L : AxisLayout) (K : Defaults) (nodes : List CCNode) (_prio : Int) : ℚ :=
  (nodes.foldl
    (fun (acc : ℚ × Bool) node =>
      let scale := optsMinScale K node.axisOpts
      if acc.2 then (scale, false)
      else if scale < acc.1 then (scale, false)
      else acc)
    (K.AXISLAYOUT_DEFAULT_MIN_SCALE, true)).1

/-- Function `AxisLayout::maxScaleForPrio` (Layout.cpp 206-220); `prio` is not read. -/
def maxScaleForPrio (_L : AxisLayout) (nodes : List CCNode) (_prio : Int) : ℚ :=
  (nodes.foldl
    (fun (acc : ℚ × Bool) node =>
      let scale := optsMaxScale node.axisOpts
      if acc.2 then (scale, false)
      else if scale > acc.1 then (scale, false)
      else acc)
    ((1 : ℚ), true)).1

/-- The local variables of the `for` loop of `fitInRow`. -/
structure FitState where
  nextAxisLength : ℚ
  axisLength : ℚ
  crossLength : ℚ
  res : List CCNode
  prev : Option AxisLayoutOptions
  ix : Nat
deriving DecidableEq

/-- The write at the head of the loop body of `fitInRow` (Layout.cpp 238-241):
a child to which auto-scale applies is reset to `maxScale * relativeScale`. -/
def resetScale (L : AxisLayout) (node : CCNode) : CCNode :=
  if L.shouldAutoScale node.axisOpts then
    node.setScale (optsMaxScale node.axisOpts * optsRelScale node.axisOpts)
  else node

/-- The `for` loop of `fitInRow` (Layout.cpp 237-277).  It returns the locals
at loop exit together with the array entries from the exit point on: the
entry the loop broke on (already written to by `setScale`) and the entries
behind it, or nothing when the loop ran to the end. -/
def fitInRowLoop (L : AxisLayout) (K : Defaults) (available : AxisPosition)
    (minMaxPrios : Int × Int) (scale squish : ℚ) (prio : Int) (finalPosCalc : Bool) :
    List CCNode → FitState → FitState × List CCNode
  | [], st => (st, [])
  | node :: rest, st =>
    let opts := node.axisOpts
    let node := resetScale L node
    let nodeScale := scaleByOpts K opts scale prio
    let pos := nodeAxis node L.m_axis (nodeScale * squish)
    let nextAxisLength := st.nextAxisLength + pos.axisLength
    if !finalPosCalc && L.m_growCrossAxis &&
        ((decide (nextAxisLength > available.axisLength) && st.ix != 0 && !isOptsSameLine opts)
          || isOptsBreakLine st.prev) then
      ({ st with nextAxisLength := nextAxisLength }, node :: rest)
    else
      let gapLen : ℚ :=
        if st.ix != 0 then
          let gap := L.nextGap st.prev opts
          if prio = minMaxPrios.1 then gap * scale * squish else gap * squish
        else 0
      let nextAxisLength := nextAxisLength + gapLen
      let axisLength := st.axisLength + gapLen + pos.axisLength
      let crossLength := if pos.crossLength > st.crossLength then pos.crossLength else st.crossLength
      fitInRowLoop L K available minMaxPrios scale squish prio finalPosCalc rest
        { nextAxisLength := nextAxisLength
          axisLength := axisLength
          crossLength := crossLength
          res := st.res ++ [node]
          prev := opts
          ix := st.ix + 1 }

/-- Function `AxisLayout::fitInRow` (Layout.cpp 222-312).  The second component is the
array `nodes` after the call: in a non-final pass the accepted entries have
been removed from its front. -/
def fitInRow (L : AxisLayout) (K : Defaults) (parent : CCNode) (nodes : List CCNode)
    (minMaxPrios : Int × Int) (_doAutoScale : Bool)
    (scale squish : ℚ) (prio : Int) (finalPosCalc : Bool) : Row × List CCNode :=
  let available := nodeAxis parent L.m_axis 1
  let out := fitInRowLoop L K available minMaxPrios scale squish prio finalPosCalc nodes
    { nextAxisLength := 0, axisLength := 0, crossLength := 0, res := [], prev := none, ix := 0 }
  let st := out.1
  let res := if !finalPosCalc && L.m_axisReverse then st.res.reverse else st.res
  let axisEndsLength : ℚ :=
    if finalPosCalc then 0
    else
      match res.head?, res.getLast? with
      | some first, some last =>
        first.getScaledContentSize.width * scale / 2 +
          last.getScaledContentSize.width * scale / 2
      | _, _ => 0
  ({ nextOverflowScaleDownFactor := available.axisLength / st.nextAxisLength * scale * squish
     nextOverflowSquishFactor := available.axisLength / st.nextAxisLength * scale * squish
     axisLength := st.axisLength
     crossLength := st.crossLength
     axisEndsLength := axisEndsLength
     nodes := res },
   if finalPosCalc then st.res ++ out.2 else out.2)

/-- The locals of the row-partition loop of `tryFitLayout` (Layout.cpp 325-358). -/
structure RowsState where
  rows : List Row
  totalRowCrossLength : ℚ
  crossScaleDownFactor : ℚ
  crossSquishFactor : ℚ
  ix : Nat
  newNodes : List CCNode
deriving DecidableEq

/-- One iteration of the `while (newNodes->count())` loop of `tryFitLayout`
(Layout.cpp 334-357). -/
def fitRowsStep (L : AxisLayout) (K : Defaults) (parent : CCNode)
    (minMaxPrios : Int × Int) (doAutoScale : Bool) (scale squish : ℚ) (prio : Int)
    (st : RowsState) : RowsState :=
  let out := L.fitInRow K parent st.newNodes minMaxPrios doAutoScale scale squish prio false
  let row := out.1
  let crossScaleDownFactor :=
    if row.nextOverflowScaleDownFactor > st.crossScaleDownFactor ∧
        row.nextOverflowScaleDownFactor < scale then
      row.nextOverflowScaleDownFactor
    else st.crossScaleDownFactor
  let crossSquishFactor :=
    if row.nextOverflowSquishFactor > st.crossSquishFactor ∧
        row.nextOverflowSquishFactor < squish then
      row.nextOverflowSquishFactor
    else st.crossSquishFactor
  let totalRowCrossLength := st.totalRowCrossLength + row.crossLength
  let totalRowCrossLength :=
    if st.ix != 0 then totalRowCrossLength + L.m_gap else totalRowCrossLength
  { rows := st.rows ++ [row]
    totalRowCrossLength := totalRowCrossLength
    crossScaleDownFactor := crossScaleDownFactor
    crossSquishFactor := crossSquishFactor
    ix := st.ix + 1
    newNodes := out.2 }

/-- The `while (newNodes->count())` loop of `tryFitLayout`, run for at most
`fuel` iterations. -/
def fitRowsLoop (L : AxisLayout) (K : Defaults) (parent : CCNode)
    (minMaxPrios : Int × Int) (doAutoScale : Bool) (scale squish : ℚ) (prio : Int) :
    Nat → RowsState → RowsState
  | 0, st => st
  | fuel + 1, st =>
    match st.newNodes with
    | [] => st
    | _ :: _ =>
      fitRowsLoop L K parent minMaxPrios doAutoScale scale squish prio fuel
        (fitRowsStep L K parent minMaxPrios doAutoScale scale squish prio st)

/-- The row partition of `tryFitLayout` (Layout.cpp 325-359): the loop started
on a copy of `nodes`.  Every iteration removes at least one entry
(`fitRows_newNodes`), so `nodes.length` iterations always reach the loop exit. -/
def fitRows (L : AxisLayout) (K : Defaults) (parent : CCNode) (nodes : List CCNode)
    (minMaxPrios : Int × Int) (doAutoScale : Bool) (scale squish : ℚ) (prio : Int) :
    RowsState :=
  fitRowsLoop L K parent minMaxPrios doAutoScale scale squish prio nodes.length
    { rows := []
      totalRowCrossLength := 0
      crossScaleDownFactor := 0
      crossSquishFactor := 0
      ix := 0
      newNodes := nodes }

/-- The locals of the per-node placement loop (Layout.cpp 532-586), with the
nodes already written to. -/
structure PlaceState where
  rowAxisPos : ℚ
  prev : Option AxisLayoutOptions
  ix : Nat
  placed : List CCNode
deriving DecidableEq

/-- The scale used for one node of the placement loop (Layout.cpp 535-539):
the row scale, replaced by `scaleByOpts` when auto-scale applies. -/
def placeScale (L : AxisLayout) (K : Defaults) (rowScale : ℚ) (prio : Int) (node : CCNode) : ℚ :=
  if L.shouldAutoScale node.axisOpts then scaleByOpts K node.axisOpts rowScale prio else rowScale

/-- The scale writes of one node of the placement loop (Layout.cpp 538-545). -/
def placeRescale (L : AxisLayout) (K : Defaults) (rowScale : ℚ) (prio : Int) (node : CCNode) : CCNode :=
  if L.shouldAutoScale node.axisOpts then
    (node.setBaseScale (placeScale L K rowScale prio node)).setScale (placeScale L K rowScale prio node)
  else node

/-- The body of the per-node placement loop (Layout.cpp 534-586).  `count` is
`nodes->count()`, the number of all children handed to `tryFitLayout`. -/
def placeNode (L : AxisLayout) (K : Defaults) (row : Row)
    (rowScale rowSquish : ℚ) (prio : Int) (rowCrossPos evenSpace : ℚ) (count : Nat)
    (st : PlaceState) (node : CCNode) : PlaceState :=
  let scale := placeScale L K rowScale prio node
  let opts := node.axisOpts
  let node := placeRescale L K rowScale prio node
  let rowAxisPos :=
    if st.ix = 0 then st.rowAxisPos + row.axisEndsLength * scale / 2 * (1 - rowSquish)
    else st.rowAxisPos
  let pos := nodeAxis node L.m_axis rowSquish
  let step : ℚ × ℚ :=
    if L.m_axisAlignment = AxisAlignment.Even then
      (rowAxisPos + evenSpace / 2 - pos.axisLength * (1 / 2 - pos.axisAnchor),
       rowAxisPos + (evenSpace - row.axisEndsLength * scale * (1 - rowSquish) * 1 / (count : ℚ)))
    else
      let rowAxisPos :=
        if st.ix != 0 then rowAxisPos + L.nextGap st.prev opts * scale * rowSquish
        else rowAxisPos
      (rowAxisPos + pos.axisLength * pos.axisAnchor,
       rowAxisPos + (pos.axisLength - row.axisEndsLength * scale * (1 - rowSquish) * 1 / (count : ℚ)))
  let axisPos := step.1
  let crossOffset : ℚ :=
    match L.m_crossAlignment with
    | AxisAlignment.Start => pos.crossLength * pos.crossAnchor
    | AxisAlignment.Center => row.crossLength / 2 - pos.crossLength * (1 / 2 - pos.crossAnchor)
    | AxisAlignment.Even => row.crossLength / 2 - pos.crossLength * (1 / 2 - pos.crossAnchor)
    | AxisAlignment.End => row.crossLength - pos.crossLength * (1 - pos.crossAnchor)
  let node :=
    match L.m_axis with
    | Axis.Row => node.setPosition axisPos (rowCrossPos + crossOffset)
    | Axis.Column => node.setPosition (rowCrossPos + crossOffset) axisPos
  { rowAxisPos := step.2, prev := opts, ix := st.ix + 1, placed := st.placed ++ [node] }

/-- The per-row fitting of the placement (Layout.cpp 492-509): the row's
scale, squish and updated axis length. -/
def rowFit (L : AxisLayout) (K : Defaults) (available : AxisPosition) (row : Row)
    (scale squish : ℚ) : ℚ × ℚ × ℚ :=
  if row.axisLength > available.axisLength then
    let axisLength := row.axisLength / (scale * squish)
    let scaled : ℚ × ℚ :=
      if L.m_autoScale then
        let rowScale := available.axisLength / axisLength
        let rowScale :=
          if rowScale < K.AXISLAYOUT_DEFAULT_MIN_SCALE then K.AXISLAYOUT_DEFAULT_MIN_SCALE
          else rowScale
        (rowScale, axisLength * rowScale)
      else (scale, axisLength)
    let rowScale := scaled.1
    let axisLength := scaled.2
    let rowSquish := if axisLength > available.axisLength then available.axisLength / axisLength else squish
    (rowScale, rowSquish, axisLength * rowSquish)
  else (scale, squish, row.axisLength)

/-- Placement of the nodes of one row (Layout.cpp 492-586), `rowCrossPos`
being the row's cross position.  The row is returned with its updated axis
length and its written nodes. -/
def placeRow (L : AxisLayout) (K : Defaults) (available : AxisPosition) (row : Row)
    (scale squish : ℚ) (prio : Int) (rowCrossPos : ℚ) (count : Nat) : Row :=
  let fit := rowFit L K available row scale squish
  let rowScale := fit.1
  let rowSquish := fit.2.1
  let row := { row with axisLength := fit.2.2 }
  let rowAxisPos : ℚ :=
    match L.m_axisAlignment with
    | AxisAlignment.Start => 0
    | AxisAlignment.Even => 0
    | AxisAlignment.Center => available.axisLength / 2 - row.axisLength / 2
    | AxisAlignment.End => available.axisLength - row.axisLength
  let evenSpace := available.axisLength / (row.nodes.length : ℚ)
  let out := row.nodes.foldl
    (placeNode L K row rowScale rowSquish prio rowCrossPos evenSpace count)
    { rowAxisPos := rowAxisPos, prev := none, ix := 0, placed := [] }
  { row with nodes := out.placed }

/-- The loop over the rows of the placement (Layout.cpp 484-596), threading
`rowCrossPos`; `rowCount` is `rows->count()`. -/
def placeRows (L : AxisLayout) (K : Defaults) (available : AxisPosition)
    (scale squish : ℚ) (prio : Int) (columnSquish rowsEndsLength rowEvenSpace : ℚ)
    (rowCount count : Nat) : List Row → ℚ → List Row
  | [], _ => []
  | row :: rest, rowCrossPos =>
    let rowCrossPos :=
      if L.m_crossAlignment = AxisAlignment.Even then
        rowCrossPos - (rowEvenSpace / 2 + row.crossLength / 2)
      else rowCrossPos - row.crossLength * columnSquish
    let placedRow := placeRow L K available row scale squish prio rowCrossPos count
    let rowCrossPos :=
      if L.m_crossAlignment = AxisAlignment.Even then
        rowCrossPos - (rowEvenSpace / 2 - row.crossLength / 2 -
          rowsEndsLength * (3 / 2) * scale * (1 - columnSquish) * 1 / (rowCount : ℚ))
      else
        rowCrossPos - (L.m_gap * columnSquish -
          rowsEndsLength * (3 / 2) * scale * (1 - columnSquish) * 1 / (rowCount : ℚ))
    placedRow :: placeRows L K available scale squish prio columnSquish rowsEndsLength
      rowEvenSpace rowCount count rest rowCrossPos

/-- The positioning part of `tryFitLayout` (Layout.cpp 424-596), entered once
no retry is made: the container after the optional `setContentSize` and the
rows with their written nodes.  `count` is `nodes->count()`. -/
def positionRows (L : AxisLayout) (K : Defaults) (parent : CCNode) (count : Nat)
    (scale squish : ℚ) (prio : Int) (rows : List Row) (totalRowCrossLength : ℚ) :
    CCNode × List Row :=
  let available := nodeAxis parent L.m_axis 1
  let rows := if L.m_crossReverse then rows.reverse else rows
  let available : AxisPosition :=
    if L.m_allowCrossAxisOverflow then { available with crossLength := totalRowCrossLength }
    else available
  let parent :=
    if L.m_allowCrossAxisOverflow then
      match L.m_axis with
      | Axis.Row =>
        parent.setContentSize { width := available.axisLength, height := totalRowCrossLength }
      | Axis.Column =>
        parent.setContentSize { width := totalRowCrossLength, height := available.axisLength }
    else parent
  let overflow : Bool :=
    !L.m_allowCrossAxisOverflow && decide (totalRowCrossLength > available.crossLength)
  let columnSquish : ℚ := if overflow then available.crossLength / totalRowCrossLength else 1
  let totalRowCrossLength := if overflow then totalRowCrossLength * columnSquish else totalRowCrossLength
  let rowsEndsLength : ℚ :=
    match rows.head?, rows.getLast? with
    | some first, some last => first.crossLength / 2 + last.crossLength / 2
    | _, _ => 0
  let rowCrossPos : ℚ :=
    match L.m_crossAlignment with
    | AxisAlignment.Start =>
      totalRowCrossLength - rowsEndsLength * (3 / 2) * scale * (1 - columnSquish)
    | AxisAlignment.Even =>
      available.crossLength - rowsEndsLength * (3 / 2) * scale * (1 - columnSquish)
    | AxisAlignment.Center =>
      available.crossLength / 2 + totalRowCrossLength / 2 -
        rowsEndsLength * (3 / 2) * scale * (1 - columnSquish)
    | AxisAlignment.End =>
      available.crossLength - rowsEndsLength * (3 / 2) * scale * (1 - columnSquish)
  let rowEvenSpace := available.crossLength / (rows.length : ℚ)
  (parent,
   placeRows L K available scale squish prio columnSquish rowsEndsLength rowEvenSpace
     rows.length count rows rowCrossPos)

/-- The nodes of a row in the order in which `fitInRow` accepted them (the
stored order is reversed when `m_axisReverse` is set). -/
def packed (L : AxisLayout) (row : Row) : List CCNode :=
  if L.m_axisReverse then row.nodes.reverse else row.nodes

/-- The children array after the row-partition loop, read back from the rows
in their packing order: the loop has written to every entry. -/
def packedNodes (L : AxisLayout) (rows : List Row) : List CCNode :=
  rows.flatMap (packed L)

/-- The tier-drop loop `while (true)` of `tryFitLayout` (Layout.cpp 383-391),
run for at most `fuel` iterations: the new tier and the new scale, or none
when the fuel runs out. -/
def dropPrio (L : AxisLayout) (nodes : List CCNode) : Nat → Int → Option (Int × ℚ)
  | 0, _ => none
  | fuel + 1, prio =>
    let prio := prio - 1
    let scale := L.maxScaleForPrio nodes prio
    if scale = 0 then dropPrio L nodes fuel prio else some (prio, scale)

/-- The retry decision of `tryFitLayout` (Layout.cpp 361-422) for a finished
row partition `st`: `some (some (scale, squish, prio))` are the arguments of
the recursive call, `some none` means that the pass is accepted and its rows
are positioned, `none` that the tier-drop loop ran out of fuel. -/
def retryArgs (L : AxisLayout) (K : Defaults) (parent : CCNode) (nodes : List CCNode)
    (minMaxPrios : Int × Int) (doAutoScale : Bool) (scale squish : ℚ) (prio : Int)
    (st : RowsState) (fuel : Nat) : Option (Option (ℚ × ℚ × Int)) :=
  let available := nodeAxis parent L.m_axis 1
  let squishRetry : Option (ℚ × ℚ × Int) :=
    if !L.m_allowCrossAxisOverflow && decide (st.totalRowCrossLength > available.crossLength) then
      if st.totalRowCrossLength / available.crossLength < st.crossSquishFactor then
        some (scale, st.crossSquishFactor, prio)
      else none
    else none
  if !L.m_allowCrossAxisOverflow && doAutoScale &&
      decide (st.totalRowCrossLength > available.crossLength) then
    let minScaleForPrio := L.minScaleForPrio K nodes prio
    if st.crossScaleDownFactor < minScaleForPrio ∨ st.crossScaleDownFactor = scale then
      if prio > minMaxPrios.1 then
        match dropPrio L nodes fuel prio with
        | some (prio, crossScaleDownFactor) => some (some (crossScaleDownFactor, squish, prio))
        | none => none
      else some squishRetry
    else some (some (st.crossScaleDownFactor, squish, prio))
  else some squishRetry

/-- Function `AxisLayout::tryFitLayout` (Layout.cpp 314-597), with `fuel` bounding the
depth of the recursion and the tier-drop loop: the container and the
positioned rows of the accepted pass, or none when the fuel runs out. -/
def tryFitLayout (L : AxisLayout) (K : Defaults) (parent : CCNode)
    (minMaxPrios : Int × Int) (doAutoScale : Bool) :
    Nat → List CCNode → ℚ → ℚ → Int → Option (CCNode × List Row)
  | 0, _, _, _, _ => none
  | fuel + 1, nodes, scale, squish, prio =>
    let st := L.fitRows K parent nodes minMaxPrios doAutoScale scale squish prio
    let nodes := L.packedNodes st.rows
    match L.retryArgs K parent nodes minMaxPrios doAutoScale scale squish prio st fuel with
    | none => none
    | some (some (scale, squish, prio)) =>
      tryFitLayout L K parent minMaxPrios doAutoScale fuel nodes scale squish prio
    | some none =>
      some (L.positionRows K parent nodes.length scale squish prio st.rows st.totalRowCrossLength)

/-- The scan of `AxisLayout::apply` over the children (Layout.cpp 602-635):
the pair of the lowest and highest priority and the auto-scale flag. -/
def applyScan (L : AxisLayout) (nodes : List CCNode) : (Int × Int) × Bool :=
  let out := nodes.foldl
    (fun (acc : (Int × Int) × Bool × Bool) node =>
      let prio : Int :=
        match node.axisOpts with
        | some opts => opts.getScalePriority
        | none => 0
      let doAutoScale : Bool :=
        match node.axisOpts with
        | some opts => if opts.getAutoScale.getD L.m_autoScale then true else acc.2.1
        | none => if L.m_autoScale then true else acc.2.1
      let minMaxPrio : Int × Int :=
        if acc.2.2 then (prio, prio)
        else
          let lo := if prio < acc.1.1 then prio else acc.1.1
          let hi := if prio > acc.1.2 then prio else acc.1.2
          (lo, hi)
      (minMaxPrio, doAutoScale, false))
    (((0 : Int), (0 : Int)), false, true)
  (out.1, out.2.1)

/-- Function `AxisLayout::apply` (Layout.cpp 599-642) on a container and its children
(`getNodesToPosition`), with the fuel of `tryFitLayout`. -/
def apply (L : AxisLayout) (K : Defaults) (fuel : Nat) (parent : CCNode) (nodes : List CCNode) :
    Option (CCNode × List Row) :=
  let scan := L.applyScan nodes
  let minMaxPrio := scan.1
  L.tryFitLayout K parent minMaxPrio scan.2 fuel nodes
    (L.maxScaleForPrio nodes minMaxPrio.2) 1 minMaxPrio.2

/-! ## Vocabulary of the statements -/

/-- The axis length `fitInRow` measures for a child in a pass run at `scale`,
`squish` and `prio` (Layout.cpp 238-243). -/
def passLength (L : AxisLayout) (K : Defaults) (scale squish : ℚ) (prio : Int)
    (node : CCNode) : ℚ :=
  (nodeAxis (resetScale L node) L.m_axis (scaleByOpts K node.axisOpts scale prio * squish)).axisLength

/-- The length `fitInRow` adds for the gap between two accepted neighbours
(Layout.cpp 259-270). -/
def passGap (L : AxisLayout) (minMaxPrios : Int × Int) (scale squish : ℚ) (prio : Int)
    (prev opts : Option AxisLayoutOptions) : ℚ :=
  if prio = minMaxPrios.1 then L.nextGap prev opts * scale * squish
  else L.nextGap prev opts * squish

/-- The gap a child declares towards its successor, if any. -/
def declaredNextGap (opts : Option AxisLayoutOptions) : Option ℚ :=
  opts.bind AxisLayoutOptions.getNextGap

/-- The gap a child declares towards its predecessor, if any. -/
def declaredPrevGap (opts : Option AxisLayoutOptions) : Option ℚ :=
  opts.bind AxisLayoutOptions.getPrevGap

/-- The test of the `break` of `fitInRow` (Layout.cpp 249-257) for the child
`node` met in loop state `st`. -/
def breaksBefore (L : AxisLayout) (K : Defaults) (available : AxisPosition)
    (scale squish : ℚ) (prio : Int) (finalPosCalc : Bool) (st : FitState) (node : CCNode) : Bool :=
  !finalPosCalc && L.m_growCrossAxis &&
    ((decide (st.nextAxisLength + L.passLength K scale squish prio node > available.axisLength)
        && st.ix != 0 && !isOptsSameLine node.axisOpts)
      || isOptsBreakLine st.prev)

/-- The loop state of `fitInRow` after the child `node` has been accepted
(Layout.cpp 258-276). -/
def acceptNode (L : AxisLayout) (K : Defaults) (minMaxPrios : Int × Int)
    (scale squish : ℚ) (prio : Int) (st : FitState) (node : CCNode) : FitState :=
  let len := L.passLength K scale squish prio node
  let gapLen : ℚ :=
    if st.ix != 0 then L.passGap minMaxPrios scale squish prio st.prev node.axisOpts else 0
  let cross :=
    (nodeAxis (resetScale L node) L.m_axis
      (scaleByOpts K node.axisOpts scale prio * squish)).crossLength
  { nextAxisLength := st.nextAxisLength + len + gapLen
    axisLength := st.axisLength + gapLen + len
    crossLength := if cross > st.crossLength then cross else st.crossLength
    res := st.res ++ [resetScale L node]
    prev := node.axisOpts
    ix := st.ix + 1 }

/-- The axis length consumed by a row holding `nodes` in a pass: the measured
lengths of the nodes plus the gap lengths between neighbours. -/
def consumed (L : AxisLayout) (K : Defaults) (minMaxPrios : Int × Int) (scale squish : ℚ)
    (prio : Int) : List CCNode → ℚ
  | [] => 0
  | [a] => L.passLength K scale squish prio a
  | a :: b :: rest =>
    L.passLength K scale squish prio a +
      L.passGap minMaxPrios scale squish prio a.axisOpts b.axisOpts +
      consumed L K minMaxPrios scale squish prio (b :: rest)

/-- The options of the last node of a list, as `fitInRow` keeps them in `prev`. -/
def lastOpts (nodes : List CCNode) : Option AxisLayoutOptions :=
  match nodes.getLast? with
  | some a => a.axisOpts
  | none => none

/-- What the loop state of `fitInRow` records about the nodes accepted so far. -/
def FitInv (L : AxisLayout) (K : Defaults) (minMaxPrios : Int × Int) (scale squish : ℚ)
    (prio : Int) (st : FitState) : Prop :=
  st.ix = st.res.length ∧ st.prev = lastOpts st.res ∧
    st.nextAxisLength = L.consumed K minMaxPrios scale squish prio st.res ∧
    st.axisLength = L.consumed K minMaxPrios scale squish prio st.res

/-- In a row, no node but the last declares `breakLine`, and every node
behind the first either declares `sameLine` or fitted: the length consumed
before it plus its own length did not exceed the available length. -/
def WithinRow (L : AxisLayout) (K : Defaults) (available : AxisPosition)
    (minMaxPrios : Int × Int) (scale squish : ℚ) (prio : Int) (row : List CCNode) : Prop :=
  ∀ p c q, row = p ++ c :: q → p ≠ [] →
    isOptsBreakLine (lastOpts p) = false ∧
      (isOptsSameLine c.axisOpts = true ∨
        L.consumed K minMaxPrios scale squish prio p + L.passLength K scale squish prio c ≤
          available.axisLength)

/-- Between a row and the list starting with the next child: the row's last
node declares `breakLine`, or the next child does not declare `sameLine` and
the length consumed by the row plus the child's length exceeds the available
length. -/
def RowBreak (L : AxisLayout) (K : Defaults) (available : AxisPosition)
    (minMaxPrios : Int × Int) (scale squish : ℚ) (prio : Int) (row next : List CCNode) : Prop :=
  ∀ b ∈ next.head?, row ≠ [] ∧
    (isOptsBreakLine (lastOpts row) = true ∨
      (isOptsSameLine b.axisOpts = false ∧
        L.consumed K minMaxPrios scale squish prio row + L.passLength K scale squish prio b >
          available.axisLength))

/-- In the list of rows `rows`, the adjacent children `a`, `b` (with `pre`
before and `post` behind them in the child sequence) lie in one row. -/
def SameRow (rows : List (List CCNode)) (pre : List CCNode) (a b : CCNode)
    (post : List CCNode) : Prop :=
  ∃ R1 u v R2, rows = R1 ++ (u ++ a :: b :: v) :: R2 ∧
    pre = R1.flatten ++ u ∧ post = v ++ R2.flatten

/-- In the list of rows `rows`, the child `a` is the last of its row and the
child `b` behind it starts the next row. -/
def RowEndsBetween (rows : List (List CCNode)) (pre : List CCNode) (a b : CCNode)
    (post : List CCNode) : Prop :=
  ∃ R1 u v R2, rows = R1 ++ (u ++ [a]) :: (b :: v) :: R2 ∧
    pre = R1.flatten ++ u ∧ post = v ++ R2.flatten

/-- The coordinate of a point along the layout axis. -/
def axisCoord (axis : Axis) (p : CCPoint) : ℚ :=
  match axis with
  | Axis.Row => p.x
  | Axis.Column => p.y

/-- What the placement measures for a child placed with row scale 1 and row
squish 1 (Layout.cpp 535-549). -/
def placedAxis (L : AxisLayout) (K : Defaults) (prio : Int) (node : CCNode) : AxisPosition :=
  nodeAxis (placeRescale L K 1 prio node) L.m_axis 1

/-- The sum of the resolved gaps between the neighbours of a list of children. -/
def gapsBetween (L : AxisLayout) : List CCNode → ℚ
  | [] => 0
  | [_] => 0
  | a :: b :: rest => L.nextGap a.axisOpts b.axisOpts + gapsBetween L (b :: rest)

/-- The identity of a node together with its two scale factors. -/
def scaleKey (n : CCNode) : Nat × ℚ × ℚ :=
  (n.tag, n.m_fScaleX, n.m_fScaleY)

/-- The component of a size across the layout axis. -/
def crossSize (axis : Axis) (s : CCSize) : ℚ :=
  match axis with
  | Axis.Row => s.height
  | Axis.Column => s.width

/-- The initial state of the per-node placement loop for `axisAlignment = Start`. -/
def placeInit : PlaceState :=
  { rowAxisPos := 0, prev := none, ix := 0, placed := [] }

/-- The initial loop state of `fitInRow` (Layout.cpp 229-236). -/
def fitInit : FitState :=
  { nextAxisLength := 0, axisLength := 0, crossLength := 0, res := [], prev := none, ix := 0 }

/-- The initial state of the row-partition loop (Layout.cpp 325-332). -/
def rowsInit (nodes : List CCNode) : RowsState :=
  { rows := []
    totalRowCrossLength := 0
    crossScaleDownFactor := 0
    crossSquishFactor := 0
    ix := 0
    newNodes := nodes }

/-- The priority `apply` reads off a child in its scan (Layout.cpp 607-609):
the declared `scalePriority`, or 0 for a child without options. -/
def scanPrio (node : CCNode) : Int :=
  match node.axisOpts with
  | some opts => opts.getScalePriority
  | none => 0

/-- The arguments of one call of `tryFitLayout`: the children array and the
scale, squish and tier of the pass. -/
structure Pass where
  nodes : List CCNode
  scale : ℚ
  squish : ℚ
  prio : Int
deriving DecidableEq

/-- The calls of `tryFitLayout` made by a call with the given arguments, itself
included, in the order in which they run (Layout.cpp 314-422), for at most
`fuel` calls. -/
def passes (L : AxisLayout) (K : Defaults) (parent : CCNode)
    (minMaxPrios : Int × Int) (doAutoScale : Bool) :
    Nat → List CCNode → ℚ → ℚ → Int → List Pass
  | 0, _, _, _, _ => []
  | fuel + 1, nodes, scale, squish, prio =>
    let st := L.fitRows K parent nodes minMaxPrios doAutoScale scale squish prio
    { nodes := nodes, scale := scale, squish := squish, prio := prio } ::
      match L.retryArgs K parent (L.packedNodes st.rows) minMaxPrios doAutoScale scale squish prio
          st fuel with
      | some (some (scale, squish, prio)) =>
        passes L K parent minMaxPrios doAutoScale fuel (L.packedNodes st.rows) scale squish prio
      | _ => []

/-- The calls of `tryFitLayout` made by `apply` (Layout.cpp 637-641). -/
def applyPasses (L : AxisLayout) (K : Defaults) (fuel : Nat) (parent : CCNode)
    (nodes : List CCNode) : List Pass :=
  let scan := L.applyScan nodes
  let minMaxPrio := scan.1
  passes L K parent minMaxPrio scan.2 fuel nodes
    (L.maxScaleForPrio nodes minMaxPrio.2) 1 minMaxPrio.2

/-- The positioning of the rows of a pass (Layout.cpp 424-596), as
`tryFitLayout` runs it when the pass makes no retry. -/
def acceptPass (L : AxisLayout) (K : Defaults) (parent : CCNode)
    (minMaxPrios : Int × Int) (doAutoScale : Bool) (p : Pass) : CCNode × List Row :=
  let st := L.fitRows K parent p.nodes minMaxPrios doAutoScale p.scale p.squish p.prio
  L.positionRows K parent (L.packedNodes st.rows).length p.scale p.squish p.prio st.rows
    st.totalRowCrossLength

end AxisLayout

/-! ## Example data -/

/-- Example values of the two header constants. -/
def exampleDefaults : Defaults :=
  { AXISLAYOUT_DEFAULT_PRIORITY := 0, AXISLAYOUT_DEFAULT_MIN_SCALE := 13 / 20 }

/-- A row layout aligned at the start, without gap, with auto-scale on. -/
def exampleLayout (growCrossAxis : Bool) : AxisLayout :=
  { m_axis := Axis.Row
    m_axisAlignment := AxisAlignment.Start
    m_crossAlignment := AxisAlignment.Start
    m_gap := 0
    m_axisReverse := false
    m_crossReverse := false
    m_autoScale := true
    m_growCrossAxis := growCrossAxis
    m_allowCrossAxisOverflow := false }

/-- Options with the scale range `[1/2, 1]`, no gap and no length override. -/
def exampleOptions (breakLine sameLine : Bool) : AxisLayoutOptions :=
  { getAutoScale := none
    getMaxScale := 1
    getMinScale := 1 / 2
    getRelativeScale := 1
    getLength := none
    getPrevGap := none
    getNextGap := none
    getBreakLine := breakLine
    getSameLine := sameLine
    getScalePriority := 0 }

/-- A plain node of the given width and height 40 at scale 1, anchored at its
centre. -/
def exampleNode (tag : Nat) (width : ℚ) (opts : Option AxisLayoutOptions) : CCNode :=
  { tag := tag
    m_obContentSize := { width := width, height := 40 }
    m_fScaleX := 1
    m_fScaleY := 1
    m_obAnchorPoint := { x := 1 / 2, y := 1 / 2 }
    m_obPosition := { x := 0, y := 0 }
    axisOpts := opts
    m_offButton := none
    m_baseScale := none }

/-- A node of the given content size and scale, anchored at its centre;
`offButton` is present for a toggler. -/
def exampleBox (tag : Nat) (size : CCSize) (scale : ℚ) (opts : Option AxisLayoutOptions)
    (offButton : Option CCSize) : CCNode :=
  { tag := tag
    m_obContentSize := size
    m_fScaleX := scale
    m_fScaleY := scale
    m_obAnchorPoint := { x := 1 / 2, y := 1 / 2 }
    m_obPosition := { x := 0, y := 0 }
    axisOpts := opts
    m_offButton := offButton
    m_baseScale := none }

/-- Options of priority `prio` whose scale range is the single value `scale`. -/
def tierOptions (prio : Int) (scale : ℚ) : AxisLayoutOptions :=
  { exampleOptions false false with
    getMaxScale := scale, getMinScale := scale, getScalePriority := prio }

/-- Two children of content size 40 x 40 at node scale `scale`, the first of
priority 1 and the second of priority 0, both with the scale range
`[maxScale, maxScale]`. -/
def tierNodes (maxScale scale : ℚ) (offButton : Option CCSize) : List CCNode :=
  [exampleBox 1 { width := 40, height := 40 } scale (some (tierOptions 1 maxScale)) offButton,
   exampleBox 2 { width := 40, height := 40 } scale (some (tierOptions 0 maxScale)) offButton]

/-- A row layout aligned at the end of the axis that lets the container grow
along the cross axis. -/
def overflowLayout : AxisLayout :=
  { exampleLayout false with
    m_axisAlignment := AxisAlignment.End, m_allowCrossAxisOverflow := true }

/-- A wrapping row layout with a gap of 60. -/
def gapLayout : AxisLayout :=
  { exampleLayout true with m_gap := 60 }

/-- A container of content size 100 x 100 that is flipped along the vertical:
its scale is 1 along x and -1 along y. -/
def flippedBox : CCNode :=
  { exampleBox 0 { width := 100, height := 100 } 1 none none with m_fScaleY := -1 }

/-! ## Floating point

The definitions above read the `float`s of the source as exact rationals.
Where a statement depends on what the floats really do (NaN, infinities, a
sum that is rounded), the solver is embedded a second time, below, over a
type `T` of float values whose operations are parameters.  Every operation of
the source is applied in the order in which the source applies it
(`a * b * c` is `(a * b) * c`, `x += y` is `x + y`, `x -= y` is `x - y`), and
a step that the source skips (`if (ix)`) is skipped, not replaced by the
addition of a zero.  Nothing is assumed about the operations, so a statement
proved for every `T` holds of the single-precision arithmetic of the program
as it stands.  The type `Flt` is one such `T`: it has the special values of
IEEE 754 (NaN, the infinities, the signed zeros) with their rules, and its
finite results are exact (rounding, overflow and underflow are not
modelled). -/

/-- The operations on `float` that the solver uses: `+ - * /` (through the
parent classes), the literals `0.f` and `1.f` (through `Zero` and `One`), the
divisor `2`, the literals `.5f` and `1.5f`, the conversion of an element
count, and the comparisons `<` and `==`. -/
class FloatOps (T : Type) extends Zero T, One T, Add T, Sub T, Mul T, Div T where
  two : T
  half : T
  threeHalves : T
  ofCount : Nat → T
  lt : T → T → Bool
  eq : T → T → Bool

/-- The comparison `a > b`. -/
def FloatOps.gt {T : Type} [FloatOps T] (a b : T) : Bool :=
  FloatOps.lt b a

/-- The comparison `a <= b` of two floats: `a < b` or `a == b`. -/
def FloatOps.le {T : Type} [FloatOps T] (a b : T) : Bool :=
  FloatOps.lt a b || FloatOps.eq a b

/-- A float value by kind: NaN, an infinity, a zero (each with its sign bit,
true for negative), or a finite value other than zero. -/
inductive Flt where
  | nan : Flt
  | inf (negative : Bool) : Flt
  | zero (negative : Bool) : Flt
  | num (value : ℚ) : Flt
deriving DecidableEq

namespace Flt

/-- The finite value `q`; `negative` is the sign of the result when `q` is zero. -/
def ofRat (q : ℚ) (negative : Bool) : Flt :=
  if q = 0 then zero negative else num q

/-- The sign bit of a value. -/
def sign : Flt → Bool
  | nan => false
  | inf s => s
  | zero s => s
  | num q => decide (q < 0)

/-- The value of a finite float. -/
def toRat : Flt → ℚ
  | num q => q
  | _ => 0

/-- Negation. -/
def neg : Flt → Flt
  | nan => nan
  | inf s => inf (!s)
  | zero s => zero (!s)
  | num q => num (-q)

/-- Addition: NaN is absorbing, opposite infinities give NaN, two zeros give
the negative zero only when both are negative, an exact zero sum is the
positive zero. -/
def add : Flt → Flt → Flt
  | nan, _ => nan
  | _, nan => nan
  | inf s, inf t => if s = t then inf s else nan
  | inf s, _ => inf s
  | _, inf t => inf t
  | zero s, zero t => zero (s && t)
  | zero _, num b => num b
  | num a, zero _ => num a
  | num a, num b => ofRat (a + b) false

/-- Subtraction, `a + (-b)`. -/
def sub (a b : Flt) : Flt :=
  add a (neg b)

/-- Multiplication: NaN is absorbing, infinity times zero is NaN, the sign is
the exclusive or of the signs. -/
def mul : Flt → Flt → Flt
  | nan, _ => nan
  | _, nan => nan
  | inf _, zero _ => nan
  | zero _, inf _ => nan
  | inf s, y => inf (s != y.sign)
  | x, inf t => inf (x.sign != t)
  | zero s, y => zero (s != y.sign)
  | x, zero t => zero (x.sign != t)
  | num a, num b => ofRat (a * b) (decide (a < 0) != decide (b < 0))

/-- Division: NaN is absorbing, `inf / inf` and `0 / 0` are NaN, a finite
value over zero is an infinity, the sign is the exclusive or of the signs. -/
def div : Flt → Flt → Flt
  | nan, _ => nan
  | _, nan => nan
  | inf _, inf _ => nan
  | zero _, zero _ => nan
  | inf s, y => inf (s != y.sign)
  | x, inf t => zero (x.sign != t)
  | zero s, y => zero (s != y.sign)
  | x, zero t => inf (x.sign != t)
  | num a, num b => ofRat (a / b) (decide (a < 0) != decide (b < 0))

/-- The comparison `a < b`: false when either side is NaN. -/
def lt : Flt → Flt → Bool
  | nan, _ => false
  | _, nan => false
  | inf s, inf t => s && !t
  | inf s, _ => s
  | _, inf t => !t
  | x, y => decide (x.toRat < y.toRat)

/-- The comparison `a == b`: false when either side is NaN, true for two
zeros of either sign. -/
def eq : Flt → Flt → Bool
  | nan, _ => false
  | _, nan => false
  | inf s, inf t => s == t
  | inf _, _ => false
  | _, inf _ => false
  | x, y => decide (x.toRat = y.toRat)

/-- The conversion of an element count. -/
def ofCount (n : Nat) : Flt :=
  ofRat (n : ℚ) false

end Flt

instance : FloatOps Flt where
  zero := Flt.zero false
  one := Flt.num 1
  add := Flt.add
  sub := Flt.sub
  mul := Flt.mul
  div := Flt.div
  two := Flt.num 2
  half := Flt.num (1 / 2)
  threeHalves := Flt.num (3 / 2)
  ofCount := Flt.ofCount
  lt := Flt.lt
  eq := Flt.eq

namespace Fp

variable {T : Type} [FloatOps T]

/-! ### Data model -/

/-- The two macro constants of the layout header, taken as parameters. -/
structure Defaults (T : Type) where
  AXISLAYOUT_DEFAULT_PRIORITY : Int
  AXISLAYOUT_DEFAULT_MIN_SCALE : T
deriving DecidableEq

/-- The cocos2d size record. -/
structure CCSize (T : Type) where
  width : T
  height : T
deriving DecidableEq

/-- The cocos2d point record. -/
structure CCPoint (T : Type) where
  x : T
  y : T
deriving DecidableEq

/-- Per-child options; every field is named after the getter the solver calls. -/
structure AxisLayoutOptions (T : Type) where
  getAutoScale : Option Bool
  getMaxScale : T
  getMinScale : T
  getRelativeScale : T
  getLength : Option T
  getPrevGap : Option T
  getNextGap : Option T
  getBreakLine : Bool
  getSameLine : Bool
  getScalePriority : Int
deriving DecidableEq

/-- The part of a scene-graph node the solver reads or writes (fields as in
the record of the same name above). -/
structure CCNode (T : Type) where
  tag : Nat
  m_obContentSize : CCSize T
  m_fScaleX : T
  m_fScaleY : T
  m_obAnchorPoint : CCPoint T
  m_obPosition : CCPoint T
  axisOpts : Option (AxisLayoutOptions T)
  m_offButton : Option (CCSize T)
  m_baseScale : Option T
deriving DecidableEq

/-- The configuration fields of `AxisLayout`. -/
structure AxisLayout (T : Type) where
  m_axis : Axis
  m_axisAlignment : AxisAlignment
  m_crossAlignment : AxisAlignment
  m_gap : T
  m_axisReverse : Bool
  m_crossReverse : Bool
  m_autoScale : Bool
  m_growCrossAxis : Bool
  m_allowCrossAxisOverflow : Bool
deriving DecidableEq

/-- Result of `nodeAxis`. -/
structure AxisPosition (T : Type) where
  axisLength : T
  axisAnchor : T
  crossLength : T
  crossAnchor : T
deriving DecidableEq

/-- The solver-internal row record `AxisLayout::Row`. -/
structure Row (T : Type) where
  nextOverflowScaleDownFactor : T
  nextOverflowSquishFactor : T
  axisLength : T
  crossLength : T
  axisEndsLength : T
  nodes : List (CCNode T)
deriving DecidableEq

/-! ### Node and option accessors -/

/-- Function `CCNode::getScaledContentSize`: content size times the node's scale. -/
def CCNode.getScaledContentSize (n : CCNode T) : CCSize T :=
  { width := n.m_obContentSize.width * n.m_fScaleX
    height := n.m_obContentSize.height * n.m_fScaleY }

/-- Function `CCNode::setScale`: writes both scale factors. -/
def CCNode.setScale (n : CCNode T) (s : T) : CCNode T :=
  { n with m_fScaleX := s, m_fScaleY := s }

/-- Function `CCNode::setPosition(x, y)`. -/
def CCNode.setPosition (n : CCNode T) (x y : T) : CCNode T :=
  { n with m_obPosition := { x := x, y := y } }

/-- Function `CCNode::setContentSize`. -/
def CCNode.setContentSize (n : CCNode T) (s : CCSize T) : CCNode T :=
  { n with m_obContentSize := s }

/-- The write `btn->m_baseScale = scale`, performed only when the node is a
`CCMenuItemSpriteExtra`. -/
def CCNode.setBaseScale (n : CCNode T) (s : T) : CCNode T :=
  match n.m_baseScale with
  | some _ => { n with m_baseScale := some s }
  | none => n

/-- Product of a size and a factor, `CCSize * float`. -/
def CCSize.scale (s : CCSize T) (k : T) : CCSize T :=
  { width := s.width * k, height := s.height * k }

/-- Function `isOptsBreakLine` (Layout.cpp 46-51). -/
def isOptsBreakLine (opts : Option (AxisLayoutOptions T)) : Bool :=
  match opts with
  | some o => o.getBreakLine
  | none => false

/-- Function `isOptsSameLine` (Layout.cpp 53-58). -/
def isOptsSameLine (opts : Option (AxisLayoutOptions T)) : Bool :=
  match opts with
  | some o => o.getSameLine
  | none => false

/-- Function `optsScalePrio` (Layout.cpp 60-65). -/
def optsScalePrio (K : Defaults T) (opts : Option (AxisLayoutOptions T)) : Int :=
  match opts with
  | some o => o.getScalePriority
  | none => K.AXISLAYOUT_DEFAULT_PRIORITY

/-- Function `optsMinScale` (Layout.cpp 67-72). -/
def optsMinScale (K : Defaults T) (opts : Option (AxisLayoutOptions T)) : T :=
  match opts with
  | some o => o.getMinScale
  | none => K.AXISLAYOUT_DEFAULT_MIN_SCALE

/-- Function `optsMaxScale` (Layout.cpp 74-79). -/
def optsMaxScale (opts : Option (AxisLayoutOptions T)) : T :=
  match opts with
  | some o => o.getMaxScale
  | none => 1

/-- Function `optsRelScale` (Layout.cpp 81-86). -/
def optsRelScale (opts : Option (AxisLayoutOptions T)) : T :=
  match opts with
  | some o => o.getRelativeScale
  | none => 1

/-- Function `scaleByOpts` (Layout.cpp 88-109): the two `if`s of the clamp are
the comparisons `trueScale < min` and `trueScale > max`. -/
def scaleByOpts (K : Defaults T) (opts : Option (AxisLayoutOptions T)) (scale : T)
    (prio : Int) : T :=
  if prio > optsScalePrio K opts then
    optsMaxScale opts * optsRelScale opts
  else if prio = optsScalePrio K opts then
    let trueScale := scale
    let min := optsMinScale K opts
    let max := optsMaxScale opts
    let trueScale := if FloatOps.lt trueScale min then min else trueScale
    let trueScale := if FloatOps.gt trueScale max then max else trueScale
    trueScale * optsRelScale opts
  else
    optsMinScale K opts * optsRelScale opts

/-- Function `nodeAxis` (Layout.cpp 145-172). -/
def nodeAxis (node : CCNode T) (axis : Axis) (scale : T) : AxisPosition T :=
  let scaledSize := node.getScaledContentSize.scale scale
  let axisLength : Option T :=
    match node.axisOpts with
    | some opts => opts.getLength
    | none => none
  let scaledSize :=
    match node.m_offButton with
    | some off => off
    | none => scaledSize
  let anchor := node.m_obAnchorPoint
  match axis with
  | Axis.Row =>
    { axisLength := axisLength.getD scaledSize.width
      axisAnchor := anchor.x
      crossLength := scaledSize.height
      crossAnchor := anchor.y }
  | Axis.Column =>
    { axisLength := axisLength.getD scaledSize.height
      axisAnchor := anchor.y
      crossLength := scaledSize.width
      crossAnchor := anchor.x }

namespace AxisLayout

/-! ### The solver -/

/-- Function `AxisLayout::nextGap` (Layout.cpp 174-183).  The comparison
`gap.value() < next->getPrevGap()` compares a `float` with an
`optional<float>`, which is false when the optional is empty. -/
def nextGap (L : AxisLayout T) (now next : Option (AxisLayoutOptions T)) : T :=
  let gap : Option T :=
    match now with
    | some n => n.getNextGap
    | none => none
  let gap : Option T :=
    match next with
    | some nx =>
      let lt : Bool :=
        match gap, nx.getPrevGap with
        | some g, some p => FloatOps.lt g p
        | _, _ => false
      if gap.isNone || lt then nx.getPrevGap else gap
    | none => gap
  gap.getD L.m_gap

/-- Function `AxisLayout::shouldAutoScale` (Layout.cpp 185-188). -/
def shouldAutoScale (L : AxisLayout T) (opts : Option (AxisLayoutOptions T)) : Bool :=
  match opts with
  | none => L.m_autoScale
  | some o => o.getAutoScale.getD L.m_autoScale

/-- Function `AxisLayout::minScaleForPrio` (Layout.cpp 190-204); `prio` is not read. -/
def minScaleForPrio (_L : AxisLayout T) (K : Defaults T) (nodes : List (CCNode T))
    (_prio : Int) : T :=
  (nodes.foldl
    (fun (acc : T × Bool) node =>
      let scale := optsMinScale K node.axisOpts
      if acc.2 then (scale, false)
      else if FloatOps.lt scale acc.1 then (scale, false)
      else acc)
    (K.AXISLAYOUT_DEFAULT_MIN_SCALE, true)).1

/-- Function `AxisLayout::maxScaleForPrio` (Layout.cpp 206-220); `prio` is not read. -/
def maxScaleForPrio (_L : AxisLayout T) (nodes : List (CCNode T)) (_prio : Int) : T :=
  (nodes.foldl
    (fun (acc : T × Bool) node =>
      let scale := optsMaxScale node.axisOpts
      if acc.2 then (scale, false)
      else if FloatOps.gt scale acc.1 then (scale, false)
      else acc)
    ((1 : T), true)).1

/-- The local variables of the `for` loop of `fitInRow`. -/
structure FitState (T : Type) where
  nextAxisLength : T
  axisLength : T
  crossLength : T
  res : List (CCNode T)
  prev : Option (AxisLayoutOptions T)
  ix : Nat
deriving DecidableEq

/-- The write at the head of the loop body of `fitInRow` (Layout.cpp 238-241):
a child to which auto-scale applies is reset to `maxScale * relativeScale`. -/
def resetScale (L : AxisLayout T) (node : CCNode T) : CCNode T :=
  if L.shouldAutoScale node.axisOpts then
    node.setScale (optsMaxScale node.axisOpts * optsRelScale node.axisOpts)
  else node

/-- What `fitInRow` measures for the child `node` in a pass run at `scale`,
`squish` and `prio` (Layout.cpp 238-243): `nodeAxis` of the child after the
reset of its scale, at the factor `nodeScale * squish`. -/
def passAxis (L : AxisLayout T) (K : Defaults T) (scale squish : T) (prio : Int)
    (node : CCNode T) : AxisPosition T :=
  nodeAxis (resetScale L node) L.m_axis (scaleByOpts K node.axisOpts scale prio * squish)

/-- The axis length `fitInRow` measures for a child in a pass, `pos.axisLength`. -/
def passLength (L : AxisLayout T) (K : Defaults T) (scale squish : T) (prio : Int)
    (node : CCNode T) : T :=
  (L.passAxis K scale squish prio node).axisLength

/-- The length `fitInRow` adds for the gap between two accepted neighbours
(Layout.cpp 259-270): `gap * scale * squish` at the lowest tier, `gap * squish`
otherwise. -/
def passGap (L : AxisLayout T) (minMaxPrios : Int × Int) (scale squish : T) (prio : Int)
    (prev opts : Option (AxisLayoutOptions T)) : T :=
  if prio = minMaxPrios.1 then L.nextGap prev opts * scale * squish
  else L.nextGap prev opts * squish

/-- The test of the `break` of `fitInRow` (Layout.cpp 249-257) for the child
`node` met in loop state `st`; `nextAxisLength` has been raised by the child's
length before the test (Layout.cpp 244). -/
def breaksBefore (L : AxisLayout T) (K : Defaults T) (available : AxisPosition T)
    (scale squish : T) (prio : Int) (finalPosCalc : Bool) (st : FitState T) (node : CCNode T) :
    Bool :=
  !finalPosCalc && L.m_growCrossAxis &&
    ((FloatOps.gt (st.nextAxisLength + L.passLength K scale squish prio node) available.axisLength
        && st.ix != 0 && !isOptsSameLine node.axisOpts)
      || isOptsBreakLine st.prev)

/-- The loop state of `fitInRow` after the child `node` has been accepted
(Layout.cpp 244, 258-276): the gap term is added only behind the first child
(`if (ix)`), to `nextAxisLength` after the child's length and to `axisLength`
before it. -/
def acceptNode (L : AxisLayout T) (K : Defaults T) (minMaxPrios : Int × Int)
    (scale squish : T) (prio : Int) (st : FitState T) (node : CCNode T) : FitState T :=
  let pos := L.passAxis K scale squish prio node
  let nextAxisLength := st.nextAxisLength + pos.axisLength
  let gapLen := L.passGap minMaxPrios scale squish prio st.prev node.axisOpts
  { nextAxisLength := if st.ix != 0 then nextAxisLength + gapLen else nextAxisLength
    axisLength :=
      if st.ix != 0 then st.axisLength + gapLen + pos.axisLength
      else st.axisLength + pos.axisLength
    crossLength := if FloatOps.gt pos.crossLength st.crossLength then pos.crossLength else st.crossLength
    res := st.res ++ [resetScale L node]
    prev := node.axisOpts
    ix := st.ix + 1 }

/-- The `for` loop of `fitInRow` (Layout.cpp 237-277).  It returns the locals
at loop exit together with the array entries from the exit point on: the
entry the loop broke on (already written to by `setScale`) and the entries
behind it, or nothing when the loop ran to the end. -/
def fitInRowLoop (L : AxisLayout T) (K : Defaults T) (available : AxisPosition T)
    (minMaxPrios : Int × Int) (scale squish : T) (prio : Int) (finalPosCalc : Bool) :
    List (CCNode T) → FitState T → FitState T × List (CCNode T)
  | [], st => (st, [])
  | node :: rest, st =>
    if breaksBefore L K available scale squish prio finalPosCalc st node then
      ({ st with nextAxisLength := st.nextAxisLength + L.passLength K scale squish prio node },
        resetScale L node :: rest)
    else
      fitInRowLoop L K available minMaxPrios scale squish prio finalPosCalc rest
        (acceptNode L K minMaxPrios scale squish prio st node)

/-- The initial loop state of `fitInRow` (Layout.cpp 229-236). -/
def fitInit : FitState T :=
  { nextAxisLength := 0, axisLength := 0, crossLength := 0, res := [], prev := none, ix := 0 }

/-- Function `AxisLayout::fitInRow` (Layout.cpp 222-312).  The second component is the
array `nodes` after the call: in a non-final pass the accepted entries have
been removed from its front. -/
def fitInRow (L : AxisLayout T) (K : Defaults T) (parent : CCNode T) (nodes : List (CCNode T))
    (minMaxPrios : Int × Int) (_doAutoScale : Bool)
    (scale squish : T) (prio : Int) (finalPosCalc : Bool) : Row T × List (CCNode T) :=
  let available := nodeAxis parent L.m_axis 1
  let out := fitInRowLoop L K available minMaxPrios scale squish prio finalPosCalc nodes fitInit
  let st := out.1
  let res := if !finalPosCalc && L.m_axisReverse then st.res.reverse else st.res
  let axisEndsLength : T :=
    if finalPosCalc then 0
    else
      match res.head?, res.getLast? with
      | some first, some last =>
        first.getScaledContentSize.width * scale / FloatOps.two +
          last.getScaledContentSize.width * scale / FloatOps.two
      | _, _ => 0
  ({ nextOverflowScaleDownFactor := available.axisLength / st.nextAxisLength * scale * squish
     nextOverflowSquishFactor := available.axisLength / st.nextAxisLength * scale * squish
     axisLength := st.axisLength
     crossLength := st.crossLength
     axisEndsLength := axisEndsLength
     nodes := res },
   if finalPosCalc then st.res ++ out.2 else out.2)

/-- The locals of the row-partition loop of `tryFitLayout` (Layout.cpp 325-358). -/
structure RowsState (T : Type) where
  rows : List (Row T)
  totalRowCrossLength : T
  crossScaleDownFactor : T
  crossSquishFactor : T
  ix : Nat
  newNodes : List (CCNode T)
deriving DecidableEq

/-- One iteration of the `while (newNodes->count())` loop of `tryFitLayout`
(Layout.cpp 334-357). -/
def fitRowsStep (L : AxisLayout T) (K : Defaults T) (parent : CCNode T)
    (minMaxPrios : Int × Int) (doAutoScale : Bool) (scale squish : T) (prio : Int)
    (st : RowsState T) : RowsState T :=
  let out := L.fitInRow K parent st.newNodes minMaxPrios doAutoScale scale squish prio false
  let row := out.1
  let crossScaleDownFactor :=
    if FloatOps.gt row.nextOverflowScaleDownFactor st.crossScaleDownFactor &&
        FloatOps.lt row.nextOverflowScaleDownFactor scale then
      row.nextOverflowScaleDownFactor
    else st.crossScaleDownFactor
  let crossSquishFactor :=
    if FloatOps.gt row.nextOverflowSquishFactor st.crossSquishFactor &&
        FloatOps.lt row.nextOverflowSquishFactor squish then
      row.nextOverflowSquishFactor
    else st.crossSquishFactor
  let totalRowCrossLength := st.totalRowCrossLength + row.crossLength
  let totalRowCrossLength :=
    if st.ix != 0 then totalRowCrossLength + L.m_gap else totalRowCrossLength
  { rows := st.rows ++ [row]
    totalRowCrossLength := totalRowCrossLength
    crossScaleDownFactor := crossScaleDownFactor
    crossSquishFactor := crossSquishFactor
    ix := st.ix + 1
    newNodes := out.2 }

/-- The `while (newNodes->count())` loop of `tryFitLayout`, run for at most
`fuel` iterations. -/
def fitRowsLoop (L : AxisLayout T) (K : Defaults T) (parent : CCNode T)
    (minMaxPrios : Int × Int) (doAutoScale : Bool) (scale squish : T) (prio : Int) :
    Nat → RowsState T → RowsState T
  | 0, st => st
  | fuel + 1, st =>
    match st.newNodes with
    | [] => st
    | _ :: _ =>
      fitRowsLoop L K parent minMaxPrios doAutoScale scale squish prio fuel
        (fitRowsStep L K parent minMaxPrios doAutoScale scale squish prio st)

/-- The initial state of the row-partition loop (Layout.cpp 325-332). -/
def rowsInit (nodes : List (CCNode T)) : RowsState T :=
  { rows := []
    totalRowCrossLength := 0
    crossScaleDownFactor := 0
    crossSquishFactor := 0
    ix := 0
    newNodes := nodes }

/-- The row partition of `tryFitLayout` (Layout.cpp 325-359): the loop started
on a copy of `nodes`.  Every iteration removes at least one entry, so
`nodes.length` iterations always reach the loop exit (`fp_fitRows_newNodes`). -/
def fitRows (L : AxisLayout T) (K : Defaults T) (parent : CCNode T) (nodes : List (CCNode T))
    (minMaxPrios : Int × Int) (doAutoScale : Bool) (scale squish : T) (prio : Int) :
    RowsState T :=
  fitRowsLoop L K parent minMaxPrios doAutoScale scale squish prio nodes.length (rowsInit nodes)

/-- The locals of the per-node placement loop (Layout.cpp 532-586), with the
nodes already written to. -/
structure PlaceState (T : Type) where
  rowAxisPos : T
  prev : Option (AxisLayoutOptions T)
  ix : Nat
  placed : List (CCNode T)
deriving DecidableEq

/-- The scale used for one node of the placement loop (Layout.cpp 535-539):
the row scale, replaced by `scaleByOpts` when auto-scale applies. -/
def placeScale (L : AxisLayout T) (K : Defaults T) (rowScale : T) (prio : Int)
    (node : CCNode T) : T :=
  if L.shouldAutoScale node.axisOpts then scaleByOpts K node.axisOpts rowScale prio else rowScale

/-- The scale writes of one node of the placement loop (Layout.cpp 538-545). -/
def placeRescale (L : AxisLayout T) (K : Defaults T) (rowScale : T) (prio : Int) (node : CCNode T) :
    CCNode T :=
  if L.shouldAutoScale node.axisOpts then
    (node.setBaseScale (placeScale L K rowScale prio node)).setScale (placeScale L K rowScale prio node)
  else node

/-- The body of the per-node placement loop (Layout.cpp 534-586).  `count` is
`nodes->count()`, the number of all children handed to `tryFitLayout`. -/
def placeNode (L : AxisLayout T) (K : Defaults T) (row : Row T)
    (rowScale rowSquish : T) (prio : Int) (rowCrossPos evenSpace : T) (count : Nat)
    (st : PlaceState T) (node : CCNode T) : PlaceState T :=
  let scale := placeScale L K rowScale prio node
  let opts := node.axisOpts
  let node := placeRescale L K rowScale prio node
  let rowAxisPos :=
    if st.ix = 0 then st.rowAxisPos + row.axisEndsLength * scale / FloatOps.two * (1 - rowSquish)
    else st.rowAxisPos
  let pos := nodeAxis node L.m_axis rowSquish
  let step : T × T :=
    if L.m_axisAlignment = AxisAlignment.Even then
      (rowAxisPos + evenSpace / FloatOps.two - pos.axisLength * (FloatOps.half - pos.axisAnchor),
       rowAxisPos +
         (evenSpace - row.axisEndsLength * scale * (1 - rowSquish) * 1 / FloatOps.ofCount count))
    else
      let rowAxisPos :=
        if st.ix != 0 then rowAxisPos + L.nextGap st.prev opts * scale * rowSquish
        else rowAxisPos
      (rowAxisPos + pos.axisLength * pos.axisAnchor,
       rowAxisPos +
         (pos.axisLength - row.axisEndsLength * scale * (1 - rowSquish) * 1 / FloatOps.ofCount count))
  let axisPos := step.1
  let crossOffset : T :=
    match L.m_crossAlignment with
    | AxisAlignment.Start => pos.crossLength * pos.crossAnchor
    | AxisAlignment.Center =>
      row.crossLength / FloatOps.two - pos.crossLength * (FloatOps.half - pos.crossAnchor)
    | AxisAlignment.Even =>
      row.crossLength / FloatOps.two - pos.crossLength * (FloatOps.half - pos.crossAnchor)
    | AxisAlignment.End => row.crossLength - pos.crossLength * (1 - pos.crossAnchor)
  let node :=
    match L.m_axis with
    | Axis.Row => node.setPosition axisPos (rowCrossPos + crossOffset)
    | Axis.Column => node.setPosition (rowCrossPos + crossOffset) axisPos
  { rowAxisPos := step.2, prev := opts, ix := st.ix + 1, placed := st.placed ++ [node] }

/-- The per-row fitting of the placement (Layout.cpp 492-509): the row's
scale, squish and updated axis length. -/
def rowFit (L : AxisLayout T) (K : Defaults T) (available : AxisPosition T) (row : Row T)
    (scale squish : T) : T × T × T :=
  if FloatOps.gt row.axisLength available.axisLength then
    let axisLength := row.axisLength / (scale * squish)
    let scaled : T × T :=
      if L.m_autoScale then
        let rowScale := available.axisLength / axisLength
        let rowScale :=
          if FloatOps.lt rowScale K.AXISLAYOUT_DEFAULT_MIN_SCALE then K.AXISLAYOUT_DEFAULT_MIN_SCALE
          else rowScale
        (rowScale, axisLength * rowScale)
      else (scale, axisLength)
    let rowScale := scaled.1
    let axisLength := scaled.2
    let rowSquish :=
      if FloatOps.gt axisLength available.axisLength then available.axisLength / axisLength
      else squish
    (rowScale, rowSquish, axisLength * rowSquish)
  else (scale, squish, row.axisLength)

/-- Placement of the nodes of one row (Layout.cpp 492-586), `rowCrossPos`
being the row's cross position.  The row is returned with its updated axis
length and its written nodes. -/
def placeRow (L : AxisLayout T) (K : Defaults T) (available : AxisPosition T) (row : Row T)
    (scale squish : T) (prio : Int) (rowCrossPos : T) (count : Nat) : Row T :=
  let fit := rowFit L K available row scale squish
  let rowScale := fit.1
  let rowSquish := fit.2.1
  let row := { row with axisLength := fit.2.2 }
  let rowAxisPos : T :=
    match L.m_axisAlignment with
    | AxisAlignment.Start => 0
    | AxisAlignment.Even => 0
    | AxisAlignment.Center => available.axisLength / FloatOps.two - row.axisLength / FloatOps.two
    | AxisAlignment.End => available.axisLength - row.axisLength
  let evenSpace := available.axisLength / FloatOps.ofCount row.nodes.length
  let out := row.nodes.foldl
    (placeNode L K row rowScale rowSquish prio rowCrossPos evenSpace count)
    { rowAxisPos := rowAxisPos, prev := none, ix := 0, placed := [] }
  { row with nodes := out.placed }

/-- The loop over the rows of the placement (Layout.cpp 484-596), threading
`rowCrossPos`; `rowCount` is `rows->count()`. -/
def placeRows (L : AxisLayout T) (K : Defaults T) (available : AxisPosition T)
    (scale squish : T) (prio : Int) (columnSquish rowsEndsLength rowEvenSpace : T)
    (rowCount count : Nat) : List (Row T) → T → List (Row T)
  | [], _ => []
  | row :: rest, rowCrossPos =>
    let rowCrossPos :=
      if L.m_crossAlignment = AxisAlignment.Even then
        rowCrossPos - (rowEvenSpace / FloatOps.two + row.crossLength / FloatOps.two)
      else rowCrossPos - row.crossLength * columnSquish
    let placedRow := placeRow L K available row scale squish prio rowCrossPos count
    let rowCrossPos :=
      if L.m_crossAlignment = AxisAlignment.Even then
        rowCrossPos - (rowEvenSpace / FloatOps.two - row.crossLength / FloatOps.two -
          rowsEndsLength * FloatOps.threeHalves * scale * (1 - columnSquish) * 1 /
            FloatOps.ofCount rowCount)
      else
        rowCrossPos - (L.m_gap * columnSquish -
          rowsEndsLength * FloatOps.threeHalves * scale * (1 - columnSquish) * 1 /
            FloatOps.ofCount rowCount)
    placedRow :: placeRows L K available scale squish prio columnSquish rowsEndsLength
      rowEvenSpace rowCount count rest rowCrossPos

/-- The positioning part of `tryFitLayout` (Layout.cpp 424-596), entered once
no retry is made: the container after the optional `setContentSize` and the
rows with their written nodes.  `count` is `nodes->count()`. -/
def positionRows (L : AxisLayout T) (K : Defaults T) (parent : CCNode T) (count : Nat)
    (scale squish : T) (prio : Int) (rows : List (Row T)) (totalRowCrossLength : T) :
    CCNode T × List (Row T) :=
  let available := nodeAxis parent L.m_axis 1
  let rows := if L.m_crossReverse then rows.reverse else rows
  let available : AxisPosition T :=
    if L.m_allowCrossAxisOverflow then { available with crossLength := totalRowCrossLength }
    else available
  let parent :=
    if L.m_allowCrossAxisOverflow then
      match L.m_axis with
      | Axis.Row =>
        parent.setContentSize { width := available.axisLength, height := totalRowCrossLength }
      | Axis.Column =>
        parent.setContentSize { width := totalRowCrossLength, height := available.axisLength }
    else parent
  let overflow : Bool :=
    !L.m_allowCrossAxisOverflow && FloatOps.gt totalRowCrossLength available.crossLength
  let columnSquish : T := if overflow then available.crossLength / totalRowCrossLength else 1
  let totalRowCrossLength := if overflow then totalRowCrossLength * columnSquish else totalRowCrossLength
  let rowsEndsLength : T :=
    match rows.head?, rows.getLast? with
    | some first, some last => first.crossLength / FloatOps.two + last.crossLength / FloatOps.two
    | _, _ => 0
  let rowCrossPos : T :=
    match L.m_crossAlignment with
    | AxisAlignment.Start =>
      totalRowCrossLength - rowsEndsLength * FloatOps.threeHalves * scale * (1 - columnSquish)
    | AxisAlignment.Even =>
      available.crossLength - rowsEndsLength * FloatOps.threeHalves * scale * (1 - columnSquish)
    | AxisAlignment.Center =>
      available.crossLength / FloatOps.two + totalRowCrossLength / FloatOps.two -
        rowsEndsLength * FloatOps.threeHalves * scale * (1 - columnSquish)
    | AxisAlignment.End =>
      available.crossLength - rowsEndsLength * FloatOps.threeHalves * scale * (1 - columnSquish)
  let rowEvenSpace := available.crossLength / FloatOps.ofCount rows.length
  (parent,
   placeRows L K available scale squish prio columnSquish rowsEndsLength rowEvenSpace
     rows.length count rows rowCrossPos)

/-- The nodes of a row in the order in which `fitInRow` accepted them (the
stored order is reversed when `m_axisReverse` is set). -/
def packed (L : AxisLayout T) (row : Row T) : List (CCNode T) :=
  if L.m_axisReverse then row.nodes.reverse else row.nodes

/-- The children array after the row-partition loop, read back from the rows
in their packing order: the loop has written to every entry. -/
def packedNodes (L : AxisLayout T) (rows : List (Row T)) : List (CCNode T) :=
  rows.flatMap (packed L)

/-- The tier-drop loop `while (true)` of `tryFitLayout` (Layout.cpp 383-391),
run for at most `fuel` iterations: the new tier and the new scale, or none
when the fuel runs out.  The test `!scale` is `scale == 0`. -/
def dropPrio (L : AxisLayout T) (nodes : List (CCNode T)) : Nat → Int → Option (Int × T)
  | 0, _ => none
  | fuel + 1, prio =>
    let prio := prio - 1
    let scale := L.maxScaleForPrio nodes prio
    if FloatOps.eq scale 0 then dropPrio L nodes fuel prio else some (prio, scale)

/-- The retry decision of `tryFitLayout` (Layout.cpp 361-422) for a finished
row partition `st`: `some (some (scale, squish, prio))` are the arguments of
the recursive call, `some none` means that the pass is accepted and its rows
are positioned, `none` that the tier-drop loop ran out of fuel. -/
def retryArgs (L : AxisLayout T) (K : Defaults T) (parent : CCNode T) (nodes : List (CCNode T))
    (minMaxPrios : Int × Int) (doAutoScale : Bool) (scale squish : T) (prio : Int)
    (st : RowsState T) (fuel : Nat) : Option (Option (T × T × Int)) :=
  let available := nodeAxis parent L.m_axis 1
  let squishRetry : Option (T × T × Int) :=
    if !L.m_allowCrossAxisOverflow && FloatOps.gt st.totalRowCrossLength available.crossLength then
      if FloatOps.lt (st.totalRowCrossLength / available.crossLength) st.crossSquishFactor then
        some (scale, st.crossSquishFactor, prio)
      else none
    else none
  if !L.m_allowCrossAxisOverflow && doAutoScale &&
      FloatOps.gt st.totalRowCrossLength available.crossLength then
    let minScaleForPrio := L.minScaleForPrio K nodes prio
    if FloatOps.lt st.crossScaleDownFactor minScaleForPrio ||
        FloatOps.eq st.crossScaleDownFactor scale then
      if prio > minMaxPrios.1 then
        match dropPrio L nodes fuel prio with
        | some (prio, crossScaleDownFactor) => some (some (crossScaleDownFactor, squish, prio))
        | none => none
      else some squishRetry
    else some (some (st.crossScaleDownFactor, squish, prio))
  else some squishRetry

/-- Function `AxisLayout::tryFitLayout` (Layout.cpp 314-597), with `fuel` bounding the
depth of the recursion and the tier-drop loop: the container and the
positioned rows of the accepted pass, or none when the fuel runs out. -/
def tryFitLayout (L : AxisLayout T) (K : Defaults T) (parent : CCNode T)
    (minMaxPrios : Int × Int) (doAutoScale : Bool) :
    Nat → List (CCNode T) → T → T → Int → Option (CCNode T × List (Row T))
  | 0, _, _, _, _ => none
  | fuel + 1, nodes, scale, squish, prio =>
    let st := L.fitRows K parent nodes minMaxPrios doAutoScale scale squish prio
    let nodes := L.packedNodes st.rows
    match L.retryArgs K parent nodes minMaxPrios doAutoScale scale squish prio st fuel with
    | none => none
    | some (some (scale, squish, prio)) =>
      tryFitLayout L K parent minMaxPrios doAutoScale fuel nodes scale squish prio
    | some none =>
      some (L.positionRows K parent nodes.length scale squish prio st.rows st.totalRowCrossLength)

/-- The scan of `AxisLayout::apply` over the children (Layout.cpp 602-635):
the pair of the lowest and highest priority and the auto-scale flag. -/
def applyScan (L : AxisLayout T) (nodes : List (CCNode T)) : (Int × Int) × Bool :=
  let out := nodes.foldl
    (fun (acc : (Int × Int) × Bool × Bool) node =>
      let prio : Int :=
        match node.axisOpts with
        | some opts => opts.getScalePriority
        | none => 0
      let doAutoScale : Bool :=
        match node.axisOpts with
        | some opts => if opts.getAutoScale.getD L.m_autoScale then true else acc.2.1
        | none => if L.m_autoScale then true else acc.2.1
      let minMaxPrio : Int × Int :=
        if acc.2.2 then (prio, prio)
        else
          let lo := if prio < acc.1.1 then prio else acc.1.1
          let hi := if prio > acc.1.2 then prio else acc.1.2
          (lo, hi)
      (minMaxPrio, doAutoScale, false))
    (((0 : Int), (0 : Int)), false, true)
  (out.1, out.2.1)

/-- Function `AxisLayout::apply` (Layout.cpp 599-642) on a container and its children
(`getNodesToPosition`), with the fuel of `tryFitLayout`. -/
def apply (L : AxisLayout T) (K : Defaults T) (fuel : Nat) (parent : CCNode T)
    (nodes : List (CCNode T)) : Option (CCNode T × List (Row T)) :=
  let scan := L.applyScan nodes
  let minMaxPrio := scan.1
  L.tryFitLayout K parent minMaxPrio scan.2 fuel nodes
    (L.maxScaleForPrio nodes minMaxPrio.2) 1 minMaxPrio.2

/-- Function `AxisLayout::setAxisReverse` (Layout.cpp 702-705). -/
def setAxisReverse (L : AxisLayout T) (reverse : Bool) : AxisLayout T :=
  { L with m_axisReverse := reverse }

/-- Function `AxisLayout::setCrossAxisReverse` (Layout.cpp 707-710). -/
def setCrossAxisReverse (L : AxisLayout T) (reverse : Bool) : AxisLayout T :=
  { L with m_crossReverse := reverse }

/-! ### Vocabulary of the statements -/

/-- The options of the last node of a list, as `fitInRow` keeps them in `prev`. -/
def lastOpts (nodes : List (CCNode T)) : Option (AxisLayoutOptions T) :=
  match nodes.getLast? with
  | some a => a.axisOpts
  | none => none

/-- The loop state of `fitInRow` once it has accepted the children `row`, one
after the other, from its initial state. -/
def accepted (L : AxisLayout T) (K : Defaults T) (minMaxPrios : Int × Int)
    (scale squish : T) (prio : Int) (row : List (CCNode T)) : FitState T :=
  row.foldl (L.acceptNode K minMaxPrios scale squish prio) fitInit

/-- The running length `nextAxisLength` of `fitInRow` behind the accepted
children `row`: from `0.f`, the axis length of each child is added in turn,
and behind it, for every child but the first, the gap term of `passGap`. -/
def runLen (L : AxisLayout T) (K : Defaults T) (minMaxPrios : Int × Int)
    (scale squish : T) (prio : Int) (row : List (CCNode T)) : T :=
  (L.accepted K minMaxPrios scale squish prio row).nextAxisLength

/-- The comparison `nextAxisLength > available.axisLength` of `fitInRow`
(Layout.cpp 250) for the child `c` met behind the accepted children `row`:
the running length plus the child's axis length exceeds the available axis
length. -/
def overflows (L : AxisLayout T) (K : Defaults T) (available : AxisPosition T)
    (minMaxPrios : Int × Int) (scale squish : T) (prio : Int) (row : List (CCNode T))
    (c : CCNode T) : Bool :=
  FloatOps.gt (L.runLen K minMaxPrios scale squish prio row + L.passLength K scale squish prio c)
    available.axisLength

/-- In a row, no node but the last declares `breakLine`, and every node
behind the first either declares `sameLine` or fitted: the overflow
comparison was false for it. -/
def WithinRow (L : AxisLayout T) (K : Defaults T) (available : AxisPosition T)
    (minMaxPrios : Int × Int) (scale squish : T) (prio : Int) (row : List (CCNode T)) : Prop :=
  ∀ p c q, row = p ++ c :: q → p ≠ [] →
    isOptsBreakLine (lastOpts p) = false ∧
      (isOptsSameLine c.axisOpts = true ∨
        L.overflows K available minMaxPrios scale squish prio p c = false)

/-- Between a row and the list starting with the next child: the row's last
node declares `breakLine`, or the next child does not declare `sameLine` and
the overflow comparison was true for it. -/
def RowBreak (L : AxisLayout T) (K : Defaults T) (available : AxisPosition T)
    (minMaxPrios : Int × Int) (scale squish : T) (prio : Int) (row next : List (CCNode T)) :
    Prop :=
  ∀ b ∈ next.head?, row ≠ [] ∧
    (isOptsBreakLine (lastOpts row) = true ∨
      (isOptsSameLine b.axisOpts = false ∧
        L.overflows K available minMaxPrios scale squish prio row b = true))

/-- The loop state of `fitInRow` is the state reached by accepting its
accepted nodes one after the other. -/
def Tracks (L : AxisLayout T) (K : Defaults T) (minMaxPrios : Int × Int)
    (scale squish : T) (prio : Int) (st : FitState T) : Prop :=
  L.accepted K minMaxPrios scale squish prio st.res = st

/-- The arguments of one call of `tryFitLayout`: the children array and the
scale, squish and tier of the pass. -/
structure Pass (T : Type) where
  nodes : List (CCNode T)
  scale : T
  squish : T
  prio : Int
deriving DecidableEq

/-- The calls of `tryFitLayout` made by a call with the given arguments, itself
included, in the order in which they run (Layout.cpp 314-422), for at most
`fuel` calls. -/
def passes (L : AxisLayout T) (K : Defaults T) (parent : CCNode T)
    (minMaxPrios : Int × Int) (doAutoScale : Bool) :
    Nat → List (CCNode T) → T → T → Int → List (Pass T)
  | 0, _, _, _, _ => []
  | fuel + 1, nodes, scale, squish, prio =>
    let st := L.fitRows K parent nodes minMaxPrios doAutoScale scale squish prio
    { nodes := nodes, scale := scale, squish := squish, prio := prio } ::
      match L.retryArgs K parent (L.packedNodes st.rows) minMaxPrios doAutoScale scale squish prio
          st fuel with
      | some (some (scale, squish, prio)) =>
        passes L K parent minMaxPrios doAutoScale fuel (L.packedNodes st.rows) scale squish prio
      | _ => []

/-- The calls of `tryFitLayout` made by `apply` (Layout.cpp 637-641). -/
def applyPasses (L : AxisLayout T) (K : Defaults T) (fuel : Nat) (parent : CCNode T)
    (nodes : List (CCNode T)) : List (Pass T) :=
  let scan := L.applyScan nodes
  let minMaxPrio := scan.1
  passes L K parent minMaxPrio scan.2 fuel nodes
    (L.maxScaleForPrio nodes minMaxPrio.2) 1 minMaxPrio.2

/-- The positioning of the rows of a pass (Layout.cpp 424-596), as
`tryFitLayout` runs it when the pass makes no retry: the container and the
rows of the pass as they are left when the pass is the accepted one. -/
def acceptPass (L : AxisLayout T) (K : Defaults T) (parent : CCNode T)
    (minMaxPrios : Int × Int) (doAutoScale : Bool) (p : Pass T) : CCNode T × List (Row T) :=
  let st := L.fitRows K parent p.nodes minMaxPrios doAutoScale p.scale p.squish p.prio
  L.positionRows K parent (L.packedNodes st.rows).length p.scale p.squish p.prio st.rows
    st.totalRowCrossLength

/-- A row with the positions of its nodes left out (set to the origin). -/
def rowShape (row : Row T) : Row T :=
  { row with nodes := row.nodes.map (fun n => n.setPosition 0 0) }

/-- A row with its nodes in the opposite order (`CCArray::reverseObjects`). -/
def reversedRow (row : Row T) : Row T :=
  { row with nodes := row.nodes.reverse }

/-- The layout with both reversal flags switched off. -/
def plain (L : AxisLayout T) : AxisLayout T :=
  (L.setAxisReverse false).setCrossAxisReverse false

/-- A row as stored, read in packing order: reversed back when `m_axisReverse`
is set. -/
def unreversed (L : AxisLayout T) (row : Row T) : Row T :=
  if L.m_axisReverse then reversedRow row else row

/-- The state of the partition loop with its rows read in packing order. -/
def unreversedState (L : AxisLayout T) (st : RowsState T) : RowsState T :=
  { st with rows := st.rows.map (unreversed L) }

/-- The rows of a result read back in packing order: the reversal of the
sequence of rows and of each row undone, the positions left out. -/
def packingOrder (L : AxisLayout T) (rows : List (Row T)) : List (Row T) :=
  (if L.m_crossReverse then rows.reverse else rows).map
    (fun row => rowShape (if L.m_axisReverse then reversedRow row else row))

/-- What the placement leaves of a row apart from the positions of its nodes
(Layout.cpp 492-545): the axis length of the per-row fitting and the scale
writes. -/
def placedShape (L : AxisLayout T) (K : Defaults T) (available : AxisPosition T)
    (scale squish : T) (prio : Int) (row : Row T) : Row T :=
  { row with
    axisLength := (rowFit L K available row scale squish).2.2
    nodes := row.nodes.map
      (fun n => (placeRescale L K (rowFit L K available row scale squish).1 prio n).setPosition 0 0) }

/-- The available lengths the placement works with (Layout.cpp 430-445). -/
def placeAvailable (L : AxisLayout T) (parent : CCNode T) (total : T) : AxisPosition T :=
  if L.m_allowCrossAxisOverflow then { nodeAxis parent L.m_axis 1 with crossLength := total }
  else nodeAxis parent L.m_axis 1

end AxisLayout

end Fp

/-! ### Single precision

The type `F32` is another such `T`: its values are those of `Flt`, and every
operation rounds its exact result to single precision. -/

namespace Flt

/-- The binade of a positive value `a`: the exponent `e` with
`2 ^ e <= a < 2 ^ (e + 1)`, reached from the exponent `e` of `a * 2 ^ e` by
halving or doubling, in at most `fuel` steps. -/
def binade : Nat → ℚ → Int → Int
  | 0, _, e => e
  | fuel + 1, a, e =>
    if 2 ≤ a then binade fuel (a / 2) (e + 1)
    else if a < 1 then binade fuel (a * 2) (e - 1)
    else e

/-- The integer nearest to `x`, the even one of the two when `x` lies halfway. -/
def nearestEven (x : ℚ) : Int :=
  if 2 * x < 2 * (⌊x⌋ : ℚ) + 1 then ⌊x⌋
  else if 2 * (⌊x⌋ : ℚ) + 1 < 2 * x then ⌊x⌋ + 1
  else if ⌊x⌋ % 2 = 0 then ⌊x⌋
  else ⌊x⌋ + 1

/-- Rounding to single precision (IEEE 754 binary32, round to nearest, ties
to even): a finite value is rounded to a multiple of `2 ^ (e - 23)`, `e` its
binade and at least -126 (below, the subnormal spacing `2 ^ (-149)`); a
result of `2 ^ 128` or more is an infinity, a result 0 a zero of the sign of
the value.  The 300 steps of the binade search cover every sum, difference,
product and quotient of two single-precision values. -/
def round32 : Flt → Flt
  | num q =>
    let a := |q|
    let e := max (binade 300 a 0) (-126)
    let ulp : ℚ := 2 ^ (e - 23)
    let r := (nearestEven (a / ulp) : ℚ) * ulp
    if 2 ^ 128 ≤ r then inf (decide (q < 0))
    else if r = 0 then zero (decide (q < 0))
    else num (if q < 0 then -r else r)
  | x => x

end Flt

/-- A single-precision float: a value of `Flt` that every operation rounds. -/
structure F32 where
  val : Flt
deriving DecidableEq

/-- The float nearest to a rational, as a decimal literal of the source is
read. -/
def F32.ofRat (q : ℚ) : F32 :=
  { val := Flt.round32 (Flt.ofRat q false) }

instance : FloatOps F32 where
  zero := { val := Flt.zero false }
  one := { val := Flt.num 1 }
  add a b := { val := Flt.round32 (Flt.add a.val b.val) }
  sub a b := { val := Flt.round32 (Flt.sub a.val b.val) }
  mul a b := { val := Flt.round32 (Flt.mul a.val b.val) }
  div a b := { val := Flt.round32 (Flt.div a.val b.val) }
  two := { val := Flt.num 2 }
  half := { val := Flt.num (1 / 2) }
  threeHalves := { val := Flt.num (3 / 2) }
  ofCount n := { val := Flt.round32 (Flt.ofCount n) }
  lt a b := Flt.lt a.val b.val
  eq a b := Flt.eq a.val b.val

/-! ### Example data over floats -/

/-- Example values of the two header constants, as floats. -/
def fltDefaults : Fp.Defaults Flt :=
  { AXISLAYOUT_DEFAULT_PRIORITY := 0, AXISLAYOUT_DEFAULT_MIN_SCALE := Flt.num (13 / 20) }

/-- Options of priority 0 with the given scale range and relative scale 1. -/
def fltOptions (minScale maxScale : Flt) : Fp.AxisLayoutOptions Flt :=
  { getAutoScale := none
    getMaxScale := maxScale
    getMinScale := minScale
    getRelativeScale := 1
    getLength := none
    getPrevGap := none
    getNextGap := none
    getBreakLine := false
    getSameLine := false
    getScalePriority := 0 }

/-- A row layout over floats aligned at the start, without gap, with
auto-scale on. -/
def fltLayout (growCrossAxis : Bool) : Fp.AxisLayout Flt :=
  { m_axis := Axis.Row
    m_axisAlignment := AxisAlignment.Start
    m_crossAlignment := AxisAlignment.Start
    m_gap := 0
    m_axisReverse := false
    m_crossReverse := false
    m_autoScale := true
    m_growCrossAxis := growCrossAxis
    m_allowCrossAxisOverflow := false }

/-- A node over floats of the given content size and scale, without options,
anchored at its centre. -/
def fltBox (tag : Nat) (width height scale : ℚ) : Fp.CCNode Flt :=
  { tag := tag
    m_obContentSize := { width := Flt.num width, height := Flt.num height }
    m_fScaleX := Flt.num scale
    m_fScaleY := Flt.num scale
    m_obAnchorPoint := { x := Flt.num (1 / 2), y := Flt.num (1 / 2) }
    m_obPosition := { x := 0, y := 0 }
    axisOpts := none
    m_offButton := none
    m_baseScale := none }

/-- The defaults of the header for priority 0, on single-precision floats:
the minimum scale is the literal `0.65f`. -/
def f32Defaults : Fp.Defaults F32 :=
  { AXISLAYOUT_DEFAULT_PRIORITY := 0, AXISLAYOUT_DEFAULT_MIN_SCALE := F32.ofRat (13 / 20) }

/-- A row layout on single-precision floats with wrapping enabled, without
gap, aligned at the start, with auto-scale. -/
def f32Layout : Fp.AxisLayout F32 :=
  { m_axis := Axis.Row
    m_axisAlignment := AxisAlignment.Start
    m_crossAlignment := AxisAlignment.Start
    m_gap := 0
    m_axisReverse := false
    m_crossReverse := false
    m_autoScale := true
    m_growCrossAxis := true
    m_allowCrossAxisOverflow := false }

/-- A node on single-precision floats whose content size is given by the
decimal literals `width` and `height`, at scale 1, without options, anchored
at its centre. -/
def f32Box (tag : Nat) (width height : ℚ) : Fp.CCNode F32 :=
  { tag := tag
    m_obContentSize := { width := F32.ofRat width, height := F32.ofRat height }
    m_fScaleX := 1
    m_fScaleY := 1
    m_obAnchorPoint := { x := FloatOps.half, y := FloatOps.half }
    m_obPosition := { x := 0, y := 0 }
    axisOpts := none
    m_offButton := none
    m_baseScale := none }

/-! ## Scale and gap policy -/

/-- C5: `nextGap` is the larger of the previous child's declared next-gap and
the next child's declared prev-gap when both are declared, the declared one
when exactly one is, and the layout gap when none is (in particular when both
option records are absent); an undeclared gap never enters the comparison. -/
theorem nextGap_resolves (L : AxisLayout) (now next : Option AxisLayoutOptions) :
    (∀ a b, AxisLayout.declaredNextGap now = some a → AxisLayout.declaredPrevGap next = some b →
      L.nextGap now next = max a b) ∧
    (∀ a, AxisLayout.declaredNextGap now = some a → AxisLayout.declaredPrevGap next = none →
      L.nextGap now next = a) ∧
    (∀ b, AxisLayout.declaredNextGap now = none → AxisLayout.declaredPrevGap next = some b →
      L.nextGap now next = b) ∧
    (AxisLayout.declaredNextGap now = none → AxisLayout.declaredPrevGap next = none →
      L.nextGap now next = L.m_gap) ∧
    L.nextGap none none = L.m_gap := by
  refine ⟨?_, ?_, ?_, ?_, rfl⟩
  · intro a b ha hb
    cases now with
    | none => simp [AxisLayout.declaredNextGap] at ha
    | some n =>
      cases next with
      | none => simp [AxisLayout.declaredPrevGap] at hb
      | some nx =>
        simp only [AxisLayout.declaredNextGap, AxisLayout.declaredPrevGap, Option.bind] at ha hb
        simp only [AxisLayout.nextGap, ha, hb]
        by_cases hab : a < b
        · simp [hab, max_eq_right hab.le]
        · simp [hab, max_eq_left (not_lt.mp hab)]
  · intro a ha hb
    cases now with
    | none => simp [AxisLayout.declaredNextGap] at ha
    | some n =>
      simp only [AxisLayout.declaredNextGap, Option.bind] at ha
      cases next with
      | none => simp [AxisLayout.nextGap, ha]
      | some nx =>
        simp only [AxisLayout.declaredPrevGap, Option.bind] at hb
        simp [AxisLayout.nextGap, ha, hb]
  · intro b ha hb
    cases next with
    | none => simp [AxisLayout.declaredPrevGap] at hb
    | some nx =>
      simp only [AxisLayout.declaredPrevGap, Option.bind] at hb
      cases now with
      | none => simp [AxisLayout.nextGap, hb]
      | some n =>
        simp only [AxisLayout.declaredNextGap, Option.bind] at ha
        simp [AxisLayout.nextGap, ha, hb]
  · intro ha hb
    cases now with
    | none =>
      cases next with
      | none => rfl
      | some nx =>
        simp only [AxisLayout.declaredPrevGap, Option.bind] at hb
        simp [AxisLayout.nextGap, hb]
    | some n =>
      simp only [AxisLayout.declaredNextGap, Option.bind] at ha
      cases next with
      | none => simp [AxisLayout.nextGap, ha]
      | some nx =>
        simp only [AxisLayout.declaredPrevGap, Option.bind] at hb
        simp [AxisLayout.nextGap, ha, hb]

/-- Witness of C5: a declared next-gap 3 against a declared prev-gap 7, and a
declared next-gap of -2 against an undeclared prev-gap. -/
theorem nextGap_resolves_witness :
    (exampleLayout true).nextGap (some { exampleOptions false false with getNextGap := some 3 })
        (some { exampleOptions false false with getPrevGap := some 7 }) = max 3 7 ∧
      (exampleLayout true).nextGap
        (some { exampleOptions false false with getNextGap := some (-2) })
        (some (exampleOptions false false)) = -2 :=
  ⟨(nextGap_resolves (exampleLayout true)
      (some { exampleOptions false false with getNextGap := some 3 })
      (some { exampleOptions false false with getPrevGap := some 7 })).1 3 7 rfl rfl,
   (nextGap_resolves (exampleLayout true)
      (some { exampleOptions false false with getNextGap := some (-2) })
      (some (exampleOptions false false))).2.1 (-2) rfl rfl⟩

/-! ## The row packer -/

namespace AxisLayout

theorem resetScale_axisOpts (L : AxisLayout) (node : CCNode) :
    (resetScale L node).axisOpts = node.axisOpts := by
  unfold resetScale
  split <;> rfl

theorem resetScale_idem (L : AxisLayout) (node : CCNode) :
    resetScale L (resetScale L node) = resetScale L node := by
  unfold resetScale
  by_cases h : L.shouldAutoScale node.axisOpts = true
  · simp [h, CCNode.setScale]
  · simp [h]

theorem resetScale_tag (L : AxisLayout) (node : CCNode) :
    (resetScale L node).tag = node.tag := by
  unfold resetScale
  split <;> rfl

theorem map_resetScale_idem (L : AxisLayout) (nodes : List CCNode) :
    (nodes.map (resetScale L)).map (resetScale L) = nodes.map (resetScale L) := by
  simp [List.map_map, Function.comp_def, resetScale_idem]

theorem passLength_resetScale (L : AxisLayout) (K : Defaults) (scale squish : ℚ) (prio : Int)
    (node : CCNode) :
    L.passLength K scale squish prio (resetScale L node) = L.passLength K scale squish prio node := by
  simp [passLength, resetScale_idem, resetScale_axisOpts]

theorem fitInRowLoop_nil (L : AxisLayout) (K : Defaults) (available : AxisPosition)
    (minMaxPrios : Int × Int) (scale squish : ℚ) (prio : Int) (finalPosCalc : Bool)
    (st : FitState) :
    L.fitInRowLoop K available minMaxPrios scale squish prio finalPosCalc [] st = (st, []) := rfl

theorem fitInRowLoop_cons (L : AxisLayout) (K : Defaults) (available : AxisPosition)
    (minMaxPrios : Int × Int) (scale squish : ℚ) (prio : Int) (finalPosCalc : Bool)
    (node : CCNode) (rest : List CCNode) (st : FitState) :
    L.fitInRowLoop K available minMaxPrios scale squish prio finalPosCalc (node :: rest) st =
      if L.breaksBefore K available scale squish prio finalPosCalc st node = true then
        ({ st with nextAxisLength := st.nextAxisLength + L.passLength K scale squish prio node },
          resetScale L node :: rest)
      else
        L.fitInRowLoop K available minMaxPrios scale squish prio finalPosCalc rest
          (L.acceptNode K minMaxPrios scale squish prio st node) := by
  by_cases h : L.breaksBefore K available scale squish prio finalPosCalc st node = true
  · rw [if_pos h]
    unfold breaksBefore passLength at h
    rw [fitInRowLoop]
    simp only []
    rw [if_pos h]
    rfl
  · rw [if_neg h]
    unfold breaksBefore passLength at h
    rw [fitInRowLoop]
    simp only []
    rw [if_neg h]
    simp only [acceptNode, passLength, passGap]

theorem breaksBefore_fitInit (L : AxisLayout) (K : Defaults) (available : AxisPosition)
    (scale squish : ℚ) (prio : Int) (finalPosCalc : Bool) (node : CCNode) :
    L.breaksBefore K available scale squish prio finalPosCalc fitInit node = false := by
  simp [breaksBefore, fitInit, isOptsBreakLine]

theorem breaksBefore_of_not_grow (L : AxisLayout) (K : Defaults) (available : AxisPosition)
    (scale squish : ℚ) (prio : Int) (finalPosCalc : Bool) (st : FitState) (node : CCNode)
    (h : L.m_growCrossAxis = false ∨ finalPosCalc = true) :
    L.breaksBefore K available scale squish prio finalPosCalc st node = false := by
  rcases h with h | h <;> simp [breaksBefore, h]

/-- The accepted nodes followed by the entries left in the array are the
input entries, each written to by the scale reset. -/
theorem fitInRowLoop_res (L : AxisLayout) (K : Defaults) (available : AxisPosition)
    (minMaxPrios : Int × Int) (scale squish : ℚ) (prio : Int) (finalPosCalc : Bool)
    (nodes : List CCNode) (st : FitState) :
    (L.fitInRowLoop K available minMaxPrios scale squish prio finalPosCalc nodes st).1.res ++
        (L.fitInRowLoop K available minMaxPrios scale squish prio finalPosCalc nodes st).2.map
          (resetScale L) =
      st.res ++ nodes.map (resetScale L) := by
  induction nodes generalizing st with
  | nil => simp [fitInRowLoop_nil]
  | cons node rest ih =>
    rw [fitInRowLoop_cons]
    split
    · simp [resetScale_idem]
    · rw [ih]
      simp [acceptNode]

/-- The loop never lengthens the array. -/
theorem fitInRowLoop_length_le (L : AxisLayout) (K : Defaults) (available : AxisPosition)
    (minMaxPrios : Int × Int) (scale squish : ℚ) (prio : Int) (finalPosCalc : Bool)
    (nodes : List CCNode) (st : FitState) :
    (L.fitInRowLoop K available minMaxPrios scale squish prio finalPosCalc nodes st).2.length ≤
      nodes.length := by
  induction nodes generalizing st with
  | nil => simp [fitInRowLoop_nil]
  | cons node rest ih =>
    rw [fitInRowLoop_cons]
    split
    · simp
    · exact Nat.le_succ_of_le (ih _)

/-- Without wrapping, or in a final pass, the loop consumes the whole array. -/
theorem fitInRowLoop_of_not_grow (L : AxisLayout) (K : Defaults) (available : AxisPosition)
    (minMaxPrios : Int × Int) (scale squish : ℚ) (prio : Int) (finalPosCalc : Bool)
    (h : L.m_growCrossAxis = false ∨ finalPosCalc = true)
    (nodes : List CCNode) (st : FitState) :
    (L.fitInRowLoop K available minMaxPrios scale squish prio finalPosCalc nodes st).2 = [] := by
  induction nodes generalizing st with
  | nil => rfl
  | cons node rest ih =>
    rw [fitInRowLoop_cons, breaksBefore_of_not_grow L K available scale squish prio finalPosCalc st node h]
    simpa using ih _

/-- The first child of a non-empty array is always accepted. -/
theorem fitInRowLoop_first (L : AxisLayout) (K : Defaults) (available : AxisPosition)
    (minMaxPrios : Int × Int) (scale squish : ℚ) (prio : Int) (finalPosCalc : Bool)
    (node : CCNode) (rest : List CCNode) :
    L.fitInRowLoop K available minMaxPrios scale squish prio finalPosCalc (node :: rest) fitInit =
      L.fitInRowLoop K available minMaxPrios scale squish prio finalPosCalc rest
        (L.acceptNode K minMaxPrios scale squish prio fitInit node) := by
  rw [fitInRowLoop_cons, breaksBefore_fitInit]
  simp

/-- In a non-final pass the stored nodes of the row, read in packing order,
are the accepted nodes of the loop. -/
theorem packed_fitInRow (L : AxisLayout) (K : Defaults) (parent : CCNode) (nodes : List CCNode)
    (minMaxPrios : Int × Int) (doAutoScale : Bool) (scale squish : ℚ) (prio : Int) :
    L.packed (L.fitInRow K parent nodes minMaxPrios doAutoScale scale squish prio false).1 =
      (L.fitInRowLoop K (nodeAxis parent L.m_axis 1) minMaxPrios scale squish prio false nodes
        fitInit).1.res := by
  unfold packed fitInRow
  by_cases h : L.m_axisReverse = true
  · simp [h, fitInit]
  · simp [h, fitInit]

theorem fitInRow_snd (L : AxisLayout) (K : Defaults) (parent : CCNode) (nodes : List CCNode)
    (minMaxPrios : Int × Int) (doAutoScale : Bool) (scale squish : ℚ) (prio : Int) :
    (L.fitInRow K parent nodes minMaxPrios doAutoScale scale squish prio false).2 =
      (L.fitInRowLoop K (nodeAxis parent L.m_axis 1) minMaxPrios scale squish prio false nodes
        fitInit).2 := by
  simp [fitInRow, fitInit]

theorem acceptNode_res (L : AxisLayout) (K : Defaults) (minMaxPrios : Int × Int)
    (scale squish : ℚ) (prio : Int) (st : FitState) (node : CCNode) :
    (L.acceptNode K minMaxPrios scale squish prio st node).res = st.res ++ [resetScale L node] := rfl

/-- The accepted nodes only grow along the loop. -/
theorem fitInRowLoop_res_prefix (L : AxisLayout) (K : Defaults) (available : AxisPosition)
    (minMaxPrios : Int × Int) (scale squish : ℚ) (prio : Int) (finalPosCalc : Bool)
    (nodes : List CCNode) (st : FitState) :
    st.res <+: (L.fitInRowLoop K available minMaxPrios scale squish prio finalPosCalc nodes st).1.res := by
  induction nodes generalizing st with
  | nil => simp [fitInRowLoop_nil]
  | cons node rest ih =>
    rw [fitInRowLoop_cons]
    split
    · simp
    · exact (List.prefix_append st.res [resetScale L node]).trans
        (ih (L.acceptNode K minMaxPrios scale squish prio st node))

/-- A row packed from a non-empty array starts with the array's first child. -/
theorem packed_fitInRow_cons (L : AxisLayout) (K : Defaults) (parent : CCNode)
    (node : CCNode) (rest : List CCNode)
    (minMaxPrios : Int × Int) (doAutoScale : Bool) (scale squish : ℚ) (prio : Int) :
    ∃ tail, L.packed (L.fitInRow K parent (node :: rest) minMaxPrios doAutoScale scale squish
      prio false).1 = resetScale L node :: tail := by
  rw [packed_fitInRow, fitInRowLoop_first]
  obtain ⟨t, ht⟩ := fitInRowLoop_res_prefix L K (nodeAxis parent L.m_axis 1) minMaxPrios scale
    squish prio false rest (L.acceptNode K minMaxPrios scale squish prio fitInit node)
  exact ⟨t, by rw [← ht]; simp [acceptNode, fitInit]⟩

/-- A call of `fitInRow` on a non-empty array shortens the array. -/
theorem fitInRow_snd_length_lt (L : AxisLayout) (K : Defaults) (parent : CCNode)
    (node : CCNode) (rest : List CCNode)
    (minMaxPrios : Int × Int) (doAutoScale : Bool) (scale squish : ℚ) (prio : Int) :
    (L.fitInRow K parent (node :: rest) minMaxPrios doAutoScale scale squish prio false).2.length <
      (node :: rest).length := by
  rw [fitInRow_snd, fitInRowLoop_first]
  exact Nat.lt_succ_of_le (fitInRowLoop_length_le _ _ _ _ _ _ _ _ _ _)

theorem lastOpts_concat (l : List CCNode) (a : CCNode) : lastOpts (l ++ [a]) = a.axisOpts := by
  simp [lastOpts]

theorem consumed_concat (L : AxisLayout) (K : Defaults) (minMaxPrios : Int × Int)
    (scale squish : ℚ) (prio : Int) (l : List CCNode) (c : CCNode) :
    L.consumed K minMaxPrios scale squish prio (l ++ [c]) =
      L.consumed K minMaxPrios scale squish prio l +
        (if l.length != 0 then L.passGap minMaxPrios scale squish prio (lastOpts l) c.axisOpts
          else 0) +
        L.passLength K scale squish prio c := by
  induction l with
  | nil => simp [consumed]
  | cons a t ih =>
    cases t with
    | nil => simp [consumed, lastOpts]
    | cons b t2 =>
      have h1 : (a :: b :: t2) ++ [c] = a :: b :: (t2 ++ [c]) := rfl
      have h2 : (b :: t2) ++ [c] = b :: (t2 ++ [c]) := rfl
      rw [h1, consumed, ← h2, ih]
      have h3 : lastOpts (a :: b :: t2) = lastOpts (b :: t2) := by
        simp [lastOpts, List.getLast?_cons_cons]
      rw [h3]
      simp only [consumed, List.length_cons]
      simp only [bne_iff_ne, ne_eq, Nat.add_one_ne_zero, not_false_eq_true, if_true]
      ring

theorem fitInv_fitInit (L : AxisLayout) (K : Defaults) (minMaxPrios : Int × Int)
    (scale squish : ℚ) (prio : Int) : FitInv L K minMaxPrios scale squish prio fitInit := by
  simp [FitInv, fitInit, lastOpts, consumed]

theorem fitInv_acceptNode (L : AxisLayout) (K : Defaults) (minMaxPrios : Int × Int)
    (scale squish : ℚ) (prio : Int) (st : FitState) (node : CCNode)
    (h : FitInv L K minMaxPrios scale squish prio st) :
    FitInv L K minMaxPrios scale squish prio (L.acceptNode K minMaxPrios scale squish prio st node) := by
  obtain ⟨h1, h2, h3, h4⟩ := h
  refine ⟨by simp [acceptNode, h1], by simp [acceptNode, lastOpts_concat, resetScale_axisOpts],
    ?_, ?_⟩
  · simp only [acceptNode, consumed_concat, passLength_resetScale, resetScale_axisOpts, h3, h2, h1]
    ring
  · simp only [acceptNode, consumed_concat, passLength_resetScale, resetScale_axisOpts, h4, h2, h1]

/-- The axis length stored in the loop state is the length consumed by the
accepted nodes. -/
theorem fitInRowLoop_fitInv (L : AxisLayout) (K : Defaults) (available : AxisPosition)
    (minMaxPrios : Int × Int) (scale squish : ℚ) (prio : Int) (finalPosCalc : Bool)
    (nodes : List CCNode) (st : FitState) (h : FitInv L K minMaxPrios scale squish prio st) :
    (L.fitInRowLoop K available minMaxPrios scale squish prio finalPosCalc nodes st).1.axisLength =
      L.consumed K minMaxPrios scale squish prio
        (L.fitInRowLoop K available minMaxPrios scale squish prio finalPosCalc nodes st).1.res := by
  induction nodes generalizing st with
  | nil => exact h.2.2.2
  | cons node rest ih =>
    rw [fitInRowLoop_cons]
    split
    · exact h.2.2.2
    · exact ih _ (fitInv_acceptNode L K minMaxPrios scale squish prio st node h)

theorem withinRow_nil (L : AxisLayout) (K : Defaults) (available : AxisPosition)
    (minMaxPrios : Int × Int) (scale squish : ℚ) (prio : Int) :
    WithinRow L K available minMaxPrios scale squish prio [] := by
  intro p c q h
  simp at h

theorem withinRow_concat (L : AxisLayout) (K : Defaults) (available : AxisPosition)
    (minMaxPrios : Int × Int) (scale squish : ℚ) (prio : Int) (l : List CCNode) (n : CCNode)
    (hl : WithinRow L K available minMaxPrios scale squish prio l)
    (hn : l ≠ [] → isOptsBreakLine (lastOpts l) = false ∧
      (isOptsSameLine n.axisOpts = true ∨
        L.consumed K minMaxPrios scale squish prio l + L.passLength K scale squish prio n ≤
          available.axisLength)) :
    WithinRow L K available minMaxPrios scale squish prio (l ++ [n]) := by
  intro p c q h hp
  rcases List.eq_nil_or_concat q with hq | ⟨q2, x, hq⟩
  · subst hq
    have h2 : l ++ [n] = p ++ [c] := h
    obtain ⟨h3, h4⟩ := List.append_inj' h2 rfl
    have h5 : n = c := by simpa using h4
    subst h3
    subst h5
    exact hn hp
  · subst hq
    have h2 : l ++ [n] = (p ++ c :: q2) ++ [x] := by rw [h]; simp
    exact hl p c q2 (List.append_inj' h2 rfl).1 hp

/-- With wrapping enabled, in a non-final pass, the accepted nodes keep the
row discipline of `WithinRow`. -/
theorem fitInRowLoop_withinRow (L : AxisLayout) (K : Defaults) (available : AxisPosition)
    (minMaxPrios : Int × Int) (scale squish : ℚ) (prio : Int)
    (hgrow : L.m_growCrossAxis = true)
    (nodes : List CCNode) (st : FitState) (h : FitInv L K minMaxPrios scale squish prio st)
    (hw : WithinRow L K available minMaxPrios scale squish prio st.res) :
    WithinRow L K available minMaxPrios scale squish prio
      (L.fitInRowLoop K available minMaxPrios scale squish prio false nodes st).1.res := by
  induction nodes generalizing st with
  | nil => exact hw
  | cons node rest ih =>
    rw [fitInRowLoop_cons]
    split
    · exact hw
    · rename_i hb
      apply ih _ (fitInv_acceptNode L K minMaxPrios scale squish prio st node h)
      rw [acceptNode_res]
      apply withinRow_concat _ _ _ _ _ _ _ _ _ hw
      intro hne
      obtain ⟨h1, h2, h3, _⟩ := h
      have hix : st.ix ≠ 0 := by
        rw [h1]
        exact fun h0 => hne (List.length_eq_zero.mp h0)
      rw [resetScale_axisOpts, passLength_resetScale, ← h2, ← h3]
      simp only [breaksBefore, hgrow, Bool.not_false, Bool.true_and, Bool.and_true,
        Bool.or_eq_true, Bool.and_eq_true, decide_eq_true_eq, bne_iff_ne, ne_eq,
        Bool.not_eq_true', not_or, not_and, Bool.not_eq_false] at hb
      refine ⟨by simpa using hb.2, ?_⟩
      by_cases hs : isOptsSameLine node.axisOpts = true
      · exact Or.inl hs
      · right
        by_contra hgt
        exact hs (hb.1 ⟨not_le.mp hgt, hix⟩)

/-- In a non-final pass, when the loop of `fitInRow` leaves entries in the
array, wrapping is enabled and the row was broken before the first of them
for one of the two reasons of `RowBreak`. -/
theorem fitInRowLoop_rowBreak (L : AxisLayout) (K : Defaults) (available : AxisPosition)
    (minMaxPrios : Int × Int) (scale squish : ℚ) (prio : Int)
    (nodes : List CCNode) (st : FitState) (h : FitInv L K minMaxPrios scale squish prio st) :
    RowBreak L K available minMaxPrios scale squish prio
      (L.fitInRowLoop K available minMaxPrios scale squish prio false nodes st).1.res
      (L.fitInRowLoop K available minMaxPrios scale squish prio false nodes st).2 := by
  induction nodes generalizing st with
  | nil =>
    intro b hb
    simp [fitInRowLoop_nil] at hb
  | cons node rest ih =>
    rw [fitInRowLoop_cons]
    split
    · rename_i hb
      intro b hbmem
      simp only [List.head?_cons, Option.mem_def, Option.some.injEq] at hbmem
      subst hbmem
      obtain ⟨h1, h2, h3, _⟩ := h
      simp only [breaksBefore, Bool.not_false, Bool.true_and, Bool.and_eq_true,
        Bool.or_eq_true, decide_eq_true_eq, bne_iff_ne, ne_eq, Bool.not_eq_true'] at hb
      rw [resetScale_axisOpts, passLength_resetScale, ← h2, ← h3]
      have hne : st.res ≠ [] := by
        rcases hb.2 with hb2 | hb2
        · intro hnil
          apply hb2.1.2
          rw [h1, hnil]
          rfl
        · intro hnil
          rw [h2, hnil] at hb2
          simp [lastOpts, isOptsBreakLine] at hb2
      refine ⟨hne, ?_⟩
      rcases hb.2 with hb2 | hb2
      · exact Or.inr ⟨hb2.2, hb2.1.1⟩
      · exact Or.inl hb2
    · exact ih _ (fitInv_acceptNode L K minMaxPrios scale squish prio st node h)

/-! ## The row-partition loop -/

theorem fitRowsStep_rows (L : AxisLayout) (K : Defaults) (parent : CCNode)
    (minMaxPrios : Int × Int) (doAutoScale : Bool) (scale squish : ℚ) (prio : Int)
    (st : RowsState) :
    (L.fitRowsStep K parent minMaxPrios doAutoScale scale squish prio st).rows =
      st.rows ++
        [(L.fitInRow K parent st.newNodes minMaxPrios doAutoScale scale squish prio false).1] := rfl

theorem fitRowsStep_newNodes (L : AxisLayout) (K : Defaults) (parent : CCNode)
    (minMaxPrios : Int × Int) (doAutoScale : Bool) (scale squish : ℚ) (prio : Int)
    (st : RowsState) :
    (L.fitRowsStep K parent minMaxPrios doAutoScale scale squish prio st).newNodes =
      (L.fitInRow K parent st.newNodes minMaxPrios doAutoScale scale squish prio false).2 := rfl

theorem fitRowsLoop_of_nil (L : AxisLayout) (K : Defaults) (parent : CCNode)
    (minMaxPrios : Int × Int) (doAutoScale : Bool) (scale squish : ℚ) (prio : Int)
    (fuel : Nat) (st : RowsState) (h : st.newNodes = []) :
    L.fitRowsLoop K parent minMaxPrios doAutoScale scale squish prio fuel st = st := by
  cases fuel with
  | zero => rfl
  | succ n => simp [fitRowsLoop, h]

theorem fitRowsLoop_succ (L : AxisLayout) (K : Defaults) (parent : CCNode)
    (minMaxPrios : Int × Int) (doAutoScale : Bool) (scale squish : ℚ) (prio : Int)
    (fuel : Nat) (st : RowsState) (h : st.newNodes ≠ []) :
    L.fitRowsLoop K parent minMaxPrios doAutoScale scale squish prio (fuel + 1) st =
      L.fitRowsLoop K parent minMaxPrios doAutoScale scale squish prio fuel
        (L.fitRowsStep K parent minMaxPrios doAutoScale scale squish prio st) := by
  cases hn : st.newNodes with
  | nil => exact absurd hn h
  | cons a l => simp [fitRowsLoop, hn]

/-- Whatever holds at loop entry and is kept by every iteration holds at
loop exit. -/
theorem fitRowsLoop_invariant (L : AxisLayout) (K : Defaults) (parent : CCNode)
    (minMaxPrios : Int × Int) (doAutoScale : Bool) (scale squish : ℚ) (prio : Int)
    (P : RowsState → Prop)
    (hstep : ∀ st, st.newNodes ≠ [] → P st →
      P (L.fitRowsStep K parent minMaxPrios doAutoScale scale squish prio st))
    (fuel : Nat) (st : RowsState) (h : P st) :
    P (L.fitRowsLoop K parent minMaxPrios doAutoScale scale squish prio fuel st) := by
  induction fuel generalizing st with
  | zero => exact h
  | succ n ih =>
    by_cases hn : st.newNodes = []
    · rw [fitRowsLoop_of_nil _ _ _ _ _ _ _ _ _ _ hn]
      exact h
    · rw [fitRowsLoop_succ _ _ _ _ _ _ _ _ _ _ hn]
      exact ih _ (hstep st hn h)

theorem fitRowsStep_length_lt (L : AxisLayout) (K : Defaults) (parent : CCNode)
    (minMaxPrios : Int × Int) (doAutoScale : Bool) (scale squish : ℚ) (prio : Int)
    (st : RowsState) (h : st.newNodes ≠ []) :
    (L.fitRowsStep K parent minMaxPrios doAutoScale scale squish prio st).newNodes.length <
      st.newNodes.length := by
  rw [fitRowsStep_newNodes]
  cases hn : st.newNodes with
  | nil => exact absurd hn h
  | cons a l => exact fitInRow_snd_length_lt _ _ _ _ _ _ _ _ _ _

/-- The loop leaves with an empty array once the fuel covers its length. -/
theorem fitRowsLoop_newNodes (L : AxisLayout) (K : Defaults) (parent : CCNode)
    (minMaxPrios : Int × Int) (doAutoScale : Bool) (scale squish : ℚ) (prio : Int)
    (fuel : Nat) (st : RowsState) (h : st.newNodes.length ≤ fuel) :
    (L.fitRowsLoop K parent minMaxPrios doAutoScale scale squish prio fuel st).newNodes = [] := by
  induction fuel generalizing st with
  | zero => simpa [fitRowsLoop] using h
  | succ n ih =>
    by_cases hn : st.newNodes = []
    · rw [fitRowsLoop_of_nil _ _ _ _ _ _ _ _ _ _ hn]
      exact hn
    · rw [fitRowsLoop_succ _ _ _ _ _ _ _ _ _ _ hn]
      apply ih
      have := fitRowsStep_length_lt L K parent minMaxPrios doAutoScale scale squish prio st hn
      omega

/-- The partition loop of `tryFitLayout` exits: its array is empty at the end. -/
theorem fitRows_newNodes (L : AxisLayout) (K : Defaults) (parent : CCNode) (nodes : List CCNode)
    (minMaxPrios : Int × Int) (doAutoScale : Bool) (scale squish : ℚ) (prio : Int) :
    (L.fitRows K parent nodes minMaxPrios doAutoScale scale squish prio).newNodes = [] :=
  fitRowsLoop_newNodes _ _ _ _ _ _ _ _ _ _ (le_refl _)

theorem packedNodes_append (L : AxisLayout) (rows : List Row) (row : Row) :
    L.packedNodes (rows ++ [row]) = L.packedNodes rows ++ L.packed row := by
  simp [packedNodes]

/-- The rows of the partition, read in packing order one after the other, are
the input children in their order, each written to by the scale reset. -/
theorem fitRows_packedNodes (L : AxisLayout) (K : Defaults) (parent : CCNode)
    (nodes : List CCNode) (minMaxPrios : Int × Int) (doAutoScale : Bool) (scale squish : ℚ)
    (prio : Int) :
    L.packedNodes (L.fitRows K parent nodes minMaxPrios doAutoScale scale squish prio).rows =
      nodes.map (resetScale L) := by
  have key := fitRowsLoop_invariant L K parent minMaxPrios doAutoScale scale squish prio
    (fun st => L.packedNodes st.rows ++ st.newNodes.map (resetScale L) = nodes.map (resetScale L))
    (by
      intro st _ h
      rw [fitRowsStep_rows, fitRowsStep_newNodes, packedNodes_append, packed_fitInRow,
        fitInRow_snd, List.append_assoc, fitInRowLoop_res]
      simpa [fitInit] using h)
    nodes.length (rowsInit nodes) (by simp [rowsInit, packedNodes])
  have hnil := fitRows_newNodes L K parent nodes minMaxPrios doAutoScale scale squish prio
  unfold fitRows at hnil ⊢
  simp only [rowsInit] at key
  rw [hnil] at key
  simpa using key

theorem packed_perm (L : AxisLayout) (row : Row) : (L.packed row).Perm row.nodes := by
  unfold packed
  split
  · exact List.reverse_perm _
  · exact List.Perm.refl _

theorem packed_eq_nil (L : AxisLayout) (row : Row) : L.packed row = [] ↔ row.nodes = [] := by
  unfold packed
  split <;> simp

theorem packedNodes_perm (L : AxisLayout) (rows : List Row) :
    (L.packedNodes rows).Perm (rows.flatMap Row.nodes) :=
  List.Perm.flatMap_left rows (fun row _ => packed_perm L row)

/-- Every row of the partition holds at least one node. -/
theorem fitRows_rows_ne_nil (L : AxisLayout) (K : Defaults) (parent : CCNode)
    (nodes : List CCNode) (minMaxPrios : Int × Int) (doAutoScale : Bool) (scale squish : ℚ)
    (prio : Int) :
    ∀ row ∈ (L.fitRows K parent nodes minMaxPrios doAutoScale scale squish prio).rows,
      row.nodes ≠ [] := by
  refine fitRowsLoop_invariant L K parent minMaxPrios doAutoScale scale squish prio
    (fun st => ∀ row ∈ st.rows, row.nodes ≠ []) ?_ nodes.length (rowsInit nodes)
    (by simp [rowsInit])
  intro st hne h row hrow
  rw [fitRowsStep_rows, List.mem_append] at hrow
  rcases hrow with hrow | hrow
  · exact h row hrow
  · rw [List.mem_singleton] at hrow
    subst hrow
    cases hn : st.newNodes with
    | nil => exact absurd hn hne
    | cons a l =>
      obtain ⟨tail, ht⟩ := packed_fitInRow_cons L K parent a l minMaxPrios doAutoScale scale
        squish prio
      intro hnil
      rw [(packed_eq_nil L _).mpr hnil] at ht
      exact List.noConfusion ht

/-- The partition of a non-empty array starts with one call of `fitInRow` on
the whole array and goes on with what that call leaves. -/
theorem fitRows_cons (L : AxisLayout) (K : Defaults) (parent : CCNode)
    (node : CCNode) (rest : List CCNode) (minMaxPrios : Int × Int) (doAutoScale : Bool)
    (scale squish : ℚ) (prio : Int) :
    L.fitRows K parent (node :: rest) minMaxPrios doAutoScale scale squish prio =
      L.fitRowsLoop K parent minMaxPrios doAutoScale scale squish prio rest.length
        (L.fitRowsStep K parent minMaxPrios doAutoScale scale squish prio
          (rowsInit (node :: rest))) := by
  unfold fitRows
  exact fitRowsLoop_succ L K parent minMaxPrios doAutoScale scale squish prio rest.length
    (rowsInit (node :: rest)) (by simp [rowsInit])

/-- When the first call of `fitInRow` consumes the whole array, the partition
is that single row. -/
theorem fitRows_single (L : AxisLayout) (K : Defaults) (parent : CCNode)
    (node : CCNode) (rest : List CCNode) (minMaxPrios : Int × Int) (doAutoScale : Bool)
    (scale squish : ℚ) (prio : Int)
    (h : (L.fitInRowLoop K (nodeAxis parent L.m_axis 1) minMaxPrios scale squish prio false
      (node :: rest) fitInit).2 = []) :
    (L.fitRows K parent (node :: rest) minMaxPrios doAutoScale scale squish prio).rows =
        [(L.fitInRow K parent (node :: rest) minMaxPrios doAutoScale scale squish prio false).1] ∧
      L.packed (L.fitInRow K parent (node :: rest) minMaxPrios doAutoScale scale squish prio
        false).1 = (node :: rest).map (resetScale L) := by
  have hres := fitInRowLoop_res L K (nodeAxis parent L.m_axis 1) minMaxPrios scale squish prio
    false (node :: rest) fitInit
  rw [h] at hres
  constructor
  · rw [fitRows_cons, fitRowsLoop_of_nil]
    · simp [fitRowsStep_rows, rowsInit]
    · rw [fitRowsStep_newNodes]
      simpa [rowsInit, fitInRow_snd] using h
  · rw [packed_fitInRow]
    simpa [fitInit] using hres

/-- With wrapping enabled every row of the partition keeps the discipline of
`WithinRow`. -/
theorem fitRows_withinRow (L : AxisLayout) (K : Defaults) (parent : CCNode)
    (nodes : List CCNode) (minMaxPrios : Int × Int) (doAutoScale : Bool) (scale squish : ℚ)
    (prio : Int) (hgrow : L.m_growCrossAxis = true) :
    ∀ row ∈ (L.fitRows K parent nodes minMaxPrios doAutoScale scale squish prio).rows,
      WithinRow L K (nodeAxis parent L.m_axis 1) minMaxPrios scale squish prio (L.packed row) := by
  refine fitRowsLoop_invariant L K parent minMaxPrios doAutoScale scale squish prio
    (fun st => ∀ row ∈ st.rows,
      WithinRow L K (nodeAxis parent L.m_axis 1) minMaxPrios scale squish prio (L.packed row))
    ?_ nodes.length (rowsInit nodes) (by simp [rowsInit])
  intro st _ h row hrow
  rw [fitRowsStep_rows, List.mem_append] at hrow
  rcases hrow with hrow | hrow
  · exact h row hrow
  · rw [List.mem_singleton] at hrow
    subst hrow
    rw [packed_fitInRow]
    exact fitInRowLoop_withinRow L K _ minMaxPrios scale squish prio hgrow _ _
      (fitInv_fitInit L K minMaxPrios scale squish prio) (withinRow_nil L K _ minMaxPrios scale
        squish prio)

theorem rowBreak_of_head (L : AxisLayout) (K : Defaults) (available : AxisPosition)
    (minMaxPrios : Int × Int) (scale squish : ℚ) (prio : Int) (row : List CCNode)
    (a : CCNode) (l tail : List CCNode)
    (h : RowBreak L K available minMaxPrios scale squish prio row (a :: l)) :
    RowBreak L K available minMaxPrios scale squish prio row (resetScale L a :: tail) := by
  intro b hb
  simp only [List.head?_cons, Option.mem_def, Option.some.injEq] at hb
  subst hb
  rw [resetScale_axisOpts, passLength_resetScale]
  exact h a (by simp)

/-- Consecutive rows of the partition are separated for one of the two
reasons of `RowBreak`. -/
theorem fitRows_rowBreak (L : AxisLayout) (K : Defaults) (parent : CCNode)
    (nodes : List CCNode) (minMaxPrios : Int × Int) (doAutoScale : Bool) (scale squish : ℚ)
    (prio : Int) :
    List.Chain' (RowBreak L K (nodeAxis parent L.m_axis 1) minMaxPrios scale squish prio)
      ((L.fitRows K parent nodes minMaxPrios doAutoScale scale squish prio).rows.map
        (L.packed)) := by
  have key := fitRowsLoop_invariant L K parent minMaxPrios doAutoScale scale squish prio
    (fun st => List.Chain'
      (RowBreak L K (nodeAxis parent L.m_axis 1) minMaxPrios scale squish prio)
      (st.rows.map (L.packed) ++ [st.newNodes]))
    (by
      intro st hne h
      cases hn : st.newNodes with
      | nil => exact absurd hn hne
      | cons a l =>
        rw [hn] at h
        obtain ⟨tail, ht⟩ := packed_fitInRow_cons L K parent a l minMaxPrios doAutoScale scale
          squish prio
        have hrb := fitInRowLoop_rowBreak L K (nodeAxis parent L.m_axis 1) minMaxPrios scale
          squish prio (a :: l) fitInit (fitInv_fitInit L K minMaxPrios scale squish prio)
        rw [← packed_fitInRow L K parent (a :: l) minMaxPrios doAutoScale scale squish prio,
          ← fitInRow_snd L K parent (a :: l) minMaxPrios doAutoScale scale squish prio] at hrb
        rw [fitRowsStep_rows, fitRowsStep_newNodes, hn, List.map_append, List.map_singleton]
        rw [List.chain'_append] at h ⊢
        refine ⟨?_, List.chain'_singleton _, ?_⟩
        · rw [List.chain'_append]
          refine ⟨h.1, List.chain'_singleton _, ?_⟩
          intro x hx y hy
          simp only [List.head?_cons, Option.mem_def, Option.some.injEq] at hy
          subst hy
          rw [ht]
          exact rowBreak_of_head L K _ minMaxPrios scale squish prio x a l tail
            (h.2.2 x hx (a :: l) (by simp))
        · intro x hx y hy
          simp only [List.getLast?_append, List.getLast?_singleton, Option.or_some,
            Option.or, Option.mem_def, Option.some.injEq] at hx
          simp only [List.head?_cons, Option.mem_def, Option.some.injEq] at hy
          subst hx
          subst hy
          exact hrb)
    nodes.length (rowsInit nodes) (by simp [rowsInit])
  exact key.left_of_append

/-- Two adjacent entries of the concatenation of non-empty rows lie in one
row or on both sides of a row end. -/
theorem flatten_adjacent (rows : List (List CCNode)) (hne : ∀ r ∈ rows, r ≠ [])
    (pre : List CCNode) (a b : CCNode) (post : List CCNode)
    (h : rows.flatten = pre ++ a :: b :: post) :
    SameRow rows pre a b post ∨ RowEndsBetween rows pre a b post := by
  induction rows generalizing pre with
  | nil => simp at h
  | cons r rest ih =>
    have hrest : ∀ r ∈ rest, r ≠ [] := fun x hx => hne x (List.mem_cons_of_mem _ hx)
    have lift : ∀ t, pre = r ++ t → rest.flatten = t ++ a :: b :: post →
        SameRow (r :: rest) pre a b post ∨ RowEndsBetween (r :: rest) pre a b post := by
      intro t hpre hflat
      rcases ih hrest t hflat with ⟨R1, u, v, R2, h1, h2, h3⟩ | ⟨R1, u, v, R2, h1, h2, h3⟩
      · exact Or.inl ⟨r :: R1, u, v, R2, by simp [h1], by simp [hpre, h2], h3⟩
      · exact Or.inr ⟨r :: R1, u, v, R2, by simp [h1], by simp [hpre, h2], h3⟩
    rw [List.flatten_cons, List.append_eq_append_iff] at h
    rcases h with ⟨t, hpre, hflat⟩ | ⟨t, hr, hflat⟩
    · exact lift t hpre hflat
    · cases t with
      | nil =>
        simp only [List.append_nil, List.nil_append] at hr hflat
        exact lift [] (by simp [hr]) (by simpa using hflat.symm)
      | cons x t2 =>
        simp only [List.cons_append, List.cons.injEq] at hflat
        obtain ⟨hx, hflat⟩ := hflat
        subst hx
        cases t2 with
        | nil =>
          simp only [List.nil_append] at hflat
          cases rest with
          | nil => simp at hflat
          | cons r2 R2 =>
            cases r2 with
            | nil => exact absurd rfl (hrest [] (by simp))
            | cons y v =>
              simp only [List.flatten_cons, List.cons_append, List.cons.injEq] at hflat
              obtain ⟨hy, hpost⟩ := hflat
              subst hy
              exact Or.inr ⟨[], pre, v, R2, by simp [hr], by simp, hpost⟩
        | cons y t3 =>
          simp only [List.cons_append, List.cons.injEq] at hflat
          obtain ⟨hy, hpost⟩ := hflat
          subst hy
          exact Or.inl ⟨[], pre, t3, rest, by simp [hr], by simp, hpost⟩

theorem fitRows_flatten (L : AxisLayout) (K : Defaults) (parent : CCNode)
    (nodes : List CCNode) (minMaxPrios : Int × Int) (doAutoScale : Bool) (scale squish : ℚ)
    (prio : Int) :
    ((L.fitRows K parent nodes minMaxPrios doAutoScale scale squish prio).rows.map
      (L.packed)).flatten = nodes.map (resetScale L) := by
  rw [← fitRows_packedNodes L K parent nodes minMaxPrios doAutoScale scale squish prio]
  simp [packedNodes, List.flatMap]

theorem fitRows_packed_ne_nil (L : AxisLayout) (K : Defaults) (parent : CCNode)
    (nodes : List CCNode) (minMaxPrios : Int × Int) (doAutoScale : Bool) (scale squish : ℚ)
    (prio : Int) :
    ∀ r ∈ (L.fitRows K parent nodes minMaxPrios doAutoScale scale squish prio).rows.map
      (L.packed), r ≠ [] := by
  intro r hr
  rw [List.mem_map] at hr
  obtain ⟨row, hrow, rfl⟩ := hr
  intro hnil
  exact fitRows_rows_ne_nil L K parent nodes minMaxPrios doAutoScale scale squish prio row hrow
    ((packed_eq_nil L row).mp hnil)

/-- Two adjacent input children end up in one row of the partition or on both
sides of the boundary between two rows. -/
theorem fitRows_adjacent (L : AxisLayout) (K : Defaults) (parent : CCNode)
    (minMaxPrios : Int × Int) (doAutoScale : Bool) (scale squish : ℚ) (prio : Int)
    (pre : List CCNode) (a b : CCNode) (post : List CCNode) :
    SameRow ((L.fitRows K parent (pre ++ a :: b :: post) minMaxPrios doAutoScale scale squish
        prio).rows.map (L.packed))
        (pre.map (resetScale L)) (resetScale L a) (resetScale L b) (post.map (resetScale L)) ∨
      RowEndsBetween ((L.fitRows K parent (pre ++ a :: b :: post) minMaxPrios doAutoScale scale
        squish prio).rows.map (L.packed))
        (pre.map (resetScale L)) (resetScale L a) (resetScale L b) (post.map (resetScale L)) := by
  apply flatten_adjacent _ (fitRows_packed_ne_nil L K parent _ minMaxPrios doAutoScale scale
    squish prio)
  rw [fitRows_flatten]
  simp

/-- When the first call of `fitInRow` leaves entries and the second call
consumes them all, the partition is these two rows. -/
theorem fitRows_two (L : AxisLayout) (K : Defaults) (parent : CCNode)
    (node : CCNode) (rest : List CCNode) (minMaxPrios : Int × Int) (doAutoScale : Bool)
    (scale squish : ℚ) (prio : Int) (b : CCNode) (rest2 : List CCNode)
    (hfirst : (L.fitInRowLoop K (nodeAxis parent L.m_axis 1) minMaxPrios scale squish prio false
      (node :: rest) fitInit).2 = b :: rest2)
    (hsecond : (L.fitInRowLoop K (nodeAxis parent L.m_axis 1) minMaxPrios scale squish prio false
      (b :: rest2) fitInit).2 = []) :
    (L.fitRows K parent (node :: rest) minMaxPrios doAutoScale scale squish prio).rows.map
        (L.packed) =
      [(L.fitInRowLoop K (nodeAxis parent L.m_axis 1) minMaxPrios scale squish prio false
          (node :: rest) fitInit).1.res,
        (L.fitInRowLoop K (nodeAxis parent L.m_axis 1) minMaxPrios scale squish prio false
          (b :: rest2) fitInit).1.res] := by
  have hlen := fitInRow_snd_length_lt L K parent node rest minMaxPrios doAutoScale scale squish
    prio
  rw [fitInRow_snd, hfirst] at hlen
  have hnew1 : (L.fitRowsStep K parent minMaxPrios doAutoScale scale squish prio
      (rowsInit (node :: rest))).newNodes = b :: rest2 := by
    rw [fitRowsStep_newNodes, fitInRow_snd]
    exact hfirst
  obtain ⟨k, hk⟩ : ∃ k, rest.length = k + 1 := by
    cases rest with
    | nil => simp at hlen
    | cons x xs => exact ⟨xs.length, rfl⟩
  rw [fitRows_cons, hk, fitRowsLoop_succ _ _ _ _ _ _ _ _ _ _ (by rw [hnew1]; simp),
    fitRowsLoop_of_nil _ _ _ _ _ _ _ _ _ _ (by
      rw [fitRowsStep_newNodes, hnew1, fitInRow_snd]
      exact hsecond)]
  rw [fitRowsStep_rows, hnew1, fitRowsStep_rows]
  simp [rowsInit, packed_fitInRow]

end AxisLayout

/-- C1: the row-partition loop of `tryFitLayout` ends with an empty working
copy, and the children of all produced rows together are exactly the input
children (each with at most its scale reset by the packer): same multiset of
node identities, no duplicate and no drop, for every layout setting, scale,
squish and tier. -/
theorem fitRows_no_child_loss (L : AxisLayout) (K : Defaults) (parent : CCNode)
    (nodes : List CCNode) (minMaxPrios : Int × Int) (doAutoScale : Bool) (scale squish : ℚ)
    (prio : Int) :
    (L.fitRows K parent nodes minMaxPrios doAutoScale scale squish prio).newNodes = [] ∧
    ((L.fitRows K parent nodes minMaxPrios doAutoScale scale squish prio).rows.flatMap
      Row.nodes).Perm (nodes.map (AxisLayout.resetScale L)) ∧
    ((((L.fitRows K parent nodes minMaxPrios doAutoScale scale squish prio).rows.flatMap
      Row.nodes).map CCNode.tag : List Nat) : Multiset Nat) =
        ((nodes.map CCNode.tag : List Nat) : Multiset Nat) := by
  have hperm : ((L.fitRows K parent nodes minMaxPrios doAutoScale scale squish prio).rows.flatMap
      Row.nodes).Perm (nodes.map (AxisLayout.resetScale L)) := by
    have h1 := AxisLayout.packedNodes_perm L
      (L.fitRows K parent nodes minMaxPrios doAutoScale scale squish prio).rows
    rw [AxisLayout.fitRows_packedNodes] at h1
    exact h1.symm
  refine ⟨AxisLayout.fitRows_newNodes _ _ _ _ _ _ _ _ _, hperm, ?_⟩
  apply Multiset.coe_eq_coe.mpr
  have h2 := hperm.map CCNode.tag
  simpa [List.map_map, Function.comp_def, AxisLayout.resetScale_tag] using h2

/-- C2: in a non-final pass `fitInRow` accepts the first child of a non-empty
queue whatever its length and hints, so that every row of the partition holds
at least one child; a single child, however long, gives exactly one row that
holds it, and the partition loop ends with an empty queue. -/
theorem fitInRow_forced_progress (L : AxisLayout) (K : Defaults) (parent : CCNode)
    (node : CCNode) (rest : List CCNode) (minMaxPrios : Int × Int) (doAutoScale : Bool)
    (scale squish : ℚ) (prio : Int) :
    (∃ tail, L.packed (L.fitInRow K parent (node :: rest) minMaxPrios doAutoScale scale squish
      prio false).1 = AxisLayout.resetScale L node :: tail) ∧
    (∀ row ∈ (L.fitRows K parent (node :: rest) minMaxPrios doAutoScale scale squish prio).rows,
      row.nodes ≠ []) ∧
    ((L.fitRows K parent [node] minMaxPrios doAutoScale scale squish prio).rows.map Row.nodes =
      [[AxisLayout.resetScale L node]]) ∧
    (L.fitRows K parent [node] minMaxPrios doAutoScale scale squish prio).newNodes = [] := by
  refine ⟨AxisLayout.packed_fitInRow_cons _ _ _ _ _ _ _ _ _ _,
    AxisLayout.fitRows_rows_ne_nil _ _ _ _ _ _ _ _ _, ?_,
    AxisLayout.fitRows_newNodes _ _ _ _ _ _ _ _ _⟩
  have h := AxisLayout.fitRows_single L K parent node [] minMaxPrios doAutoScale scale squish prio
    (by rw [AxisLayout.fitInRowLoop_first]; rfl)
  rw [h.1]
  have h2 := h.2
  unfold AxisLayout.packed at h2
  by_cases hr : L.m_axisReverse = true
  · rw [if_pos hr] at h2
    have h3 := congrArg List.reverse h2
    simpa using h3
  · rw [if_neg hr] at h2
    simpa using h2

/-- Witness of C2: one child of width 500 in a container of width 300, with
wrapping enabled, is packed into exactly one row. -/
theorem fitInRow_forced_progress_witness :
    ((exampleLayout true).fitRows exampleDefaults (exampleNode 0 300 none)
        [exampleNode 1 500 none] (0, 0) true 1 1 0).rows.map Row.nodes =
      [[AxisLayout.resetScale (exampleLayout true) (exampleNode 1 500 none)]] :=
  (fitInRow_forced_progress (exampleLayout true) exampleDefaults (exampleNode 0 300 none)
    (exampleNode 1 500 none) [] (0, 0) true 1 1 0).2.2.1

/-- C6: with `growCrossAxis` off, the partition of a non-empty child list is
exactly one row, which holds all children in their order, whatever their
lengths, hints and the available length. -/
theorem fitRows_single_row_of_not_grow (L : AxisLayout) (K : Defaults) (parent : CCNode)
    (nodes : List CCNode) (minMaxPrios : Int × Int) (doAutoScale : Bool) (scale squish : ℚ)
    (prio : Int) (hgrow : L.m_growCrossAxis = false) (hne : nodes ≠ []) :
    ∃ row, (L.fitRows K parent nodes minMaxPrios doAutoScale scale squish prio).rows = [row] ∧
      L.packed row = nodes.map (AxisLayout.resetScale L) := by
  cases nodes with
  | nil => exact absurd rfl hne
  | cons node rest =>
    exact ⟨_, AxisLayout.fitRows_single L K parent node rest minMaxPrios doAutoScale scale squish
      prio (AxisLayout.fitInRowLoop_of_not_grow L K _ minMaxPrios scale squish prio false
        (Or.inl hgrow) _ _)⟩

/-- Witness of C6: three children of width 200 in a container of width 300
without wrapping. -/
theorem fitRows_single_row_of_not_grow_witness :
    (exampleLayout false).m_growCrossAxis = false ∧
      ∃ row, ((exampleLayout false).fitRows exampleDefaults (exampleNode 0 300 none)
          [exampleNode 1 200 none, exampleNode 2 200 none, exampleNode 3 200 none]
          (0, 0) true 1 1 0).rows = [row] ∧
        (exampleLayout false).packed row =
          [exampleNode 1 200 none, exampleNode 2 200 none, exampleNode 3 200 none].map
            (AxisLayout.resetScale (exampleLayout false)) :=
  ⟨rfl, fitRows_single_row_of_not_grow (exampleLayout false) exampleDefaults
    (exampleNode 0 300 none)
    [exampleNode 1 200 none, exampleNode 2 200 none, exampleNode 3 200 none]
    (0, 0) true 1 1 0 rfl (by simp)⟩

/-- C8: a child that declares `sameLine` and whose predecessor does not
declare `breakLine` lies in the row of its predecessor, whatever the lengths
of the children and the available length (so also when the row overflows),
with wrapping enabled or not. -/
theorem sameLine_joins_predecessor (L : AxisLayout) (K : Defaults) (parent : CCNode)
    (minMaxPrios : Int × Int) (doAutoScale : Bool) (scale squish : ℚ) (prio : Int)
    (pre : List CCNode) (a b : CCNode) (post : List CCNode)
    (hsame : isOptsSameLine b.axisOpts = true) (hbreak : isOptsBreakLine a.axisOpts = false) :
    AxisLayout.SameRow
      ((L.fitRows K parent (pre ++ a :: b :: post) minMaxPrios doAutoScale scale squish
        prio).rows.map (L.packed))
      (pre.map (AxisLayout.resetScale L)) (AxisLayout.resetScale L a)
      (AxisLayout.resetScale L b) (post.map (AxisLayout.resetScale L)) := by
  rcases AxisLayout.fitRows_adjacent L K parent minMaxPrios doAutoScale scale squish prio pre a b
    post with h | ⟨R1, u, v, R2, h1, _, _⟩
  · exact h
  · exfalso
    have hch := AxisLayout.fitRows_rowBreak L K parent (pre ++ a :: b :: post) minMaxPrios
      doAutoScale scale squish prio
    rw [h1] at hch
    have hrb := (List.chain'_cons.mp (List.chain'_append.mp hch).2.1).1
    obtain ⟨_, hrb⟩ := hrb (AxisLayout.resetScale L b) (by simp)
    rw [AxisLayout.lastOpts_concat, AxisLayout.resetScale_axisOpts,
      AxisLayout.resetScale_axisOpts] at hrb
    rcases hrb with hrb | hrb
    · rw [hbreak] at hrb
      exact Bool.noConfusion hrb
    · rw [hsame] at hrb
      exact Bool.noConfusion hrb.1

/-- Witness of C8: two children of width 100 in a container of width 150 with
wrapping enabled, the second declaring `sameLine`: both lie in one row
although 200 exceeds 150. -/
theorem sameLine_joins_predecessor_witness :
    AxisLayout.SameRow
      (((exampleLayout true).fitRows exampleDefaults (exampleNode 0 150 none)
        ([] ++ exampleNode 1 100 none ::
          exampleNode 2 100 (some (exampleOptions false true)) :: [])
        (0, 0) true 1 1 0).rows.map ((exampleLayout true).packed))
      (([] : List CCNode).map (AxisLayout.resetScale (exampleLayout true)))
      (AxisLayout.resetScale (exampleLayout true) (exampleNode 1 100 none))
      (AxisLayout.resetScale (exampleLayout true)
        (exampleNode 2 100 (some (exampleOptions false true))))
      (([] : List CCNode).map (AxisLayout.resetScale (exampleLayout true))) :=
  sameLine_joins_predecessor (exampleLayout true) exampleDefaults (exampleNode 0 150 none)
    (0, 0) true 1 1 0 [] (exampleNode 1 100 none)
    (exampleNode 2 100 (some (exampleOptions false true))) [] rfl rfl

/-- C7: with wrapping enabled, a child that declares `breakLine` is the last
child of its row in packing order, and the child behind it starts the next
row; for three children of which the first declares `breakLine`, the second
does not, and the last two fit into the available length together, row 1 is
the first child alone and row 2 holds the other two. -/
theorem breakLine_ends_row (L : AxisLayout) (K : Defaults) (parent : CCNode)
    (nodes : List CCNode) (minMaxPrios : Int × Int) (doAutoScale : Bool) (scale squish : ℚ)
    (prio : Int) (hgrow : L.m_growCrossAxis = true) :
    (∀ row ∈ (L.fitRows K parent nodes minMaxPrios doAutoScale scale squish prio).rows,
      ∀ u a v, L.packed row = u ++ a :: v → isOptsBreakLine a.axisOpts = true → v = []) ∧
    (∀ pre a b post, nodes = pre ++ a :: b :: post → isOptsBreakLine a.axisOpts = true →
      AxisLayout.RowEndsBetween
        ((L.fitRows K parent nodes minMaxPrios doAutoScale scale squish prio).rows.map (L.packed))
        (pre.map (AxisLayout.resetScale L)) (AxisLayout.resetScale L a)
        (AxisLayout.resetScale L b) (post.map (AxisLayout.resetScale L))) ∧
    (∀ c1 c2 c3, nodes = [c1, c2, c3] → isOptsBreakLine c1.axisOpts = true →
      isOptsBreakLine c2.axisOpts = false →
      L.passLength K scale squish prio c2 + L.passLength K scale squish prio c3 ≤
        (nodeAxis parent L.m_axis 1).axisLength →
      (L.fitRows K parent nodes minMaxPrios doAutoScale scale squish prio).rows.map (L.packed) =
        [[AxisLayout.resetScale L c1],
          [AxisLayout.resetScale L c2, AxisLayout.resetScale L c3]]) := by
  have hlast : ∀ row ∈ (L.fitRows K parent nodes minMaxPrios doAutoScale scale squish prio).rows,
      ∀ u a v, L.packed row = u ++ a :: v → isOptsBreakLine a.axisOpts = true → v = [] := by
    intro row hrow u a v hsplit hbreak
    cases v with
    | nil => rfl
    | cons c q =>
      exfalso
      have hw := AxisLayout.fitRows_withinRow L K parent nodes minMaxPrios doAutoScale scale
        squish prio hgrow row hrow (u ++ [a]) c q (by rw [hsplit]; simp) (by simp)
      rw [AxisLayout.lastOpts_concat, hbreak] at hw
      exact Bool.noConfusion hw.1
  refine ⟨hlast, ?_, ?_⟩
  · intro pre a b post hnodes hbreak
    subst hnodes
    rcases AxisLayout.fitRows_adjacent L K parent minMaxPrios doAutoScale scale squish prio pre a
      b post with ⟨R1, u, v, R2, h1, _, _⟩ | h
    · exfalso
      have hmem : (u ++ AxisLayout.resetScale L a :: AxisLayout.resetScale L b :: v) ∈
          (L.fitRows K parent (pre ++ a :: b :: post) minMaxPrios doAutoScale scale squish
            prio).rows.map (L.packed) := by
        rw [h1]
        simp
      rw [List.mem_map] at hmem
      obtain ⟨row, hrow, hpacked⟩ := hmem
      have := hlast row hrow u (AxisLayout.resetScale L a) (AxisLayout.resetScale L b :: v)
        hpacked (by rw [AxisLayout.resetScale_axisOpts]; exact hbreak)
      exact List.noConfusion this
    · exact h
  · intro c1 c2 c3 hnodes hb1 hb2 hfit
    subst hnodes
    have e1 : L.fitInRowLoop K (nodeAxis parent L.m_axis 1) minMaxPrios scale squish prio false
        [c1, c2, c3] AxisLayout.fitInit =
        ({ L.acceptNode K minMaxPrios scale squish prio AxisLayout.fitInit c1 with
            nextAxisLength :=
              (L.acceptNode K minMaxPrios scale squish prio AxisLayout.fitInit c1).nextAxisLength +
                L.passLength K scale squish prio c2 },
          [AxisLayout.resetScale L c2, c3]) := by
      rw [AxisLayout.fitInRowLoop_first, AxisLayout.fitInRowLoop_cons, if_pos]
      simp [AxisLayout.breaksBefore, AxisLayout.acceptNode, hgrow, hb1]
    have e2 : L.fitInRowLoop K (nodeAxis parent L.m_axis 1) minMaxPrios scale squish prio false
        [AxisLayout.resetScale L c2, c3] AxisLayout.fitInit =
        (L.acceptNode K minMaxPrios scale squish prio
          (L.acceptNode K minMaxPrios scale squish prio AxisLayout.fitInit
            (AxisLayout.resetScale L c2)) c3, []) := by
      rw [AxisLayout.fitInRowLoop_first, AxisLayout.fitInRowLoop_cons, if_neg,
        AxisLayout.fitInRowLoop_nil]
      simp only [AxisLayout.breaksBefore, AxisLayout.acceptNode, AxisLayout.fitInit,
        AxisLayout.resetScale_axisOpts, AxisLayout.passLength_resetScale, hb2, zero_add,
        add_zero, Bool.or_false, Bool.and_eq_true, decide_eq_true_eq, not_and]
      intro _ hgt
      exact absurd hfit (not_le.mpr (by simpa using hgt))
    rw [AxisLayout.fitRows_two L K parent c1 [c2, c3] minMaxPrios doAutoScale scale squish prio
      (AxisLayout.resetScale L c2) [c3] (by rw [e1]) (by rw [e2]), e1, e2]
    simp [AxisLayout.acceptNode, AxisLayout.fitInit, AxisLayout.resetScale_idem]

/-- Witness of C7: three children of width 100 in a container of width 300
with wrapping enabled, the first declaring `breakLine`. -/
theorem breakLine_ends_row_witness :
    ((exampleLayout true).fitRows exampleDefaults (exampleNode 0 300 none)
        [exampleNode 1 100 (some (exampleOptions true false)), exampleNode 2 100 none,
          exampleNode 3 100 none] (0, 0) true 1 1 0).rows.map ((exampleLayout true).packed) =
      [[AxisLayout.resetScale (exampleLayout true)
          (exampleNode 1 100 (some (exampleOptions true false)))],
        [AxisLayout.resetScale (exampleLayout true) (exampleNode 2 100 none),
          AxisLayout.resetScale (exampleLayout true) (exampleNode 3 100 none)]] :=
  (breakLine_ends_row (exampleLayout true) exampleDefaults (exampleNode 0 300 none)
    [exampleNode 1 100 (some (exampleOptions true false)), exampleNode 2 100 none,
      exampleNode 3 100 none] (0, 0) true 1 1 0 rfl).2.2
    (exampleNode 1 100 (some (exampleOptions true false))) (exampleNode 2 100 none)
    (exampleNode 3 100 none) rfl rfl rfl
    (by norm_num [AxisLayout.passLength, nodeAxis, AxisLayout.resetScale,
      AxisLayout.shouldAutoScale, exampleLayout, exampleNode, exampleDefaults, scaleByOpts,
      optsScalePrio, optsMinScale, optsMaxScale, optsRelScale, CCNode.setScale,
      CCNode.getScaledContentSize, CCSize.scale])

/-! ## Placement -/

namespace AxisLayout

theorem placeRescale_tag (L : AxisLayout) (K : Defaults) (rowScale : ℚ) (prio : Int)
    (node : CCNode) : (placeRescale L K rowScale prio node).tag = node.tag := by
  unfold placeRescale CCNode.setScale CCNode.setBaseScale
  split
  · split <;> rfl
  · rfl

/-- A node leaves the placement loop as the input node after the scale writes
and one `setPosition`. -/
theorem placeNode_placed (L : AxisLayout) (K : Defaults) (row : Row)
    (rowScale rowSquish : ℚ) (prio : Int) (rowCrossPos evenSpace : ℚ) (count : Nat)
    (st : PlaceState) (node : CCNode) :
    ∃ x y, (placeNode L K row rowScale rowSquish prio rowCrossPos evenSpace count st node).placed =
      st.placed ++ [(placeRescale L K rowScale prio node).setPosition x y] := by
  unfold placeNode
  cases L.m_axis <;> exact ⟨_, _, rfl⟩

theorem gapsBetween_concat (L : AxisLayout) (l : List CCNode) (c : CCNode) :
    L.gapsBetween (l ++ [c]) =
      L.gapsBetween l + (if l.length != 0 then L.nextGap (lastOpts l) c.axisOpts else 0) := by
  induction l with
  | nil => simp [gapsBetween]
  | cons a t ih =>
    cases t with
    | nil => simp [gapsBetween, lastOpts]
    | cons b t2 =>
      have h1 : (a :: b :: t2) ++ [c] = a :: b :: (t2 ++ [c]) := rfl
      have h2 : (b :: t2) ++ [c] = b :: (t2 ++ [c]) := rfl
      rw [h1, gapsBetween, ← h2, ih]
      have h3 : lastOpts (a :: b :: t2) = lastOpts (b :: t2) := by
        simp [lastOpts, List.getLast?_cons_cons]
      rw [h3]
      simp only [gapsBetween, List.length_cons]
      simp only [bne_iff_ne, ne_eq, Nat.add_one_ne_zero, not_false_eq_true, if_true]
      ring

/-- One step of the placement loop for a row placed with row scale 1 and row
squish 1 under `axisAlignment = Start`, for a child whose placement scale is 1. -/
theorem placeNode_start (L : AxisLayout) (K : Defaults) (row : Row) (prio : Int)
    (rowCrossPos evenSpace : ℚ) (count : Nat) (st : PlaceState) (node : CCNode)
    (hstart : L.m_axisAlignment = AxisAlignment.Start)
    (hscale : L.placeScale K 1 prio node = 1) :
    (placeNode L K row 1 1 prio rowCrossPos evenSpace count st node).rowAxisPos =
        st.rowAxisPos + (if st.ix != 0 then L.nextGap st.prev node.axisOpts else 0) +
          (L.placedAxis K prio node).axisLength ∧
      (placeNode L K row 1 1 prio rowCrossPos evenSpace count st node).prev = node.axisOpts ∧
      (placeNode L K row 1 1 prio rowCrossPos evenSpace count st node).ix = st.ix + 1 ∧
      ∃ c2, (placeNode L K row 1 1 prio rowCrossPos evenSpace count st node).placed =
          st.placed ++ [c2] ∧
        c2.tag = node.tag ∧
        axisCoord L.m_axis c2.m_obPosition =
          st.rowAxisPos + (if st.ix != 0 then L.nextGap st.prev node.axisOpts else 0) +
            (L.placedAxis K prio node).axisLength * (L.placedAxis K prio node).axisAnchor := by
  have hne : ¬ L.m_axisAlignment = AxisAlignment.Even := by rw [hstart]; decide
  unfold placeNode
  simp only [hne, if_false, hscale, sub_self, mul_zero, zero_div, add_zero, sub_zero, mul_one,
    zero_mul]
  refine ⟨?_, trivial, trivial, _, rfl, ?_, ?_⟩
  · by_cases hix : st.ix = 0
    · simp [hix, placedAxis]
    · simp [hix, placedAxis]
  · cases L.m_axis <;> simp [CCNode.setPosition, placeRescale_tag]
  · by_cases hix : st.ix = 0
    · cases hax : L.m_axis <;> simp [CCNode.setPosition, axisCoord, hix, placedAxis, hax]
    · cases hax : L.m_axis <;> simp [CCNode.setPosition, axisCoord, hix, placedAxis, hax]

/-- The placement loop over a row placed with row scale 1 and row squish 1
under `axisAlignment = Start`: the running axis position is the sum of the
lengths and gaps walked so far, and every child sits at the sum of the lengths
and gaps before it plus its length times its anchor. -/
theorem foldl_placeNode_start (L : AxisLayout) (K : Defaults) (row : Row) (prio : Int)
    (rowCrossPos evenSpace : ℚ) (count : Nat)
    (hstart : L.m_axisAlignment = AxisAlignment.Start) (l : List CCNode)
    (hscale : ∀ n ∈ l, L.placeScale K 1 prio n = 1) :
    (l.foldl (placeNode L K row 1 1 prio rowCrossPos evenSpace count) placeInit).rowAxisPos =
        (l.map (fun n => (L.placedAxis K prio n).axisLength)).sum + L.gapsBetween l ∧
      (l.foldl (placeNode L K row 1 1 prio rowCrossPos evenSpace count) placeInit).prev =
        lastOpts l ∧
      (l.foldl (placeNode L K row 1 1 prio rowCrossPos evenSpace count) placeInit).ix =
        l.length ∧
      (l.foldl (placeNode L K row 1 1 prio rowCrossPos evenSpace count) placeInit).placed.length =
        l.length ∧
      ∀ p c q, l = p ++ c :: q →
        ∃ c2, (l.foldl (placeNode L K row 1 1 prio rowCrossPos evenSpace count)
            placeInit).placed[p.length]? = some c2 ∧
          c2.tag = c.tag ∧
          axisCoord L.m_axis c2.m_obPosition =
            (p.map (fun n => (L.placedAxis K prio n).axisLength)).sum + L.gapsBetween (p ++ [c]) +
              (L.placedAxis K prio c).axisLength * (L.placedAxis K prio c).axisAnchor := by
  induction l using List.reverseRecOn with
  | nil =>
    refine ⟨by simp [placeInit, gapsBetween], by simp [placeInit, lastOpts], by simp [placeInit],
      by simp [placeInit], ?_⟩
    intro p c q h
    simp at h
  | append_singleton l a ih =>
    obtain ⟨h1, h2, h3, h4, h5⟩ := ih (fun n hn => hscale n (by simp [hn]))
    obtain ⟨e1, e2, e3, c2, e4, e5, e6⟩ := placeNode_start L K row prio rowCrossPos evenSpace
      count (l.foldl (placeNode L K row 1 1 prio rowCrossPos evenSpace count) placeInit) a hstart
      (hscale a (by simp))
    rw [List.foldl_append, List.foldl_cons, List.foldl_nil]
    rw [h1, h2, h3] at e1
    rw [h1, h2, h3] at e6
    refine ⟨?_, ?_, ?_, ?_, ?_⟩
    · rw [e1, gapsBetween_concat]
      simp only [List.map_append, List.sum_append, List.map_cons, List.map_nil, List.sum_cons,
        List.sum_nil]
      ring
    · rw [e2, lastOpts_concat]
    · rw [e3, h3]
      simp
    · rw [e4]
      simp [h4]
    · intro p c q hsplit
      rcases List.eq_nil_or_concat q with hq | ⟨q2, x, hq⟩
      · subst hq
        obtain ⟨hp, hc⟩ := List.append_inj' hsplit rfl
        have hc2 : a = c := by simpa using hc
        subst hp
        subst hc2
        refine ⟨c2, ?_, e5, ?_⟩
        · rw [e4, List.getElem?_append_right (by rw [h4])]
          simp [h4]
        · rw [e6, gapsBetween_concat]
          ring
      · subst hq
        have hsplit2 : l ++ [a] = (p ++ c :: q2) ++ [x] := by rw [hsplit]; simp
        obtain ⟨hl, _⟩ := List.append_inj' hsplit2 rfl
        obtain ⟨c3, g1, g2, g3⟩ := h5 p c q2 hl
        refine ⟨c3, ?_, g2, g3⟩
        rw [e4, List.getElem?_append_left (by rw [h4, hl]; simp)]
        exact g1

/-- A row that does not overflow keeps the scale and the squish of the pass. -/
theorem rowFit_of_le (L : AxisLayout) (K : Defaults) (available : AxisPosition) (row : Row)
    (scale squish : ℚ) (h : row.axisLength ≤ available.axisLength) :
    rowFit L K available row scale squish = (scale, squish, row.axisLength) := by
  unfold rowFit
  rw [if_neg (not_lt.mpr h)]

theorem placeScale_resetScale (L : AxisLayout) (K : Defaults) (rowScale : ℚ) (prio : Int)
    (node : CCNode) :
    L.placeScale K rowScale prio (resetScale L node) = L.placeScale K rowScale prio node := by
  simp [placeScale, resetScale_axisOpts]

/-- The nodes of a row that does not overflow, placed under
`axisAlignment = Start` in a pass run at scale 1 and squish 1. -/
theorem placeRow_start (L : AxisLayout) (K : Defaults) (available : AxisPosition) (row : Row)
    (prio : Int) (rowCrossPos : ℚ) (count : Nat)
    (hstart : L.m_axisAlignment = AxisAlignment.Start)
    (hfit : row.axisLength ≤ available.axisLength) :
    ∃ row2 evenSpace, (placeRow L K available row 1 1 prio rowCrossPos count).nodes =
      (row.nodes.foldl (placeNode L K row2 1 1 prio rowCrossPos evenSpace count) placeInit).placed := by
  unfold placeRow
  rw [rowFit_of_le L K available row 1 1 hfit]
  simp only [hstart]
  exact ⟨_, _, rfl⟩

/-- The positioning of a single row. -/
theorem positionRows_single (L : AxisLayout) (K : Defaults) (parent : CCNode) (count : Nat)
    (scale squish : ℚ) (prio : Int) (row : Row) (total : ℚ) :
    ∃ available rowCrossPos, available.axisLength = (nodeAxis parent L.m_axis 1).axisLength ∧
      (L.positionRows K parent count scale squish prio [row] total).2 =
        [placeRow L K available row scale squish prio rowCrossPos count] := by
  unfold positionRows
  simp only [List.reverse_singleton, ite_self, placeRows]
  refine ⟨_, _, ?_, rfl⟩
  split <;> rfl

/-- Without wrapping, the axis length stored in the single row is the length
consumed by all children. -/
theorem fitRows_axisLength_of_not_grow (L : AxisLayout) (K : Defaults) (parent : CCNode)
    (nodes : List CCNode) (minMaxPrios : Int × Int) (doAutoScale : Bool) (scale squish : ℚ)
    (prio : Int) (hgrow : L.m_growCrossAxis = false) :
    ∀ row ∈ (L.fitRows K parent nodes minMaxPrios doAutoScale scale squish prio).rows,
      row.axisLength =
        L.consumed K minMaxPrios scale squish prio (nodes.map (resetScale L)) := by
  cases nodes with
  | nil =>
    intro row hrow
    simp [fitRows, fitRowsLoop] at hrow
  | cons node rest =>
    have hnil := fitInRowLoop_of_not_grow L K (nodeAxis parent L.m_axis 1) minMaxPrios scale
      squish prio false (Or.inl hgrow) (node :: rest) fitInit
    obtain ⟨h1, h2⟩ := fitRows_single L K parent node rest minMaxPrios doAutoScale scale squish
      prio hnil
    intro row hrow
    rw [h1, List.mem_singleton] at hrow
    subst hrow
    rw [← h2, packed_fitInRow]
    exact fitInRowLoop_fitInv L K (nodeAxis parent L.m_axis 1) minMaxPrios scale squish prio
      false (node :: rest) fitInit (fitInv_fitInit L K minMaxPrios scale squish prio)

end AxisLayout

/-- C10: for `axisAlignment = Start` and `growCrossAxis = false`, in a pass
run at scale 1 and squish 1 in which every child is placed with scale 1 and
the row does not exceed the available length, the partition is one row with
all children (in the order of the child list, reversed when `axisReverse` is
set), and the placement writes for each child of the row the axis coordinate:
sum of the axis lengths of the children before it in the row, plus the
resolved gaps up to it, plus its own axis length times its axis anchor.  For
three children of length 100 without gaps the coordinates are 0, 100 and 200,
each plus 100 times the anchor of the child. -/
theorem start_alignment_positions (L : AxisLayout) (K : Defaults) (parent : CCNode)
    (nodes : List CCNode) (minMaxPrios : Int × Int) (doAutoScale : Bool) (prio : Int)
    (count : Nat)
    (hstart : L.m_axisAlignment = AxisAlignment.Start) (hgrow : L.m_growCrossAxis = false)
    (hne : nodes ≠ [])
    (hscale : ∀ n ∈ nodes, L.placeScale K 1 prio n = 1)
    (hfit : ∀ row ∈ (L.fitRows K parent nodes minMaxPrios doAutoScale 1 1 prio).rows,
      row.axisLength ≤ (nodeAxis parent L.m_axis 1).axisLength) :
    ∃ row placedRow,
      (L.fitRows K parent nodes minMaxPrios doAutoScale 1 1 prio).rows = [row] ∧
      row.nodes = (if L.m_axisReverse then (nodes.map (AxisLayout.resetScale L)).reverse
        else nodes.map (AxisLayout.resetScale L)) ∧
      (L.positionRows K parent count 1 1 prio
        (L.fitRows K parent nodes minMaxPrios doAutoScale 1 1 prio).rows
        (L.fitRows K parent nodes minMaxPrios doAutoScale 1 1 prio).totalRowCrossLength).2 =
          [placedRow] ∧
      placedRow.nodes.length = row.nodes.length ∧
      (∀ p c q, row.nodes = p ++ c :: q →
        ∃ c2, placedRow.nodes[p.length]? = some c2 ∧ c2.tag = c.tag ∧
          AxisLayout.axisCoord L.m_axis c2.m_obPosition =
            (p.map (fun n => (L.placedAxis K prio n).axisLength)).sum +
              L.gapsBetween (p ++ [c]) +
              (L.placedAxis K prio c).axisLength * (L.placedAxis K prio c).axisAnchor) ∧
      (∀ c1 c2 c3, row.nodes = [c1, c2, c3] →
        (L.placedAxis K prio c1).axisLength = 100 → (L.placedAxis K prio c2).axisLength = 100 →
        (L.placedAxis K prio c3).axisLength = 100 →
        L.nextGap c1.axisOpts c2.axisOpts = 0 → L.nextGap c2.axisOpts c3.axisOpts = 0 →
        placedRow.nodes.map (fun n => AxisLayout.axisCoord L.m_axis n.m_obPosition) =
          [0 + 100 * (L.placedAxis K prio c1).axisAnchor,
            100 + 100 * (L.placedAxis K prio c2).axisAnchor,
            200 + 100 * (L.placedAxis K prio c3).axisAnchor]) := by
  obtain ⟨row, hrows, hpacked⟩ : ∃ row,
      (L.fitRows K parent nodes minMaxPrios doAutoScale 1 1 prio).rows = [row] ∧
        L.packed row = nodes.map (AxisLayout.resetScale L) := by
    cases nodes with
    | nil => exact absurd rfl hne
    | cons node rest =>
      exact ⟨_, AxisLayout.fitRows_single L K parent node rest minMaxPrios doAutoScale 1 1
        prio (AxisLayout.fitInRowLoop_of_not_grow L K _ minMaxPrios 1 1 prio false
          (Or.inl hgrow) _ _)⟩
  have hrowfit : row.axisLength ≤ (nodeAxis parent L.m_axis 1).axisLength :=
    hfit row (by rw [hrows]; simp)
  have hrowscale : ∀ n ∈ row.nodes, L.placeScale K 1 prio n = 1 := by
    intro n hn
    have hmem : n ∈ L.packed row := (AxisLayout.packed_perm L row).symm.subset hn
    rw [hpacked, List.mem_map] at hmem
    obtain ⟨m, hm, rfl⟩ := hmem
    rw [AxisLayout.placeScale_resetScale]
    exact hscale m hm
  obtain ⟨available, rowCrossPos, hav, hpos⟩ := AxisLayout.positionRows_single L K parent count
    1 1 prio row (L.fitRows K parent nodes minMaxPrios doAutoScale 1 1 prio).totalRowCrossLength
  obtain ⟨row2, evenSpace, hplaced⟩ := AxisLayout.placeRow_start L K available row prio
    rowCrossPos count hstart (by rw [hav]; exact hrowfit)
  obtain ⟨_, _, _, hlen, hcoord⟩ := AxisLayout.foldl_placeNode_start L K row2 prio rowCrossPos
    evenSpace count hstart row.nodes hrowscale
  rw [← hplaced] at hlen hcoord
  have horder : row.nodes = (if L.m_axisReverse then (nodes.map (AxisLayout.resetScale L)).reverse
      else nodes.map (AxisLayout.resetScale L)) := by
    unfold AxisLayout.packed at hpacked
    by_cases hr : L.m_axisReverse = true
    · rw [if_pos hr] at hpacked ⊢
      rw [← hpacked, List.reverse_reverse]
    · rw [if_neg hr] at hpacked ⊢
      exact hpacked
  refine ⟨row, _, hrows, horder, by rw [hrows]; exact hpos, hlen, hcoord, ?_⟩
  intro c1 c2 c3 hnodes hl1 hl2 hl3 hg12 hg23
  obtain ⟨d1, hd1, _, hx1⟩ := hcoord [] c1 [c2, c3] (by rw [hnodes]; rfl)
  obtain ⟨d2, hd2, _, hx2⟩ := hcoord [c1] c2 [c3] (by rw [hnodes]; rfl)
  obtain ⟨d3, hd3, _, hx3⟩ := hcoord [c1, c2] c3 [] (by rw [hnodes]; rfl)
  rw [hnodes] at hlen
  obtain ⟨e1, e2, e3, he⟩ := List.length_eq_three.mp hlen
  rw [he] at hd1 hd2 hd3 ⊢
  simp only [List.length_nil, List.length_cons, List.getElem?_cons_zero, List.getElem?_cons_succ,
    Option.some.injEq, zero_add, Nat.reduceAdd] at hd1 hd2 hd3
  subst hd1
  subst hd2
  subst hd3
  simp only [List.map_cons, List.map_nil, hx1, hx2, hx3, hl1, hl2, hl3, List.sum_cons,
    List.sum_nil, AxisLayout.gapsBetween, List.nil_append, List.cons_append, hg12, hg23]
  norm_num

/-- Witness of C10: three children of width 100, anchored at their centre, in
a container of width 300 without wrapping: the axis coordinates are 50, 150
and 250. -/
theorem start_alignment_positions_witness :
    ∃ placedRow,
      ((exampleLayout false).positionRows exampleDefaults (exampleNode 0 300 none) 3 1 1 0
        ((exampleLayout false).fitRows exampleDefaults (exampleNode 0 300 none)
          [exampleNode 1 100 none, exampleNode 2 100 none, exampleNode 3 100 none]
          (0, 0) true 1 1 0).rows
        ((exampleLayout false).fitRows exampleDefaults (exampleNode 0 300 none)
          [exampleNode 1 100 none, exampleNode 2 100 none, exampleNode 3 100 none]
          (0, 0) true 1 1 0).totalRowCrossLength).2 = [placedRow] ∧
      placedRow.nodes.map (fun n => AxisLayout.axisCoord Axis.Row n.m_obPosition) =
        [50, 150, 250] := by
  have hlen : ∀ t : Nat, ((exampleLayout false).placedAxis exampleDefaults 0
      (AxisLayout.resetScale (exampleLayout false) (exampleNode t 100 none))).axisLength = 100 := by
    intro t
    norm_num [AxisLayout.placedAxis, AxisLayout.placeRescale, AxisLayout.placeScale, nodeAxis,
      AxisLayout.resetScale, AxisLayout.shouldAutoScale, exampleLayout, exampleNode,
      exampleDefaults, scaleByOpts, optsScalePrio, optsMinScale, optsMaxScale, optsRelScale,
      CCNode.setScale, CCNode.setBaseScale, CCNode.getScaledContentSize, CCSize.scale]
  have hanchor : ∀ t : Nat, ((exampleLayout false).placedAxis exampleDefaults 0
      (AxisLayout.resetScale (exampleLayout false) (exampleNode t 100 none))).axisAnchor =
        1 / 2 := by
    intro t
    norm_num [AxisLayout.placedAxis, AxisLayout.placeRescale, AxisLayout.placeScale, nodeAxis,
      AxisLayout.resetScale, AxisLayout.shouldAutoScale, exampleLayout, exampleNode,
      exampleDefaults, scaleByOpts, optsScalePrio, optsMinScale, optsMaxScale, optsRelScale,
      CCNode.setScale, CCNode.setBaseScale, CCNode.getScaledContentSize, CCSize.scale]
  obtain ⟨row, placedRow, _, hpacked, hpos, _, _, hscen⟩ :=
    start_alignment_positions (exampleLayout false) exampleDefaults (exampleNode 0 300 none)
      [exampleNode 1 100 none, exampleNode 2 100 none, exampleNode 3 100 none]
      (0, 0) true 0 3 rfl rfl (by simp)
      (by
        intro n hn
        simp only [List.mem_cons, List.mem_singleton, List.not_mem_nil, or_false] at hn
        rcases hn with rfl | rfl | rfl <;>
          norm_num [AxisLayout.placeScale, AxisLayout.shouldAutoScale, exampleLayout,
            exampleNode, exampleDefaults, scaleByOpts, optsScalePrio, optsMinScale,
            optsMaxScale, optsRelScale])
      (by
        intro row hrow
        rw [AxisLayout.fitRows_axisLength_of_not_grow (exampleLayout false) exampleDefaults
          (exampleNode 0 300 none) _ (0, 0) true 1 1 0 rfl row hrow]
        norm_num [AxisLayout.consumed, AxisLayout.passLength, AxisLayout.passGap,
          AxisLayout.nextGap, nodeAxis, AxisLayout.resetScale, AxisLayout.shouldAutoScale,
          exampleLayout, exampleNode, exampleDefaults, scaleByOpts, optsScalePrio, optsMinScale,
          optsMaxScale, optsRelScale, CCNode.setScale, CCNode.getScaledContentSize,
          CCSize.scale])
  have hnodes : row.nodes =
      [AxisLayout.resetScale (exampleLayout false) (exampleNode 1 100 none),
        AxisLayout.resetScale (exampleLayout false) (exampleNode 2 100 none),
        AxisLayout.resetScale (exampleLayout false) (exampleNode 3 100 none)] := by
    simpa [exampleLayout] using hpacked
  refine ⟨placedRow, hpos, ?_⟩
  have h := hscen _ _ _ hnodes (hlen 1) (hlen 2) (hlen 3) rfl rfl
  rw [hanchor 1, hanchor 2, hanchor 3] at h
  have hax : (exampleLayout false).m_axis = Axis.Row := rfl
  rw [hax] at h
  rw [h]
  norm_num

/-! ## The seed of the solver -/

/-- The tier handed to `maxScaleForPrio` is not read. -/
theorem AxisLayout.maxScaleForPrio_prio (L : AxisLayout) (nodes : List CCNode) (p q : Int) :
    L.maxScaleForPrio nodes p = L.maxScaleForPrio nodes q := rfl

/-- C17, evaluated on two children, the first of priority 1 with
`maxScale = 1` and the second of priority 0 with `maxScale = 2`: the highest
tier is 1, the only child at tier 1 has `maxScale = 1`, and `apply` starts
the solver at scale 2, squish 1 and tier 1. -/
theorem apply_seed_reads_lower_tier :
    (exampleLayout false).applyScan
        [exampleBox 1 { width := 40, height := 40 } 1 (some (tierOptions 1 1)) none,
          exampleBox 2 { width := 40, height := 40 } 1 (some (tierOptions 0 2)) none] =
        ((0, 1), true) ∧
      ([exampleBox 1 { width := 40, height := 40 } 1 (some (tierOptions 1 1)) none,
          exampleBox 2 { width := 40, height := 40 } 1 (some (tierOptions 0 2)) none].filter
        (fun n => decide (optsScalePrio exampleDefaults n.axisOpts = 1))).map
          (fun n => optsMaxScale n.axisOpts) = [1] ∧
      (exampleLayout false).maxScaleForPrio
        [exampleBox 1 { width := 40, height := 40 } 1 (some (tierOptions 1 1)) none,
          exampleBox 2 { width := 40, height := 40 } 1 (some (tierOptions 0 2)) none] 1 = 2 ∧
      ∀ fuel, (exampleLayout false).apply exampleDefaults fuel (exampleNode 0 300 none)
          [exampleBox 1 { width := 40, height := 40 } 1 (some (tierOptions 1 1)) none,
            exampleBox 2 { width := 40, height := 40 } 1 (some (tierOptions 0 2)) none] =
        (exampleLayout false).tryFitLayout exampleDefaults (exampleNode 0 300 none) (0, 1) true
          fuel
          [exampleBox 1 { width := 40, height := 40 } 1 (some (tierOptions 1 1)) none,
            exampleBox 2 { width := 40, height := 40 } 1 (some (tierOptions 0 2)) none] 2 1 1 := by
  have hscan : (exampleLayout false).applyScan
      [exampleBox 1 { width := 40, height := 40 } 1 (some (tierOptions 1 1)) none,
        exampleBox 2 { width := 40, height := 40 } 1 (some (tierOptions 0 2)) none] =
      ((0, 1), true) := by
    simp [AxisLayout.applyScan, exampleBox, tierOptions, exampleOptions, exampleLayout]
  have hmax : (exampleLayout false).maxScaleForPrio
      [exampleBox 1 { width := 40, height := 40 } 1 (some (tierOptions 1 1)) none,
        exampleBox 2 { width := 40, height := 40 } 1 (some (tierOptions 0 2)) none] 1 = 2 := by
    norm_num [AxisLayout.maxScaleForPrio, optsMaxScale, exampleBox, tierOptions, exampleOptions]
  refine ⟨hscan, ?_, hmax, ?_⟩
  · simp [optsScalePrio, optsMaxScale, exampleBox, tierOptions, exampleOptions]
  · intro fuel
    unfold AxisLayout.apply
    simp only [hscan, hmax]

/-! ## Empty child list -/

/-- The pass of `tryFitLayout` over an empty child list is accepted at once
and positions no row. -/
theorem AxisLayout.tryFitLayout_nil (L : AxisLayout) (K : Defaults) (parent : CCNode)
    (minMaxPrios : Int × Int) (fuel : Nat) (scale squish : ℚ) (prio : Int) :
    L.tryFitLayout K parent minMaxPrios false (fuel + 1) [] scale squish prio =
      some (L.positionRows K parent 0 scale squish prio [] 0) := by
  simp [AxisLayout.tryFitLayout, AxisLayout.fitRows, AxisLayout.fitRowsLoop,
    AxisLayout.packedNodes, AxisLayout.retryArgs]

/-- Counterexample of C15: with `allowCrossAxisOverflow` set, `apply` on a
container of content size 300 x 40 without children sets the content size to
300 x 0. -/
theorem apply_nil_resizes_container :
    (overflowLayout.apply exampleDefaults 1 (exampleNode 0 300 none) []).map
        (fun r => (r.1.m_obContentSize, r.2)) = some ({ width := 300, height := 0 }, []) ∧
      (exampleNode 0 300 none).m_obContentSize = { width := 300, height := 40 } := by
  constructor
  · simp [AxisLayout.apply, AxisLayout.applyScan, AxisLayout.tryFitLayout_nil,
      AxisLayout.positionRows, AxisLayout.placeRows, overflowLayout, exampleLayout, exampleNode,
      nodeAxis, CCNode.setContentSize, CCNode.getScaledContentSize, CCSize.scale]
  · rfl

/-- C15 as amended: for an empty child list `apply` returns after one pass
with zero rows (no position and no scale is written); the content size of
the container is left as it is when `allowCrossAxisOverflow` is off, and its
cross-axis component is set to 0 when `allowCrossAxisOverflow` is on. -/
theorem apply_nil (L : AxisLayout) (K : Defaults) (parent : CCNode) (fuel : Nat) :
    (L.fitRows K parent [] (L.applyScan []).1 (L.applyScan []).2
        (L.maxScaleForPrio [] (L.applyScan []).1.2) 1 (L.applyScan []).1.2).rows = [] ∧
    ∃ p, L.apply K (fuel + 1) parent [] = some (p, []) ∧
      (L.m_allowCrossAxisOverflow = false → p = parent) ∧
      (L.m_allowCrossAxisOverflow = true →
        AxisLayout.crossSize L.m_axis p.m_obContentSize = 0) := by
  constructor
  · simp [AxisLayout.fitRows, AxisLayout.fitRowsLoop]
  · have h : L.apply K (fuel + 1) parent [] =
        some (L.positionRows K parent 0 (L.maxScaleForPrio [] 0) 1 0 [] 0) := by
      simp [AxisLayout.apply, AxisLayout.applyScan, AxisLayout.tryFitLayout_nil]
    refine ⟨(L.positionRows K parent 0 (L.maxScaleForPrio [] 0) 1 0 [] 0).1, ?_, ?_, ?_⟩
    · rw [h]
      simp [AxisLayout.positionRows, AxisLayout.placeRows]
    · intro hallow
      simp [AxisLayout.positionRows, hallow]
    · intro hallow
      cases hax : L.m_axis <;>
        simp [AxisLayout.positionRows, hallow, hax, AxisLayout.crossSize, CCNode.setContentSize]

/-- Witness of C15 as amended: a container of content size 300 x 40 without
children under a layout with `allowCrossAxisOverflow` off. -/
theorem apply_nil_witness :
    ∃ p, (exampleLayout false).apply exampleDefaults 1 (exampleNode 0 300 none) [] =
        some (p, []) ∧
      ((exampleLayout false).m_allowCrossAxisOverflow = false → p = exampleNode 0 300 none) ∧
      ((exampleLayout false).m_allowCrossAxisOverflow = true →
        AxisLayout.crossSize (exampleLayout false).m_axis p.m_obContentSize = 0) :=
  (apply_nil (exampleLayout false) exampleDefaults (exampleNode 0 300 none) 0).2

/-! ## The content size of the container -/

namespace AxisLayout

/-- Whatever `tryFitLayout` returns was produced by the positioning of some
pass. -/
theorem tryFitLayout_some (L : AxisLayout) (K : Defaults) (parent : CCNode)
    (minMaxPrios : Int × Int) (doAutoScale : Bool) (fuel : Nat) (nodes : List CCNode)
    (scale squish : ℚ) (prio : Int) (r : CCNode × List Row)
    (h : L.tryFitLayout K parent minMaxPrios doAutoScale fuel nodes scale squish prio = some r) :
    ∃ nodes2 scale2 squish2 prio2,
      nodes2.map (resetScale L) = nodes.map (resetScale L) ∧
      r = L.positionRows K parent
        (L.packedNodes (L.fitRows K parent nodes2 minMaxPrios doAutoScale scale2 squish2
          prio2).rows).length scale2 squish2 prio2
        (L.fitRows K parent nodes2 minMaxPrios doAutoScale scale2 squish2 prio2).rows
        (L.fitRows K parent nodes2 minMaxPrios doAutoScale scale2 squish2
          prio2).totalRowCrossLength := by
  induction fuel generalizing nodes scale squish prio with
  | zero => simp [tryFitLayout] at h
  | succ n ih =>
    rw [tryFitLayout] at h
    split at h
    · exact absurd h (by simp)
    · obtain ⟨nodes2, s2, q2, p2, hn, hr⟩ := ih _ _ _ _ h
      refine ⟨nodes2, s2, q2, p2, ?_, hr⟩
      rw [hn, fitRows_packedNodes, map_resetScale_idem]
    · exact ⟨nodes, scale, squish, prio, rfl, (Option.some.inj h).symm⟩

end AxisLayout

namespace AxisLayout

theorem resetScale_of_not_auto (L : AxisLayout) (node : CCNode)
    (h : L.shouldAutoScale node.axisOpts = false) : resetScale L node = node := by
  simp [resetScale, h]

theorem placeRescale_of_not_auto (L : AxisLayout) (K : Defaults) (rowScale : ℚ) (prio : Int)
    (node : CCNode) (h : L.shouldAutoScale node.axisOpts = false) :
    placeRescale L K rowScale prio node = node := by
  simp [placeRescale, h]

theorem map_resetScale_of_not_auto (L : AxisLayout) (nodes : List CCNode)
    (h : ∀ n ∈ nodes, L.shouldAutoScale n.axisOpts = false) :
    nodes.map (resetScale L) = nodes := by
  induction nodes with
  | nil => rfl
  | cons a t ih =>
    rw [List.map_cons, resetScale_of_not_auto L a (h a (by simp)),
      ih (fun n hn => h n (List.mem_cons_of_mem _ hn))]

/-- The placement loop over nodes without auto-scale keeps the identity and
the scale of every node, in order. -/
theorem foldl_placeNode_scaleKey (L : AxisLayout) (K : Defaults) (row : Row)
    (rowScale rowSquish : ℚ) (prio : Int) (rowCrossPos evenSpace : ℚ) (count : Nat)
    (nodes : List CCNode) (st : PlaceState)
    (h : ∀ n ∈ nodes, L.shouldAutoScale n.axisOpts = false) :
    (nodes.foldl (placeNode L K row rowScale rowSquish prio rowCrossPos evenSpace count)
      st).placed.map scaleKey = st.placed.map scaleKey ++ nodes.map scaleKey := by
  induction nodes generalizing st with
  | nil => simp
  | cons a rest ih =>
    rw [List.foldl_cons, ih _ (fun n hn => h n (List.mem_cons_of_mem _ hn))]
    obtain ⟨x, y, hp⟩ := placeNode_placed L K row rowScale rowSquish prio rowCrossPos evenSpace
      count st a
    rw [hp, placeRescale_of_not_auto L K rowScale prio a (h a (by simp))]
    simp [CCNode.setPosition, scaleKey]

theorem placeRow_scaleKey (L : AxisLayout) (K : Defaults) (available : AxisPosition) (row : Row)
    (scale squish : ℚ) (prio : Int) (rowCrossPos : ℚ) (count : Nat)
    (h : ∀ n ∈ row.nodes, L.shouldAutoScale n.axisOpts = false) :
    (placeRow L K available row scale squish prio rowCrossPos count).nodes.map scaleKey =
      row.nodes.map scaleKey := by
  unfold placeRow
  simp [foldl_placeNode_scaleKey _ _ _ _ _ _ _ _ _ _ _ h]

theorem placeRows_scaleKey (L : AxisLayout) (K : Defaults) (available : AxisPosition)
    (scale squish : ℚ) (prio : Int) (columnSquish rowsEndsLength rowEvenSpace : ℚ)
    (rowCount count : Nat) (rows : List Row) (rowCrossPos : ℚ)
    (h : ∀ row ∈ rows, ∀ n ∈ row.nodes, L.shouldAutoScale n.axisOpts = false) :
    (placeRows L K available scale squish prio columnSquish rowsEndsLength rowEvenSpace
      rowCount count rows rowCrossPos).map (fun r => r.nodes.map scaleKey) =
      rows.map (fun r => r.nodes.map scaleKey) := by
  induction rows generalizing rowCrossPos with
  | nil => simp [placeRows]
  | cons row rest ih =>
    rw [placeRows]
    simp only [List.map_cons, List.cons.injEq]
    exact ⟨placeRow_scaleKey _ _ _ _ _ _ _ _ _ (h row (by simp)),
      ih _ (fun r hr => h r (List.mem_cons_of_mem _ hr))⟩

theorem flatMap_map_eq_flatten (rows : List Row) :
    (rows.flatMap Row.nodes).map scaleKey =
      (rows.map (fun r => r.nodes.map scaleKey)).flatten := by
  induction rows with
  | nil => rfl
  | cons r t ih => simp [List.flatMap_cons, ih]

/-- The positioning of rows whose nodes have no auto-scale keeps the identity
and the scale of every node. -/
theorem positionRows_scaleKey (L : AxisLayout) (K : Defaults) (parent : CCNode) (count : Nat)
    (scale squish : ℚ) (prio : Int) (rows : List Row) (total : ℚ)
    (h : ∀ row ∈ rows, ∀ n ∈ row.nodes, L.shouldAutoScale n.axisOpts = false) :
    (((L.positionRows K parent count scale squish prio rows total).2.flatMap Row.nodes).map
      scaleKey).Perm ((rows.flatMap Row.nodes).map scaleKey) := by
  rw [flatMap_map_eq_flatten, flatMap_map_eq_flatten]
  unfold positionRows
  by_cases hr : L.m_crossReverse = true
  · simp only [hr, if_true]
    rw [placeRows_scaleKey _ _ _ _ _ _ _ _ _ _ _ _ _
      (fun row hrow => h row (List.mem_reverse.mp hrow)), List.map_reverse]
    exact (List.reverse_perm _).flatten
  · have hf : L.m_crossReverse = false := by simpa using hr
    simp only [hf, Bool.false_eq_true, if_false]
    rw [placeRows_scaleKey _ _ _ _ _ _ _ _ _ _ _ _ _ h]

/-- The two advisory factors kept by the partition loop are zero or lie
strictly between zero and the scale, or the squish, of the pass. -/
theorem fitRows_factors (L : AxisLayout) (K : Defaults) (parent : CCNode)
    (nodes : List CCNode) (minMaxPrios : Int × Int) (doAutoScale : Bool) (scale squish : ℚ)
    (prio : Int) :
    ((L.fitRows K parent nodes minMaxPrios doAutoScale scale squish prio).crossScaleDownFactor = 0 ∨
      (0 < (L.fitRows K parent nodes minMaxPrios doAutoScale scale squish
          prio).crossScaleDownFactor ∧
        (L.fitRows K parent nodes minMaxPrios doAutoScale scale squish
          prio).crossScaleDownFactor < scale)) ∧
    ((L.fitRows K parent nodes minMaxPrios doAutoScale scale squish prio).crossSquishFactor = 0 ∨
      (0 < (L.fitRows K parent nodes minMaxPrios doAutoScale scale squish
          prio).crossSquishFactor ∧
        (L.fitRows K parent nodes minMaxPrios doAutoScale scale squish
          prio).crossSquishFactor < squish)) := by
  refine fitRowsLoop_invariant L K parent minMaxPrios doAutoScale scale squish prio
    (fun st => (st.crossScaleDownFactor = 0 ∨
        (0 < st.crossScaleDownFactor ∧ st.crossScaleDownFactor < scale)) ∧
      (st.crossSquishFactor = 0 ∨ (0 < st.crossSquishFactor ∧ st.crossSquishFactor < squish)))
    ?_ nodes.length (rowsInit nodes) (by simp [rowsInit])
  intro st _ h
  obtain ⟨h1, h2⟩ := h
  constructor
  · simp only [fitRowsStep]
    split
    · rename_i hc
      right
      rcases h1 with h0 | hpos
      · exact ⟨by rw [h0] at hc; exact hc.1, hc.2⟩
      · exact ⟨lt_trans hpos.1 hc.1, hc.2⟩
    · exact h1
  · simp only [fitRowsStep]
    split
    · rename_i hc
      right
      rcases h2 with h0 | hpos
      · exact ⟨by rw [h0] at hc; exact hc.1, hc.2⟩
      · exact ⟨lt_trans hpos.1 hc.1, hc.2⟩
    · exact h2

theorem shouldAutoScale_of_false (L : AxisLayout) (n : CCNode)
    (h : ∃ o, n.axisOpts = some o ∧ o.getAutoScale = some false) :
    L.shouldAutoScale n.axisOpts = false := by
  obtain ⟨o, ho, hf⟩ := h
  simp [shouldAutoScale, ho, hf]

/-- The scan of `apply` leaves the auto-scale flag off when auto-scale applies
to no child. -/
theorem applyScan_snd (L : AxisLayout) (nodes : List CCNode)
    (h : ∀ n ∈ nodes, L.shouldAutoScale n.axisOpts = false) :
    (L.applyScan nodes).2 = false := by
  unfold applyScan
  generalize hinit : (((0 : Int), (0 : Int)), false, true) = acc
  have hacc : acc.2.1 = false := by rw [← hinit]
  clear hinit
  induction nodes generalizing acc with
  | nil => simpa using hacc
  | cons a t ih =>
    rw [List.foldl_cons]
    apply ih (fun n hn => h n (List.mem_cons_of_mem _ hn))
    have ha := h a (by simp)
    cases hopt : a.axisOpts with
    | none =>
      rw [hopt] at ha
      simp only [shouldAutoScale] at ha
      simp [ha, hacc]
    | some o =>
      rw [hopt] at ha
      simp only [shouldAutoScale] at ha
      simp [ha, hacc]

/-- Without the auto-scale flag, a pass run at squish 1 in a container of
positive cross length is accepted. -/
theorem retryArgs_of_not_autoScale (L : AxisLayout) (K : Defaults) (parent : CCNode)
    (nodes nodes2 : List CCNode) (minMaxPrios : Int × Int) (scale : ℚ) (prio : Int) (fuel : Nat)
    (hpos : 0 < (nodeAxis parent L.m_axis 1).crossLength) :
    L.retryArgs K parent nodes2 minMaxPrios false scale 1 prio
      (L.fitRows K parent nodes minMaxPrios false scale 1 prio) fuel = some none := by
  have hf := (fitRows_factors L K parent nodes minMaxPrios false scale 1 prio).2
  unfold retryArgs
  simp only [Bool.and_false, Bool.false_and, Bool.false_eq_true, if_false]
  by_cases hc : (!L.m_allowCrossAxisOverflow &&
      decide ((L.fitRows K parent nodes minMaxPrios false scale 1 prio).totalRowCrossLength >
        (nodeAxis parent L.m_axis 1).crossLength)) = true
  · rw [if_pos hc]
    simp only [Bool.and_eq_true, decide_eq_true_eq] at hc
    have hgt : 1 < (L.fitRows K parent nodes minMaxPrios false scale 1 prio).totalRowCrossLength /
        (nodeAxis parent L.m_axis 1).crossLength := by
      rw [lt_div_iff₀ hpos]
      simpa using hc.2
    rw [if_neg]
    rcases hf with h0 | ⟨_, hlt⟩
    · rw [h0]
      exact not_lt.mpr (le_trans zero_le_one hgt.le)
    · exact not_lt.mpr (le_trans hlt.le hgt.le)
  · rw [if_neg hc]

end AxisLayout

/-- C11: when every child carries options with `autoScale` explicitly false,
no pass of the packer writes to a child (the children leave the partition
loop as they entered it), every result of `apply` holds exactly the input
children with their scales unchanged, and in a container of positive cross
length `apply` returns after one pass. -/
theorem apply_keeps_scale (L : AxisLayout) (K : Defaults) (parent : CCNode)
    (nodes : List CCNode)
    (hopts : ∀ n ∈ nodes, ∃ o, n.axisOpts = some o ∧ o.getAutoScale = some false) :
    (∀ minMaxPrios doAutoScale scale squish prio,
      L.packedNodes (L.fitRows K parent nodes minMaxPrios doAutoScale scale squish prio).rows =
        nodes) ∧
    (∀ fuel r, L.apply K fuel parent nodes = some r →
      ((r.2.flatMap Row.nodes).map AxisLayout.scaleKey).Perm
        (nodes.map AxisLayout.scaleKey)) ∧
    (0 < (nodeAxis parent L.m_axis 1).crossLength →
      ∃ r, L.apply K 1 parent nodes = some r) := by
  have hauto : ∀ n ∈ nodes, L.shouldAutoScale n.axisOpts = false :=
    fun n hn => AxisLayout.shouldAutoScale_of_false L n (hopts n hn)
  have hreset := AxisLayout.map_resetScale_of_not_auto L nodes hauto
  refine ⟨?_, ?_, ?_⟩
  · intro mm das scale squish prio
    rw [AxisLayout.fitRows_packedNodes, hreset]
  · intro fuel r h
    unfold AxisLayout.apply at h
    obtain ⟨nodes2, s2, q2, p2, hn, hr⟩ := AxisLayout.tryFitLayout_some _ _ _ _ _ _ _ _ _ _ _ h
    rw [hreset] at hn
    have hpacked := AxisLayout.fitRows_packedNodes L K parent nodes2 (L.applyScan nodes).1
      (L.applyScan nodes).2 s2 q2 p2
    rw [hn] at hpacked
    have hperm := AxisLayout.packedNodes_perm L
      (L.fitRows K parent nodes2 (L.applyScan nodes).1 (L.applyScan nodes).2 s2 q2 p2).rows
    rw [hpacked] at hperm
    have hrows : ∀ row ∈ (L.fitRows K parent nodes2 (L.applyScan nodes).1 (L.applyScan nodes).2
        s2 q2 p2).rows, ∀ n ∈ row.nodes, L.shouldAutoScale n.axisOpts = false := by
      intro row hrow n hnmem
      exact hauto n (hperm.symm.subset (List.mem_flatMap.mpr ⟨row, hrow, hnmem⟩))
    rw [hr]
    exact (AxisLayout.positionRows_scaleKey L K parent _ s2 q2 p2 _ _ hrows).trans
      (hperm.symm.map AxisLayout.scaleKey)
  · intro hpos
    unfold AxisLayout.apply
    rw [AxisLayout.tryFitLayout, AxisLayout.applyScan_snd L nodes hauto]
    simp only [AxisLayout.retryArgs_of_not_autoScale L K parent nodes _ _ _ _ _ hpos]
    exact ⟨_, rfl⟩

/-- Witness of C11: two children of width 100 whose options switch auto-scale
off, one of them at scale 3, in a container of 300 x 40 under a layout whose
default auto-scale is on. -/
theorem apply_keeps_scale_witness :
    ∃ r, (exampleLayout true).apply exampleDefaults 1 (exampleNode 0 300 none)
        [exampleBox 1 { width := 100, height := 40 } 3
            (some { exampleOptions false false with getAutoScale := some false }) none,
          exampleNode 2 100 (some { exampleOptions false false with getAutoScale := some false })] =
        some r ∧
      ((r.2.flatMap Row.nodes).map AxisLayout.scaleKey).Perm [(1, 3, 3), (2, 1, 1)] := by
  have h := apply_keeps_scale (exampleLayout true) exampleDefaults (exampleNode 0 300 none)
    [exampleBox 1 { width := 100, height := 40 } 3
        (some { exampleOptions false false with getAutoScale := some false }) none,
      exampleNode 2 100 (some { exampleOptions false false with getAutoScale := some false })]
    (by
      intro n hn
      simp only [List.mem_cons, List.mem_singleton, List.not_mem_nil, or_false] at hn
      rcases hn with rfl | rfl
      · exact ⟨_, rfl, rfl⟩
      · exact ⟨_, rfl, rfl⟩)
  obtain ⟨r, hr⟩ := h.2.2 (by
    norm_num [nodeAxis, exampleLayout, exampleNode, CCNode.getScaledContentSize, CCSize.scale])
  exact ⟨r, hr, h.2.1 1 r hr⟩

/-! ## Two calls of `apply` in succession -/

/-- C12, evaluated on a container of content size 300 x 200 at scale 2 with
one child of width 100, under an end-aligned row layout with
`allowCrossAxisOverflow`: the first call of `apply` puts the child at axis
coordinate 550 and sets the content size of the container to 600 x 40, the
second call, run on the container and the child as the first call left them,
puts the child at axis coordinate 1150. -/
theorem apply_twice_moves_child :
    overflowLayout.apply exampleDefaults 1
        (exampleBox 0 { width := 300, height := 200 } 2 none none) [exampleNode 1 100 none] =
      some ((exampleBox 0 { width := 300, height := 200 } 2 none none).setContentSize
          { width := 600, height := 40 },
        [{ nextOverflowScaleDownFactor := 6, nextOverflowSquishFactor := 6, axisLength := 100,
           crossLength := 40, axisEndsLength := 100,
           nodes := [(exampleNode 1 100 none).setPosition 550 20] }]) ∧
    overflowLayout.apply exampleDefaults 1
        ((exampleBox 0 { width := 300, height := 200 } 2 none none).setContentSize
          { width := 600, height := 40 })
        [(exampleNode 1 100 none).setPosition 550 20] =
      some ((exampleBox 0 { width := 300, height := 200 } 2 none none).setContentSize
          { width := 1200, height := 40 },
        [{ nextOverflowScaleDownFactor := 12, nextOverflowSquishFactor := 12, axisLength := 100,
           crossLength := 40, axisEndsLength := 100,
           nodes := [(exampleNode 1 100 none).setPosition 1150 20] }]) := by
  constructor
  · simp [AxisLayout.apply, AxisLayout.applyScan, AxisLayout.tryFitLayout, AxisLayout.fitRows,
      AxisLayout.fitRowsLoop, AxisLayout.fitRowsStep, AxisLayout.fitInRow,
      AxisLayout.fitInRowLoop, AxisLayout.retryArgs, AxisLayout.positionRows,
      AxisLayout.placeRows, AxisLayout.placeRow, AxisLayout.placeNode, AxisLayout.rowFit,
      AxisLayout.placeScale, AxisLayout.placeRescale, AxisLayout.packedNodes, AxisLayout.packed,
      AxisLayout.resetScale, AxisLayout.shouldAutoScale, AxisLayout.maxScaleForPrio,
      AxisLayout.nextGap, nodeAxis, scaleByOpts, optsScalePrio, optsMinScale, optsMaxScale,
      optsRelScale, isOptsBreakLine, isOptsSameLine, CCNode.getScaledContentSize,
      CCNode.setScale, CCNode.setPosition, CCNode.setContentSize, CCNode.setBaseScale,
      CCSize.scale, overflowLayout, exampleLayout, exampleBox, exampleNode, exampleDefaults]
    norm_num
  · simp [AxisLayout.apply, AxisLayout.applyScan, AxisLayout.tryFitLayout, AxisLayout.fitRows,
      AxisLayout.fitRowsLoop, AxisLayout.fitRowsStep, AxisLayout.fitInRow,
      AxisLayout.fitInRowLoop, AxisLayout.retryArgs, AxisLayout.positionRows,
      AxisLayout.placeRows, AxisLayout.placeRow, AxisLayout.placeNode, AxisLayout.rowFit,
      AxisLayout.placeScale, AxisLayout.placeRescale, AxisLayout.packedNodes, AxisLayout.packed,
      AxisLayout.resetScale, AxisLayout.shouldAutoScale, AxisLayout.maxScaleForPrio,
      AxisLayout.nextGap, nodeAxis, scaleByOpts, optsScalePrio, optsMinScale, optsMaxScale,
      optsRelScale, isOptsBreakLine, isOptsSameLine, CCNode.getScaledContentSize,
      CCNode.setScale, CCNode.setPosition, CCNode.setContentSize, CCNode.setBaseScale,
      CCSize.scale, overflowLayout, exampleLayout, exampleBox, exampleNode, exampleDefaults]
    norm_num

/-! ## The tier-drop loop -/

/-- When the largest `maxScale` of the children is 0, the tier-drop loop finds
no tier, whatever its fuel. -/
theorem AxisLayout.dropPrio_of_max_zero (L : AxisLayout) (nodes : List CCNode)
    (hmax : L.maxScaleForPrio nodes 0 = 0) (fuel : Nat) (prio : Int) :
    L.dropPrio nodes fuel prio = none := by
  induction fuel generalizing prio with
  | zero => rfl
  | succ n ih =>
    rw [AxisLayout.dropPrio]
    simp only [AxisLayout.maxScaleForPrio_prio L nodes (prio - 1) 0, hmax, if_true]
    exact ih _

/-- C13, evaluated on a container of size 0 x 0 with two toggler children of
priorities 1 and 0 whose `maxScale` is 0: the first pass overflows the cross
axis (40 against 0), its scale-down factor equals the scale 0, the tier 1 is
above the lowest tier 0, and the tier-drop loop then never finds a tier with
a non-zero scale, so that `apply` returns for no amount of fuel. -/
theorem apply_tier_drop_diverges :
    (exampleLayout false).maxScaleForPrio (tierNodes 0 1 (some { width := 40, height := 40 })) 0 = 0 ∧
    ((exampleLayout false).fitRows exampleDefaults
        (exampleBox 0 { width := 0, height := 0 } 1 none none)
        (tierNodes 0 1 (some { width := 40, height := 40 })) (0, 1) true 0 1
        1).totalRowCrossLength = 40 ∧
    (∀ fuel prio, (exampleLayout false).dropPrio
      ((tierNodes 0 1 (some { width := 40, height := 40 })).map
        (AxisLayout.resetScale (exampleLayout false))) fuel prio = none) ∧
    ∀ fuel, (exampleLayout false).apply exampleDefaults fuel
      (exampleBox 0 { width := 0, height := 0 } 1 none none)
      (tierNodes 0 1 (some { width := 40, height := 40 })) = none := by
  have hscan : (exampleLayout false).applyScan
      (tierNodes 0 1 (some { width := 40, height := 40 })) = ((0, 1), true) := by
    simp [AxisLayout.applyScan, tierNodes, exampleBox, tierOptions, exampleOptions, exampleLayout]
  have hmax : (exampleLayout false).maxScaleForPrio
      (tierNodes 0 1 (some { width := 40, height := 40 })) 0 = 0 := by
    norm_num [AxisLayout.maxScaleForPrio, optsMaxScale, tierNodes, exampleBox, tierOptions,
      exampleOptions]
  have hmax2 : (exampleLayout false).maxScaleForPrio
      ((tierNodes 0 1 (some { width := 40, height := 40 })).map
        (AxisLayout.resetScale (exampleLayout false))) 0 = 0 := by
    norm_num [AxisLayout.maxScaleForPrio, AxisLayout.resetScale_axisOpts, optsMaxScale, tierNodes,
      exampleBox, tierOptions, exampleOptions]
  have hmin : (exampleLayout false).minScaleForPrio exampleDefaults
      ((tierNodes 0 1 (some { width := 40, height := 40 })).map
        (AxisLayout.resetScale (exampleLayout false))) 1 = 0 := by
    norm_num [AxisLayout.minScaleForPrio, AxisLayout.resetScale_axisOpts, optsMinScale, tierNodes,
      exampleBox, tierOptions, exampleOptions]
  have htotal : ((exampleLayout false).fitRows exampleDefaults
      (exampleBox 0 { width := 0, height := 0 } 1 none none)
      (tierNodes 0 1 (some { width := 40, height := 40 })) (0, 1) true 0 1
      1).totalRowCrossLength = 40 := by
    simp [AxisLayout.fitRows, AxisLayout.fitRowsLoop, AxisLayout.fitRowsStep, AxisLayout.fitInRow,
      AxisLayout.fitInRowLoop, AxisLayout.resetScale, AxisLayout.shouldAutoScale,
      AxisLayout.nextGap, nodeAxis, scaleByOpts, optsScalePrio, optsMinScale, optsMaxScale,
      optsRelScale, isOptsBreakLine, isOptsSameLine, CCNode.getScaledContentSize,
      CCNode.setScale, CCSize.scale, exampleLayout, exampleBox, tierNodes, tierOptions,
      exampleOptions, exampleDefaults]
  have hfactor : ((exampleLayout false).fitRows exampleDefaults
      (exampleBox 0 { width := 0, height := 0 } 1 none none)
      (tierNodes 0 1 (some { width := 40, height := 40 })) (0, 1) true 0 1
      1).crossScaleDownFactor = 0 := by
    simp [AxisLayout.fitRows, AxisLayout.fitRowsLoop, AxisLayout.fitRowsStep, AxisLayout.fitInRow,
      AxisLayout.fitInRowLoop, AxisLayout.resetScale, AxisLayout.shouldAutoScale,
      AxisLayout.nextGap, nodeAxis, scaleByOpts, optsScalePrio, optsMinScale, optsMaxScale,
      optsRelScale, isOptsBreakLine, isOptsSameLine, CCNode.getScaledContentSize,
      CCNode.setScale, CCSize.scale, exampleLayout, exampleBox, tierNodes, tierOptions,
      exampleOptions, exampleDefaults]
  have hdrop := AxisLayout.dropPrio_of_max_zero (exampleLayout false)
    ((tierNodes 0 1 (some { width := 40, height := 40 })).map
      (AxisLayout.resetScale (exampleLayout false))) hmax2
  refine ⟨hmax, htotal, hdrop, ?_⟩
  intro fuel
  cases fuel with
  | zero => rfl
  | succ n =>
    have hmax1 : (exampleLayout false).maxScaleForPrio
        (tierNodes 0 1 (some { width := 40, height := 40 })) 1 = 0 := hmax
    unfold AxisLayout.apply
    simp only [hscan, hmax1]
    rw [AxisLayout.tryFitLayout, AxisLayout.fitRows_packedNodes]
    have hretry : (exampleLayout false).retryArgs exampleDefaults
        (exampleBox 0 { width := 0, height := 0 } 1 none none)
        ((tierNodes 0 1 (some { width := 40, height := 40 })).map
          (AxisLayout.resetScale (exampleLayout false))) (0, 1) true 0 1 1
        ((exampleLayout false).fitRows exampleDefaults
          (exampleBox 0 { width := 0, height := 0 } 1 none none)
          (tierNodes 0 1 (some { width := 40, height := 40 })) (0, 1) true 0 1 1) n = none := by
      unfold AxisLayout.retryArgs
      simp only [htotal, hfactor, hmin, hdrop]
      norm_num [nodeAxis, exampleLayout, exampleBox, CCNode.getScaledContentSize, CCSize.scale]
    simp only [hretry]

/-! ## Rows and gaps -/

/-- C18, evaluated on a wrapping row layout with gap 60 in a container of
width 250 with two children of width 100 and no hints, in the first pass of
`apply` (scale 1, squish 1, tier 0): the packer tests 100 + 100 against 250,
accepts the second child and leaves one row of two children whose consumed
axis length is 100 + 60 + 100 = 260. -/
theorem fitRows_row_exceeds_by_gap :
    gapLayout.applyScan [exampleNode 1 100 none, exampleNode 2 100 none] = ((0, 0), true) ∧
    gapLayout.maxScaleForPrio [exampleNode 1 100 none, exampleNode 2 100 none] 0 = 1 ∧
    (nodeAxis (exampleNode 0 250 none) gapLayout.m_axis 1).axisLength = 250 ∧
    (gapLayout.fitRows exampleDefaults (exampleNode 0 250 none)
        [exampleNode 1 100 none, exampleNode 2 100 none] (0, 0) true 1 1 0).rows.map
      (fun r => (r.nodes.map CCNode.tag, r.axisLength)) = [([1, 2], 260)] ∧
    gapLayout.consumed exampleDefaults (0, 0) 1 1 0
      ([exampleNode 1 100 none, exampleNode 2 100 none].map (AxisLayout.resetScale gapLayout)) =
        260 := by
  refine ⟨?_, ?_, ?_, ?_, ?_⟩
  · simp [AxisLayout.applyScan, exampleNode, gapLayout, exampleLayout]
  · norm_num [AxisLayout.maxScaleForPrio, optsMaxScale, exampleNode]
  · norm_num [nodeAxis, gapLayout, exampleLayout, exampleNode, CCNode.getScaledContentSize,
      CCSize.scale]
  · simp [AxisLayout.fitRows, AxisLayout.fitRowsLoop, AxisLayout.fitRowsStep, AxisLayout.fitInRow,
      AxisLayout.fitInRowLoop, AxisLayout.resetScale, AxisLayout.shouldAutoScale,
      AxisLayout.nextGap, nodeAxis, scaleByOpts, optsScalePrio, optsMinScale, optsMaxScale,
      optsRelScale, isOptsBreakLine, isOptsSameLine, CCNode.getScaledContentSize,
      CCNode.setScale, CCSize.scale, gapLayout, exampleLayout, exampleNode, exampleDefaults]
    norm_num
  · norm_num [AxisLayout.consumed, AxisLayout.passLength, AxisLayout.passGap, AxisLayout.nextGap,
      AxisLayout.resetScale, AxisLayout.shouldAutoScale, nodeAxis, scaleByOpts, optsScalePrio,
      optsMinScale, optsMaxScale, optsRelScale, CCNode.getScaledContentSize, CCNode.setScale,
      CCSize.scale, gapLayout, exampleLayout, exampleNode, exampleDefaults]

/-! ## Retries -/

namespace AxisLayout

/-- The tier-drop loop returns a lower tier together with the non-zero value
of `maxScaleForPrio`. -/
theorem dropPrio_some (L : AxisLayout) (nodes : List CCNode) (fuel : Nat) (prio p2 : Int)
    (s2 : ℚ) (h : L.dropPrio nodes fuel prio = some (p2, s2)) :
    p2 < prio ∧ s2 = L.maxScaleForPrio nodes p2 ∧ s2 ≠ 0 := by
  induction fuel generalizing prio with
  | zero => simp [dropPrio] at h
  | succ n ih =>
    rw [dropPrio] at h
    split at h
    · obtain ⟨h1, h2, h3⟩ := ih _ h
      exact ⟨by omega, h2, h3⟩
    · rename_i hne
      simp only [Option.some.injEq, Prod.mk.injEq] at h
      obtain ⟨hp, hs⟩ := h
      subst hp
      subst hs
      exact ⟨by omega, rfl, hne⟩

/-- The first pass of `apply` on the two children of `tierNodes 1 s`, whatever
their node scale `s`, in a container of 100 x 30: it ends in a tier drop that
retries at scale 1, squish 1 and tier 0. -/
theorem retryArgs_tierNodes (s : ℚ) (fuel : Nat) :
    (exampleLayout false).retryArgs exampleDefaults
      (exampleBox 0 { width := 100, height := 30 } 1 none none)
      ((tierNodes 1 s none).map (resetScale (exampleLayout false))) (0, 1) true 1 1 1
      ((exampleLayout false).fitRows exampleDefaults
        (exampleBox 0 { width := 100, height := 30 } 1 none none) (tierNodes 1 s none) (0, 1)
        true 1 1 1) (fuel + 1) = some (some (1, 1, 0)) := by
  have hmax : (exampleLayout false).maxScaleForPrio
      ((tierNodes 1 s none).map (resetScale (exampleLayout false))) (1 - 1) = 1 := by
    norm_num [maxScaleForPrio, resetScale_axisOpts, optsMaxScale, tierNodes, exampleBox,
      tierOptions, exampleOptions]
  have hmin : (exampleLayout false).minScaleForPrio exampleDefaults
      ((tierNodes 1 s none).map (resetScale (exampleLayout false))) 1 = 1 := by
    norm_num [minScaleForPrio, resetScale_axisOpts, optsMinScale, tierNodes, exampleBox,
      tierOptions, exampleOptions]
  have htotal : ((exampleLayout false).fitRows exampleDefaults
      (exampleBox 0 { width := 100, height := 30 } 1 none none) (tierNodes 1 s none) (0, 1) true
      1 1 1).totalRowCrossLength = 40 := by
    simp [fitRows, fitRowsLoop, fitRowsStep, fitInRow, fitInRowLoop, resetScale,
      shouldAutoScale, nextGap, nodeAxis, scaleByOpts, optsScalePrio, optsMinScale,
      optsMaxScale, optsRelScale, isOptsBreakLine, isOptsSameLine, CCNode.getScaledContentSize,
      CCNode.setScale, CCSize.scale, exampleLayout, exampleBox, tierNodes, tierOptions,
      exampleOptions, exampleDefaults]
  have hfactor : ((exampleLayout false).fitRows exampleDefaults
      (exampleBox 0 { width := 100, height := 30 } 1 none none) (tierNodes 1 s none) (0, 1) true
      1 1 1).crossScaleDownFactor = 0 := by
    simp [fitRows, fitRowsLoop, fitRowsStep, fitInRow, fitInRowLoop, resetScale,
      shouldAutoScale, nextGap, nodeAxis, scaleByOpts, optsScalePrio, optsMinScale,
      optsMaxScale, optsRelScale, isOptsBreakLine, isOptsSameLine, CCNode.getScaledContentSize,
      CCNode.setScale, CCSize.scale, exampleLayout, exampleBox, tierNodes, tierOptions,
      exampleOptions, exampleDefaults]
    norm_num
  unfold retryArgs
  simp only [htotal, hfactor, hmin, dropPrio, hmax]
  norm_num [nodeAxis, exampleLayout, exampleBox, CCNode.getScaledContentSize, CCSize.scale]

/-- A retry from the squish branch passes the squish factor of the pass,
which is below the squish of a pass run at a positive squish. -/
theorem squishRetry_progress (L : AxisLayout) (K : Defaults) (parent : CCNode)
    (nodes : List CCNode) (minMaxPrios : Int × Int) (doAutoScale : Bool) (scale squish : ℚ)
    (prio : Int) (hsquish : 0 < squish) (x : ℚ × ℚ × Int)
    (h : (if (!L.m_allowCrossAxisOverflow &&
          decide ((L.fitRows K parent nodes minMaxPrios doAutoScale scale squish
            prio).totalRowCrossLength > (nodeAxis parent L.m_axis 1).crossLength)) = true then
        if (L.fitRows K parent nodes minMaxPrios doAutoScale scale squish
            prio).totalRowCrossLength / (nodeAxis parent L.m_axis 1).crossLength <
            (L.fitRows K parent nodes minMaxPrios doAutoScale scale squish
              prio).crossSquishFactor then
          some (scale, (L.fitRows K parent nodes minMaxPrios doAutoScale scale squish
            prio).crossSquishFactor, prio)
        else none
      else none) = some x) :
    x.1 = scale ∧ x.2.1 < squish ∧ x.2.2 = prio ∧
      x.2.1 = (L.fitRows K parent nodes minMaxPrios doAutoScale scale squish
        prio).crossSquishFactor := by
  have hf := (fitRows_factors L K parent nodes minMaxPrios doAutoScale scale squish prio).2
  split at h
  · split at h
    · simp only [Option.some.injEq] at h
      subst h
      refine ⟨rfl, ?_, rfl, rfl⟩
      rcases hf with h0 | ⟨_, hlt⟩
      · simp only []
        rw [h0]
        exact hsquish
      · exact hlt
    · exact absurd h (by simp)
  · exact absurd h (by simp)

end AxisLayout

/-- Counterexample of C19: in the first pass of `apply` on two children of
priorities 1 and 0 with `maxScale = 1` that overflow the cross axis of their
container, `tryFitLayout` retries from the tier-drop branch with scale 1 and
squish 1, the scale and the squish of the pass itself. -/
theorem retry_tier_drop_keeps_scale :
    (exampleLayout false).applyScan (tierNodes 1 1 none) = ((0, 1), true) ∧
    (exampleLayout false).maxScaleForPrio (tierNodes 1 1 none) 1 = 1 ∧
    (exampleLayout false).retryArgs exampleDefaults
      (exampleBox 0 { width := 100, height := 30 } 1 none none)
      ((tierNodes 1 1 none).map (AxisLayout.resetScale (exampleLayout false))) (0, 1) true 1 1 1
      ((exampleLayout false).fitRows exampleDefaults
        (exampleBox 0 { width := 100, height := 30 } 1 none none) (tierNodes 1 1 none) (0, 1)
        true 1 1 1) 1 = some (some (1, 1, 0)) ∧
    ¬ ((1 : ℚ) < 1 ∨ (1 : ℚ) < 1) := by
  refine ⟨?_, ?_, AxisLayout.retryArgs_tierNodes 1 0, by norm_num⟩
  · simp [AxisLayout.applyScan, tierNodes, exampleBox, tierOptions, exampleOptions, exampleLayout]
  · norm_num [AxisLayout.maxScaleForPrio, optsMaxScale, tierNodes, exampleBox, tierOptions,
      exampleOptions]

/-- C19 as amended: in a pass run at a scale that is not negative and a
positive squish, a retry from the scale branch passes a strictly smaller
scale with the squish and the tier of the pass, a retry from the squish
branch passes a strictly smaller squish with the scale and the tier of the
pass, and a retry from the tier-drop branch passes a lower tier with the
squish of the pass and the non-zero scale `maxScaleForPrio`. -/
theorem retryArgs_progress (L : AxisLayout) (K : Defaults) (parent : CCNode)
    (nodes nodes2 : List CCNode) (minMaxPrios : Int × Int) (doAutoScale : Bool)
    (scale squish : ℚ) (prio : Int) (fuel : Nat) (s2 q2 : ℚ) (p2 : Int)
    (hscale : 0 ≤ scale) (hsquish : 0 < squish)
    (h : L.retryArgs K parent nodes2 minMaxPrios doAutoScale scale squish prio
      (L.fitRows K parent nodes minMaxPrios doAutoScale scale squish prio) fuel =
        some (some (s2, q2, p2))) :
    (s2 < scale ∧ q2 = squish ∧ p2 = prio) ∨
    (s2 = scale ∧ q2 < squish ∧ p2 = prio) ∨
    (minMaxPrios.1 < prio ∧ p2 < prio ∧ q2 = squish ∧
      s2 = L.maxScaleForPrio nodes2 p2 ∧ s2 ≠ 0) := by
  have hf := (AxisLayout.fitRows_factors L K parent nodes minMaxPrios doAutoScale scale squish
    prio).1
  have hsq := AxisLayout.squishRetry_progress L K parent nodes minMaxPrios doAutoScale scale
    squish prio hsquish (s2, q2, p2)
  unfold AxisLayout.retryArgs at h
  simp only [] at h
  split at h
  · split at h
    · split at h
      · rename_i hprio
        split at h
        · rename_i pnew snew hdrop
          simp only [Option.some.injEq, Prod.mk.injEq] at h
          obtain ⟨hs, hq, hp⟩ := h
          subst hs
          subst hq
          subst hp
          obtain ⟨h1, h2, h3⟩ := AxisLayout.dropPrio_some L nodes2 fuel prio _ _ hdrop
          exact Or.inr (Or.inr ⟨hprio, h1, rfl, h2, h3⟩)
        · exact absurd h (by simp)
      · obtain ⟨h1, h2, h3, _⟩ := hsq (Option.some.inj h)
        exact Or.inr (Or.inl ⟨h1, h2, h3⟩)
    · rename_i hcond
      simp only [Option.some.injEq, Prod.mk.injEq] at h
      obtain ⟨hs, hq, hp⟩ := h
      subst hs
      subst hq
      subst hp
      left
      refine ⟨?_, rfl, rfl⟩
      rw [not_or] at hcond
      rcases hf with h0 | ⟨_, hlt⟩
      · rw [h0] at hcond ⊢
        exact lt_of_le_of_ne hscale hcond.2
      · exact hlt
  · obtain ⟨h1, h2, h3, _⟩ := hsq (Option.some.inj h)
    exact Or.inr (Or.inl ⟨h1, h2, h3⟩)

/-- Witness of C19 as amended: the tier drop of the first pass of `apply` on
two children of priorities 1 and 0 in a container of 100 x 30. -/
theorem retryArgs_progress_witness :
    ((1 : ℚ) < 1 ∧ (1 : ℚ) = 1 ∧ (0 : Int) = 1) ∨
    ((1 : ℚ) = 1 ∧ (1 : ℚ) < 1 ∧ (0 : Int) = 1) ∨
    (((0 : Int), (1 : Int)).1 < 1 ∧ (0 : Int) < 1 ∧ (1 : ℚ) = 1 ∧
      (1 : ℚ) = (exampleLayout false).maxScaleForPrio
        ((tierNodes 1 1 none).map (AxisLayout.resetScale (exampleLayout false))) 0 ∧
      (1 : ℚ) ≠ 0) :=
  retryArgs_progress (exampleLayout false) exampleDefaults
    (exampleBox 0 { width := 100, height := 30 } 1 none none) (tierNodes 1 1 none)
    ((tierNodes 1 1 none).map (AxisLayout.resetScale (exampleLayout false))) (0, 1) true 1 1 1 1
    1 1 0 (by norm_num) (by norm_num) (AxisLayout.retryArgs_tierNodes 1 0)

/-! ## Writes of the exploration passes -/

/-- Counterexample of C20: the first pass of `apply` on two auto-scaled
children that stand at scale 3 ends in a retry, and it hands the children to
the retry at scale 1, the scale `fitInRow` has reset them to. -/
theorem exploration_pass_resets_scale :
    (exampleLayout false).retryArgs exampleDefaults
      (exampleBox 0 { width := 100, height := 30 } 1 none none)
      ((tierNodes 1 3 none).map (AxisLayout.resetScale (exampleLayout false))) (0, 1) true 1 1 1
      ((exampleLayout false).fitRows exampleDefaults
        (exampleBox 0 { width := 100, height := 30 } 1 none none) (tierNodes 1 3 none) (0, 1)
        true 1 1 1) 1 = some (some (1, 1, 0)) ∧
    ((exampleLayout false).packedNodes
      ((exampleLayout false).fitRows exampleDefaults
        (exampleBox 0 { width := 100, height := 30 } 1 none none) (tierNodes 1 3 none) (0, 1)
        true 1 1 1).rows).map AxisLayout.scaleKey = [(1, 1, 1), (2, 1, 1)] ∧
    (tierNodes 1 3 none).map AxisLayout.scaleKey = [(1, 3, 3), (2, 3, 3)] := by
  refine ⟨AxisLayout.retryArgs_tierNodes 3 0, ?_, rfl⟩
  rw [AxisLayout.fitRows_packedNodes]
  norm_num [AxisLayout.scaleKey, AxisLayout.resetScale, AxisLayout.shouldAutoScale,
    CCNode.setScale, optsMaxScale, optsRelScale, tierNodes, exampleBox, tierOptions,
    exampleOptions, exampleLayout]

/-- C20 as amended: a pass of `tryFitLayout` that ends in a retry hands the
container to the retry as it is and the children with one change only, the
scale reset of `fitInRow`: a child to which auto-scale applies has its scale
set to `maxScale * relativeScale`, a child without auto-scale is not written
to, and no position is written. -/
theorem exploration_pass_effect (L : AxisLayout) (K : Defaults) (parent : CCNode)
    (minMaxPrios : Int × Int) (doAutoScale : Bool) (fuel : Nat) (nodes : List CCNode)
    (scale squish : ℚ) (prio : Int) (s2 q2 : ℚ) (p2 : Int)
    (h : L.retryArgs K parent (nodes.map (AxisLayout.resetScale L)) minMaxPrios doAutoScale scale
      squish prio (L.fitRows K parent nodes minMaxPrios doAutoScale scale squish prio) fuel =
        some (some (s2, q2, p2))) :
    L.tryFitLayout K parent minMaxPrios doAutoScale (fuel + 1) nodes scale squish prio =
        L.tryFitLayout K parent minMaxPrios doAutoScale fuel (nodes.map (AxisLayout.resetScale L))
          s2 q2 p2 ∧
    (∀ n, L.shouldAutoScale n.axisOpts = true →
      AxisLayout.resetScale L n =
        n.setScale (optsMaxScale n.axisOpts * optsRelScale n.axisOpts)) ∧
    (∀ n, L.shouldAutoScale n.axisOpts = false → AxisLayout.resetScale L n = n) ∧
    (∀ n, (AxisLayout.resetScale L n).m_obPosition = n.m_obPosition ∧
      (AxisLayout.resetScale L n).m_baseScale = n.m_baseScale ∧
      (AxisLayout.resetScale L n).m_obContentSize = n.m_obContentSize ∧
      (AxisLayout.resetScale L n).tag = n.tag) := by
  refine ⟨?_, ?_, ?_, ?_⟩
  · rw [AxisLayout.tryFitLayout, AxisLayout.fitRows_packedNodes]
    simp only [h]
  · intro n hn
    simp [AxisLayout.resetScale, hn]
  · intro n hn
    exact AxisLayout.resetScale_of_not_auto L n hn
  · intro n
    unfold AxisLayout.resetScale
    split <;> simp [CCNode.setScale]

/-- Witness of C20 as amended: the first pass of `apply` on two auto-scaled
children at scale 3 in a container of 100 x 30. -/
theorem exploration_pass_effect_witness :
    (exampleLayout false).tryFitLayout exampleDefaults
        (exampleBox 0 { width := 100, height := 30 } 1 none none) (0, 1) true 2
        (tierNodes 1 3 none) 1 1 1 =
      (exampleLayout false).tryFitLayout exampleDefaults
        (exampleBox 0 { width := 100, height := 30 } 1 none none) (0, 1) true 1
        ((tierNodes 1 3 none).map (AxisLayout.resetScale (exampleLayout false))) 1 1 0 :=
  (exploration_pass_effect (exampleLayout false) exampleDefaults
    (exampleBox 0 { width := 100, height := 30 } 1 none none) (0, 1) true 1 (tierNodes 1 3 none)
    1 1 1 1 1 0 (AxisLayout.retryArgs_tierNodes 3 0)).1

namespace AxisLayout

/-! ## The trace of passes -/

/-- A call of `tryFitLayout` that returns has positioned the rows of the last
pass of its trace. -/
theorem tryFitLayout_eq_acceptPass (L : AxisLayout) (K : Defaults) (parent : CCNode)
    (minMaxPrios : Int × Int) (doAutoScale : Bool) (fuel : Nat) (nodes : List CCNode)
    (scale squish : ℚ) (prio : Int) (r : CCNode × List Row)
    (h : L.tryFitLayout K parent minMaxPrios doAutoScale fuel nodes scale squish prio = some r) :
    ∃ p, (passes L K parent minMaxPrios doAutoScale fuel nodes scale squish prio).getLast? =
        some p ∧ r = acceptPass L K parent minMaxPrios doAutoScale p := by
  induction fuel generalizing nodes scale squish prio with
  | zero => simp [tryFitLayout] at h
  | succ n ih =>
    rw [tryFitLayout] at h
    rw [passes]
    split at h
    · exact absurd h (by simp)
    · rename_i s2 q2 p2 hretry
      simp only [hretry]
      obtain ⟨p, hp, hr⟩ := ih _ _ _ _ h
      refine ⟨p, ?_, hr⟩
      rw [List.getLast?_cons, hp]
      rfl
    · rename_i hretry
      simp only [hretry]
      refine ⟨_, rfl, ?_⟩
      simp only [Option.some.injEq] at h
      rw [← h]
      rfl

/-! ## Passes at squish 1 -/

/-- In a container of positive cross length, a pass run at squish 1 does not
take the squish branch: the best row squish factor is below 1, the overflow
ratio above 1. -/
theorem squishRetry_none (L : AxisLayout) (K : Defaults) (parent : CCNode)
    (nodes : List CCNode) (minMaxPrios : Int × Int) (doAutoScale : Bool) (scale : ℚ)
    (prio : Int) (hpos : 0 < (nodeAxis parent L.m_axis 1).crossLength) :
    (if (!L.m_allowCrossAxisOverflow &&
          decide ((L.fitRows K parent nodes minMaxPrios doAutoScale scale 1
            prio).totalRowCrossLength > (nodeAxis parent L.m_axis 1).crossLength)) = true then
        if (L.fitRows K parent nodes minMaxPrios doAutoScale scale 1
            prio).totalRowCrossLength / (nodeAxis parent L.m_axis 1).crossLength <
            (L.fitRows K parent nodes minMaxPrios doAutoScale scale 1 prio).crossSquishFactor then
          some (scale, (L.fitRows K parent nodes minMaxPrios doAutoScale scale 1
            prio).crossSquishFactor, prio)
        else none
      else none) = none := by
  have hf := (fitRows_factors L K parent nodes minMaxPrios doAutoScale scale 1 prio).2
  split
  · rename_i hc
    simp only [Bool.and_eq_true, decide_eq_true_eq] at hc
    have hgt : 1 < (L.fitRows K parent nodes minMaxPrios doAutoScale scale 1
        prio).totalRowCrossLength / (nodeAxis parent L.m_axis 1).crossLength := by
      rw [lt_div_iff₀ hpos]
      simpa using hc.2
    rw [if_neg]
    rcases hf with h0 | ⟨_, hlt⟩
    · rw [h0]
      exact not_lt.mpr (le_trans zero_le_one hgt.le)
    · exact not_lt.mpr (le_trans hlt.le hgt.le)
  · rfl

/-- In a container of positive cross length, every retry of a pass run at
squish 1 passes the squish 1. -/
theorem retryArgs_squish_one (L : AxisLayout) (K : Defaults) (parent : CCNode)
    (nodes nodes2 : List CCNode) (minMaxPrios : Int × Int) (doAutoScale : Bool) (scale : ℚ)
    (prio : Int) (fuel : Nat) (s2 q2 : ℚ) (p2 : Int)
    (hpos : 0 < (nodeAxis parent L.m_axis 1).crossLength)
    (h : L.retryArgs K parent nodes2 minMaxPrios doAutoScale scale 1 prio
      (L.fitRows K parent nodes minMaxPrios doAutoScale scale 1 prio) fuel =
        some (some (s2, q2, p2))) : q2 = 1 := by
  have hsq := squishRetry_none L K parent nodes minMaxPrios doAutoScale scale prio hpos
  unfold retryArgs at h
  simp only [] at h
  rw [hsq] at h
  split at h
  · split at h
    · split at h
      · split at h
        · simp only [Option.some.injEq, Prod.mk.injEq] at h
          exact h.2.1.symm
        · exact absurd h (by simp)
      · exact absurd h (by simp)
    · simp only [Option.some.injEq, Prod.mk.injEq] at h
      exact h.2.1.symm
  · exact absurd h (by simp)

/-- In a container of positive cross length, every pass of a trace started at
squish 1 runs at squish 1. -/
theorem passes_squish_one (L : AxisLayout) (K : Defaults) (parent : CCNode)
    (minMaxPrios : Int × Int) (doAutoScale : Bool)
    (hpos : 0 < (nodeAxis parent L.m_axis 1).crossLength) (fuel : Nat) (nodes : List CCNode)
    (scale : ℚ) (prio : Int) :
    ∀ p ∈ passes L K parent minMaxPrios doAutoScale fuel nodes scale 1 prio, p.squish = 1 := by
  induction fuel generalizing nodes scale prio with
  | zero => simp [passes]
  | succ n ih =>
    intro p hp
    rw [passes] at hp
    simp only [List.mem_cons] at hp
    rcases hp with rfl | hp
    · rfl
    · split at hp
      · rename_i s2 q2 p2 hretry
        rw [fitRows_packedNodes] at hretry
        have hq := retryArgs_squish_one L K parent nodes _ minMaxPrios doAutoScale scale prio n
          s2 q2 p2 hpos hretry
        subst hq
        exact ih _ _ _ p hp
      · simp at hp

/-! ## The tier sweep -/

/-- The tier-drop loop, when it returns, has lowered the tier by exactly one. -/
theorem dropPrio_some_eq (L : AxisLayout) (nodes : List CCNode) (fuel : Nat) (prio p2 : Int)
    (s2 : ℚ) (h : L.dropPrio nodes fuel prio = some (p2, s2)) :
    p2 = prio - 1 ∧ s2 = L.maxScaleForPrio nodes p2 ∧ s2 ≠ 0 := by
  cases fuel with
  | zero => simp [dropPrio] at h
  | succ n =>
    rw [dropPrio] at h
    split at h
    · rename_i hz
      rw [dropPrio_of_max_zero L nodes
        (by rw [maxScaleForPrio_prio L nodes 0 (prio - 1)]; exact hz)] at h
      exact absurd h (by simp)
    · rename_i hne
      simp only [Option.some.injEq, Prod.mk.injEq] at h
      obtain ⟨hp, hs⟩ := h
      subst hp
      subst hs
      exact ⟨rfl, rfl, hne⟩

/-- With a non-zero largest `maxScale` the tier-drop loop ends in its first
iteration. -/
theorem dropPrio_of_max_ne_zero (L : AxisLayout) (nodes : List CCNode) (fuel : Nat) (prio : Int)
    (h : L.maxScaleForPrio nodes 0 ≠ 0) :
    L.dropPrio nodes (fuel + 1) prio = some (prio - 1, L.maxScaleForPrio nodes (prio - 1)) := by
  rw [dropPrio]
  rw [if_neg]
  rw [maxScaleForPrio_prio L nodes (prio - 1) 0]
  exact h

/-- A retry keeps the tier or, from a tier above the lowest one, lowers it by
exactly one. -/
theorem retryArgs_tier (L : AxisLayout) (K : Defaults) (parent : CCNode)
    (nodes : List CCNode) (minMaxPrios : Int × Int) (doAutoScale : Bool) (scale squish : ℚ)
    (prio : Int) (st : RowsState) (fuel : Nat) (s2 q2 : ℚ) (p2 : Int)
    (h : L.retryArgs K parent nodes minMaxPrios doAutoScale scale squish prio st fuel =
      some (some (s2, q2, p2))) :
    p2 = prio ∨ (p2 = prio - 1 ∧ minMaxPrios.1 < prio) := by
  unfold retryArgs at h
  simp only [] at h
  have hsq : ∀ x : ℚ × ℚ × Int,
      (if (!L.m_allowCrossAxisOverflow &&
            decide (st.totalRowCrossLength > (nodeAxis parent L.m_axis 1).crossLength)) = true then
          if st.totalRowCrossLength / (nodeAxis parent L.m_axis 1).crossLength <
              st.crossSquishFactor then
            some (scale, st.crossSquishFactor, prio)
          else none
        else none) = some x → x.2.2 = prio := by
    intro x hx
    split at hx
    · split at hx
      · simp only [Option.some.injEq] at hx
        rw [← hx]
      · exact absurd hx (by simp)
    · exact absurd hx (by simp)
  split at h
  · split at h
    · split at h
      · rename_i hprio
        split at h
        · rename_i pnew snew hdrop
          simp only [Option.some.injEq, Prod.mk.injEq] at h
          obtain ⟨_, _, hp⟩ := h
          subst hp
          exact Or.inr ⟨(dropPrio_some_eq L nodes fuel prio _ _ hdrop).1, hprio⟩
        · exact absurd h (by simp)
      · exact Or.inl (hsq _ (Option.some.inj h))
    · simp only [Option.some.injEq, Prod.mk.injEq] at h
      exact Or.inl h.2.2.symm
  · exact Or.inl (hsq _ (Option.some.inj h))

/-- The first pass of a trace is the call itself. -/
theorem passes_head (L : AxisLayout) (K : Defaults) (parent : CCNode)
    (minMaxPrios : Int × Int) (doAutoScale : Bool) (fuel : Nat) (nodes : List CCNode)
    (scale squish : ℚ) (prio : Int) :
    (passes L K parent minMaxPrios doAutoScale (fuel + 1) nodes scale squish prio).head? =
      some { nodes := nodes, scale := scale, squish := squish, prio := prio } := by
  rw [passes]
  rfl

/-- Along a trace the tier stays or drops by one from above the lowest tier. -/
theorem passes_chain (L : AxisLayout) (K : Defaults) (parent : CCNode)
    (minMaxPrios : Int × Int) (doAutoScale : Bool) (fuel : Nat) (nodes : List CCNode)
    (scale squish : ℚ) (prio : Int) :
    List.Chain' (fun a b : Pass => b.prio = a.prio ∨ (b.prio = a.prio - 1 ∧ minMaxPrios.1 < a.prio))
      (passes L K parent minMaxPrios doAutoScale fuel nodes scale squish prio) := by
  induction fuel generalizing nodes scale squish prio with
  | zero => simp [passes]
  | succ n ih =>
    rw [passes]
    split
    · rename_i s2 q2 p2 hretry
      rw [List.chain'_cons']
      refine ⟨?_, ih _ _ _ _⟩
      intro y hy
      cases n with
      | zero => simp [passes] at hy
      | succ m =>
        rw [passes_head] at hy
        simp only [Option.mem_def, Option.some.injEq] at hy
        subst hy
        exact retryArgs_tier L K parent _ minMaxPrios doAutoScale scale squish prio _ _ s2 q2 p2
          hretry
    · exact List.chain'_singleton _

/-- Along a trace started between the lowest and the highest tier, every tier
lies between them. -/
theorem passes_prio_bounds (L : AxisLayout) (K : Defaults) (parent : CCNode)
    (minMaxPrios : Int × Int) (doAutoScale : Bool) (fuel : Nat) (nodes : List CCNode)
    (scale squish : ℚ) (prio : Int) (hlo : minMaxPrios.1 ≤ prio) (hhi : prio ≤ minMaxPrios.2) :
    ∀ p ∈ passes L K parent minMaxPrios doAutoScale fuel nodes scale squish prio,
      minMaxPrios.1 ≤ p.prio ∧ p.prio ≤ minMaxPrios.2 := by
  induction fuel generalizing nodes scale squish prio with
  | zero => simp [passes]
  | succ n ih =>
    intro p hp
    rw [passes] at hp
    simp only [List.mem_cons] at hp
    rcases hp with rfl | hp
    · exact ⟨hlo, hhi⟩
    · split at hp
      · rename_i s2 q2 p2 hretry
        have ht := retryArgs_tier L K parent _ minMaxPrios doAutoScale scale squish prio _ _ s2 q2
          p2 hretry
        exact ih _ _ _ _ (by omega) (by omega) p hp
      · simp at hp

/-- The scan of `apply` returns the lowest and the highest priority of a
non-empty child list. -/
theorem applyScan_fst (L : AxisLayout) (nodes : List CCNode) (hne : nodes ≠ []) :
    (∀ n ∈ nodes, (L.applyScan nodes).1.1 ≤ scanPrio n ∧ scanPrio n ≤ (L.applyScan nodes).1.2) ∧
    (∃ n ∈ nodes, scanPrio n = (L.applyScan nodes).1.1) ∧
    (∃ n ∈ nodes, scanPrio n = (L.applyScan nodes).1.2) := by
  have key : ∀ (rest pre : List CCNode) (acc : (Int × Int) × Bool × Bool),
      ((acc.2.2 = true ∧ pre = []) ∨
        (acc.2.2 = false ∧ (∀ n ∈ pre, acc.1.1 ≤ scanPrio n ∧ scanPrio n ≤ acc.1.2) ∧
          (∃ n ∈ pre, scanPrio n = acc.1.1) ∧ (∃ n ∈ pre, scanPrio n = acc.1.2))) →
      pre ++ rest ≠ [] →
      (∀ n ∈ pre ++ rest,
        (rest.foldl
          (fun (acc : (Int × Int) × Bool × Bool) node =>
            let prio : Int :=
              match node.axisOpts with
              | some opts => opts.getScalePriority
              | none => 0
            let doAutoScale : Bool :=
              match node.axisOpts with
              | some opts => if opts.getAutoScale.getD L.m_autoScale then true else acc.2.1
              | none => if L.m_autoScale then true else acc.2.1
            let minMaxPrio : Int × Int :=
              if acc.2.2 then (prio, prio)
              else
                let lo := if prio < acc.1.1 then prio else acc.1.1
                let hi := if prio > acc.1.2 then prio else acc.1.2
                (lo, hi)
            (minMaxPrio, doAutoScale, false)) acc).1.1 ≤ scanPrio n ∧
        scanPrio n ≤ (rest.foldl
          (fun (acc : (Int × Int) × Bool × Bool) node =>
            let prio : Int :=
              match node.axisOpts with
              | some opts => opts.getScalePriority
              | none => 0
            let doAutoScale : Bool :=
              match node.axisOpts with
              | some opts => if opts.getAutoScale.getD L.m_autoScale then true else acc.2.1
              | none => if L.m_autoScale then true else acc.2.1
            let minMaxPrio : Int × Int :=
              if acc.2.2 then (prio, prio)
              else
                let lo := if prio < acc.1.1 then prio else acc.1.1
                let hi := if prio > acc.1.2 then prio else acc.1.2
                (lo, hi)
            (minMaxPrio, doAutoScale, false)) acc).1.2) ∧
      (∃ n ∈ pre ++ rest, scanPrio n = (rest.foldl
          (fun (acc : (Int × Int) × Bool × Bool) node =>
            let prio : Int :=
              match node.axisOpts with
              | some opts => opts.getScalePriority
              | none => 0
            let doAutoScale : Bool :=
              match node.axisOpts with
              | some opts => if opts.getAutoScale.getD L.m_autoScale then true else acc.2.1
              | none => if L.m_autoScale then true else acc.2.1
            let minMaxPrio : Int × Int :=
              if acc.2.2 then (prio, prio)
              else
                let lo := if prio < acc.1.1 then prio else acc.1.1
                let hi := if prio > acc.1.2 then prio else acc.1.2
                (lo, hi)
            (minMaxPrio, doAutoScale, false)) acc).1.1) ∧
      (∃ n ∈ pre ++ rest, scanPrio n = (rest.foldl
          (fun (acc : (Int × Int) × Bool × Bool) node =>
            let prio : Int :=
              match node.axisOpts with
              | some opts => opts.getScalePriority
              | none => 0
            let doAutoScale : Bool :=
              match node.axisOpts with
              | some opts => if opts.getAutoScale.getD L.m_autoScale then true else acc.2.1
              | none => if L.m_autoScale then true else acc.2.1
            let minMaxPrio : Int × Int :=
              if acc.2.2 then (prio, prio)
              else
                let lo := if prio < acc.1.1 then prio else acc.1.1
                let hi := if prio > acc.1.2 then prio else acc.1.2
                (lo, hi)
            (minMaxPrio, doAutoScale, false)) acc).1.2) := by
    intro rest
    induction rest with
    | nil =>
      intro pre acc hinv hne2
      simp only [List.append_nil, List.foldl_nil] at hne2 ⊢
      rcases hinv with ⟨_, hpre⟩ | ⟨_, h1, h2, h3⟩
      · exact absurd hpre hne2
      · exact ⟨h1, h2, h3⟩
    | cons a t ih =>
      intro pre acc hinv _
      rw [List.foldl_cons]
      have happ : pre ++ a :: t = (pre ++ [a]) ++ t := by simp
      rw [happ]
      apply ih (pre ++ [a]) _ _ (by simp)
      right
      have hprio : (match a.axisOpts with
          | some opts => opts.getScalePriority
          | none => (0 : Int)) = scanPrio a := rfl
      simp only [hprio]
      rcases hinv with ⟨hfirst, hpre⟩ | ⟨hfirst, h1, h2, h3⟩
      · subst hpre
        simp [hfirst]
      · simp only [hfirst, Bool.false_eq_true, if_false, true_and]
        obtain ⟨n2, hn2, he2⟩ := h2
        obtain ⟨n3, hn3, he3⟩ := h3
        refine ⟨?_, ?_, ?_⟩
        · intro n hn
          simp only [List.mem_append, List.mem_singleton] at hn
          rcases hn with hn | rfl
          · have := h1 n hn
            constructor
            · split <;> omega
            · split <;> omega
          · constructor
            · split <;> omega
            · split <;> omega
        · by_cases hlt : scanPrio a < acc.1.1
          · exact ⟨a, by simp, by simp [hlt]⟩
          · exact ⟨n2, by simp [hn2], by simp [hlt, he2]⟩
        · by_cases hgt : scanPrio a > acc.1.2
          · exact ⟨a, by simp, by simp [hgt]⟩
          · exact ⟨n3, by simp [hn3], by simp [hgt, he3]⟩
  have h := key nodes [] (((0 : Int), (0 : Int)), false, true) (Or.inl ⟨rfl, rfl⟩)
    (by simpa using hne)
  simpa [applyScan] using h

/-! ## The squish retry -/

/-- The squish factor kept by the partition loop is zero or the advisory
factor of one of the rows, strictly between zero and the squish of the pass,
and no row has an advisory factor below the squish and above it. -/
theorem fitRows_squishFactor (L : AxisLayout) (K : Defaults) (parent : CCNode)
    (nodes : List CCNode) (minMaxPrios : Int × Int) (doAutoScale : Bool) (scale squish : ℚ)
    (prio : Int) :
    ((L.fitRows K parent nodes minMaxPrios doAutoScale scale squish prio).crossSquishFactor = 0 ∨
      (0 < (L.fitRows K parent nodes minMaxPrios doAutoScale scale squish
          prio).crossSquishFactor ∧
        (L.fitRows K parent nodes minMaxPrios doAutoScale scale squish
          prio).crossSquishFactor < squish ∧
        ∃ row ∈ (L.fitRows K parent nodes minMaxPrios doAutoScale scale squish prio).rows,
          row.nextOverflowSquishFactor =
            (L.fitRows K parent nodes minMaxPrios doAutoScale scale squish
              prio).crossSquishFactor)) ∧
    ∀ row ∈ (L.fitRows K parent nodes minMaxPrios doAutoScale scale squish prio).rows,
      row.nextOverflowSquishFactor < squish →
        row.nextOverflowSquishFactor ≤
          (L.fitRows K parent nodes minMaxPrios doAutoScale scale squish
            prio).crossSquishFactor := by
  refine fitRowsLoop_invariant L K parent minMaxPrios doAutoScale scale squish prio
    (fun st => (st.crossSquishFactor = 0 ∨
        (0 < st.crossSquishFactor ∧ st.crossSquishFactor < squish ∧
          ∃ row ∈ st.rows, row.nextOverflowSquishFactor = st.crossSquishFactor)) ∧
      ∀ row ∈ st.rows, row.nextOverflowSquishFactor < squish →
        row.nextOverflowSquishFactor ≤ st.crossSquishFactor)
    ?_ nodes.length (rowsInit nodes) (by simp [rowsInit])
  intro st _ h
  obtain ⟨h1, h2⟩ := h
  have hnonneg : 0 ≤ st.crossSquishFactor := by
    rcases h1 with h0 | ⟨hpos, _⟩
    · exact h0.ge
    · exact hpos.le
  rw [fitRowsStep_rows]
  simp only [fitRowsStep]
  split
  · rename_i hc
    constructor
    · right
      exact ⟨lt_of_le_of_lt hnonneg hc.1, hc.2, _, by simp, rfl⟩
    · intro row hrow hlt
      simp only [List.mem_append, List.mem_singleton] at hrow
      rcases hrow with hrow | rfl
      · exact le_trans (h2 row hrow hlt) hc.1.le
      · exact le_refl _
  · rename_i hc
    constructor
    · rcases h1 with h0 | ⟨hpos, hlt, row, hrow, he⟩
      · exact Or.inl h0
      · exact Or.inr ⟨hpos, hlt, row, by simp [hrow], he⟩
    · intro row hrow hlt
      simp only [List.mem_append, List.mem_singleton] at hrow
      rcases hrow with hrow | rfl
      · exact h2 row hrow hlt
      · by_contra hgt
        exact hc ⟨not_le.mp hgt, hlt⟩

/-- The row partition of the first pass of `apply` on two children of width
100 in the flipped container of 100 x 100: one row of cross length 40 whose
advisory factor is 100 / 200. -/
theorem fitRows_flippedBox :
    ((exampleLayout false).fitRows exampleDefaults flippedBox
      [exampleNode 1 100 none, exampleNode 2 100 none] (0, 0) true 1 1
      0).totalRowCrossLength = 40 ∧
    ((exampleLayout false).fitRows exampleDefaults flippedBox
      [exampleNode 1 100 none, exampleNode 2 100 none] (0, 0) true 1 1
      0).crossScaleDownFactor = 1 / 2 ∧
    ((exampleLayout false).fitRows exampleDefaults flippedBox
      [exampleNode 1 100 none, exampleNode 2 100 none] (0, 0) true 1 1
      0).crossSquishFactor = 1 / 2 := by
  refine ⟨?_, ?_, ?_⟩
  · simp [fitRows, fitRowsLoop, fitRowsStep, fitInRow, fitInRowLoop, resetScale,
      shouldAutoScale, nextGap, nodeAxis, scaleByOpts, optsScalePrio, optsMinScale,
      optsMaxScale, optsRelScale, isOptsBreakLine, isOptsSameLine, CCNode.getScaledContentSize,
      CCNode.setScale, CCSize.scale, exampleLayout, exampleBox, flippedBox, exampleNode,
      exampleDefaults]
    norm_num
  · simp [fitRows, fitRowsLoop, fitRowsStep, fitInRow, fitInRowLoop, resetScale,
      shouldAutoScale, nextGap, nodeAxis, scaleByOpts, optsScalePrio, optsMinScale,
      optsMaxScale, optsRelScale, isOptsBreakLine, isOptsSameLine, CCNode.getScaledContentSize,
      CCNode.setScale, CCSize.scale, exampleLayout, exampleBox, flippedBox, exampleNode,
      exampleDefaults]
    norm_num
  · simp [fitRows, fitRowsLoop, fitRowsStep, fitInRow, fitInRowLoop, resetScale,
      shouldAutoScale, nextGap, nodeAxis, scaleByOpts, optsScalePrio, optsMinScale,
      optsMaxScale, optsRelScale, isOptsBreakLine, isOptsSameLine, CCNode.getScaledContentSize,
      CCNode.setScale, CCSize.scale, exampleLayout, exampleBox, flippedBox, exampleNode,
      exampleDefaults]
    norm_num

/-- The first pass of `apply` on two children of width 100 in the flipped
container of 100 x 100: scaling is given up (1/2 is below the lowest minimum
scale 13/20, and the tier is the lowest one), and the pass retries from the
squish branch with the squish 1/2. -/
theorem retryArgs_flippedBox (fuel : Nat) :
    (exampleLayout false).retryArgs exampleDefaults flippedBox
      ([exampleNode 1 100 none, exampleNode 2 100 none].map (resetScale (exampleLayout false)))
      (0, 0) true 1 1 0
      ((exampleLayout false).fitRows exampleDefaults flippedBox
        [exampleNode 1 100 none, exampleNode 2 100 none] (0, 0) true 1 1 0) fuel =
      some (some (1, 1 / 2, 0)) := by
  have hmin : (exampleLayout false).minScaleForPrio exampleDefaults
      ([exampleNode 1 100 none, exampleNode 2 100 none].map (resetScale (exampleLayout false)))
      0 = 13 / 20 := by
    norm_num [minScaleForPrio, resetScale_axisOpts, optsMinScale, exampleNode, exampleDefaults]
  obtain ⟨htotal, hscale, hsquish⟩ := fitRows_flippedBox
  unfold retryArgs
  simp only [htotal, hscale, hsquish, hmin]
  norm_num [nodeAxis, exampleLayout, exampleBox, flippedBox, CCNode.getScaledContentSize,
    CCSize.scale]

end AxisLayout

/-- Counterexample of C21: in the first pass of `apply` on two children of
width 100 in a container of content size 100 x 100 whose scale along y is -1
(available cross length -100), the total cross length 40 overflows,
`tryFitLayout` retries from the squish branch and passes the squish 1/2, the
advisory factor 100 / 200 of the row, not the ratio -100 / 40 of the
available to the total cross length. -/
theorem squish_retry_passes_row_factor :
    (exampleLayout false).applyScan [exampleNode 1 100 none, exampleNode 2 100 none] =
      ((0, 0), true) ∧
    (exampleLayout false).maxScaleForPrio [exampleNode 1 100 none, exampleNode 2 100 none] 0 =
      1 ∧
    (nodeAxis flippedBox (exampleLayout false).m_axis 1).crossLength = -100 ∧
    ((exampleLayout false).fitRows exampleDefaults flippedBox
      [exampleNode 1 100 none, exampleNode 2 100 none] (0, 0) true 1 1
      0).totalRowCrossLength = 40 ∧
    (exampleLayout false).retryArgs exampleDefaults flippedBox
      ([exampleNode 1 100 none, exampleNode 2 100 none].map
        (AxisLayout.resetScale (exampleLayout false)))
      (0, 0) true 1 1 0
      ((exampleLayout false).fitRows exampleDefaults flippedBox
        [exampleNode 1 100 none, exampleNode 2 100 none] (0, 0) true 1 1 0) 0 =
      some (some (1, 1 / 2, 0)) ∧
    (1 / 2 : ℚ) ≠ -100 / 40 := by
  refine ⟨?_, ?_, ?_, AxisLayout.fitRows_flippedBox.1, AxisLayout.retryArgs_flippedBox 0,
    by norm_num⟩
  · simp [AxisLayout.applyScan, exampleNode, exampleLayout]
  · norm_num [AxisLayout.maxScaleForPrio, optsMaxScale, exampleNode]
  · norm_num [nodeAxis, exampleLayout, exampleBox, flippedBox, CCNode.getScaledContentSize,
      CCSize.scale]

/-- C21 as amended: a retry of `tryFitLayout` that changes the squish comes
from the squish branch; it keeps the scale and the tier of the pass and passes
the squish factor kept by the partition loop, which is zero or the largest
advisory factor of a row of the pass below the squish of the pass and above
zero; the total cross length exceeds the available cross length and their
ratio total / available is below the factor passed.  In a container of
positive cross length the factor passed differs from the ratio
available / total. -/
theorem squish_retry_factor (L : AxisLayout) (K : Defaults) (parent : CCNode)
    (nodes nodes2 : List CCNode) (minMaxPrios : Int × Int) (doAutoScale : Bool)
    (scale squish : ℚ) (prio : Int) (fuel : Nat) (s2 q2 : ℚ) (p2 : Int)
    (h : L.retryArgs K parent nodes2 minMaxPrios doAutoScale scale squish prio
      (L.fitRows K parent nodes minMaxPrios doAutoScale scale squish prio) fuel =
        some (some (s2, q2, p2)))
    (hq : q2 ≠ squish) :
    s2 = scale ∧ p2 = prio ∧
    q2 = (L.fitRows K parent nodes minMaxPrios doAutoScale scale squish prio).crossSquishFactor ∧
    (nodeAxis parent L.m_axis 1).crossLength <
      (L.fitRows K parent nodes minMaxPrios doAutoScale scale squish prio).totalRowCrossLength ∧
    (L.fitRows K parent nodes minMaxPrios doAutoScale scale squish prio).totalRowCrossLength /
      (nodeAxis parent L.m_axis 1).crossLength < q2 ∧
    (q2 = 0 ∨ (0 < q2 ∧ q2 < squish ∧
      ∃ row ∈ (L.fitRows K parent nodes minMaxPrios doAutoScale scale squish prio).rows,
        row.nextOverflowSquishFactor = q2)) ∧
    (∀ row ∈ (L.fitRows K parent nodes minMaxPrios doAutoScale scale squish prio).rows,
      row.nextOverflowSquishFactor < squish → row.nextOverflowSquishFactor ≤ q2) ∧
    (0 < (nodeAxis parent L.m_axis 1).crossLength →
      q2 ≠ (nodeAxis parent L.m_axis 1).crossLength /
        (L.fitRows K parent nodes minMaxPrios doAutoScale scale squish
          prio).totalRowCrossLength) := by
  have hf := AxisLayout.fitRows_squishFactor L K parent nodes minMaxPrios doAutoScale scale
    squish prio
  have hsq : ∀ x : ℚ × ℚ × Int,
      (if (!L.m_allowCrossAxisOverflow &&
            decide ((L.fitRows K parent nodes minMaxPrios doAutoScale scale squish
              prio).totalRowCrossLength > (nodeAxis parent L.m_axis 1).crossLength)) = true then
          if (L.fitRows K parent nodes minMaxPrios doAutoScale scale squish
              prio).totalRowCrossLength / (nodeAxis parent L.m_axis 1).crossLength <
              (L.fitRows K parent nodes minMaxPrios doAutoScale scale squish
                prio).crossSquishFactor then
            some (scale, (L.fitRows K parent nodes minMaxPrios doAutoScale scale squish
              prio).crossSquishFactor, prio)
          else none
        else none) = some x →
      x.1 = scale ∧ x.2.2 = prio ∧
      x.2.1 = (L.fitRows K parent nodes minMaxPrios doAutoScale scale squish
        prio).crossSquishFactor ∧
      (nodeAxis parent L.m_axis 1).crossLength <
        (L.fitRows K parent nodes minMaxPrios doAutoScale scale squish
          prio).totalRowCrossLength ∧
      (L.fitRows K parent nodes minMaxPrios doAutoScale scale squish prio).totalRowCrossLength /
        (nodeAxis parent L.m_axis 1).crossLength < x.2.1 := by
    intro x hx
    split at hx
    · rename_i hc
      simp only [Bool.and_eq_true, decide_eq_true_eq] at hc
      split at hx
      · rename_i hlt
        simp only [Option.some.injEq] at hx
        subst hx
        exact ⟨rfl, rfl, rfl, hc.2, hlt⟩
      · exact absurd hx (by simp)
    · exact absurd hx (by simp)
  have hmain : s2 = scale ∧ p2 = prio ∧
      q2 = (L.fitRows K parent nodes minMaxPrios doAutoScale scale squish
        prio).crossSquishFactor ∧
      (nodeAxis parent L.m_axis 1).crossLength <
        (L.fitRows K parent nodes minMaxPrios doAutoScale scale squish
          prio).totalRowCrossLength ∧
      (L.fitRows K parent nodes minMaxPrios doAutoScale scale squish prio).totalRowCrossLength /
        (nodeAxis parent L.m_axis 1).crossLength < q2 := by
    unfold AxisLayout.retryArgs at h
    simp only [] at h
    split at h
    · split at h
      · split at h
        · split at h
          · simp only [Option.some.injEq, Prod.mk.injEq] at h
            exact absurd h.2.1.symm hq
          · exact absurd h (by simp)
        · exact hsq _ (Option.some.inj h)
      · simp only [Option.some.injEq, Prod.mk.injEq] at h
        exact absurd h.2.1.symm hq
    · exact hsq _ (Option.some.inj h)
  obtain ⟨h1, h2, h3, h4, h5⟩ := hmain
  refine ⟨h1, h2, h3, h4, h5, ?_, ?_, ?_⟩
  · rw [h3]
    exact hf.1
  · rw [h3]
    exact hf.2
  · intro hpos
    have hgt : 1 < (L.fitRows K parent nodes minMaxPrios doAutoScale scale squish
        prio).totalRowCrossLength / (nodeAxis parent L.m_axis 1).crossLength := by
      rw [lt_div_iff₀ hpos]
      simpa using h4
    have hlt : (nodeAxis parent L.m_axis 1).crossLength /
        (L.fitRows K parent nodes minMaxPrios doAutoScale scale squish
          prio).totalRowCrossLength < 1 := by
      rw [div_lt_one (lt_trans hpos h4)]
      exact h4
    intro heq
    rw [← heq] at hlt
    exact absurd (lt_trans hgt h5) (not_lt.mpr hlt.le)

/-- Witness of C21 as amended: the squish retry of the first pass of `apply`
on two children of width 100 in the flipped container of 100 x 100. -/
theorem squish_retry_factor_witness :
    (1 : ℚ) = 1 ∧ (0 : Int) = 0 ∧
    (1 / 2 : ℚ) = ((exampleLayout false).fitRows exampleDefaults flippedBox
      [exampleNode 1 100 none, exampleNode 2 100 none] (0, 0) true 1 1 0).crossSquishFactor ∧
    (nodeAxis flippedBox (exampleLayout false).m_axis 1).crossLength <
      ((exampleLayout false).fitRows exampleDefaults flippedBox
        [exampleNode 1 100 none, exampleNode 2 100 none] (0, 0) true 1 1
        0).totalRowCrossLength ∧
    ((exampleLayout false).fitRows exampleDefaults flippedBox
      [exampleNode 1 100 none, exampleNode 2 100 none] (0, 0) true 1 1 0).totalRowCrossLength /
      (nodeAxis flippedBox (exampleLayout false).m_axis 1).crossLength < 1 / 2 ∧
    ((1 / 2 : ℚ) = 0 ∨ ((0 : ℚ) < 1 / 2 ∧ (1 / 2 : ℚ) < 1 ∧
      ∃ row ∈ ((exampleLayout false).fitRows exampleDefaults flippedBox
          [exampleNode 1 100 none, exampleNode 2 100 none] (0, 0) true 1 1 0).rows,
        row.nextOverflowSquishFactor = 1 / 2)) ∧
    (∀ row ∈ ((exampleLayout false).fitRows exampleDefaults flippedBox
        [exampleNode 1 100 none, exampleNode 2 100 none] (0, 0) true 1 1 0).rows,
      row.nextOverflowSquishFactor < 1 → row.nextOverflowSquishFactor ≤ 1 / 2) ∧
    (0 < (nodeAxis flippedBox (exampleLayout false).m_axis 1).crossLength →
      (1 / 2 : ℚ) ≠ (nodeAxis flippedBox (exampleLayout false).m_axis 1).crossLength /
        ((exampleLayout false).fitRows exampleDefaults flippedBox
          [exampleNode 1 100 none, exampleNode 2 100 none] (0, 0) true 1 1
          0).totalRowCrossLength) :=
  squish_retry_factor (exampleLayout false) exampleDefaults flippedBox
    [exampleNode 1 100 none, exampleNode 2 100 none]
    ([exampleNode 1 100 none, exampleNode 2 100 none].map
      (AxisLayout.resetScale (exampleLayout false)))
    (0, 0) true 1 1 0 0 1 (1 / 2) 0 (AxisLayout.retryArgs_flippedBox 0) (by norm_num)

/-- C23: for a child list in which some child has a non-zero `maxScale`, the
two tiers `apply` hands to `tryFitLayout` are the lowest and the highest
priority found among the children, the first pass runs at the highest tier,
from each pass to the next the tier stays or, from a tier above the lowest
one, drops by exactly one, and every pass runs at a tier between the lowest
and the highest; the call that returns has positioned the rows of the last
of these passes. -/
theorem apply_tier_sweep (L : AxisLayout) (K : Defaults) (parent : CCNode)
    (nodes : List CCNode) (h : ∃ n ∈ nodes, optsMaxScale n.axisOpts ≠ 0) (fuel : Nat) :
    (∀ n ∈ nodes, (L.applyScan nodes).1.1 ≤ AxisLayout.scanPrio n ∧
      AxisLayout.scanPrio n ≤ (L.applyScan nodes).1.2) ∧
    (∃ n ∈ nodes, AxisLayout.scanPrio n = (L.applyScan nodes).1.1) ∧
    (∃ n ∈ nodes, AxisLayout.scanPrio n = (L.applyScan nodes).1.2) ∧
    (L.applyPasses K (fuel + 1) parent nodes).head?.map AxisLayout.Pass.prio =
      some (L.applyScan nodes).1.2 ∧
    List.Chain'
      (fun a b : AxisLayout.Pass =>
        b.prio = a.prio ∨ (b.prio = a.prio - 1 ∧ (L.applyScan nodes).1.1 < a.prio))
      (L.applyPasses K fuel parent nodes) ∧
    (∀ p ∈ L.applyPasses K fuel parent nodes,
      (L.applyScan nodes).1.1 ≤ p.prio ∧ p.prio ≤ (L.applyScan nodes).1.2) ∧
    (∀ r, L.apply K fuel parent nodes = some r →
      ∃ p, (L.applyPasses K fuel parent nodes).getLast? = some p ∧
        r = L.acceptPass K parent (L.applyScan nodes).1 (L.applyScan nodes).2 p) := by
  have hne : nodes ≠ [] := by
    obtain ⟨n, hn, _⟩ := h
    exact List.ne_nil_of_mem hn
  obtain ⟨h1, h2, h3⟩ := AxisLayout.applyScan_fst L nodes hne
  have hle : (L.applyScan nodes).1.1 ≤ (L.applyScan nodes).1.2 := by
    obtain ⟨n, hn, _⟩ := h
    exact le_trans (h1 n hn).1 (h1 n hn).2
  refine ⟨h1, h2, h3, ?_, ?_, ?_, ?_⟩
  · unfold AxisLayout.applyPasses
    simp only [AxisLayout.passes_head, Option.map_some']
  · exact AxisLayout.passes_chain L K parent _ _ fuel nodes _ _ _
  · exact AxisLayout.passes_prio_bounds L K parent _ _ fuel nodes _ _ _ hle (le_refl _)
  · intro r hr
    exact AxisLayout.tryFitLayout_eq_acceptPass L K parent _ _ fuel nodes _ _ _ r hr

/-- Witness of C23: two children of priorities 1 and 0 with `maxScale = 1` in
a container of 100 x 30, where the first pass, at tier 1, ends in a tier
drop. -/
theorem apply_tier_sweep_witness :
    (∃ n ∈ tierNodes 1 1 none, optsMaxScale n.axisOpts ≠ 0) ∧
    List.Chain'
      (fun a b : AxisLayout.Pass =>
        b.prio = a.prio ∨
          (b.prio = a.prio - 1 ∧
            ((exampleLayout false).applyScan (tierNodes 1 1 none)).1.1 < a.prio))
      ((exampleLayout false).applyPasses exampleDefaults 2
        (exampleBox 0 { width := 100, height := 30 } 1 none none) (tierNodes 1 1 none)) ∧
    (∀ p ∈ (exampleLayout false).applyPasses exampleDefaults 2
        (exampleBox 0 { width := 100, height := 30 } 1 none none) (tierNodes 1 1 none),
      ((exampleLayout false).applyScan (tierNodes 1 1 none)).1.1 ≤ p.prio ∧
        p.prio ≤ ((exampleLayout false).applyScan (tierNodes 1 1 none)).1.2) :=
  have hx : ∃ n ∈ tierNodes 1 1 none, optsMaxScale n.axisOpts ≠ 0 :=
    ⟨exampleBox 1 { width := 40, height := 40 } 1 (some (tierOptions 1 1)) none,
      by simp [tierNodes], by norm_num [optsMaxScale, exampleBox, tierOptions]⟩
  ⟨hx,
    (apply_tier_sweep (exampleLayout false) exampleDefaults
      (exampleBox 0 { width := 100, height := 30 } 1 none none) (tierNodes 1 1 none) hx
      2).2.2.2.2.1,
    (apply_tier_sweep (exampleLayout false) exampleDefaults
      (exampleBox 0 { width := 100, height := 30 } 1 none none) (tierNodes 1 1 none) hx
      2).2.2.2.2.2.1⟩

/-- C24: in a container of positive available cross length, every pass of a
solve started by `apply` runs at squish 1, the accepted pass included: in a
pass run at squish 1 the squish factor kept by the partition loop is zero or
below 1, an overflowing total cross length divided by the available cross
length is above 1, so that the test of the squish branch fails and every
retry passes the squish 1. -/
theorem apply_squish_one (L : AxisLayout) (K : Defaults) (parent : CCNode)
    (nodes : List CCNode) (hpos : 0 < (nodeAxis parent L.m_axis 1).crossLength) (fuel : Nat) :
    (∀ p ∈ L.applyPasses K fuel parent nodes, p.squish = 1) ∧
    (∀ r, L.apply K fuel parent nodes = some r →
      ∃ p, (L.applyPasses K fuel parent nodes).getLast? = some p ∧ p.squish = 1 ∧
        r = L.acceptPass K parent (L.applyScan nodes).1 (L.applyScan nodes).2 p) ∧
    (∀ (nodes2 nodes3 : List CCNode) (minMaxPrios : Int × Int) (doAutoScale : Bool) (scale : ℚ)
        (prio : Int) (fuel2 : Nat),
      ((L.fitRows K parent nodes2 minMaxPrios doAutoScale scale 1 prio).crossSquishFactor = 0 ∨
        (L.fitRows K parent nodes2 minMaxPrios doAutoScale scale 1 prio).crossSquishFactor < 1) ∧
      ((nodeAxis parent L.m_axis 1).crossLength <
          (L.fitRows K parent nodes2 minMaxPrios doAutoScale scale 1 prio).totalRowCrossLength →
        1 < (L.fitRows K parent nodes2 minMaxPrios doAutoScale scale 1
            prio).totalRowCrossLength / (nodeAxis parent L.m_axis 1).crossLength ∧
        ¬ ((L.fitRows K parent nodes2 minMaxPrios doAutoScale scale 1
            prio).totalRowCrossLength / (nodeAxis parent L.m_axis 1).crossLength <
          (L.fitRows K parent nodes2 minMaxPrios doAutoScale scale 1
            prio).crossSquishFactor)) ∧
      ∀ s2 q2 p2, L.retryArgs K parent nodes3 minMaxPrios doAutoScale scale 1 prio
          (L.fitRows K parent nodes2 minMaxPrios doAutoScale scale 1 prio) fuel2 =
            some (some (s2, q2, p2)) → q2 = 1) := by
  have hall : ∀ p ∈ L.applyPasses K fuel parent nodes, p.squish = 1 :=
    AxisLayout.passes_squish_one L K parent _ _ hpos fuel nodes _ _
  refine ⟨hall, ?_, ?_⟩
  · intro r hr
    obtain ⟨p, hp, hacc⟩ := AxisLayout.tryFitLayout_eq_acceptPass L K parent _ _ fuel nodes _ _
      _ r hr
    exact ⟨p, hp, hall p (List.mem_of_mem_getLast? hp), hacc⟩
  · intro nodes2 nodes3 minMaxPrios doAutoScale scale prio fuel2
    have hf := (AxisLayout.fitRows_factors L K parent nodes2 minMaxPrios doAutoScale scale 1
      prio).2
    have hfac : (L.fitRows K parent nodes2 minMaxPrios doAutoScale scale 1
        prio).crossSquishFactor = 0 ∨
        (L.fitRows K parent nodes2 minMaxPrios doAutoScale scale 1 prio).crossSquishFactor <
          1 := by
      rcases hf with h0 | ⟨_, hlt⟩
      · exact Or.inl h0
      · exact Or.inr hlt
    refine ⟨hfac, ?_, ?_⟩
    · intro hov
      have hgt : 1 < (L.fitRows K parent nodes2 minMaxPrios doAutoScale scale 1
          prio).totalRowCrossLength / (nodeAxis parent L.m_axis 1).crossLength := by
        rw [lt_div_iff₀ hpos]
        simpa using hov
      refine ⟨hgt, ?_⟩
      rcases hfac with h0 | hlt
      · rw [h0]
        exact not_lt.mpr (le_trans zero_le_one hgt.le)
      · exact not_lt.mpr (le_trans hlt.le hgt.le)
    · intro s2 q2 p2 hretry
      exact AxisLayout.retryArgs_squish_one L K parent nodes2 nodes3 minMaxPrios doAutoScale
        scale prio fuel2 s2 q2 p2 hpos hretry

/-- Witness of C24: two children of priorities 1 and 0 in a container of
100 x 30, whose first pass ends in a retry. -/
theorem apply_squish_one_witness :
    0 < (nodeAxis (exampleBox 0 { width := 100, height := 30 } 1 none none)
      (exampleLayout false).m_axis 1).crossLength ∧
    (∀ p ∈ (exampleLayout false).applyPasses exampleDefaults 2
        (exampleBox 0 { width := 100, height := 30 } 1 none none) (tierNodes 1 1 none),
      p.squish = 1) :=
  have hx : 0 < (nodeAxis (exampleBox 0 { width := 100, height := 30 } 1 none none)
      (exampleLayout false).m_axis 1).crossLength := by
    norm_num [nodeAxis, exampleLayout, exampleBox, CCNode.getScaledContentSize, CCSize.scale]
  ⟨hx,
    (apply_squish_one (exampleLayout false) exampleDefaults
      (exampleBox 0 { width := 100, height := 30 } 1 none none) (tierNodes 1 1 none) hx 2).1⟩

/-! ## The float type `Flt` -/

theorem flt_add_def (a b : Flt) : a + b = Flt.add a b := rfl

theorem flt_sub_def (a b : Flt) : a - b = Flt.sub a b := rfl

theorem flt_mul_def (a b : Flt) : a * b = Flt.mul a b := rfl

theorem flt_div_def (a b : Flt) : a / b = Flt.div a b := rfl

theorem flt_zero_def : (0 : Flt) = Flt.zero false := rfl

theorem flt_one_def : (1 : Flt) = Flt.num 1 := rfl

theorem flt_lt_def (a b : Flt) : FloatOps.lt a b = Flt.lt a b := rfl

theorem flt_gt_def (a b : Flt) : FloatOps.gt a b = Flt.lt b a := rfl

theorem flt_eq_def (a b : Flt) : FloatOps.eq a b = Flt.eq a b := rfl

theorem flt_two_def : (FloatOps.two : Flt) = Flt.num 2 := rfl

theorem flt_half_def : (FloatOps.half : Flt) = Flt.num (1 / 2) := rfl

theorem flt_threeHalves_def : (FloatOps.threeHalves : Flt) = Flt.num (3 / 2) := rfl

theorem flt_ofCount_def (n : Nat) : (FloatOps.ofCount n : Flt) = Flt.ofCount n := rfl

theorem flt_le_def (a b : Flt) : FloatOps.le a b = (Flt.lt a b || Flt.eq a b) := rfl

/-- A float is not below itself, and of two floats at most one is below the other. -/
theorem flt_lt_asymm (a b : Flt) (h : Flt.lt a b = true) : Flt.lt b a = false := by
  cases a <;> cases b <;> simp_all [Flt.lt, Flt.toRat] <;> linarith

theorem flt_lt_of_eq (a b : Flt)
    (h : Flt.eq a b = true) : Flt.lt a b = false ∧ Flt.lt b a = false := by
  cases a <;> cases b <;> simp_all [Flt.lt, Flt.eq, Flt.toRat]

theorem flt_lt_trans (a b c : Flt) (h1 : Flt.lt a b = true) (h2 : Flt.lt b c = true) :
    Flt.lt a c = true := by
  cases a <;> cases b <;> cases c <;> simp_all [Flt.lt, Flt.toRat] <;> linarith

/-- Two floats other than NaN are comparable. -/
theorem flt_lt_total (a b : Flt) (ha : a ≠ Flt.nan) (hb : b ≠ Flt.nan) :
    Flt.lt a b = true ∨ Flt.eq a b = true ∨ Flt.lt b a = true := by
  cases a <;> cases b <;> simp_all [Flt.lt, Flt.eq, Flt.toRat]
  all_goals first
    | exact lt_trichotomy _ _
    | (rename_i s t; cases s <;> cases t <;> simp)

theorem flt_ne_nan_of_lt (a b : Flt) (h : Flt.lt a b = true) : a ≠ Flt.nan ∧ b ≠ Flt.nan := by
  cases a <;> cases b <;> simp_all [Flt.lt]

/-- Addition on `Flt` is commutative. -/
theorem flt_add_comm (a b : Flt) : a + b = b + a := by
  rw [flt_add_def, flt_add_def]
  cases a <;> cases b <;> simp [Flt.add, add_comm, Bool.and_comm]
  rename_i s t
  cases s <;> cases t <;> simp

/-! ## Single precision -/

/-- The search for the binade finds it when the fuel covers its distance. -/
theorem flt_binade_eq (fuel : Nat) (a : ℚ) (e0 k : Int) (h1 : (2 : ℚ) ^ k ≤ a)
    (h2 : a < (2 : ℚ) ^ (k + 1)) (hk : k.natAbs ≤ fuel) : Flt.binade fuel a e0 = e0 + k := by
  induction fuel generalizing a e0 k with
  | zero =>
    have : k = 0 := by omega
    subst this
    simp [Flt.binade]
  | succ n ih =>
    rw [Flt.binade]
    by_cases ha : 2 ≤ a
    · rw [if_pos ha]
      have hk1 : 1 ≤ k := by
        by_contra hlt
        have hle : k + 1 ≤ 1 := by omega
        have : (2 : ℚ) ^ (k + 1) ≤ 2 ^ (1 : Int) := zpow_le_zpow_right₀ (by norm_num) hle
        norm_num at this
        linarith
      have e := ih (a / 2) (e0 + 1) (k - 1)
        (by
          have : (2 : ℚ) ^ k = 2 ^ (k - 1) * 2 := by
            rw [← zpow_add_one₀ (by norm_num : (2 : ℚ) ≠ 0)]
            congr 1
            omega
          rw [this] at h1
          linarith)
        (by
          have : (2 : ℚ) ^ (k + 1) = 2 ^ (k - 1 + 1) * 2 := by
            rw [← zpow_add_one₀ (by norm_num : (2 : ℚ) ≠ 0)]
            congr 1
            omega
          rw [this] at h2
          linarith)
        (by omega)
      rw [e]
      omega
    · rw [if_neg ha]
      by_cases hb : a < 1
      · rw [if_pos hb]
        have hk1 : k ≤ -1 := by
          by_contra hlt
          have hle : (0 : Int) ≤ k := by omega
          have : (2 : ℚ) ^ (0 : Int) ≤ 2 ^ k := zpow_le_zpow_right₀ (by norm_num) hle
          norm_num at this
          linarith
        have e := ih (a * 2) (e0 - 1) (k + 1)
          (by
            have : (2 : ℚ) ^ (k + 1) = 2 ^ k * 2 := zpow_add_one₀ (by norm_num) k
            rw [this]
            linarith)
          (by
            have : (2 : ℚ) ^ (k + 1 + 1) = 2 ^ (k + 1) * 2 := zpow_add_one₀ (by norm_num) (k + 1)
            rw [this]
            linarith)
          (by omega)
        rw [e]
        omega
      · rw [if_neg hb]
        have hk0 : k = 0 := by
          have h3 : ¬ (1 ≤ k) := by
            intro h
            have : (2 : ℚ) ^ (1 : Int) ≤ 2 ^ k := zpow_le_zpow_right₀ (by norm_num) h
            norm_num at this
            linarith
          have h4 : ¬ (k ≤ -1) := by
            intro h
            have hle : k + 1 ≤ 0 := by omega
            have : (2 : ℚ) ^ (k + 1) ≤ 2 ^ (0 : Int) := zpow_le_zpow_right₀ (by norm_num) hle
            norm_num at this
            linarith
          omega
        rw [hk0]
        simp

/-- Rounding of a positive value whose binade `k` is known: the multiple of
`2 ^ (max k (-126) - 23)` nearest to it, when that is below `2 ^ 128`. -/
theorem flt_round32_pos (q : ℚ) (k : Int) (r : ℚ) (hq : 0 < q) (h1 : (2 : ℚ) ^ k ≤ q)
    (h2 : q < (2 : ℚ) ^ (k + 1)) (hk : k.natAbs ≤ 300)
    (hr : (Flt.nearestEven (q / 2 ^ (max k (-126) - 23)) : ℚ) * 2 ^ (max k (-126) - 23) = r)
    (hlt : r < 2 ^ 128) (hne : r ≠ 0) :
    Flt.round32 (Flt.num q) = Flt.num r := by
  have habs : |q| = q := abs_of_pos hq
  have e := flt_binade_eq 300 q 0 k h1 h2 hk
  simp only [Flt.round32, habs, e, zero_add, hr, if_neg (not_le.mpr hlt), if_neg hne,
    if_neg (not_lt.mpr hq.le)]

/-- The literal `0.5f` is exact. -/
theorem f32_round_half : Flt.round32 (Flt.num (1 / 2)) = Flt.num (1 / 2) :=
  flt_round32_pos (1 / 2) (-1) (1 / 2) (by norm_num) (by norm_num) (by norm_num) (by decide)
    (by norm_num [Flt.nearestEven]) (by norm_num) (by norm_num)

/-- The value 1 is exact. -/
theorem f32_round_one : Flt.round32 (Flt.num (1)) = Flt.num (1) :=
  flt_round32_pos (1) 0 (1) (by norm_num) (by norm_num) (by norm_num) (by decide)
    (by norm_num [Flt.nearestEven]) (by norm_num) (by norm_num)

/-- The literal `0.7f` is `11744051 / 2 ^ 24`. -/
theorem f32_round_seven_tenths : Flt.round32 (Flt.num (7 / 10)) = Flt.num (11744051 / 16777216) :=
  flt_round32_pos (7 / 10) (-1) (11744051 / 16777216) (by norm_num) (by norm_num) (by norm_num) (by decide)
    (by norm_num [Flt.nearestEven]) (by norm_num) (by norm_num)

/-- The value of `0.7f` is a float. -/
theorem f32_round_width : Flt.round32 (Flt.num (11744051 / 16777216)) = Flt.num (11744051 / 16777216) :=
  flt_round32_pos (11744051 / 16777216) (-1) (11744051 / 16777216) (by norm_num) (by norm_num) (by norm_num) (by decide)
    (by norm_num [Flt.nearestEven]) (by norm_num) (by norm_num)

/-- The literal `1.9f` is `15938355 / 2 ^ 23`. -/
theorem f32_round_nineteen_tenths : Flt.round32 (Flt.num (19 / 10)) = Flt.num (15938355 / 8388608) :=
  flt_round32_pos (19 / 10) 0 (15938355 / 8388608) (by norm_num) (by norm_num) (by norm_num) (by decide)
    (by norm_num [Flt.nearestEven]) (by norm_num) (by norm_num)

/-- The value of `1.9f` is a float. -/
theorem f32_round_available : Flt.round32 (Flt.num (15938355 / 8388608)) = Flt.num (15938355 / 8388608) :=
  flt_round32_pos (15938355 / 8388608) 0 (15938355 / 8388608) (by norm_num) (by norm_num) (by norm_num) (by decide)
    (by norm_num [Flt.nearestEven]) (by norm_num) (by norm_num)

/-- The literal `0.65f` is `5452595 / 2 ^ 23`. -/
theorem f32_round_min_scale : Flt.round32 (Flt.num (13 / 20)) = Flt.num (5452595 / 8388608) :=
  flt_round32_pos (13 / 20) (-1) (5452595 / 8388608) (by norm_num) (by norm_num) (by norm_num) (by decide)
    (by norm_num [Flt.nearestEven]) (by norm_num) (by norm_num)

/-- The sum `0.5f + 0.7f` lies halfway between two floats and is rounded up, to
`10066330 / 2 ^ 23`. -/
theorem f32_round_two_widths : Flt.round32 (Flt.num (20132659 / 16777216)) = Flt.num (5033165 / 4194304) :=
  flt_round32_pos (20132659 / 16777216) 0 (5033165 / 4194304) (by norm_num) (by norm_num) (by norm_num) (by decide)
    (by norm_num [Flt.nearestEven]) (by norm_num) (by norm_num)

/-- The rounded sum `0.5f + 0.7f` is a float. -/
theorem f32_round_two_widths_idem : Flt.round32 (Flt.num (5033165 / 4194304)) = Flt.num (5033165 / 4194304) :=
  flt_round32_pos (5033165 / 4194304) 0 (5033165 / 4194304) (by norm_num) (by norm_num) (by norm_num) (by decide)
    (by norm_num [Flt.nearestEven]) (by norm_num) (by norm_num)

/-- The rounded sum `0.5f + 0.7f` plus `0.7f` lies halfway between two floats and
is rounded up, to `15938356 / 2 ^ 23`, one unit above `1.9f`. -/
theorem f32_round_three_widths : Flt.round32 (Flt.num (31876711 / 16777216)) = Flt.num (3984589 / 2097152) :=
  flt_round32_pos (31876711 / 16777216) 0 (3984589 / 2097152) (by norm_num) (by norm_num) (by norm_num) (by decide)
    (by norm_num [Flt.nearestEven]) (by norm_num) (by norm_num)

/-- The value 40 is a float. -/
theorem f32_round_forty : Flt.round32 (Flt.num 40) = Flt.num 40 :=
  flt_round32_pos 40 5 40 (by norm_num) (by norm_num) (by norm_num) (by decide)
    (by norm_num [Flt.nearestEven]) (by norm_num) (by norm_num)

/-- The value 100 is a float. -/
theorem f32_round_hundred : Flt.round32 (Flt.num 100) = Flt.num 100 :=
  flt_round32_pos 100 6 100 (by norm_num) (by norm_num) (by norm_num) (by decide)
    (by norm_num [Flt.nearestEven]) (by norm_num) (by norm_num)

/-- The value 200 is a float. -/
theorem f32_round_two_hundred : Flt.round32 (Flt.num 200) = Flt.num 200 :=
  flt_round32_pos 200 7 200 (by norm_num) (by norm_num) (by norm_num) (by decide)
    (by norm_num [Flt.nearestEven]) (by norm_num) (by norm_num)

/-- The value 250 is a float. -/
theorem f32_round_two_hundred_fifty : Flt.round32 (Flt.num 250) = Flt.num 250 :=
  flt_round32_pos 250 7 250 (by norm_num) (by norm_num) (by norm_num) (by decide)
    (by norm_num [Flt.nearestEven]) (by norm_num) (by norm_num)

/-- The value 300 is a float. -/
theorem f32_round_three_hundred : Flt.round32 (Flt.num 300) = Flt.num 300 :=
  flt_round32_pos 300 8 300 (by norm_num) (by norm_num) (by norm_num) (by decide)
    (by norm_num [Flt.nearestEven]) (by norm_num) (by norm_num)

theorem f32_add_def (a b : F32) : a + b = { val := Flt.round32 (Flt.add a.val b.val) } := rfl

theorem f32_mul_def (a b : F32) : a * b = { val := Flt.round32 (Flt.mul a.val b.val) } := rfl

theorem f32_zero_def : (0 : F32) = { val := Flt.zero false } := rfl

theorem f32_one_def : (1 : F32) = { val := Flt.num 1 } := rfl

theorem f32_lt_def (a b : F32) : FloatOps.lt a b = Flt.lt a.val b.val := rfl

theorem f32_gt_def (a b : F32) : FloatOps.gt a b = Flt.lt b.val a.val := rfl

theorem f32_round_zero (b : Bool) : Flt.round32 (Flt.zero b) = Flt.zero b := rfl

/-- Without rounding the widths `0.5f`, `0.7f` and `0.7f` add up to `1.9f`
exactly. -/
theorem f32_widths_exact :
    Flt.add (Flt.add (F32.ofRat (1 / 2)).val (F32.ofRat (7 / 10)).val) (F32.ofRat (7 / 10)).val =
      (F32.ofRat (19 / 10)).val := by
  norm_num [F32.ofRat, Flt.ofRat, Flt.add, f32_round_half, f32_round_seven_tenths,
    f32_round_nineteen_tenths]

/-! ## The scale policy over floats -/

/-- At the child's own tier, a target scale inside the range is kept. -/
theorem fp_scaleByOpts_inside (K : Fp.Defaults Flt) (opts : Option (Fp.AxisLayoutOptions Flt))
    (scale : Flt) (h1 : FloatOps.le (Fp.optsMinScale K opts) scale = true)
    (h2 : FloatOps.le scale (Fp.optsMaxScale opts) = true) :
    Fp.scaleByOpts K opts scale (Fp.optsScalePrio K opts) = scale * Fp.optsRelScale opts := by
  have a1 : Flt.lt scale (Fp.optsMinScale K opts) = false := by
    rw [flt_le_def, Bool.or_eq_true] at h1
    rcases h1 with h | h
    · exact flt_lt_asymm _ _ h
    · exact (flt_lt_of_eq _ _ h).2
  have a2 : Flt.lt (Fp.optsMaxScale opts) scale = false := by
    rw [flt_le_def, Bool.or_eq_true] at h2
    rcases h2 with h | h
    · exact flt_lt_asymm _ _ h
    · exact (flt_lt_of_eq _ _ h).2
  simp [Fp.scaleByOpts, flt_lt_def, flt_gt_def, a1, a2]

/-- At the child's own tier, a target scale below a well-ordered range gives
the lower bound. -/
theorem fp_scaleByOpts_below (K : Fp.Defaults Flt) (opts : Option (Fp.AxisLayoutOptions Flt))
    (scale : Flt) (h1 : FloatOps.lt scale (Fp.optsMinScale K opts) = true)
    (h2 : FloatOps.le (Fp.optsMinScale K opts) (Fp.optsMaxScale opts) = true) :
    Fp.scaleByOpts K opts scale (Fp.optsScalePrio K opts) =
      Fp.optsMinScale K opts * Fp.optsRelScale opts := by
  have a2 : Flt.lt (Fp.optsMaxScale opts) (Fp.optsMinScale K opts) = false := by
    rw [flt_le_def, Bool.or_eq_true] at h2
    rcases h2 with h | h
    · exact flt_lt_asymm _ _ h
    · exact (flt_lt_of_eq _ _ h).2
  rw [flt_lt_def] at h1
  simp [Fp.scaleByOpts, flt_lt_def, flt_gt_def, h1, a2]

/-- At the child's own tier, a target scale above the upper bound gives the
upper bound. -/
theorem fp_scaleByOpts_above (K : Fp.Defaults Flt) (opts : Option (Fp.AxisLayoutOptions Flt))
    (scale : Flt) (h1 : FloatOps.gt scale (Fp.optsMaxScale opts) = true) :
    Fp.scaleByOpts K opts scale (Fp.optsScalePrio K opts) =
      Fp.optsMaxScale opts * Fp.optsRelScale opts := by
  rw [flt_gt_def] at h1
  by_cases h : Flt.lt scale (Fp.optsMinScale K opts) = true
  · have := flt_lt_trans _ _ _ h1 h
    simp [Fp.scaleByOpts, flt_lt_def, flt_gt_def, h, this]
  · simp [Fp.scaleByOpts, flt_lt_def, flt_gt_def, h, h1]

/-- At the child's own tier, with an inverted range, every target scale other
than NaN gives the upper bound. -/
theorem fp_scaleByOpts_inverted (K : Fp.Defaults Flt) (opts : Option (Fp.AxisLayoutOptions Flt))
    (scale : Flt) (hinv : FloatOps.gt (Fp.optsMinScale K opts) (Fp.optsMaxScale opts) = true)
    (hnum : scale ≠ Flt.nan) :
    Fp.scaleByOpts K opts scale (Fp.optsScalePrio K opts) =
      Fp.optsMaxScale opts * Fp.optsRelScale opts := by
  rw [flt_gt_def] at hinv
  by_cases h : Flt.lt scale (Fp.optsMinScale K opts) = true
  · simp [Fp.scaleByOpts, flt_lt_def, flt_gt_def, h, hinv]
  · apply fp_scaleByOpts_above
    rw [flt_gt_def]
    rcases flt_lt_total scale (Fp.optsMinScale K opts) hnum (flt_ne_nan_of_lt _ _ hinv).2 with
      h3 | h3 | h3
    · exact absurd h3 h
    · revert h3 hinv
      generalize Fp.optsMinScale K opts = m
      generalize Fp.optsMaxScale opts = x
      intro hinv h3
      cases scale <;> cases m <;> cases x <;> simp_all [Flt.lt, Flt.eq, Flt.toRat]
    · exact flt_lt_trans _ _ _ hinv h3

/-- C3 as amended: `scaleByOpts` over floats.  Absent options stand for the
defaults.  For a child whose priority is below the active tier the result is
`maxScale * relativeScale`, for a child whose priority is above the tier it
is `minScale * relativeScale`, whatever the target scale.  For a child at the
active tier the result is the target scale clamped into
`[minScale, maxScale]`, times `relativeScale`: the target itself when
`minScale <= target <= maxScale`, `minScale` when `target < minScale <=
maxScale`, `maxScale` when `target > maxScale`, and `maxScale` as well when
the range is inverted and the target is not NaN.  When the target and the
two bounds are not NaN, one of these cases applies. -/
theorem scaleByOpts_by_tier (K : Fp.Defaults Flt) (opts : Option (Fp.AxisLayoutOptions Flt))
    (scale : Flt) (prio : Int) :
    (Fp.optsScalePrio K opts < prio →
      Fp.scaleByOpts K opts scale prio = Fp.optsMaxScale opts * Fp.optsRelScale opts) ∧
    (prio < Fp.optsScalePrio K opts →
      Fp.scaleByOpts K opts scale prio = Fp.optsMinScale K opts * Fp.optsRelScale opts) ∧
    (Fp.optsScalePrio K opts = prio →
      (FloatOps.le (Fp.optsMinScale K opts) scale = true →
        FloatOps.le scale (Fp.optsMaxScale opts) = true →
          Fp.scaleByOpts K opts scale prio = scale * Fp.optsRelScale opts) ∧
      (FloatOps.lt scale (Fp.optsMinScale K opts) = true →
        FloatOps.le (Fp.optsMinScale K opts) (Fp.optsMaxScale opts) = true →
          Fp.scaleByOpts K opts scale prio = Fp.optsMinScale K opts * Fp.optsRelScale opts) ∧
      (FloatOps.gt scale (Fp.optsMaxScale opts) = true →
        Fp.scaleByOpts K opts scale prio = Fp.optsMaxScale opts * Fp.optsRelScale opts) ∧
      (FloatOps.gt (Fp.optsMinScale K opts) (Fp.optsMaxScale opts) = true → scale ≠ Flt.nan →
        Fp.scaleByOpts K opts scale prio = Fp.optsMaxScale opts * Fp.optsRelScale opts)) ∧
    (scale ≠ Flt.nan → Fp.optsMinScale K opts ≠ Flt.nan → Fp.optsMaxScale opts ≠ Flt.nan →
      (FloatOps.le (Fp.optsMinScale K opts) scale = true ∧
          FloatOps.le scale (Fp.optsMaxScale opts) = true) ∨
        (FloatOps.lt scale (Fp.optsMinScale K opts) = true ∧
          FloatOps.le (Fp.optsMinScale K opts) (Fp.optsMaxScale opts) = true) ∨
        FloatOps.gt scale (Fp.optsMaxScale opts) = true ∨
        FloatOps.gt (Fp.optsMinScale K opts) (Fp.optsMaxScale opts) = true) ∧
    (Fp.optsScalePrio K none = K.AXISLAYOUT_DEFAULT_PRIORITY ∧
      Fp.optsMinScale K none = K.AXISLAYOUT_DEFAULT_MIN_SCALE ∧
      Fp.optsMaxScale (none : Option (Fp.AxisLayoutOptions Flt)) = 1 ∧
      Fp.optsRelScale (none : Option (Fp.AxisLayoutOptions Flt)) = 1) := by
  refine ⟨fun h => ?_, fun h => ?_, fun h => ⟨?_, ?_, ?_, ?_⟩, ?_, rfl, rfl, rfl, rfl⟩
  · simp [Fp.scaleByOpts, h]
  · have hlt : ¬ prio > Fp.optsScalePrio K opts := by omega
    have hne : ¬ prio = Fp.optsScalePrio K opts := by omega
    simp [Fp.scaleByOpts, hlt, hne]
  · subst h
    exact fp_scaleByOpts_inside K opts scale
  · subst h
    exact fp_scaleByOpts_below K opts scale
  · subst h
    exact fp_scaleByOpts_above K opts scale
  · subst h
    exact fp_scaleByOpts_inverted K opts scale
  · intro h1 h2 h3
    simp only [flt_le_def, flt_lt_def, flt_gt_def, Bool.or_eq_true]
    rcases flt_lt_total scale (Fp.optsMinScale K opts) h1 h2 with a | a | a
    · rcases flt_lt_total (Fp.optsMinScale K opts) (Fp.optsMaxScale opts) h2 h3 with b | b | b
      · exact Or.inr (Or.inl ⟨a, Or.inl b⟩)
      · exact Or.inr (Or.inl ⟨a, Or.inr b⟩)
      · exact Or.inr (Or.inr (Or.inr b))
    · rcases flt_lt_total scale (Fp.optsMaxScale opts) h1 h3 with b | b | b
      · refine Or.inl ⟨Or.inr ?_, Or.inl b⟩
        revert a
        generalize Fp.optsMinScale K opts = m
        intro a
        cases scale <;> cases m <;> simp_all [Flt.eq, Flt.toRat]
      · refine Or.inl ⟨Or.inr ?_, Or.inr b⟩
        revert a
        generalize Fp.optsMinScale K opts = m
        intro a
        cases scale <;> cases m <;> simp_all [Flt.eq, Flt.toRat]
      · exact Or.inr (Or.inr (Or.inl b))
    · rcases flt_lt_total scale (Fp.optsMaxScale opts) h1 h3 with b | b | b
      · exact Or.inl ⟨Or.inl a, Or.inl b⟩
      · exact Or.inl ⟨Or.inl a, Or.inr b⟩
      · exact Or.inr (Or.inr (Or.inl b))

/-- Witness of C3 as amended: a child of priority 0 with the scale range `[1/2, 2]`
asked for the target scale 5 at the tiers 1, 0 and -1: the results are
2 (the upper bound), 2 (5 clamped) and 1/2 (the lower bound). -/
theorem scaleByOpts_by_tier_witness :
    Fp.scaleByOpts fltDefaults (some (fltOptions (Flt.num (1 / 2)) (Flt.num 2))) (Flt.num 5) 1 =
        Flt.num 2 ∧
      Fp.scaleByOpts fltDefaults (some (fltOptions (Flt.num (1 / 2)) (Flt.num 2))) (Flt.num 5) 0 =
        Flt.num 2 ∧
      Fp.scaleByOpts fltDefaults (some (fltOptions (Flt.num (1 / 2)) (Flt.num 2))) (Flt.num 5)
        (-1) = Flt.num (1 / 2) := by
  have h := scaleByOpts_by_tier fltDefaults (some (fltOptions (Flt.num (1 / 2)) (Flt.num 2)))
    (Flt.num 5)
  refine ⟨?_, ?_, ?_⟩
  · rw [(h 1).1 (by decide)]
    simp [Fp.optsMaxScale, Fp.optsRelScale, fltOptions, flt_mul_def, flt_one_def, Flt.mul,
      Flt.ofRat]
  · rw [((h 0).2.2.1 rfl).2.2.1 (by
      simp [flt_gt_def, Fp.optsMaxScale, fltOptions, Flt.lt, Flt.toRat]; norm_num)]
    simp [Fp.optsMaxScale, Fp.optsRelScale, fltOptions, flt_mul_def, flt_one_def, Flt.mul,
      Flt.ofRat]
  · rw [(h (-1)).2.1 (by decide)]
    simp [Fp.optsMinScale, Fp.optsRelScale, fltOptions, flt_mul_def, flt_one_def, Flt.mul,
      Flt.ofRat]

/-- Counterexample of C3: at the child's own tier a NaN target scale passes
both comparisons of the clamp, and `scaleByOpts` returns NaN, which is
`c * relativeScale` for no `c` between `minScale = 1/2` and `maxScale = 2`.
Likewise, with `minScale` NaN the target scale 1/4 is returned as it is,
and no `c` satisfies `minScale <= c`. -/
theorem scaleByOpts_nan_target :
    (Fp.scaleByOpts fltDefaults (some (fltOptions (Flt.num (1 / 2)) (Flt.num 2))) Flt.nan 0 =
        Flt.nan ∧
      ∀ c : Flt, FloatOps.le (Flt.num (1 / 2)) c = true → FloatOps.le c (Flt.num 2) = true →
        Fp.scaleByOpts fltDefaults (some (fltOptions (Flt.num (1 / 2)) (Flt.num 2))) Flt.nan 0 ≠
          c * Fp.optsRelScale (some (fltOptions (Flt.num (1 / 2)) (Flt.num 2)))) ∧
    (Fp.scaleByOpts fltDefaults (some (fltOptions Flt.nan (Flt.num 2))) (Flt.num (1 / 4)) 0 =
        Flt.num (1 / 4) ∧
      ∀ c : Flt, FloatOps.le (Fp.optsMinScale fltDefaults (some (fltOptions Flt.nan (Flt.num 2))))
        c = false) := by
  have e : Fp.scaleByOpts fltDefaults (some (fltOptions (Flt.num (1 / 2)) (Flt.num 2))) Flt.nan 0 =
      Flt.nan := by
    simp [Fp.scaleByOpts, Fp.optsScalePrio, Fp.optsMinScale, Fp.optsMaxScale, Fp.optsRelScale,
      fltOptions, flt_lt_def, flt_gt_def, Flt.lt, flt_mul_def, Flt.mul]
  refine ⟨⟨e, ?_⟩, ?_, ?_⟩
  · intro c h1 h2
    rw [e]
    cases c <;>
      simp_all [flt_le_def, Flt.lt, Flt.eq, Fp.optsRelScale, fltOptions, flt_mul_def, flt_one_def,
        Flt.mul, Flt.ofRat, Flt.sign]
    all_goals split <;> simp
  · simp [Fp.scaleByOpts, Fp.optsScalePrio, Fp.optsMinScale, Fp.optsMaxScale, Fp.optsRelScale,
      fltOptions, flt_lt_def, flt_gt_def, Flt.lt, Flt.toRat, flt_mul_def, flt_one_def, Flt.mul,
      Flt.ofRat]
    norm_num
  · intro c
    simp [Fp.optsMinScale, fltOptions, flt_le_def, Flt.lt, Flt.eq]

/-- C16 as amended: for a child whose priority equals the active tier and whose
options have `minScale > maxScale`, `scaleByOpts` returns
`maxScale * relativeScale` for every target scale other than NaN. -/
theorem scaleByOpts_inverted_range (K : Fp.Defaults Flt)
    (opts : Option (Fp.AxisLayoutOptions Flt)) (scale : Flt) (prio : Int)
    (hprio : Fp.optsScalePrio K opts = prio)
    (hinv : FloatOps.gt (Fp.optsMinScale K opts) (Fp.optsMaxScale opts) = true)
    (hnum : scale ≠ Flt.nan) :
    Fp.scaleByOpts K opts scale prio = Fp.optsMaxScale opts * Fp.optsRelScale opts := by
  subst hprio
  exact fp_scaleByOpts_inverted K opts scale hinv hnum

/-- Witness of C16 as amended: a child of priority 0 with `minScale = 2` and
`maxScale = 1`, asked for the target scale 5 at tier 0. -/
theorem scaleByOpts_inverted_range_witness :
    Fp.scaleByOpts fltDefaults (some (fltOptions (Flt.num 2) (Flt.num 1))) (Flt.num 5) 0 =
      Fp.optsMaxScale (some (fltOptions (Flt.num 2) (Flt.num 1))) *
        Fp.optsRelScale (some (fltOptions (Flt.num 2) (Flt.num 1))) :=
  scaleByOpts_inverted_range fltDefaults (some (fltOptions (Flt.num 2) (Flt.num 1))) (Flt.num 5) 0
    rfl (by simp [flt_gt_def, Fp.optsMinScale, Fp.optsMaxScale, fltOptions, Flt.lt, Flt.toRat])
    (by simp)

/-- Counterexample of C16: with `minScale = 2 > maxScale = 1` and
the target scale NaN at the child's own tier, `scaleByOpts` returns NaN and
not `maxScale * relativeScale = 1`. -/
theorem scaleByOpts_inverted_nan :
    Fp.scaleByOpts fltDefaults (some (fltOptions (Flt.num 2) (Flt.num 1))) Flt.nan 0 = Flt.nan ∧
      Fp.optsMaxScale (some (fltOptions (Flt.num 2) (Flt.num 1))) *
        Fp.optsRelScale (some (fltOptions (Flt.num 2) (Flt.num 1))) = Flt.num 1 ∧
      Fp.scaleByOpts fltDefaults (some (fltOptions (Flt.num 2) (Flt.num 1))) Flt.nan 0 ≠
        Fp.optsMaxScale (some (fltOptions (Flt.num 2) (Flt.num 1))) *
          Fp.optsRelScale (some (fltOptions (Flt.num 2) (Flt.num 1))) := by
  have e : Fp.scaleByOpts fltDefaults (some (fltOptions (Flt.num 2) (Flt.num 1))) Flt.nan 0 =
      Flt.nan := by
    simp [Fp.scaleByOpts, Fp.optsScalePrio, Fp.optsMinScale, Fp.optsMaxScale, Fp.optsRelScale,
      fltOptions, flt_lt_def, flt_gt_def, Flt.lt, flt_mul_def, Flt.mul]
  have m : Fp.optsMaxScale (some (fltOptions (Flt.num 2) (Flt.num 1))) *
      Fp.optsRelScale (some (fltOptions (Flt.num 2) (Flt.num 1))) = Flt.num 1 := by
    simp [Fp.optsMaxScale, Fp.optsRelScale, fltOptions, flt_mul_def, flt_one_def, Flt.mul,
      Flt.ofRat]
  refine ⟨e, m, ?_⟩
  rw [e, m]
  simp

/-! ## A scale that is not a number -/

/-- The first pass of `apply` on a child of 100 x 40 in a container of
100 x 100 at scale -1: one row of cross length 40, more than the available
cross length -100, and both factors 0. -/
theorem fp_fitRows_mirrored_first :
    (fltLayout false).fitRows fltDefaults (fltBox 0 100 100 (-1)) [fltBox 1 100 40 1] (0, 0) true
        (Flt.num 1) (Flt.num 1) 0 =
      { rows :=
          [{ nextOverflowScaleDownFactor := Flt.num (-1)
             nextOverflowSquishFactor := Flt.num (-1)
             axisLength := Flt.num 100
             crossLength := Flt.num 40
             axisEndsLength := Flt.num 100
             nodes := [fltBox 1 100 40 1] }]
        totalRowCrossLength := Flt.num 40
        crossScaleDownFactor := Flt.zero false
        crossSquishFactor := Flt.zero false
        ix := 1
        newNodes := [] } := by
  simp [Fp.AxisLayout.fitRows, Fp.AxisLayout.fitRowsLoop, Fp.AxisLayout.fitRowsStep,
    Fp.AxisLayout.rowsInit, Fp.AxisLayout.fitInRow, Fp.AxisLayout.fitInRowLoop,
    Fp.AxisLayout.breaksBefore, Fp.AxisLayout.acceptNode, Fp.AxisLayout.fitInit,
    Fp.AxisLayout.passAxis, Fp.AxisLayout.passLength, Fp.AxisLayout.passGap,
    Fp.AxisLayout.resetScale, Fp.AxisLayout.shouldAutoScale, Fp.nodeAxis, Fp.scaleByOpts,
    Fp.optsScalePrio, Fp.optsMinScale, Fp.optsMaxScale, Fp.optsRelScale, Fp.isOptsSameLine,
    Fp.isOptsBreakLine, Fp.CCNode.setScale, Fp.CCNode.getScaledContentSize, Fp.CCSize.scale,
    fltLayout, fltBox, fltDefaults, flt_add_def, flt_sub_def, flt_mul_def, flt_div_def,
    flt_zero_def, flt_one_def, flt_lt_def, flt_gt_def, flt_eq_def, Flt.add, Flt.mul, Flt.div,
    Flt.lt, Flt.eq, Flt.ofRat, Flt.toRat, Flt.sign, Flt.neg, Flt.sub]
  norm_num

/-- The pass at squish 0: every length is 0, and the two factors are
`-100 / 0 * 1 * 0`, that is NaN. -/
theorem fp_fitRows_mirrored_second :
    (fltLayout false).fitRows fltDefaults (fltBox 0 100 100 (-1)) [fltBox 1 100 40 1] (0, 0) true
        (Flt.num 1) (Flt.zero false) 0 =
      { rows :=
          [{ nextOverflowScaleDownFactor := Flt.nan
             nextOverflowSquishFactor := Flt.nan
             axisLength := Flt.zero false
             crossLength := Flt.zero false
             axisEndsLength := Flt.num 100
             nodes := [fltBox 1 100 40 1] }]
        totalRowCrossLength := Flt.zero false
        crossScaleDownFactor := Flt.zero false
        crossSquishFactor := Flt.zero false
        ix := 1
        newNodes := [] } := by
  simp [Fp.AxisLayout.fitRows, Fp.AxisLayout.fitRowsLoop, Fp.AxisLayout.fitRowsStep,
    Fp.AxisLayout.rowsInit, Fp.AxisLayout.fitInRow, Fp.AxisLayout.fitInRowLoop,
    Fp.AxisLayout.breaksBefore, Fp.AxisLayout.acceptNode, Fp.AxisLayout.fitInit,
    Fp.AxisLayout.passAxis, Fp.AxisLayout.passLength, Fp.AxisLayout.passGap,
    Fp.AxisLayout.resetScale, Fp.AxisLayout.shouldAutoScale, Fp.nodeAxis, Fp.scaleByOpts,
    Fp.optsScalePrio, Fp.optsMinScale, Fp.optsMaxScale, Fp.optsRelScale, Fp.isOptsSameLine,
    Fp.isOptsBreakLine, Fp.CCNode.setScale, Fp.CCNode.getScaledContentSize, Fp.CCSize.scale,
    fltLayout, fltBox, fltDefaults, flt_add_def, flt_sub_def, flt_mul_def, flt_div_def,
    flt_zero_def, flt_one_def, flt_lt_def, flt_gt_def, flt_eq_def, Flt.add, Flt.mul, Flt.div,
    Flt.lt, Flt.eq, Flt.ofRat, Flt.toRat, Flt.sign, Flt.neg, Flt.sub]
  norm_num

/-- The retry decision behind the first pass: the row is taller than the
available cross length, the scale branch makes no retry at the lowest tier,
and the squish branch retries with the squish factor 0. -/
theorem fp_retryArgs_mirrored_first (fuel : Nat) :
    (fltLayout false).retryArgs fltDefaults (fltBox 0 100 100 (-1)) [fltBox 1 100 40 1] (0, 0) true
        (Flt.num 1) (Flt.num 1) 0
        ((fltLayout false).fitRows fltDefaults (fltBox 0 100 100 (-1)) [fltBox 1 100 40 1] (0, 0)
          true (Flt.num 1) (Flt.num 1) 0) fuel =
      some (some (Flt.num 1, Flt.zero false, 0)) := by
  rw [fp_fitRows_mirrored_first]
  simp [Fp.AxisLayout.retryArgs, Fp.AxisLayout.minScaleForPrio, Fp.nodeAxis, Fp.optsMinScale,
    Fp.CCNode.getScaledContentSize, Fp.CCSize.scale,
    fltLayout, fltBox, fltDefaults, flt_add_def, flt_sub_def, flt_mul_def, flt_div_def,
    flt_zero_def, flt_one_def, flt_lt_def, flt_gt_def, flt_eq_def, Flt.add, Flt.mul, Flt.div,
    Flt.lt, Flt.eq, Flt.ofRat, Flt.toRat, Flt.sign, Flt.neg, Flt.sub]
  norm_num

/-- The retry decision behind the pass at squish 0: the total cross length 0
exceeds the available cross length -100, neither branch retries, the pass is
accepted. -/
theorem fp_retryArgs_mirrored_second (fuel : Nat) :
    (fltLayout false).retryArgs fltDefaults (fltBox 0 100 100 (-1)) [fltBox 1 100 40 1] (0, 0) true
        (Flt.num 1) (Flt.zero false) 0
        ((fltLayout false).fitRows fltDefaults (fltBox 0 100 100 (-1)) [fltBox 1 100 40 1] (0, 0)
          true (Flt.num 1) (Flt.zero false) 0) fuel =
      some none := by
  rw [fp_fitRows_mirrored_second]
  simp [Fp.AxisLayout.retryArgs, Fp.AxisLayout.minScaleForPrio, Fp.nodeAxis, Fp.optsMinScale,
    Fp.CCNode.getScaledContentSize, Fp.CCSize.scale,
    fltLayout, fltBox, fltDefaults, flt_add_def, flt_sub_def, flt_mul_def, flt_div_def,
    flt_zero_def, flt_one_def, flt_lt_def, flt_gt_def, flt_eq_def, Flt.add, Flt.mul, Flt.div,
    Flt.lt, Flt.eq, Flt.ofRat, Flt.toRat, Flt.sign, Flt.neg, Flt.sub]

/-- The per-row fitting of the accepted pass: the row length 0 exceeds the
available length -100, `row->axisLength /= scale * squish` is `0 / 0`, and
the row scale `-100 / NaN` passes the comparison with the minimum scale. -/
theorem fp_rowFit_mirrored :
    (fltLayout false).rowFit fltDefaults (Fp.nodeAxis (fltBox 0 100 100 (-1)) Axis.Row 1)
        { nextOverflowScaleDownFactor := Flt.nan
          nextOverflowSquishFactor := Flt.nan
          axisLength := Flt.zero false
          crossLength := Flt.zero false
          axisEndsLength := Flt.num 100
          nodes := [fltBox 1 100 40 1] } (Flt.num 1) (Flt.zero false) =
      (Flt.nan, Flt.zero false, Flt.nan) := by
  simp [Fp.AxisLayout.rowFit, Fp.nodeAxis, Fp.CCNode.getScaledContentSize, Fp.CCSize.scale,
    fltLayout, fltBox, fltDefaults, flt_add_def, flt_sub_def, flt_mul_def, flt_div_def,
    flt_zero_def, flt_one_def, flt_lt_def, flt_gt_def, flt_eq_def, Flt.add, Flt.mul, Flt.div,
    Flt.lt, Flt.eq, Flt.ofRat, Flt.toRat, Flt.sign, Flt.neg, Flt.sub]

theorem flt_ne_nan_of_le (a b : Flt) (h : FloatOps.le a b = true) :
    a ≠ Flt.nan ∧ b ≠ Flt.nan := by
  cases a <;> cases b <;> simp_all [flt_le_def, Flt.lt, Flt.eq]

theorem flt_le_refl (a : Flt) (h : a ≠ Flt.nan) : FloatOps.le a a = true := by
  cases a <;> simp_all [flt_le_def, Flt.lt, Flt.eq, Flt.toRat]

theorem flt_le_of_eq (a b : Flt) (h : Flt.eq a b = true) : FloatOps.le b a = true := by
  cases a <;> cases b <;> simp_all [flt_le_def, Flt.lt, Flt.eq, Flt.toRat]

/-- What the placement writes onto a child to which auto-scale applies, for
a row scale that is a number: with `minScale <= maxScale` and at the child's
own tier, `c * relativeScale` for some `c` of the range. -/
theorem fp_placeRescale_clamped (L : Fp.AxisLayout Flt) (K : Fp.Defaults Flt) (rowScale : Flt)
    (node : Fp.CCNode Flt) (hauto : L.shouldAutoScale node.axisOpts = true)
    (hle : FloatOps.le (Fp.optsMinScale K node.axisOpts) (Fp.optsMaxScale node.axisOpts) = true)
    (hnum : rowScale ≠ Flt.nan) :
    ∃ c : Flt, FloatOps.le (Fp.optsMinScale K node.axisOpts) c = true ∧
      FloatOps.le c (Fp.optsMaxScale node.axisOpts) = true ∧
      (L.placeRescale K rowScale (Fp.optsScalePrio K node.axisOpts) node).m_fScaleX =
        c * Fp.optsRelScale node.axisOpts ∧
      (L.placeRescale K rowScale (Fp.optsScalePrio K node.axisOpts) node).m_fScaleY =
        c * Fp.optsRelScale node.axisOpts := by
  have hw : ∀ r : Flt,
      Fp.scaleByOpts K node.axisOpts rowScale (Fp.optsScalePrio K node.axisOpts) = r →
      (L.placeRescale K rowScale (Fp.optsScalePrio K node.axisOpts) node).m_fScaleX = r ∧
      (L.placeRescale K rowScale (Fp.optsScalePrio K node.axisOpts) node).m_fScaleY = r := by
    intro r hr
    simp only [Fp.AxisLayout.placeRescale, Fp.AxisLayout.placeScale, hauto, if_true,
      Fp.CCNode.setScale, Fp.CCNode.setBaseScale, hr, and_self]
  have hmin := flt_ne_nan_of_le _ _ hle
  rcases flt_lt_total rowScale (Fp.optsMinScale K node.axisOpts) hnum hmin.1 with a | a | a
  · exact ⟨_, flt_le_refl _ hmin.1, hle, hw _ (fp_scaleByOpts_below K node.axisOpts rowScale a hle)⟩
  · have h1 := flt_le_of_eq _ _ a
    rcases flt_lt_total rowScale (Fp.optsMaxScale node.axisOpts) hnum hmin.2 with b | b | b
    · have h2 : FloatOps.le rowScale (Fp.optsMaxScale node.axisOpts) = true := by
        rw [flt_le_def, b, Bool.true_or]
      exact ⟨_, h1, h2, hw _ (fp_scaleByOpts_inside K node.axisOpts rowScale h1 h2)⟩
    · have h2 : FloatOps.le rowScale (Fp.optsMaxScale node.axisOpts) = true := by
        rw [flt_le_def, b, Bool.or_true]
      exact ⟨_, h1, h2, hw _ (fp_scaleByOpts_inside K node.axisOpts rowScale h1 h2)⟩
    · exact ⟨_, hle, flt_le_refl _ hmin.2, hw _ (fp_scaleByOpts_above K node.axisOpts rowScale b)⟩
  · have h1 : FloatOps.le (Fp.optsMinScale K node.axisOpts) rowScale = true := by
      rw [flt_le_def, a, Bool.true_or]
    rcases flt_lt_total rowScale (Fp.optsMaxScale node.axisOpts) hnum hmin.2 with b | b | b
    · have h2 : FloatOps.le rowScale (Fp.optsMaxScale node.axisOpts) = true := by
        rw [flt_le_def, b, Bool.true_or]
      exact ⟨_, h1, h2, hw _ (fp_scaleByOpts_inside K node.axisOpts rowScale h1 h2)⟩
    · have h2 : FloatOps.le rowScale (Fp.optsMaxScale node.axisOpts) = true := by
        rw [flt_le_def, b, Bool.or_true]
      exact ⟨_, h1, h2, hw _ (fp_scaleByOpts_inside K node.axisOpts rowScale h1 h2)⟩
    · exact ⟨_, hle, flt_le_refl _ hmin.2, hw _ (fp_scaleByOpts_above K node.axisOpts rowScale b)⟩

/-- C4: the scale that the placement writes onto a child to which auto-scale
applies, whose range satisfies `minScale <= maxScale` and whose priority is
the tier of the pass, is `c * relativeScale` for some `c` of the range
whenever the row scale of the per-row fitting is a number; the per-row
fitting can yield NaN, and then NaN is written.  Evaluated on a row layout
with auto-scale, without wrapping and without cross-axis overflow, on a
container of content size 100 x 100 at scale -1 with one child of 100 x 40
without options: the first pass retries with squish 0, the pass at squish 0 is
accepted, its row scale is NaN and the placement writes the scale NaN onto
the child; auto-scale applies to the child, its range `[13/20, 1]` is well
ordered and its priority 0 is the tier of the accepted pass, and NaN is
`c * relativeScale` for no `c` of the range. -/
theorem apply_commits_nan_scale (fuel : Nat) :
    (∀ (L : Fp.AxisLayout Flt) (K : Fp.Defaults Flt) (rowScale : Flt) (prio : Int)
      (node : Fp.CCNode Flt), L.shouldAutoScale node.axisOpts = true →
      FloatOps.le (Fp.optsMinScale K node.axisOpts) (Fp.optsMaxScale node.axisOpts) = true →
      Fp.optsScalePrio K node.axisOpts = prio → rowScale ≠ Flt.nan →
      ∃ c : Flt, FloatOps.le (Fp.optsMinScale K node.axisOpts) c = true ∧
        FloatOps.le c (Fp.optsMaxScale node.axisOpts) = true ∧
        (L.placeRescale K rowScale prio node).m_fScaleX = c * Fp.optsRelScale node.axisOpts ∧
        (L.placeRescale K rowScale prio node).m_fScaleY = c * Fp.optsRelScale node.axisOpts) ∧
    Option.map (fun r => r.2.map (fun row => row.nodes.map
        (fun n => (n.tag, n.m_fScaleX, n.m_fScaleY))))
        ((fltLayout false).apply fltDefaults (fuel + 2) (fltBox 0 100 100 (-1))
          [fltBox 1 100 40 1]) = some [[(1, Flt.nan, Flt.nan)]] ∧
    (fltLayout false).shouldAutoScale (fltBox 1 100 40 1).axisOpts = true ∧
    FloatOps.le (Fp.optsMinScale fltDefaults (fltBox 1 100 40 1).axisOpts)
      (Fp.optsMaxScale (fltBox 1 100 40 1).axisOpts) = true ∧
    Fp.optsScalePrio fltDefaults (fltBox 1 100 40 1).axisOpts = 0 ∧
    ∀ c : Flt, FloatOps.le (Fp.optsMinScale fltDefaults (fltBox 1 100 40 1).axisOpts) c = true →
      FloatOps.le c (Fp.optsMaxScale (fltBox 1 100 40 1).axisOpts) = true →
        c * Fp.optsRelScale (fltBox 1 100 40 1).axisOpts ≠ Flt.nan := by
  refine ⟨?_, ?_, rfl, ?_, rfl, ?_⟩
  · intro L K rowScale prio node hauto hle hprio hnum
    subst hprio
    exact fp_placeRescale_clamped L K rowScale node hauto hle hnum
  · have hscan : (fltLayout false).applyScan [fltBox 1 100 40 1] = ((0, 0), true) := by
      simp [Fp.AxisLayout.applyScan, fltLayout, fltBox]
    have hmax : (fltLayout false).maxScaleForPrio [fltBox 1 100 40 1] 0 = Flt.num 1 := by
      simp [Fp.AxisLayout.maxScaleForPrio, Fp.optsMaxScale, fltBox, flt_one_def]
    have hpacked1 : (fltLayout false).packedNodes
        ((fltLayout false).fitRows fltDefaults (fltBox 0 100 100 (-1)) [fltBox 1 100 40 1] (0, 0)
          true (Flt.num 1) (Flt.num 1) 0).rows = [fltBox 1 100 40 1] := by
      rw [fp_fitRows_mirrored_first]
      simp [Fp.AxisLayout.packedNodes, Fp.AxisLayout.packed, fltLayout]
    have hpacked2 : (fltLayout false).packedNodes
        ((fltLayout false).fitRows fltDefaults (fltBox 0 100 100 (-1)) [fltBox 1 100 40 1] (0, 0)
          true (Flt.num 1) (Flt.zero false) 0).rows = [fltBox 1 100 40 1] := by
      rw [fp_fitRows_mirrored_second]
      simp [Fp.AxisLayout.packedNodes, Fp.AxisLayout.packed, fltLayout]
    unfold Fp.AxisLayout.apply
    simp only [hscan, hmax, flt_one_def]
    rw [Fp.AxisLayout.tryFitLayout]
    simp only [hpacked1, fp_retryArgs_mirrored_first]
    rw [Fp.AxisLayout.tryFitLayout]
    simp only [hpacked2, fp_retryArgs_mirrored_second]
    rw [fp_fitRows_mirrored_second]
    have hav : (if (fltLayout false).m_allowCrossAxisOverflow = true then
          { Fp.nodeAxis (fltBox 0 100 100 (-1)) (fltLayout false).m_axis 1 with
            crossLength := Flt.zero false }
        else Fp.nodeAxis (fltBox 0 100 100 (-1)) (fltLayout false).m_axis 1) =
        Fp.nodeAxis (fltBox 0 100 100 (-1)) Axis.Row 1 := rfl
    simp only [Fp.AxisLayout.positionRows, Fp.AxisLayout.placeRows, Fp.AxisLayout.placeRow, hav,
      fp_rowFit_mirrored]
    simp [Fp.AxisLayout.placeNode, Fp.AxisLayout.placeRescale, Fp.AxisLayout.placeScale,
      Fp.AxisLayout.shouldAutoScale, Fp.scaleByOpts, Fp.optsScalePrio, Fp.optsMinScale,
      Fp.optsMaxScale, Fp.optsRelScale, Fp.CCNode.setScale, Fp.CCNode.setBaseScale,
      Fp.CCNode.setPosition, fltLayout, fltBox, fltDefaults, flt_lt_def, flt_gt_def, Flt.lt,
      flt_mul_def, Flt.mul, flt_one_def]
  · simp [Fp.optsMinScale, Fp.optsMaxScale, fltBox, fltDefaults, flt_le_def, flt_one_def, Flt.lt,
      Flt.toRat]
    norm_num
  · intro c h1 h2
    cases c <;>
      simp_all [flt_le_def, Flt.lt, Flt.eq, Fp.optsMinScale, Fp.optsMaxScale, Fp.optsRelScale,
        fltBox, fltDefaults, flt_mul_def, flt_one_def, Flt.mul, Flt.ofRat, Flt.sign, Flt.toRat]
    all_goals split <;> simp

namespace Fp

namespace AxisLayout

variable {T : Type} [FloatOps T]

/-! ## The row packer over floats -/

theorem fp_resetScale_axisOpts (L : AxisLayout T) (node : CCNode T) :
    (resetScale L node).axisOpts = node.axisOpts := by
  unfold resetScale
  split <;> rfl

theorem fp_resetScale_idem (L : AxisLayout T) (node : CCNode T) :
    resetScale L (resetScale L node) = resetScale L node := by
  unfold resetScale
  by_cases h : L.shouldAutoScale node.axisOpts = true
  · simp [h, CCNode.setScale]
  · simp [h]

theorem fp_resetScale_tag (L : AxisLayout T) (node : CCNode T) :
    (resetScale L node).tag = node.tag := by
  unfold resetScale
  split <;> rfl

theorem fp_passAxis_resetScale (L : AxisLayout T) (K : Defaults T) (scale squish : T) (prio : Int)
    (node : CCNode T) :
    L.passAxis K scale squish prio (resetScale L node) = L.passAxis K scale squish prio node := by
  simp [passAxis, fp_resetScale_idem, fp_resetScale_axisOpts]

theorem fp_passLength_resetScale (L : AxisLayout T) (K : Defaults T) (scale squish : T)
    (prio : Int) (node : CCNode T) :
    L.passLength K scale squish prio (resetScale L node) = L.passLength K scale squish prio node := by
  simp [passLength, fp_passAxis_resetScale]

theorem fp_acceptNode_resetScale (L : AxisLayout T) (K : Defaults T) (minMaxPrios : Int × Int)
    (scale squish : T) (prio : Int) (st : FitState T) (node : CCNode T) :
    L.acceptNode K minMaxPrios scale squish prio st (resetScale L node) =
      L.acceptNode K minMaxPrios scale squish prio st node := by
  simp [acceptNode, fp_passAxis_resetScale, fp_resetScale_idem, fp_resetScale_axisOpts]

theorem fp_fitInRowLoop_nil (L : AxisLayout T) (K : Defaults T) (available : AxisPosition T)
    (minMaxPrios : Int × Int) (scale squish : T) (prio : Int) (finalPosCalc : Bool)
    (st : FitState T) :
    L.fitInRowLoop K available minMaxPrios scale squish prio finalPosCalc [] st = (st, []) := rfl

theorem fp_fitInRowLoop_cons (L : AxisLayout T) (K : Defaults T) (available : AxisPosition T)
    (minMaxPrios : Int × Int) (scale squish : T) (prio : Int) (finalPosCalc : Bool)
    (node : CCNode T) (rest : List (CCNode T)) (st : FitState T) :
    L.fitInRowLoop K available minMaxPrios scale squish prio finalPosCalc (node :: rest) st =
      if L.breaksBefore K available scale squish prio finalPosCalc st node = true then
        ({ st with nextAxisLength := st.nextAxisLength + L.passLength K scale squish prio node },
          resetScale L node :: rest)
      else
        L.fitInRowLoop K available minMaxPrios scale squish prio finalPosCalc rest
          (L.acceptNode K minMaxPrios scale squish prio st node) := by
  rw [fitInRowLoop]

theorem fp_breaksBefore_fitInit (L : AxisLayout T) (K : Defaults T) (available : AxisPosition T)
    (scale squish : T) (prio : Int) (finalPosCalc : Bool) (node : CCNode T) :
    L.breaksBefore K available scale squish prio finalPosCalc fitInit node = false := by
  simp [breaksBefore, fitInit, isOptsBreakLine]

theorem fp_breaksBefore_of_not_grow (L : AxisLayout T) (K : Defaults T)
    (available : AxisPosition T) (scale squish : T) (prio : Int) (finalPosCalc : Bool)
    (st : FitState T) (node : CCNode T)
    (h : L.m_growCrossAxis = false ∨ finalPosCalc = true) :
    L.breaksBefore K available scale squish prio finalPosCalc st node = false := by
  rcases h with h | h <;> simp [breaksBefore, h]

/-- The accepted nodes followed by the entries left in the array are the
input entries, each written to by the scale reset. -/
theorem fp_fitInRowLoop_res (L : AxisLayout T) (K : Defaults T) (available : AxisPosition T)
    (minMaxPrios : Int × Int) (scale squish : T) (prio : Int) (finalPosCalc : Bool)
    (nodes : List (CCNode T)) (st : FitState T) :
    (L.fitInRowLoop K available minMaxPrios scale squish prio finalPosCalc nodes st).1.res ++
        (L.fitInRowLoop K available minMaxPrios scale squish prio finalPosCalc nodes st).2.map
          (resetScale L) =
      st.res ++ nodes.map (resetScale L) := by
  induction nodes generalizing st with
  | nil => simp [fp_fitInRowLoop_nil]
  | cons node rest ih =>
    rw [fp_fitInRowLoop_cons]
    split
    · simp [fp_resetScale_idem]
    · rw [ih]
      simp [acceptNode]

/-- The loop never lengthens the array. -/
theorem fp_fitInRowLoop_length_le (L : AxisLayout T) (K : Defaults T)
    (available : AxisPosition T) (minMaxPrios : Int × Int) (scale squish : T) (prio : Int)
    (finalPosCalc : Bool) (nodes : List (CCNode T)) (st : FitState T) :
    (L.fitInRowLoop K available minMaxPrios scale squish prio finalPosCalc nodes st).2.length ≤
      nodes.length := by
  induction nodes generalizing st with
  | nil => simp [fp_fitInRowLoop_nil]
  | cons node rest ih =>
    rw [fp_fitInRowLoop_cons]
    split
    · simp
    · exact Nat.le_succ_of_le (ih _)

/-- The first child of a non-empty array is always accepted. -/
theorem fp_fitInRowLoop_first (L : AxisLayout T) (K : Defaults T) (available : AxisPosition T)
    (minMaxPrios : Int × Int) (scale squish : T) (prio : Int) (finalPosCalc : Bool)
    (node : CCNode T) (rest : List (CCNode T)) :
    L.fitInRowLoop K available minMaxPrios scale squish prio finalPosCalc (node :: rest) fitInit =
      L.fitInRowLoop K available minMaxPrios scale squish prio finalPosCalc rest
        (L.acceptNode K minMaxPrios scale squish prio fitInit node) := by
  rw [fp_fitInRowLoop_cons, fp_breaksBefore_fitInit]
  simp

/-- In a non-final pass the stored nodes of the row, read in packing order,
are the accepted nodes of the loop. -/
theorem fp_packed_fitInRow (L : AxisLayout T) (K : Defaults T) (parent : CCNode T)
    (nodes : List (CCNode T)) (minMaxPrios : Int × Int) (doAutoScale : Bool) (scale squish : T)
    (prio : Int) :
    L.packed (L.fitInRow K parent nodes minMaxPrios doAutoScale scale squish prio false).1 =
      (L.fitInRowLoop K (nodeAxis parent L.m_axis 1) minMaxPrios scale squish prio false nodes
        fitInit).1.res := by
  unfold packed fitInRow
  by_cases h : L.m_axisReverse = true
  · simp [h]
  · simp [h]

theorem fp_fitInRow_snd (L : AxisLayout T) (K : Defaults T) (parent : CCNode T)
    (nodes : List (CCNode T)) (minMaxPrios : Int × Int) (doAutoScale : Bool) (scale squish : T)
    (prio : Int) :
    (L.fitInRow K parent nodes minMaxPrios doAutoScale scale squish prio false).2 =
      (L.fitInRowLoop K (nodeAxis parent L.m_axis 1) minMaxPrios scale squish prio false nodes
        fitInit).2 := by
  simp [fitInRow]

theorem fp_acceptNode_res (L : AxisLayout T) (K : Defaults T) (minMaxPrios : Int × Int)
    (scale squish : T) (prio : Int) (st : FitState T) (node : CCNode T) :
    (L.acceptNode K minMaxPrios scale squish prio st node).res = st.res ++ [resetScale L node] := rfl

/-- The accepted nodes only grow along the loop. -/
theorem fp_fitInRowLoop_res_prefix (L : AxisLayout T) (K : Defaults T)
    (available : AxisPosition T) (minMaxPrios : Int × Int) (scale squish : T) (prio : Int)
    (finalPosCalc : Bool) (nodes : List (CCNode T)) (st : FitState T) :
    st.res <+: (L.fitInRowLoop K available minMaxPrios scale squish prio finalPosCalc nodes st).1.res := by
  induction nodes generalizing st with
  | nil => simp [fp_fitInRowLoop_nil]
  | cons node rest ih =>
    rw [fp_fitInRowLoop_cons]
    split
    · simp
    · exact (List.prefix_append st.res [resetScale L node]).trans
        (ih (L.acceptNode K minMaxPrios scale squish prio st node))

/-- A row packed from a non-empty array starts with the array's first child. -/
theorem fp_packed_fitInRow_cons (L : AxisLayout T) (K : Defaults T) (parent : CCNode T)
    (node : CCNode T) (rest : List (CCNode T))
    (minMaxPrios : Int × Int) (doAutoScale : Bool) (scale squish : T) (prio : Int) :
    ∃ tail, L.packed (L.fitInRow K parent (node :: rest) minMaxPrios doAutoScale scale squish
      prio false).1 = resetScale L node :: tail := by
  rw [fp_packed_fitInRow, fp_fitInRowLoop_first]
  obtain ⟨t, ht⟩ := fp_fitInRowLoop_res_prefix L K (nodeAxis parent L.m_axis 1) minMaxPrios scale
    squish prio false rest (L.acceptNode K minMaxPrios scale squish prio fitInit node)
  exact ⟨t, by rw [← ht]; simp [acceptNode, fitInit]⟩

/-- A call of `fitInRow` on a non-empty array shortens the array. -/
theorem fp_fitInRow_snd_length_lt (L : AxisLayout T) (K : Defaults T) (parent : CCNode T)
    (node : CCNode T) (rest : List (CCNode T))
    (minMaxPrios : Int × Int) (doAutoScale : Bool) (scale squish : T) (prio : Int) :
    (L.fitInRow K parent (node :: rest) minMaxPrios doAutoScale scale squish prio false).2.length <
      (node :: rest).length := by
  rw [fp_fitInRow_snd, fp_fitInRowLoop_first]
  exact Nat.lt_succ_of_le (fp_fitInRowLoop_length_le _ _ _ _ _ _ _ _ _ _)

theorem fp_lastOpts_concat {U : Type} (l : List (CCNode U)) (a : CCNode U) :
    lastOpts (l ++ [a]) = a.axisOpts := by
  simp [lastOpts]

/-! ### The running length -/

theorem fp_accepted_nil (L : AxisLayout T) (K : Defaults T) (minMaxPrios : Int × Int)
    (scale squish : T) (prio : Int) :
    L.accepted K minMaxPrios scale squish prio [] = fitInit := rfl

theorem fp_accepted_concat (L : AxisLayout T) (K : Defaults T) (minMaxPrios : Int × Int)
    (scale squish : T) (prio : Int) (l : List (CCNode T)) (c : CCNode T) :
    L.accepted K minMaxPrios scale squish prio (l ++ [c]) =
      L.acceptNode K minMaxPrios scale squish prio (L.accepted K minMaxPrios scale squish prio l)
        c := by
  simp [accepted, List.foldl_append]

theorem fp_accepted_ix (L : AxisLayout T) (K : Defaults T) (minMaxPrios : Int × Int)
    (scale squish : T) (prio : Int) (l : List (CCNode T)) :
    (L.accepted K minMaxPrios scale squish prio l).ix = l.length := by
  induction l using List.reverseRecOn with
  | nil => rfl
  | append_singleton l c ih => rw [fp_accepted_concat]; simp [acceptNode, ih]

theorem fp_accepted_prev (L : AxisLayout T) (K : Defaults T) (minMaxPrios : Int × Int)
    (scale squish : T) (prio : Int) (l : List (CCNode T)) :
    (L.accepted K minMaxPrios scale squish prio l).prev = lastOpts l := by
  induction l using List.reverseRecOn with
  | nil => rfl
  | append_singleton l c ih => rw [fp_accepted_concat, fp_lastOpts_concat]; rfl

/-- The running length behind no child is `0.f`. -/
theorem fp_runLen_nil (L : AxisLayout T) (K : Defaults T) (minMaxPrios : Int × Int)
    (scale squish : T) (prio : Int) :
    L.runLen K minMaxPrios scale squish prio [] = 0 := rfl

/-- The running length behind a first child is `0.f` plus its length. -/
theorem fp_runLen_single (L : AxisLayout T) (K : Defaults T) (minMaxPrios : Int × Int)
    (scale squish : T) (prio : Int) (c : CCNode T) :
    L.runLen K minMaxPrios scale squish prio [c] = 0 + L.passLength K scale squish prio c := by
  simp [runLen, accepted, acceptNode, fitInit, passLength]

/-- The running length behind a further child: its length is added, then its
gap term. -/
theorem fp_runLen_concat (L : AxisLayout T) (K : Defaults T) (minMaxPrios : Int × Int)
    (scale squish : T) (prio : Int) (l : List (CCNode T)) (c : CCNode T) (hl : l ≠ []) :
    L.runLen K minMaxPrios scale squish prio (l ++ [c]) =
      L.runLen K minMaxPrios scale squish prio l + L.passLength K scale squish prio c +
        L.passGap minMaxPrios scale squish prio (lastOpts l) c.axisOpts := by
  have hix : (L.accepted K minMaxPrios scale squish prio l).ix ≠ 0 := by
    rw [fp_accepted_ix]
    exact fun h => hl (List.length_eq_zero.mp h)
  unfold runLen
  rw [fp_accepted_concat]
  simp [acceptNode, hix, fp_accepted_prev, passLength]

theorem fp_tracks_fitInit (L : AxisLayout T) (K : Defaults T) (minMaxPrios : Int × Int)
    (scale squish : T) (prio : Int) : Tracks L K minMaxPrios scale squish prio fitInit := rfl

theorem fp_tracks_acceptNode (L : AxisLayout T) (K : Defaults T) (minMaxPrios : Int × Int)
    (scale squish : T) (prio : Int) (st : FitState T) (node : CCNode T)
    (h : Tracks L K minMaxPrios scale squish prio st) :
    Tracks L K minMaxPrios scale squish prio
      (L.acceptNode K minMaxPrios scale squish prio st node) := by
  unfold Tracks at h ⊢
  rw [fp_acceptNode_res, fp_accepted_concat, h, fp_acceptNode_resetScale]

theorem fp_tracks_runLen (L : AxisLayout T) (K : Defaults T) (minMaxPrios : Int × Int)
    (scale squish : T) (prio : Int) (st : FitState T)
    (h : Tracks L K minMaxPrios scale squish prio st) :
    st.nextAxisLength = L.runLen K minMaxPrios scale squish prio st.res ∧
      st.ix = st.res.length ∧ st.prev = lastOpts st.res := by
  unfold Tracks at h
  refine ⟨?_, ?_, ?_⟩
  · unfold runLen
    rw [h]
  · have := fp_accepted_ix L K minMaxPrios scale squish prio st.res
    rw [h] at this
    exact this
  · have := fp_accepted_prev L K minMaxPrios scale squish prio st.res
    rw [h] at this
    exact this

/-- The test of the `break` in terms of the accepted nodes. -/
theorem fp_breaksBefore_tracks (L : AxisLayout T) (K : Defaults T) (available : AxisPosition T)
    (minMaxPrios : Int × Int) (scale squish : T) (prio : Int) (st : FitState T) (node : CCNode T)
    (h : Tracks L K minMaxPrios scale squish prio st) :
    L.breaksBefore K available scale squish prio false st node =
      (L.m_growCrossAxis &&
        ((L.overflows K available minMaxPrios scale squish prio st.res node &&
            st.res.length != 0 && !isOptsSameLine node.axisOpts)
          || isOptsBreakLine (lastOpts st.res))) := by
  obtain ⟨h1, h2, h3⟩ := fp_tracks_runLen L K minMaxPrios scale squish prio st h
  simp [breaksBefore, overflows, ← h1, ← h2, ← h3]

theorem fp_withinRow_nil (L : AxisLayout T) (K : Defaults T) (available : AxisPosition T)
    (minMaxPrios : Int × Int) (scale squish : T) (prio : Int) :
    WithinRow L K available minMaxPrios scale squish prio [] := by
  intro p c q h
  simp at h

theorem fp_withinRow_concat (L : AxisLayout T) (K : Defaults T) (available : AxisPosition T)
    (minMaxPrios : Int × Int) (scale squish : T) (prio : Int) (l : List (CCNode T))
    (n : CCNode T)
    (hl : WithinRow L K available minMaxPrios scale squish prio l)
    (hn : l ≠ [] → isOptsBreakLine (lastOpts l) = false ∧
      (isOptsSameLine n.axisOpts = true ∨
        L.overflows K available minMaxPrios scale squish prio l n = false)) :
    WithinRow L K available minMaxPrios scale squish prio (l ++ [n]) := by
  intro p c q h hp
  rcases List.eq_nil_or_concat q with hq | ⟨q2, x, hq⟩
  · subst hq
    have h2 : l ++ [n] = p ++ [c] := h
    obtain ⟨h3, h4⟩ := List.append_inj' h2 rfl
    have h5 : n = c := by simpa using h4
    subst h3
    subst h5
    exact hn hp
  · subst hq
    have h2 : l ++ [n] = (p ++ c :: q2) ++ [x] := by rw [h]; simp
    exact hl p c q2 (List.append_inj' h2 rfl).1 hp

theorem fp_overflows_resetScale (L : AxisLayout T) (K : Defaults T) (available : AxisPosition T)
    (minMaxPrios : Int × Int) (scale squish : T) (prio : Int) (row : List (CCNode T))
    (c : CCNode T) :
    L.overflows K available minMaxPrios scale squish prio row (resetScale L c) =
      L.overflows K available minMaxPrios scale squish prio row c := by
  simp [overflows, fp_passLength_resetScale]

/-- With wrapping enabled, in a non-final pass, the accepted nodes keep the
row discipline of `WithinRow`. -/
theorem fp_fitInRowLoop_withinRow (L : AxisLayout T) (K : Defaults T)
    (available : AxisPosition T) (minMaxPrios : Int × Int) (scale squish : T) (prio : Int)
    (hgrow : L.m_growCrossAxis = true)
    (nodes : List (CCNode T)) (st : FitState T) (h : Tracks L K minMaxPrios scale squish prio st)
    (hw : WithinRow L K available minMaxPrios scale squish prio st.res) :
    WithinRow L K available minMaxPrios scale squish prio
      (L.fitInRowLoop K available minMaxPrios scale squish prio false nodes st).1.res := by
  induction nodes generalizing st with
  | nil => exact hw
  | cons node rest ih =>
    rw [fp_fitInRowLoop_cons]
    split
    · exact hw
    · rename_i hb
      apply ih _ (fp_tracks_acceptNode L K minMaxPrios scale squish prio st node h)
      rw [fp_acceptNode_res]
      apply fp_withinRow_concat _ _ _ _ _ _ _ _ _ hw
      intro hne
      have hlen : st.res.length ≠ 0 := fun h0 => hne (List.length_eq_zero.mp h0)
      rw [fp_breaksBefore_tracks L K available minMaxPrios scale squish prio st node h] at hb
      rw [fp_resetScale_axisOpts, fp_overflows_resetScale]
      simp only [hgrow, Bool.true_and, Bool.or_eq_true, Bool.and_eq_true, bne_iff_ne, ne_eq,
        Bool.not_eq_true', not_or, not_and, Bool.not_eq_false] at hb
      refine ⟨by simpa using hb.2, ?_⟩
      by_cases hs : isOptsSameLine node.axisOpts = true
      · exact Or.inl hs
      · right
        by_contra hgt
        exact hs (hb.1 ⟨by simpa using hgt, fun h0 => hlen (by rw [h0])⟩)

/-- In a non-final pass, when the loop of `fitInRow` leaves entries in the
array, the row was broken before the first of them for one of the two
reasons of `RowBreak`. -/
theorem fp_fitInRowLoop_rowBreak (L : AxisLayout T) (K : Defaults T)
    (available : AxisPosition T) (minMaxPrios : Int × Int) (scale squish : T) (prio : Int)
    (nodes : List (CCNode T)) (st : FitState T)
    (h : Tracks L K minMaxPrios scale squish prio st) :
    RowBreak L K available minMaxPrios scale squish prio
      (L.fitInRowLoop K available minMaxPrios scale squish prio false nodes st).1.res
      (L.fitInRowLoop K available minMaxPrios scale squish prio false nodes st).2 := by
  induction nodes generalizing st with
  | nil =>
    intro b hb
    simp [fp_fitInRowLoop_nil] at hb
  | cons node rest ih =>
    rw [fp_fitInRowLoop_cons]
    split
    · rename_i hb
      intro b hbmem
      simp only [List.head?_cons, Option.mem_def, Option.some.injEq] at hbmem
      subst hbmem
      rw [fp_breaksBefore_tracks L K available minMaxPrios scale squish prio st node h] at hb
      simp only [Bool.and_eq_true, Bool.or_eq_true, bne_iff_ne, ne_eq,
        Bool.not_eq_true'] at hb
      rw [fp_resetScale_axisOpts, fp_overflows_resetScale]
      have hne : st.res ≠ [] := by
        rcases hb.2 with hb2 | hb2
        · intro hnil
          apply hb2.1.2
          rw [hnil]
          rfl
        · intro hnil
          rw [hnil] at hb2
          simp [lastOpts, isOptsBreakLine] at hb2
      refine ⟨hne, ?_⟩
      rcases hb.2 with hb2 | hb2
      · exact Or.inr ⟨hb2.2, hb2.1.1⟩
      · exact Or.inl hb2
    · exact ih _ (fp_tracks_acceptNode L K minMaxPrios scale squish prio st node h)

/-! ## The row-partition loop over floats -/

theorem fp_fitRowsStep_rows (L : AxisLayout T) (K : Defaults T) (parent : CCNode T)
    (minMaxPrios : Int × Int) (doAutoScale : Bool) (scale squish : T) (prio : Int)
    (st : RowsState T) :
    (L.fitRowsStep K parent minMaxPrios doAutoScale scale squish prio st).rows =
      st.rows ++
        [(L.fitInRow K parent st.newNodes minMaxPrios doAutoScale scale squish prio false).1] := rfl

theorem fp_fitRowsStep_newNodes (L : AxisLayout T) (K : Defaults T) (parent : CCNode T)
    (minMaxPrios : Int × Int) (doAutoScale : Bool) (scale squish : T) (prio : Int)
    (st : RowsState T) :
    (L.fitRowsStep K parent minMaxPrios doAutoScale scale squish prio st).newNodes =
      (L.fitInRow K parent st.newNodes minMaxPrios doAutoScale scale squish prio false).2 := rfl

theorem fp_fitRowsLoop_of_nil (L : AxisLayout T) (K : Defaults T) (parent : CCNode T)
    (minMaxPrios : Int × Int) (doAutoScale : Bool) (scale squish : T) (prio : Int)
    (fuel : Nat) (st : RowsState T) (h : st.newNodes = []) :
    L.fitRowsLoop K parent minMaxPrios doAutoScale scale squish prio fuel st = st := by
  cases fuel with
  | zero => rfl
  | succ n => simp [fitRowsLoop, h]

theorem fp_fitRowsLoop_succ (L : AxisLayout T) (K : Defaults T) (parent : CCNode T)
    (minMaxPrios : Int × Int) (doAutoScale : Bool) (scale squish : T) (prio : Int)
    (fuel : Nat) (st : RowsState T) (h : st.newNodes ≠ []) :
    L.fitRowsLoop K parent minMaxPrios doAutoScale scale squish prio (fuel + 1) st =
      L.fitRowsLoop K parent minMaxPrios doAutoScale scale squish prio fuel
        (L.fitRowsStep K parent minMaxPrios doAutoScale scale squish prio st) := by
  cases hn : st.newNodes with
  | nil => exact absurd hn h
  | cons a l => simp [fitRowsLoop, hn]

/-- Whatever holds at loop entry and is kept by every iteration holds at
loop exit. -/
theorem fp_fitRowsLoop_invariant (L : AxisLayout T) (K : Defaults T) (parent : CCNode T)
    (minMaxPrios : Int × Int) (doAutoScale : Bool) (scale squish : T) (prio : Int)
    (P : RowsState T → Prop)
    (hstep : ∀ st, st.newNodes ≠ [] → P st →
      P (L.fitRowsStep K parent minMaxPrios doAutoScale scale squish prio st))
    (fuel : Nat) (st : RowsState T) (h : P st) :
    P (L.fitRowsLoop K parent minMaxPrios doAutoScale scale squish prio fuel st) := by
  induction fuel generalizing st with
  | zero => exact h
  | succ n ih =>
    by_cases hn : st.newNodes = []
    · rw [fp_fitRowsLoop_of_nil _ _ _ _ _ _ _ _ _ _ hn]
      exact h
    · rw [fp_fitRowsLoop_succ _ _ _ _ _ _ _ _ _ _ hn]
      exact ih _ (hstep st hn h)

theorem fp_fitRowsStep_length_lt (L : AxisLayout T) (K : Defaults T) (parent : CCNode T)
    (minMaxPrios : Int × Int) (doAutoScale : Bool) (scale squish : T) (prio : Int)
    (st : RowsState T) (h : st.newNodes ≠ []) :
    (L.fitRowsStep K parent minMaxPrios doAutoScale scale squish prio st).newNodes.length <
      st.newNodes.length := by
  rw [fp_fitRowsStep_newNodes]
  cases hn : st.newNodes with
  | nil => exact absurd hn h
  | cons a l => exact fp_fitInRow_snd_length_lt _ _ _ _ _ _ _ _ _ _

/-- The loop leaves with an empty array once the fuel covers its length. -/
theorem fp_fitRowsLoop_newNodes (L : AxisLayout T) (K : Defaults T) (parent : CCNode T)
    (minMaxPrios : Int × Int) (doAutoScale : Bool) (scale squish : T) (prio : Int)
    (fuel : Nat) (st : RowsState T) (h : st.newNodes.length ≤ fuel) :
    (L.fitRowsLoop K parent minMaxPrios doAutoScale scale squish prio fuel st).newNodes = [] := by
  induction fuel generalizing st with
  | zero => simpa [fitRowsLoop] using h
  | succ n ih =>
    by_cases hn : st.newNodes = []
    · rw [fp_fitRowsLoop_of_nil _ _ _ _ _ _ _ _ _ _ hn]
      exact hn
    · rw [fp_fitRowsLoop_succ _ _ _ _ _ _ _ _ _ _ hn]
      apply ih
      have := fp_fitRowsStep_length_lt L K parent minMaxPrios doAutoScale scale squish prio st hn
      omega

/-- The partition loop of `tryFitLayout` exits: its array is empty at the end. -/
theorem fp_fitRows_newNodes (L : AxisLayout T) (K : Defaults T) (parent : CCNode T)
    (nodes : List (CCNode T)) (minMaxPrios : Int × Int) (doAutoScale : Bool) (scale squish : T)
    (prio : Int) :
    (L.fitRows K parent nodes minMaxPrios doAutoScale scale squish prio).newNodes = [] :=
  fp_fitRowsLoop_newNodes _ _ _ _ _ _ _ _ _ _ (le_refl _)

theorem fp_packedNodes_append {U : Type} (L : AxisLayout U) (rows : List (Row U)) (row : Row U) :
    L.packedNodes (rows ++ [row]) = L.packedNodes rows ++ L.packed row := by
  simp [packedNodes]

/-- The rows of the partition, read in packing order one after the other, are
the input children in their order, each written to by the scale reset. -/
theorem fp_fitRows_packedNodes (L : AxisLayout T) (K : Defaults T) (parent : CCNode T)
    (nodes : List (CCNode T)) (minMaxPrios : Int × Int) (doAutoScale : Bool) (scale squish : T)
    (prio : Int) :
    L.packedNodes (L.fitRows K parent nodes minMaxPrios doAutoScale scale squish prio).rows =
      nodes.map (resetScale L) := by
  have key := fp_fitRowsLoop_invariant L K parent minMaxPrios doAutoScale scale squish prio
    (fun st => L.packedNodes st.rows ++ st.newNodes.map (resetScale L) = nodes.map (resetScale L))
    (by
      intro st _ h
      rw [fp_fitRowsStep_rows, fp_fitRowsStep_newNodes, fp_packedNodes_append,
        fp_packed_fitInRow, fp_fitInRow_snd, List.append_assoc, fp_fitInRowLoop_res]
      simpa [fitInit] using h)
    nodes.length (rowsInit nodes) (by simp [rowsInit, packedNodes])
  have hnil := fp_fitRows_newNodes L K parent nodes minMaxPrios doAutoScale scale squish prio
  unfold fitRows at hnil ⊢
  simp only [] at key
  rw [hnil] at key
  simpa using key

theorem fp_packed_eq_nil {U : Type} (L : AxisLayout U) (row : Row U) :
    L.packed row = [] ↔ row.nodes = [] := by
  unfold packed
  split <;> simp

/-- Every row of the partition holds at least one node. -/
theorem fp_fitRows_rows_ne_nil (L : AxisLayout T) (K : Defaults T) (parent : CCNode T)
    (nodes : List (CCNode T)) (minMaxPrios : Int × Int) (doAutoScale : Bool) (scale squish : T)
    (prio : Int) :
    ∀ row ∈ (L.fitRows K parent nodes minMaxPrios doAutoScale scale squish prio).rows,
      row.nodes ≠ [] := by
  refine fp_fitRowsLoop_invariant L K parent minMaxPrios doAutoScale scale squish prio
    (fun st => ∀ row ∈ st.rows, row.nodes ≠ []) ?_ nodes.length (rowsInit nodes)
    (by simp [rowsInit])
  intro st hne h row hrow
  rw [fp_fitRowsStep_rows, List.mem_append] at hrow
  rcases hrow with hrow | hrow
  · exact h row hrow
  · rw [List.mem_singleton] at hrow
    subst hrow
    cases hn : st.newNodes with
    | nil => exact absurd hn hne
    | cons a l =>
      obtain ⟨tail, ht⟩ := fp_packed_fitInRow_cons L K parent a l minMaxPrios doAutoScale scale
        squish prio
      intro hnil
      rw [(fp_packed_eq_nil L _).mpr hnil] at ht
      exact List.noConfusion ht

/-- The partition of a non-empty array starts with one call of `fitInRow` on
the whole array and goes on with what that call leaves. -/
theorem fp_fitRows_cons (L : AxisLayout T) (K : Defaults T) (parent : CCNode T)
    (node : CCNode T) (rest : List (CCNode T)) (minMaxPrios : Int × Int) (doAutoScale : Bool)
    (scale squish : T) (prio : Int) :
    L.fitRows K parent (node :: rest) minMaxPrios doAutoScale scale squish prio =
      L.fitRowsLoop K parent minMaxPrios doAutoScale scale squish prio rest.length
        (L.fitRowsStep K parent minMaxPrios doAutoScale scale squish prio
          (rowsInit (node :: rest))) := by
  unfold fitRows
  exact fp_fitRowsLoop_succ L K parent minMaxPrios doAutoScale scale squish prio rest.length
    (rowsInit (node :: rest)) (by simp [rowsInit])

/-- With wrapping enabled every row of the partition keeps the discipline of
`WithinRow`. -/
theorem fp_fitRows_withinRow (L : AxisLayout T) (K : Defaults T) (parent : CCNode T)
    (nodes : List (CCNode T)) (minMaxPrios : Int × Int) (doAutoScale : Bool) (scale squish : T)
    (prio : Int) (hgrow : L.m_growCrossAxis = true) :
    ∀ row ∈ (L.fitRows K parent nodes minMaxPrios doAutoScale scale squish prio).rows,
      WithinRow L K (nodeAxis parent L.m_axis 1) minMaxPrios scale squish prio (L.packed row) := by
  refine fp_fitRowsLoop_invariant L K parent minMaxPrios doAutoScale scale squish prio
    (fun st => ∀ row ∈ st.rows,
      WithinRow L K (nodeAxis parent L.m_axis 1) minMaxPrios scale squish prio (L.packed row))
    ?_ nodes.length (rowsInit nodes) (by simp [rowsInit])
  intro st _ h row hrow
  rw [fp_fitRowsStep_rows, List.mem_append] at hrow
  rcases hrow with hrow | hrow
  · exact h row hrow
  · rw [List.mem_singleton] at hrow
    subst hrow
    rw [fp_packed_fitInRow]
    exact fp_fitInRowLoop_withinRow L K _ minMaxPrios scale squish prio hgrow _ _
      (fp_tracks_fitInit L K minMaxPrios scale squish prio) (fp_withinRow_nil L K _ minMaxPrios
        scale squish prio)

theorem fp_rowBreak_of_head (L : AxisLayout T) (K : Defaults T) (available : AxisPosition T)
    (minMaxPrios : Int × Int) (scale squish : T) (prio : Int) (row : List (CCNode T))
    (a : CCNode T) (l tail : List (CCNode T))
    (h : RowBreak L K available minMaxPrios scale squish prio row (a :: l)) :
    RowBreak L K available minMaxPrios scale squish prio row (resetScale L a :: tail) := by
  intro b hb
  simp only [List.head?_cons, Option.mem_def, Option.some.injEq] at hb
  subst hb
  rw [fp_resetScale_axisOpts, fp_overflows_resetScale]
  exact h a (by simp)

/-- Consecutive rows of the partition are separated for one of the two
reasons of `RowBreak`. -/
theorem fp_fitRows_rowBreak (L : AxisLayout T) (K : Defaults T) (parent : CCNode T)
    (nodes : List (CCNode T)) (minMaxPrios : Int × Int) (doAutoScale : Bool) (scale squish : T)
    (prio : Int) :
    List.Chain' (RowBreak L K (nodeAxis parent L.m_axis 1) minMaxPrios scale squish prio)
      ((L.fitRows K parent nodes minMaxPrios doAutoScale scale squish prio).rows.map
        (L.packed)) := by
  have key := fp_fitRowsLoop_invariant L K parent minMaxPrios doAutoScale scale squish prio
    (fun st => List.Chain'
      (RowBreak L K (nodeAxis parent L.m_axis 1) minMaxPrios scale squish prio)
      (st.rows.map (L.packed) ++ [st.newNodes]))
    (by
      intro st hne h
      cases hn : st.newNodes with
      | nil => exact absurd hn hne
      | cons a l =>
        rw [hn] at h
        obtain ⟨tail, ht⟩ := fp_packed_fitInRow_cons L K parent a l minMaxPrios doAutoScale scale
          squish prio
        have hrb := fp_fitInRowLoop_rowBreak L K (nodeAxis parent L.m_axis 1) minMaxPrios scale
          squish prio (a :: l) fitInit (fp_tracks_fitInit L K minMaxPrios scale squish prio)
        rw [← fp_packed_fitInRow L K parent (a :: l) minMaxPrios doAutoScale scale squish prio,
          ← fp_fitInRow_snd L K parent (a :: l) minMaxPrios doAutoScale scale squish prio] at hrb
        rw [fp_fitRowsStep_rows, fp_fitRowsStep_newNodes, hn, List.map_append,
          List.map_singleton]
        rw [List.chain'_append] at h ⊢
        refine ⟨?_, List.chain'_singleton _, ?_⟩
        · rw [List.chain'_append]
          refine ⟨h.1, List.chain'_singleton _, ?_⟩
          intro x hx y hy
          simp only [List.head?_cons, Option.mem_def, Option.some.injEq] at hy
          subst hy
          rw [ht]
          exact fp_rowBreak_of_head L K _ minMaxPrios scale squish prio x a l tail
            (h.2.2 x hx (a :: l) (by simp))
        · intro x hx y hy
          simp only [List.getLast?_append, List.getLast?_singleton, Option.or_some,
            Option.or, Option.mem_def, Option.some.injEq] at hx
          simp only [List.head?_cons, Option.mem_def, Option.some.injEq] at hy
          subst hx
          subst hy
          exact hrb)
    nodes.length (rowsInit nodes) (by simp [rowsInit])
  exact key.left_of_append

theorem fp_fitRows_flatten (L : AxisLayout T) (K : Defaults T) (parent : CCNode T)
    (nodes : List (CCNode T)) (minMaxPrios : Int × Int) (doAutoScale : Bool) (scale squish : T)
    (prio : Int) :
    ((L.fitRows K parent nodes minMaxPrios doAutoScale scale squish prio).rows.map
      (L.packed)).flatten = nodes.map (resetScale L) := by
  rw [← fp_fitRows_packedNodes L K parent nodes minMaxPrios doAutoScale scale squish prio]
  simp [packedNodes, List.flatMap]

theorem fp_fitRows_packed_ne_nil (L : AxisLayout T) (K : Defaults T) (parent : CCNode T)
    (nodes : List (CCNode T)) (minMaxPrios : Int × Int) (doAutoScale : Bool) (scale squish : T)
    (prio : Int) :
    ∀ r ∈ (L.fitRows K parent nodes minMaxPrios doAutoScale scale squish prio).rows.map
      (L.packed), r ≠ [] := by
  intro r hr
  rw [List.mem_map] at hr
  obtain ⟨row, hrow, rfl⟩ := hr
  intro hnil
  exact fp_fitRows_rows_ne_nil L K parent nodes minMaxPrios doAutoScale scale squish prio row hrow
    ((fp_packed_eq_nil L row).mp hnil)

/-- When the first call of `fitInRow` leaves entries and the second call
consumes them all, the partition is these two rows. -/
theorem fp_fitRows_two (L : AxisLayout T) (K : Defaults T) (parent : CCNode T)
    (node : CCNode T) (rest : List (CCNode T)) (minMaxPrios : Int × Int) (doAutoScale : Bool)
    (scale squish : T) (prio : Int) (b : CCNode T) (rest2 : List (CCNode T))
    (hfirst : (L.fitInRowLoop K (nodeAxis parent L.m_axis 1) minMaxPrios scale squish prio false
      (node :: rest) fitInit).2 = b :: rest2)
    (hsecond : (L.fitInRowLoop K (nodeAxis parent L.m_axis 1) minMaxPrios scale squish prio false
      (b :: rest2) fitInit).2 = []) :
    (L.fitRows K parent (node :: rest) minMaxPrios doAutoScale scale squish prio).rows.map
        (L.packed) =
      [(L.fitInRowLoop K (nodeAxis parent L.m_axis 1) minMaxPrios scale squish prio false
          (node :: rest) fitInit).1.res,
        (L.fitInRowLoop K (nodeAxis parent L.m_axis 1) minMaxPrios scale squish prio false
          (b :: rest2) fitInit).1.res] := by
  have hlen := fp_fitInRow_snd_length_lt L K parent node rest minMaxPrios doAutoScale scale squish
    prio
  rw [fp_fitInRow_snd, hfirst] at hlen
  have hnew1 : (L.fitRowsStep K parent minMaxPrios doAutoScale scale squish prio
      (rowsInit (node :: rest))).newNodes = b :: rest2 := by
    rw [fp_fitRowsStep_newNodes, fp_fitInRow_snd]
    exact hfirst
  obtain ⟨k, hk⟩ : ∃ k, rest.length = k + 1 := by
    cases rest with
    | nil => simp at hlen
    | cons x xs => exact ⟨xs.length, rfl⟩
  rw [fp_fitRows_cons, hk, fp_fitRowsLoop_succ _ _ _ _ _ _ _ _ _ _ (by rw [hnew1]; simp),
    fp_fitRowsLoop_of_nil _ _ _ _ _ _ _ _ _ _ (by
      rw [fp_fitRowsStep_newNodes, hnew1, fp_fitInRow_snd]
      exact hsecond)]
  rw [fp_fitRowsStep_rows, hnew1, fp_fitRowsStep_rows]
  simp [rowsInit, fp_packed_fitInRow]

/-- Every node of a row of the partition is an input child after the scale
reset. -/
theorem fp_fitRows_mem_packed (L : AxisLayout T) (K : Defaults T) (parent : CCNode T)
    (nodes : List (CCNode T)) (minMaxPrios : Int × Int) (doAutoScale : Bool) (scale squish : T)
    (prio : Int) (r : List (CCNode T))
    (hr : r ∈ (L.fitRows K parent nodes minMaxPrios doAutoScale scale squish prio).rows.map
      (L.packed)) (x : CCNode T) (hx : x ∈ r) :
    ∃ n ∈ nodes, x = resetScale L n := by
  have hmem : x ∈ ((L.fitRows K parent nodes minMaxPrios doAutoScale scale squish prio).rows.map
      (L.packed)).flatten := List.mem_flatten.mpr ⟨r, hr, hx⟩
  rw [fp_fitRows_flatten, List.mem_map] at hmem
  obtain ⟨n, hn, rfl⟩ := hmem
  exact ⟨n, hn, rfl⟩

end AxisLayout

end Fp

namespace Fp

namespace AxisLayout

variable {T : Type} [FloatOps T]

/-- The state reached by accepting children is the same for the children
before and after `fitInRow` has reset their scale. -/
theorem fp_accepted_map_resetScale (L : AxisLayout T) (K : Defaults T) (minMaxPrios : Int × Int)
    (scale squish : T) (prio : Int) (l : List (CCNode T)) :
    (L.accepted K minMaxPrios scale squish prio (l.map (resetScale L))).nextAxisLength =
      (L.accepted K minMaxPrios scale squish prio l).nextAxisLength ∧
    (L.accepted K minMaxPrios scale squish prio (l.map (resetScale L))).prev =
      (L.accepted K minMaxPrios scale squish prio l).prev ∧
    (L.accepted K minMaxPrios scale squish prio (l.map (resetScale L))).ix =
      (L.accepted K minMaxPrios scale squish prio l).ix := by
  induction l using List.reverseRecOn with
  | nil => exact ⟨rfl, rfl, rfl⟩
  | append_singleton l c ih =>
    obtain ⟨h1, h2, h3⟩ := ih
    rw [List.map_append, List.map_singleton, fp_accepted_concat, fp_accepted_concat,
      fp_acceptNode_resetScale]
    simp [acceptNode, h1, h2, h3]

theorem fp_runLen_map_resetScale (L : AxisLayout T) (K : Defaults T) (minMaxPrios : Int × Int)
    (scale squish : T) (prio : Int) (l : List (CCNode T)) :
    L.runLen K minMaxPrios scale squish prio (l.map (resetScale L)) =
      L.runLen K minMaxPrios scale squish prio l :=
  (fp_accepted_map_resetScale L K minMaxPrios scale squish prio l).1

theorem fp_overflows_map_resetScale (L : AxisLayout T) (K : Defaults T)
    (available : AxisPosition T) (minMaxPrios : Int × Int) (scale squish : T) (prio : Int)
    (l : List (CCNode T)) (c : CCNode T) :
    L.overflows K available minMaxPrios scale squish prio (l.map (resetScale L)) c =
      L.overflows K available minMaxPrios scale squish prio l c := by
  simp [overflows, fp_runLen_map_resetScale]

end AxisLayout

end Fp

/-- C9: with wrapping enabled and no `sameLine` or `breakLine` hint the
partition is greedy, over floats with whatever arithmetic.  The sum the packer
compares is its running length `runLen`: from `0.f`, the axis length of each
child of the row is added in turn, and behind each child but the first its
gap term, which with all gaps zero is `0.f * scale * squish` (`0.f * squish`
above the lowest tier).  Inside a row, for every child behind the first the
comparison "running length plus the child's length exceeds the available
length" was false; a row followed by another row is non-empty, and for the
first child of the next row that comparison was true.  For three children,
when the comparison is false for the second behind the first and true for the
third behind the first two, the rows are the first two children and the third
alone. -/
theorem fitRows_greedy {T : Type} [FloatOps T] (L : Fp.AxisLayout T) (K : Fp.Defaults T)
    (parent : Fp.CCNode T) (nodes : List (Fp.CCNode T)) (minMaxPrios : Int × Int)
    (doAutoScale : Bool) (scale squish : T) (prio : Int)
    (hgrow : L.m_growCrossAxis = true)
    (hgap : ∀ a ∈ nodes, ∀ b ∈ nodes, L.nextGap a.axisOpts b.axisOpts = 0)
    (hhint : ∀ n ∈ nodes,
      Fp.isOptsSameLine n.axisOpts = false ∧ Fp.isOptsBreakLine n.axisOpts = false) :
    (∀ row ∈ (L.fitRows K parent nodes minMaxPrios doAutoScale scale squish prio).rows,
      ∀ p c q, L.packed row = p ++ c :: q →
        (p = [] → L.runLen K minMaxPrios scale squish prio (p ++ [c]) =
          0 + L.passLength K scale squish prio c) ∧
        (p ≠ [] → L.runLen K minMaxPrios scale squish prio (p ++ [c]) =
          L.runLen K minMaxPrios scale squish prio p + L.passLength K scale squish prio c +
            (if prio = minMaxPrios.1 then 0 * scale * squish else 0 * squish))) ∧
    (∀ row ∈ (L.fitRows K parent nodes minMaxPrios doAutoScale scale squish prio).rows,
      ∀ p c q, L.packed row = p ++ c :: q → p ≠ [] →
        L.overflows K (Fp.nodeAxis parent L.m_axis 1) minMaxPrios scale squish prio p c = false) ∧
    (∀ R1 r r2 R2,
      (L.fitRows K parent nodes minMaxPrios doAutoScale scale squish prio).rows.map (L.packed) =
        R1 ++ r :: r2 :: R2 →
      ∃ b tail, r2 = b :: tail ∧ r ≠ [] ∧
        L.overflows K (Fp.nodeAxis parent L.m_axis 1) minMaxPrios scale squish prio r b = true) ∧
    (∀ c1 c2 c3, nodes = [c1, c2, c3] →
      L.overflows K (Fp.nodeAxis parent L.m_axis 1) minMaxPrios scale squish prio [c1] c2 = false →
      L.overflows K (Fp.nodeAxis parent L.m_axis 1) minMaxPrios scale squish prio [c1, c2] c3 =
        true →
      (L.fitRows K parent nodes minMaxPrios doAutoScale scale squish prio).rows.map (L.packed) =
        [[Fp.AxisLayout.resetScale L c1, Fp.AxisLayout.resetScale L c2],
          [Fp.AxisLayout.resetScale L c3]]) := by
  have hopts : ∀ r ∈ (L.fitRows K parent nodes minMaxPrios doAutoScale scale squish prio).rows.map
      (L.packed), ∀ x ∈ r, ∃ n ∈ nodes, x.axisOpts = n.axisOpts := by
    intro r hr x hx
    obtain ⟨n, hn, rfl⟩ := Fp.AxisLayout.fp_fitRows_mem_packed L K parent nodes minMaxPrios
      doAutoScale scale squish prio r hr x hx
    exact ⟨n, hn, Fp.AxisLayout.fp_resetScale_axisOpts L n⟩
  refine ⟨?_, ?_, ?_, ?_⟩
  · intro row hrow p c q hsplit
    have hr : L.packed row ∈ (L.fitRows K parent nodes minMaxPrios doAutoScale scale squish
        prio).rows.map (L.packed) := List.mem_map_of_mem _ hrow
    refine ⟨fun hp => ?_, fun hp => ?_⟩
    · subst hp
      exact Fp.AxisLayout.fp_runLen_single L K minMaxPrios scale squish prio c
    · rw [Fp.AxisLayout.fp_runLen_concat L K minMaxPrios scale squish prio p c hp]
      obtain ⟨x, hx⟩ : ∃ x, p.getLast? = some x := by
        cases hl : p.getLast? with
        | none => exact absurd (List.getLast?_eq_none_iff.mp hl) hp
        | some x => exact ⟨x, rfl⟩
      obtain ⟨n, hn, hnx⟩ := hopts _ hr x (by
        rw [hsplit]
        exact List.mem_append_left _ (List.mem_of_getLast?_eq_some hx))
      obtain ⟨m, hm, hmc⟩ := hopts _ hr c (by rw [hsplit]; simp)
      have hlast : Fp.AxisLayout.lastOpts p = n.axisOpts := by
        unfold Fp.AxisLayout.lastOpts
        rw [hx]
        exact hnx
      rw [hlast, hmc]
      unfold Fp.AxisLayout.passGap
      rw [hgap n hn m hm]
  · intro row hrow p c q hsplit hp
    have hw := Fp.AxisLayout.fp_fitRows_withinRow L K parent nodes minMaxPrios doAutoScale scale
      squish prio hgrow row hrow p c q hsplit hp
    have hr : L.packed row ∈ (L.fitRows K parent nodes minMaxPrios doAutoScale scale squish
        prio).rows.map (L.packed) := List.mem_map_of_mem _ hrow
    obtain ⟨n, hn, hnc⟩ := hopts _ hr c (by rw [hsplit]; simp)
    rcases hw.2 with hs | hle
    · rw [hnc, (hhint n hn).1] at hs
      exact Bool.noConfusion hs
    · exact hle
  · intro R1 r r2 R2 hrows
    have hch := Fp.AxisLayout.fp_fitRows_rowBreak L K parent nodes minMaxPrios doAutoScale scale
      squish prio
    rw [hrows] at hch
    have hrb := (List.chain'_cons.mp (List.chain'_append.mp hch).2.1).1
    have hr : r ∈ (L.fitRows K parent nodes minMaxPrios doAutoScale scale squish
        prio).rows.map (L.packed) := by rw [hrows]; simp
    have hr2 : r2 ∈ (L.fitRows K parent nodes minMaxPrios doAutoScale scale squish
        prio).rows.map (L.packed) := by rw [hrows]; simp
    cases r2 with
    | nil =>
      exact absurd rfl (Fp.AxisLayout.fp_fitRows_packed_ne_nil L K parent nodes minMaxPrios
        doAutoScale scale squish prio [] hr2)
    | cons b tail =>
      obtain ⟨hne, hreason⟩ := hrb b (by simp)
      refine ⟨b, tail, rfl, hne, ?_⟩
      rcases hreason with hbl | hover
      · exfalso
        obtain ⟨x, hx⟩ : ∃ x, r.getLast? = some x := by
          cases hl : r.getLast? with
          | none => exact absurd (List.getLast?_eq_none_iff.mp hl) hne
          | some x => exact ⟨x, rfl⟩
        obtain ⟨n, hn, hnx⟩ := hopts r hr x (List.mem_of_getLast?_eq_some hx)
        unfold Fp.AxisLayout.lastOpts at hbl
        rw [hx] at hbl
        simp only [] at hbl
        rw [hnx, (hhint n hn).2] at hbl
        exact Bool.noConfusion hbl
      · exact hover.2
  · intro c1 c2 c3 hnodes h2 h3
    subst hnodes
    have hr1 : L.overflows K (Fp.nodeAxis parent L.m_axis 1) minMaxPrios scale squish prio
        [Fp.AxisLayout.resetScale L c1] c2 = false := by
      rw [← h2]
      exact Fp.AxisLayout.fp_overflows_map_resetScale L K _ minMaxPrios scale squish prio [c1] c2
    have hr2 : L.overflows K (Fp.nodeAxis parent L.m_axis 1) minMaxPrios scale squish prio
        [Fp.AxisLayout.resetScale L c1, Fp.AxisLayout.resetScale L c2] c3 = true := by
      rw [← h3]
      exact Fp.AxisLayout.fp_overflows_map_resetScale L K _ minMaxPrios scale squish prio [c1, c2]
        c3
    have t0 := Fp.AxisLayout.fp_tracks_fitInit L K minMaxPrios scale squish prio
    have t1 := Fp.AxisLayout.fp_tracks_acceptNode L K minMaxPrios scale squish prio _ c1 t0
    have t2 := Fp.AxisLayout.fp_tracks_acceptNode L K minMaxPrios scale squish prio _ c2 t1
    have e1 : L.fitInRowLoop K (Fp.nodeAxis parent L.m_axis 1) minMaxPrios scale squish prio false
        [c1, c2, c3] Fp.AxisLayout.fitInit =
        ({ L.acceptNode K minMaxPrios scale squish prio
            (L.acceptNode K minMaxPrios scale squish prio Fp.AxisLayout.fitInit c1) c2 with
            nextAxisLength :=
              (L.acceptNode K minMaxPrios scale squish prio
                (L.acceptNode K minMaxPrios scale squish prio Fp.AxisLayout.fitInit c1)
                  c2).nextAxisLength + L.passLength K scale squish prio c3 },
          [Fp.AxisLayout.resetScale L c3]) := by
      rw [Fp.AxisLayout.fp_fitInRowLoop_first, Fp.AxisLayout.fp_fitInRowLoop_cons, if_neg,
        Fp.AxisLayout.fp_fitInRowLoop_cons, if_pos]
      · rw [Fp.AxisLayout.fp_breaksBefore_tracks L K _ minMaxPrios scale squish prio _ c3 t2]
        have hres : (L.acceptNode K minMaxPrios scale squish prio
            (L.acceptNode K minMaxPrios scale squish prio Fp.AxisLayout.fitInit c1) c2).res =
            [Fp.AxisLayout.resetScale L c1, Fp.AxisLayout.resetScale L c2] := rfl
        rw [hres, hr2]
        simp [hgrow, (hhint c3 (by simp)).1]
      · rw [Fp.AxisLayout.fp_breaksBefore_tracks L K _ minMaxPrios scale squish prio _ c2 t1]
        have hres : (L.acceptNode K minMaxPrios scale squish prio Fp.AxisLayout.fitInit c1).res =
            [Fp.AxisLayout.resetScale L c1] := rfl
        rw [hres, hr1]
        simp [Fp.AxisLayout.lastOpts, Fp.AxisLayout.fp_resetScale_axisOpts,
          (hhint c1 (by simp)).2]
    have e2 : L.fitInRowLoop K (Fp.nodeAxis parent L.m_axis 1) minMaxPrios scale squish prio false
        [Fp.AxisLayout.resetScale L c3] Fp.AxisLayout.fitInit =
        (L.acceptNode K minMaxPrios scale squish prio Fp.AxisLayout.fitInit
          (Fp.AxisLayout.resetScale L c3), []) := by
      rw [Fp.AxisLayout.fp_fitInRowLoop_first, Fp.AxisLayout.fp_fitInRowLoop_nil]
    rw [Fp.AxisLayout.fp_fitRows_two L K parent c1 [c2, c3] minMaxPrios doAutoScale scale squish
      prio (Fp.AxisLayout.resetScale L c3) [] (by rw [e1]) (by rw [e2]), e1, e2]
    simp [Fp.AxisLayout.acceptNode, Fp.AxisLayout.fitInit, Fp.AxisLayout.fp_resetScale_idem]

/-- Witness of C9, in single precision.  Three children of width 100 in a
container of width 250 with wrapping enabled and no gap: `0.f + 100` plus 100
does not exceed 250 and the running length 200 plus 100 does, so the rows are
the first two children and the third alone.  Children of widths `0.5f`, `0.7f`
and `0.7f` in a container of width `1.9f`: the running length `0.f + 0.5f`
plus `0.7f` is rounded to `10066330 / 2 ^ 23` and does not exceed `1.9f`; the
running length behind the second child plus `0.7f` is rounded to
`15938356 / 2 ^ 23`, one unit above `1.9f = 15938355 / 2 ^ 23`, so the third
child starts a new row. -/
theorem fitRows_greedy_witness :
    (f32Layout.fitRows f32Defaults (f32Box 0 250 100)
        [f32Box 1 100 40, f32Box 2 100 40, f32Box 3 100 40] (0, 0) true 1 1 0).rows.map
        (f32Layout.packed) =
      [[Fp.AxisLayout.resetScale f32Layout (f32Box 1 100 40),
          Fp.AxisLayout.resetScale f32Layout (f32Box 2 100 40)],
        [Fp.AxisLayout.resetScale f32Layout (f32Box 3 100 40)]] ∧
      f32Layout.overflows f32Defaults (Fp.nodeAxis (f32Box 0 (19 / 10) 1) Axis.Row 1) (0, 0) 1 1 0
        [f32Box 1 (1 / 2) 1] (f32Box 2 (7 / 10) 1) = false ∧
      f32Layout.overflows f32Defaults (Fp.nodeAxis (f32Box 0 (19 / 10) 1) Axis.Row 1) (0, 0) 1 1 0
        [f32Box 1 (1 / 2) 1, f32Box 2 (7 / 10) 1] (f32Box 3 (7 / 10) 1) = true ∧
      (f32Layout.fitRows f32Defaults (f32Box 0 (19 / 10) 1)
          [f32Box 1 (1 / 2) 1, f32Box 2 (7 / 10) 1, f32Box 3 (7 / 10) 1]
          (0, 0) true 1 1 0).rows.map (f32Layout.packed) =
        [[Fp.AxisLayout.resetScale f32Layout (f32Box 1 (1 / 2) 1),
            Fp.AxisLayout.resetScale f32Layout (f32Box 2 (7 / 10) 1)],
          [Fp.AxisLayout.resetScale f32Layout (f32Box 3 (7 / 10) 1)]] := by
  have g1 : f32Layout.overflows f32Defaults (Fp.nodeAxis (f32Box 0 250 100) Axis.Row 1) (0, 0)
      1 1 0 [f32Box 1 100 40] (f32Box 2 100 40) = false := by
    norm_num [Fp.AxisLayout.overflows, Fp.AxisLayout.runLen, Fp.AxisLayout.accepted,
      Fp.AxisLayout.acceptNode, Fp.AxisLayout.fitInit, Fp.AxisLayout.passGap,
      Fp.AxisLayout.nextGap, Fp.AxisLayout.passLength, Fp.AxisLayout.passAxis, Fp.nodeAxis,
      Fp.AxisLayout.resetScale, Fp.AxisLayout.shouldAutoScale, f32Layout, f32Box, f32Defaults,
      Fp.scaleByOpts, Fp.optsScalePrio, Fp.optsMinScale, Fp.optsMaxScale, Fp.optsRelScale,
      Fp.CCNode.setScale, Fp.CCNode.getScaledContentSize, Fp.CCSize.scale,
      f32_add_def, f32_mul_def, f32_zero_def, f32_one_def, f32_lt_def, f32_gt_def, F32.ofRat,
      Flt.add, Flt.mul, Flt.lt, Flt.ofRat, Flt.toRat, Flt.sign, f32_round_one, f32_round_forty,
      f32_round_hundred, f32_round_two_hundred, f32_round_two_hundred_fifty,
      f32_round_three_hundred, f32_round_min_scale, f32_round_zero]
  have g2 : f32Layout.overflows f32Defaults (Fp.nodeAxis (f32Box 0 250 100) Axis.Row 1) (0, 0)
      1 1 0 [f32Box 1 100 40, f32Box 2 100 40] (f32Box 3 100 40) = true := by
    norm_num [Fp.AxisLayout.overflows, Fp.AxisLayout.runLen, Fp.AxisLayout.accepted,
      Fp.AxisLayout.acceptNode, Fp.AxisLayout.fitInit, Fp.AxisLayout.passGap,
      Fp.AxisLayout.nextGap, Fp.AxisLayout.passLength, Fp.AxisLayout.passAxis, Fp.nodeAxis,
      Fp.AxisLayout.resetScale, Fp.AxisLayout.shouldAutoScale, f32Layout, f32Box, f32Defaults,
      Fp.scaleByOpts, Fp.optsScalePrio, Fp.optsMinScale, Fp.optsMaxScale, Fp.optsRelScale,
      Fp.CCNode.setScale, Fp.CCNode.getScaledContentSize, Fp.CCSize.scale,
      f32_add_def, f32_mul_def, f32_zero_def, f32_one_def, f32_lt_def, f32_gt_def, F32.ofRat,
      Flt.add, Flt.mul, Flt.lt, Flt.ofRat, Flt.toRat, Flt.sign, f32_round_one, f32_round_forty,
      f32_round_hundred, f32_round_two_hundred, f32_round_two_hundred_fifty,
      f32_round_three_hundred, f32_round_min_scale, f32_round_zero]
  have h1 : f32Layout.overflows f32Defaults (Fp.nodeAxis (f32Box 0 (19 / 10) 1) Axis.Row 1) (0, 0)
      1 1 0 [f32Box 1 (1 / 2) 1] (f32Box 2 (7 / 10) 1) = false := by
    norm_num [Fp.AxisLayout.overflows, Fp.AxisLayout.runLen, Fp.AxisLayout.accepted,
      Fp.AxisLayout.acceptNode, Fp.AxisLayout.fitInit, Fp.AxisLayout.passGap,
      Fp.AxisLayout.nextGap, Fp.AxisLayout.passLength, Fp.AxisLayout.passAxis, Fp.nodeAxis,
      Fp.AxisLayout.resetScale, Fp.AxisLayout.shouldAutoScale, f32Layout, f32Box, f32Defaults,
      Fp.scaleByOpts, Fp.optsScalePrio, Fp.optsMinScale, Fp.optsMaxScale, Fp.optsRelScale,
      Fp.CCNode.setScale, Fp.CCNode.getScaledContentSize, Fp.CCSize.scale,
      f32_add_def, f32_mul_def, f32_zero_def, f32_one_def, f32_lt_def, f32_gt_def, F32.ofRat,
      Flt.add, Flt.mul, Flt.lt, Flt.ofRat, Flt.toRat, Flt.sign, f32_round_half, f32_round_one,
      f32_round_seven_tenths, f32_round_width, f32_round_nineteen_tenths, f32_round_available,
      f32_round_min_scale, f32_round_two_widths, f32_round_two_widths_idem,
      f32_round_three_widths, f32_round_zero]
  have h2 : f32Layout.overflows f32Defaults (Fp.nodeAxis (f32Box 0 (19 / 10) 1) Axis.Row 1) (0, 0)
      1 1 0 [f32Box 1 (1 / 2) 1, f32Box 2 (7 / 10) 1] (f32Box 3 (7 / 10) 1) = true := by
    norm_num [Fp.AxisLayout.overflows, Fp.AxisLayout.runLen, Fp.AxisLayout.accepted,
      Fp.AxisLayout.acceptNode, Fp.AxisLayout.fitInit, Fp.AxisLayout.passGap,
      Fp.AxisLayout.nextGap, Fp.AxisLayout.passLength, Fp.AxisLayout.passAxis, Fp.nodeAxis,
      Fp.AxisLayout.resetScale, Fp.AxisLayout.shouldAutoScale, f32Layout, f32Box, f32Defaults,
      Fp.scaleByOpts, Fp.optsScalePrio, Fp.optsMinScale, Fp.optsMaxScale, Fp.optsRelScale,
      Fp.CCNode.setScale, Fp.CCNode.getScaledContentSize, Fp.CCSize.scale,
      f32_add_def, f32_mul_def, f32_zero_def, f32_one_def, f32_lt_def, f32_gt_def, F32.ofRat,
      Flt.add, Flt.mul, Flt.lt, Flt.ofRat, Flt.toRat, Flt.sign, f32_round_half, f32_round_one,
      f32_round_seven_tenths, f32_round_width, f32_round_nineteen_tenths, f32_round_available,
      f32_round_min_scale, f32_round_two_widths, f32_round_two_widths_idem,
      f32_round_three_widths, f32_round_zero]
  exact ⟨(fitRows_greedy f32Layout f32Defaults (f32Box 0 250 100)
      [f32Box 1 100 40, f32Box 2 100 40, f32Box 3 100 40] (0, 0) true 1 1 0 rfl
      (by
        intro a ha b hb
        simp only [List.mem_cons, List.mem_singleton, List.not_mem_nil, or_false] at ha hb
        rcases ha with rfl | rfl | rfl <;> rcases hb with rfl | rfl | rfl <;> rfl)
      (by
        intro n hn
        simp only [List.mem_cons, List.mem_singleton, List.not_mem_nil, or_false] at hn
        rcases hn with rfl | rfl | rfl <;> exact ⟨rfl, rfl⟩)).2.2.2
      (f32Box 1 100 40) (f32Box 2 100 40) (f32Box 3 100 40) rfl g1 g2,
    h1, h2,
    (fitRows_greedy f32Layout f32Defaults (f32Box 0 (19 / 10) 1)
      [f32Box 1 (1 / 2) 1, f32Box 2 (7 / 10) 1, f32Box 3 (7 / 10) 1] (0, 0) true 1 1 0 rfl
      (by
        intro a ha b hb
        simp only [List.mem_cons, List.mem_singleton, List.not_mem_nil, or_false] at ha hb
        rcases ha with rfl | rfl | rfl <;> rcases hb with rfl | rfl | rfl <;> rfl)
      (by
        intro n hn
        simp only [List.mem_cons, List.mem_singleton, List.not_mem_nil, or_false] at hn
        rcases hn with rfl | rfl | rfl <;> exact ⟨rfl, rfl⟩)).2.2.2
      (f32Box 1 (1 / 2) 1) (f32Box 2 (7 / 10) 1) (f32Box 3 (7 / 10) 1) rfl h1 h2⟩

namespace Fp

namespace AxisLayout

variable {T : Type} [FloatOps T]

/-! ## Reversal over floats -/

theorem fp_map_resetScale_idem (L : AxisLayout T) (nodes : List (CCNode T)) :
    (nodes.map (resetScale L)).map (resetScale L) = nodes.map (resetScale L) := by
  simp [List.map_map, Function.comp_def, fp_resetScale_idem]

theorem fp_placeRescale_axisOpts (L : AxisLayout T) (K : Defaults T) (rowScale : T) (prio : Int)
    (node : CCNode T) : (placeRescale L K rowScale prio node).axisOpts = node.axisOpts := by
  unfold placeRescale CCNode.setScale CCNode.setBaseScale
  split
  · split <;> rfl
  · rfl

theorem fp_placeRescale_tag (L : AxisLayout T) (K : Defaults T) (rowScale : T) (prio : Int)
    (node : CCNode T) : (placeRescale L K rowScale prio node).tag = node.tag := by
  unfold placeRescale CCNode.setScale CCNode.setBaseScale
  split
  · split <;> rfl
  · rfl

/-- A node leaves the placement loop as the input node after the scale writes
and one `setPosition`. -/
theorem fp_placeNode_placed (L : AxisLayout T) (K : Defaults T) (row : Row T)
    (rowScale rowSquish : T) (prio : Int) (rowCrossPos evenSpace : T) (count : Nat)
    (st : PlaceState T) (node : CCNode T) :
    ∃ x y, (placeNode L K row rowScale rowSquish prio rowCrossPos evenSpace count st node).placed =
      st.placed ++ [(placeRescale L K rowScale prio node).setPosition x y] := by
  unfold placeNode
  cases L.m_axis <;> exact ⟨_, _, rfl⟩

theorem fp_foldl_placeNode_tags (L : AxisLayout T) (K : Defaults T) (row : Row T)
    (rowScale rowSquish : T) (prio : Int) (rowCrossPos evenSpace : T) (count : Nat)
    (nodes : List (CCNode T)) (st : PlaceState T) :
    (nodes.foldl (placeNode L K row rowScale rowSquish prio rowCrossPos evenSpace count)
      st).placed.map CCNode.tag = st.placed.map CCNode.tag ++ nodes.map CCNode.tag := by
  induction nodes generalizing st with
  | nil => simp
  | cons a rest ih =>
    rw [List.foldl_cons, ih]
    obtain ⟨x, y, hp⟩ := fp_placeNode_placed L K row rowScale rowSquish prio rowCrossPos evenSpace
      count st a
    rw [hp]
    simp [CCNode.setPosition, fp_placeRescale_tag]

theorem fp_placeRow_tags (L : AxisLayout T) (K : Defaults T) (available : AxisPosition T)
    (row : Row T)
    (scale squish : T) (prio : Int) (rowCrossPos : T) (count : Nat) :
    (placeRow L K available row scale squish prio rowCrossPos count).nodes.map CCNode.tag =
      row.nodes.map CCNode.tag := by
  unfold placeRow
  simp [fp_foldl_placeNode_tags]

theorem fp_placeRows_tags (L : AxisLayout T) (K : Defaults T) (available : AxisPosition T)
    (scale squish : T) (prio : Int) (columnSquish rowsEndsLength rowEvenSpace : T)
    (rowCount count : Nat) (rows : List (Row T)) (rowCrossPos : T) :
    (placeRows L K available scale squish prio columnSquish rowsEndsLength rowEvenSpace
      rowCount count rows rowCrossPos).map (fun r => r.nodes.map CCNode.tag) =
      rows.map (fun r => r.nodes.map CCNode.tag) := by
  induction rows generalizing rowCrossPos with
  | nil => simp [placeRows]
  | cons row rest ih =>
    rw [placeRows]
    simp only [List.map_cons, List.cons.injEq]
    exact ⟨fp_placeRow_tags _ _ _ _ _ _ _ _ _, ih _⟩

/-- With `allowCrossAxisOverflow` every pass is accepted. -/
theorem fp_retryArgs_of_allow (L : AxisLayout T) (K : Defaults T) (parent : CCNode T)
    (nodes : List (CCNode T))
    (minMaxPrios : Int × Int) (doAutoScale : Bool) (scale squish : T) (prio : Int)
    (st : RowsState T) (fuel : Nat) (h : L.m_allowCrossAxisOverflow = true) :
    L.retryArgs K parent nodes minMaxPrios doAutoScale scale squish prio st fuel = some none := by
  simp [retryArgs, h]

/-- With `allowCrossAxisOverflow` the first pass of `tryFitLayout` is
positioned. -/
theorem fp_tryFitLayout_of_allow (L : AxisLayout T) (K : Defaults T) (parent : CCNode T)
    (minMaxPrios : Int × Int) (doAutoScale : Bool) (fuel : Nat) (nodes : List (CCNode T))
    (scale squish : T) (prio : Int) (h : L.m_allowCrossAxisOverflow = true) :
    L.tryFitLayout K parent minMaxPrios doAutoScale (fuel + 1) nodes scale squish prio =
      some (L.positionRows K parent
        (L.packedNodes (L.fitRows K parent nodes minMaxPrios doAutoScale scale squish
          prio).rows).length scale squish prio
        (L.fitRows K parent nodes minMaxPrios doAutoScale scale squish prio).rows
        (L.fitRows K parent nodes minMaxPrios doAutoScale scale squish
          prio).totalRowCrossLength) := by
  rw [tryFitLayout]
  simp only [fp_retryArgs_of_allow _ _ _ _ _ _ _ _ _ _ _ h]

/-- Whatever `tryFitLayout` returns was produced by the positioning of some
pass. -/
theorem fp_tryFitLayout_some (L : AxisLayout T) (K : Defaults T) (parent : CCNode T)
    (minMaxPrios : Int × Int) (doAutoScale : Bool) (fuel : Nat) (nodes : List (CCNode T))
    (scale squish : T) (prio : Int) (r : CCNode T × List (Row T))
    (h : L.tryFitLayout K parent minMaxPrios doAutoScale fuel nodes scale squish prio = some r) :
    ∃ nodes2 scale2 squish2 prio2,
      nodes2.map (resetScale L) = nodes.map (resetScale L) ∧
      r = L.positionRows K parent
        (L.packedNodes (L.fitRows K parent nodes2 minMaxPrios doAutoScale scale2 squish2
          prio2).rows).length scale2 squish2 prio2
        (L.fitRows K parent nodes2 minMaxPrios doAutoScale scale2 squish2 prio2).rows
        (L.fitRows K parent nodes2 minMaxPrios doAutoScale scale2 squish2
          prio2).totalRowCrossLength := by
  induction fuel generalizing nodes scale squish prio with
  | zero => simp [tryFitLayout] at h
  | succ n ih =>
    rw [tryFitLayout] at h
    split at h
    · exact absurd h (by simp)
    · obtain ⟨nodes2, s2, q2, p2, hn, hr⟩ := ih _ _ _ _ h
      refine ⟨nodes2, s2, q2, p2, ?_, hr⟩
      rw [hn, fp_fitRows_packedNodes, fp_map_resetScale_idem]
    · exact ⟨nodes, scale, squish, prio, rfl, (Option.some.inj h).symm⟩

/-- A call of `tryFitLayout` that returns has positioned the rows of the last
pass of its trace. -/
theorem fp_tryFitLayout_eq_acceptPass (L : AxisLayout T) (K : Defaults T) (parent : CCNode T)
    (minMaxPrios : Int × Int) (doAutoScale : Bool) (fuel : Nat) (nodes : List (CCNode T))
    (scale squish : T) (prio : Int) (r : CCNode T × List (Row T))
    (h : L.tryFitLayout K parent minMaxPrios doAutoScale fuel nodes scale squish prio = some r) :
    ∃ p, (passes L K parent minMaxPrios doAutoScale fuel nodes scale squish prio).getLast? =
        some p ∧ r = acceptPass L K parent minMaxPrios doAutoScale p := by
  induction fuel generalizing nodes scale squish prio with
  | zero => simp [tryFitLayout] at h
  | succ n ih =>
    rw [tryFitLayout] at h
    rw [passes]
    split at h
    · exact absurd h (by simp)
    · rename_i s2 q2 p2 hretry
      simp only [hretry]
      obtain ⟨p, hp, hr⟩ := ih _ _ _ _ h
      refine ⟨p, ?_, hr⟩
      rw [List.getLast?_cons, hp]
      rfl
    · rename_i hretry
      simp only [hretry]
      refine ⟨_, rfl, ?_⟩
      simp only [Option.some.injEq] at h
      rw [← h]
      rfl

theorem fp_shouldAutoScale_plain {U : Type} (L : AxisLayout U)
    (opts : Option (AxisLayoutOptions U)) :
    (plain L).shouldAutoScale opts = L.shouldAutoScale opts := rfl

theorem fp_resetScale_plain (L : AxisLayout T) (node : CCNode T) :
    resetScale (plain L) node = resetScale L node := rfl

theorem fp_nextGap_plain (L : AxisLayout T) (a b : Option (AxisLayoutOptions T)) :
    (plain L).nextGap a b = L.nextGap a b := rfl

theorem fp_rowFit_plain (L : AxisLayout T) (K : Defaults T) (available : AxisPosition T)
    (row : Row T)
    (scale squish : T) : rowFit (plain L) K available row scale squish =
      rowFit L K available row scale squish := rfl

theorem fp_placeRescale_plain (L : AxisLayout T) (K : Defaults T) (rowScale : T) (prio : Int)
    (node : CCNode T) : placeRescale (plain L) K rowScale prio node =
      placeRescale L K rowScale prio node := rfl

theorem fp_fitInRowLoop_plain (L : AxisLayout T) (K : Defaults T) (available : AxisPosition T)
    (minMaxPrios : Int × Int) (scale squish : T) (prio : Int) (finalPosCalc : Bool)
    (nodes : List (CCNode T)) (st : FitState T) :
    (plain L).fitInRowLoop K available minMaxPrios scale squish prio finalPosCalc nodes st =
      L.fitInRowLoop K available minMaxPrios scale squish prio finalPosCalc nodes st := by
  induction nodes generalizing st with
  | nil => rfl
  | cons node rest ih =>
    rw [fp_fitInRowLoop_cons, fp_fitInRowLoop_cons, ih]
    rfl

theorem fp_reversedRow_reversedRow {U : Type} (row : Row U) : reversedRow
    (reversedRow row) = row := by
  simp [reversedRow]

theorem fp_rowShape_reversedRow (row : Row T) :
    rowShape (reversedRow row) = reversedRow (rowShape row) := by
  simp [rowShape, reversedRow]

theorem fp_rowShape_unreversed (L : AxisLayout T) (row : Row T) :
    rowShape (unreversed L row) = unreversed L (rowShape row) := by
  unfold unreversed
  split
  · exact fp_rowShape_reversedRow row
  · rfl

/-- The ends length of a row does not depend on the direction in which the
row is read. -/
theorem fp_ends_reverse (hcomm : ∀ a b : T, a + b = b + a) (res : List (CCNode T)) (scale : T) :
    (match res.reverse.head?, res.reverse.getLast? with
      | some first, some last =>
        first.getScaledContentSize.width * scale / FloatOps.two +
          last.getScaledContentSize.width * scale / FloatOps.two
      | _, _ => (0 : T)) =
    (match res.head?, res.getLast? with
      | some first, some last =>
        first.getScaledContentSize.width * scale / FloatOps.two +
          last.getScaledContentSize.width * scale / FloatOps.two
      | _, _ => (0 : T)) := by
  rw [List.head?_reverse, List.getLast?_reverse]
  cases h1 : res.head? with
  | none =>
    have : res = [] := by simpa using h1
    subst this
    rfl
  | some a =>
    cases h2 : res.getLast? with
    | none =>
      have : res = [] := by simpa using h2
      subst this
      simp at h1
    | some b => exact hcomm _ _

/-- The packer of the layout without reversal returns the row of the packer
read in packing order, and leaves the same array. -/
theorem fp_fitInRow_plain (hcomm : ∀ a b : T, a + b = b + a) (L : AxisLayout T) (K : Defaults T)
    (parent : CCNode T) (nodes : List (CCNode T))
    (minMaxPrios : Int × Int) (doAutoScale : Bool) (scale squish : T) (prio : Int) :
    (plain L).fitInRow K parent nodes minMaxPrios doAutoScale scale squish prio false =
      (unreversed L (L.fitInRow K parent nodes minMaxPrios doAutoScale scale squish prio false).1,
        (L.fitInRow K parent nodes minMaxPrios doAutoScale scale squish prio false).2) := by
  have hloop := fp_fitInRowLoop_plain L K (nodeAxis parent L.m_axis 1) minMaxPrios scale squish prio
    false nodes fitInit
  have hax : (plain L).m_axis = L.m_axis := rfl
  have hrev : (plain L).m_axisReverse = false := rfl
  by_cases h : L.m_axisReverse = true
  · simp only [fitInRow, unreversed, reversedRow, hax, hloop, hrev, h, Bool.not_false,
      Bool.true_and, Bool.and_false, Bool.false_eq_true, if_false, if_true, Bool.and_self,
      List.reverse_reverse]
    rw [Prod.mk.injEq, Row.mk.injEq]
    exact ⟨⟨rfl, rfl, rfl, rfl, (fp_ends_reverse hcomm _ _).symm, rfl⟩, rfl⟩
  · have hf : L.m_axisReverse = false := by simpa using h
    simp only [fitInRow, unreversed, hax, hloop, hrev, hf, Bool.not_false, Bool.and_false,
      Bool.false_eq_true, if_false]

theorem fp_fitRowsStep_plain (hcomm : ∀ a b : T, a + b = b + a) (L : AxisLayout T)
    (K : Defaults T) (parent : CCNode T)
    (minMaxPrios : Int × Int) (doAutoScale : Bool) (scale squish : T) (prio : Int)
    (st : RowsState T) :
    (plain L).fitRowsStep K parent minMaxPrios doAutoScale scale squish prio
        (unreversedState L st) =
      unreversedState L (L.fitRowsStep K parent minMaxPrios doAutoScale scale squish prio st) := by
  have hrow := fp_fitInRow_plain hcomm L K parent st.newNodes minMaxPrios doAutoScale scale squish prio
  have hgap : (plain L).m_gap = L.m_gap := rfl
  have hf : ∀ row, (unreversed L row).nextOverflowScaleDownFactor =
      row.nextOverflowScaleDownFactor ∧
      (unreversed L row).nextOverflowSquishFactor = row.nextOverflowSquishFactor ∧
      (unreversed L row).crossLength = row.crossLength := by
    intro row
    unfold unreversed reversedRow
    split <;> exact ⟨rfl, rfl, rfl⟩
  unfold fitRowsStep unreversedState
  simp only [hrow, hgap, (hf _).1, (hf _).2.1, (hf _).2.2, List.map_append, List.map_cons,
    List.map_nil]

theorem fp_fitRowsLoop_plain (hcomm : ∀ a b : T, a + b = b + a) (L : AxisLayout T)
    (K : Defaults T) (parent : CCNode T)
    (minMaxPrios : Int × Int) (doAutoScale : Bool) (scale squish : T) (prio : Int)
    (fuel : Nat) (st : RowsState T) :
    (plain L).fitRowsLoop K parent minMaxPrios doAutoScale scale squish prio fuel
        (unreversedState L st) =
      unreversedState L (L.fitRowsLoop K parent minMaxPrios doAutoScale scale squish prio fuel
        st) := by
  induction fuel generalizing st with
  | zero => rfl
  | succ n ih =>
    by_cases hn : st.newNodes = []
    · have hn2 : (unreversedState L st).newNodes = [] := hn
      rw [fp_fitRowsLoop_of_nil _ _ _ _ _ _ _ _ _ _ hn, fp_fitRowsLoop_of_nil _ _ _ _ _ _ _ _ _ _ hn2]
    · have hn2 : (unreversedState L st).newNodes ≠ [] := hn
      rw [fp_fitRowsLoop_succ _ _ _ _ _ _ _ _ _ _ hn, fp_fitRowsLoop_succ _ _ _ _ _ _ _ _ _ _ hn2,
        fp_fitRowsStep_plain hcomm, ih]

/-- The partition of the layout without reversal is the partition read in
packing order. -/
theorem fp_fitRows_plain (hcomm : ∀ a b : T, a + b = b + a) (L : AxisLayout T) (K : Defaults T)
    (parent : CCNode T) (nodes : List (CCNode T))
    (minMaxPrios : Int × Int) (doAutoScale : Bool) (scale squish : T) (prio : Int) :
    (plain L).fitRows K parent nodes minMaxPrios doAutoScale scale squish prio =
      unreversedState L (L.fitRows K parent nodes minMaxPrios doAutoScale scale squish prio) := by
  unfold fitRows
  rw [← fp_fitRowsLoop_plain hcomm]
  rfl

theorem fp_dropPrio_plain (L : AxisLayout T) (nodes : List (CCNode T)) (fuel : Nat) (prio : Int) :
    (plain L).dropPrio nodes fuel prio = L.dropPrio nodes fuel prio := by
  induction fuel generalizing prio with
  | zero => rfl
  | succ n ih =>
    rw [dropPrio, dropPrio]
    simp only [ih]
    rfl

/-- The retry decision does not read the reversal flags nor the nodes of the
rows. -/
theorem fp_retryArgs_plain (L : AxisLayout T) (K : Defaults T) (parent : CCNode T)
    (nodes : List (CCNode T))
    (minMaxPrios : Int × Int) (doAutoScale : Bool) (scale squish : T) (prio : Int)
    (st : RowsState T) (fuel : Nat) :
    (plain L).retryArgs K parent nodes minMaxPrios doAutoScale scale squish prio
        (unreversedState L st) fuel =
      L.retryArgs K parent nodes minMaxPrios doAutoScale scale squish prio st fuel := by
  unfold retryArgs
  rw [fp_dropPrio_plain]
  rfl

theorem fp_packedNodes_plain {U : Type} (L : AxisLayout U) (rows : List (Row U)) :
    (plain L).packedNodes (rows.map (unreversed L)) = L.packedNodes rows := by
  induction rows with
  | nil => rfl
  | cons r t ih =>
    simp only [packedNodes, List.map_cons, List.flatMap_cons] at ih ⊢
    rw [ih]
    congr 1
    unfold packed unreversed reversedRow
    have hrev : (plain L).m_axisReverse = false := rfl
    rw [hrev]
    by_cases h : L.m_axisReverse = true
    · simp [h]
    · simp [h]

/-! ### Placement and reversal -/

theorem fp_foldl_placeNode_shape (L : AxisLayout T) (K : Defaults T) (row : Row T)
    (rowScale rowSquish : T) (prio : Int) (rowCrossPos evenSpace : T) (count : Nat)
    (nodes : List (CCNode T)) (st : PlaceState T) :
    (nodes.foldl (placeNode L K row rowScale rowSquish prio rowCrossPos evenSpace count)
      st).placed.map (fun n => n.setPosition 0 0) =
      st.placed.map (fun n => n.setPosition 0 0) ++
        nodes.map (fun n => (placeRescale L K rowScale prio n).setPosition 0 0) := by
  induction nodes generalizing st with
  | nil => simp
  | cons a rest ih =>
    rw [List.foldl_cons, ih]
    obtain ⟨x, y, hp⟩ := fp_placeNode_placed L K row rowScale rowSquish prio rowCrossPos evenSpace
      count st a
    rw [hp]
    simp [CCNode.setPosition]

/-- The placement of a row, positions left out, does not depend on where the
row is placed. -/
theorem fp_placeRow_shape (L : AxisLayout T) (K : Defaults T) (available : AxisPosition T)
    (row : Row T)
    (scale squish : T) (prio : Int) (rowCrossPos : T) (count : Nat) :
    rowShape (placeRow L K available row scale squish prio rowCrossPos count) =
      placedShape L K available scale squish prio row := by
  unfold placeRow rowShape placedShape
  simp only [fp_foldl_placeNode_shape, List.map_nil, List.nil_append]

theorem fp_placeRows_shape (L : AxisLayout T) (K : Defaults T) (available : AxisPosition T)
    (scale squish : T) (prio : Int) (columnSquish rowsEndsLength rowEvenSpace : T)
    (rowCount count : Nat) (rows : List (Row T)) (rowCrossPos : T) :
    (placeRows L K available scale squish prio columnSquish rowsEndsLength rowEvenSpace
      rowCount count rows rowCrossPos).map rowShape =
      rows.map (placedShape L K available scale squish prio) := by
  induction rows generalizing rowCrossPos with
  | nil => simp [placeRows]
  | cons row rest ih =>
    rw [placeRows]
    simp only [List.map_cons, List.cons.injEq]
    exact ⟨fp_placeRow_shape _ _ _ _ _ _ _ _ _, ih _⟩

theorem fp_positionRows_shape (L : AxisLayout T) (K : Defaults T) (parent : CCNode T) (count : Nat)
    (scale squish : T) (prio : Int) (rows : List (Row T)) (total : T) :
    (L.positionRows K parent count scale squish prio rows total).2.map rowShape =
      (if L.m_crossReverse then rows.reverse else rows).map
        (placedShape L K (placeAvailable L parent total) scale squish prio) := by
  unfold positionRows placeAvailable
  simp only [fp_placeRows_shape]

theorem fp_placedShape_unreversed (L : AxisLayout T) (K : Defaults T) (available : AxisPosition T)
    (scale squish : T) (prio : Int) (row : Row T) :
    placedShape (plain L) K available scale squish prio (unreversed L row) =
      unreversed L (placedShape L K available scale squish prio row) := by
  unfold unreversed
  split
  · simp only [placedShape, reversedRow, List.map_reverse]
    rfl
  · rfl

theorem fp_map_unreversed_reverse {U : Type} (L : AxisLayout U) (rows : List (Row U)) :
    (rows.map (unreversed L)).map (unreversed L) = rows := by
  rw [List.map_map]
  conv_rhs => rw [← List.map_id rows]
  apply List.map_congr_left
  intro r _
  simp only [Function.comp, unreversed, id]
  split
  · exact fp_reversedRow_reversedRow r
  · rfl

/-- The rows of the positioning, read back in packing order. -/
theorem fp_packingOrder_positionRows (L : AxisLayout T) (K : Defaults T) (parent : CCNode T)
    (count : Nat)
    (scale squish : T) (prio : Int) (rows : List (Row T)) (total : T) :
    packingOrder L (L.positionRows K parent count scale squish prio rows total).2 =
      rows.map (fun row =>
        unreversed L (placedShape L K (placeAvailable L parent total) scale squish prio row)) := by
  have h := fp_positionRows_shape L K parent count scale squish prio rows total
  have hcomm : (fun row => rowShape (if L.m_axisReverse = true then reversedRow row else row)) =
      (fun row => unreversed L (rowShape row)) := by
    funext row
    exact fp_rowShape_unreversed L row
  have hsplit : ∀ X : List (Row T), List.map (fun row => unreversed L (rowShape row)) X =
      (X.map rowShape).map (unreversed L) := by
    intro X
    rw [List.map_map]
    rfl
  unfold packingOrder
  rw [hcomm, hsplit]
  by_cases hc : L.m_crossReverse = true
  · simp only [hc, if_true] at h ⊢
    have h2 := congrArg List.reverse h
    rw [← List.map_reverse, ← List.map_reverse, List.reverse_reverse] at h2
    rw [h2, List.map_map]
    rfl
  · have hf : L.m_crossReverse = false := by simpa using hc
    simp only [hf, Bool.false_eq_true, if_false] at h ⊢
    rw [h, List.map_map]
    rfl

theorem fp_positionRows_plain (L : AxisLayout T) (K : Defaults T) (parent : CCNode T) (count : Nat)
    (scale squish : T) (prio : Int) (rows : List (Row T)) (total : T) :
    ((plain L).positionRows K parent count scale squish prio (rows.map (unreversed L)) total).1 =
        (L.positionRows K parent count scale squish prio rows total).1 ∧
      packingOrder (plain L)
          ((plain L).positionRows K parent count scale squish prio (rows.map (unreversed L))
            total).2 =
        packingOrder L (L.positionRows K parent count scale squish prio rows total).2 := by
  constructor
  · rfl
  · rw [fp_packingOrder_positionRows, fp_packingOrder_positionRows, List.map_map]
    apply List.map_congr_left
    intro row _
    have hp : placeAvailable (plain L) parent total = placeAvailable L parent total := rfl
    have hu : ∀ r, unreversed (plain L) r = r := fun r => rfl
    simp only [Function.comp, hp, hu]
    exact fp_placedShape_unreversed L K _ scale squish prio row

/-- The solver of the layout without reversal returns the container and, in
packing order, the rows the solver returns. -/
theorem fp_tryFitLayout_plain (hcomm : ∀ a b : T, a + b = b + a) (L : AxisLayout T)
    (K : Defaults T) (parent : CCNode T)
    (minMaxPrios : Int × Int) (doAutoScale : Bool) (fuel : Nat) (nodes : List (CCNode T))
    (scale squish : T) (prio : Int) :
    ((plain L).tryFitLayout K parent minMaxPrios doAutoScale fuel nodes scale squish prio).map
        (fun r => (r.1, packingOrder (plain L) r.2)) =
      (L.tryFitLayout K parent minMaxPrios doAutoScale fuel nodes scale squish prio).map
        (fun r => (r.1, packingOrder L r.2)) := by
  induction fuel generalizing nodes scale squish prio with
  | zero => rfl
  | succ n ih =>
    rw [tryFitLayout, tryFitLayout]
    simp only [fp_fitRows_plain hcomm]
    have hrows : (unreversedState L
        (L.fitRows K parent nodes minMaxPrios doAutoScale scale squish prio)).rows =
        (L.fitRows K parent nodes minMaxPrios doAutoScale scale squish prio).rows.map
          (unreversed L) := rfl
    have htotal : (unreversedState L
        (L.fitRows K parent nodes minMaxPrios doAutoScale scale squish
          prio)).totalRowCrossLength =
        (L.fitRows K parent nodes minMaxPrios doAutoScale scale squish
          prio).totalRowCrossLength := rfl
    rw [hrows, htotal, fp_packedNodes_plain, ← hrows, fp_retryArgs_plain, hrows]
    cases hretry : L.retryArgs K parent
        (L.packedNodes (L.fitRows K parent nodes minMaxPrios doAutoScale scale squish prio).rows)
        minMaxPrios doAutoScale scale squish prio
        (L.fitRows K parent nodes minMaxPrios doAutoScale scale squish prio) n with
    | none => rfl
    | some x =>
      cases x with
      | none =>
        simp only [Option.map_some']
        obtain ⟨h1, h2⟩ := fp_positionRows_plain L K parent
          (L.packedNodes (L.fitRows K parent nodes minMaxPrios doAutoScale scale squish
            prio).rows).length scale squish prio
          (L.fitRows K parent nodes minMaxPrios doAutoScale scale squish prio).rows
          (L.fitRows K parent nodes minMaxPrios doAutoScale scale squish
            prio).totalRowCrossLength
        rw [h1, h2]
      | some y =>
        obtain ⟨s2, q2, p2⟩ := y
        exact ih _ _ _ _

theorem fp_apply_plain (hcomm : ∀ a b : T, a + b = b + a) (L : AxisLayout T) (K : Defaults T)
    (fuel : Nat) (parent : CCNode T)
    (nodes : List (CCNode T)) :
    ((plain L).apply K fuel parent nodes).map (fun r => (r.1, packingOrder (plain L) r.2)) =
      (L.apply K fuel parent nodes).map (fun r => (r.1, packingOrder L r.2)) := by
  unfold apply
  have hscan : (plain L).applyScan nodes = L.applyScan nodes := rfl
  have hmax : ∀ p, (plain L).maxScaleForPrio nodes p = L.maxScaleForPrio nodes p := fun _ => rfl
  simp only [hscan, hmax]
  exact fp_tryFitLayout_plain hcomm L K parent _ _ fuel nodes _ _ _

theorem fp_plain_setAxisReverse {U : Type} (L : AxisLayout U) (b : Bool) : plain
    (L.setAxisReverse b) = plain L :=
  rfl

theorem fp_plain_setCrossAxisReverse {U : Type} (L : AxisLayout U) (b : Bool) :
    plain (L.setCrossAxisReverse b) = plain L := rfl

/-- Two layouts that differ in the reversal flags only return the same
container and, read back in packing order, the same rows. -/
theorem fp_apply_packingOrder (hcomm : ∀ a b : T, a + b = b + a) (L1 L0 : AxisLayout T)
    (h : plain L1 = plain L0) (K : Defaults T)
    (fuel : Nat) (parent : CCNode T) (nodes : List (CCNode T)) :
    (L1.apply K fuel parent nodes).map (fun r => (r.1, packingOrder L1 r.2)) =
      (L0.apply K fuel parent nodes).map (fun r => (r.1, packingOrder L0 r.2)) := by
  rw [← fp_apply_plain hcomm L1, ← fp_apply_plain hcomm L0, h]

theorem fp_map_rowShape_reversedRow (rows : List (Row T)) :
    (rows.map (fun row => rowShape (reversedRow row))).map reversedRow = rows.map rowShape := by
  rw [List.map_map]
  apply List.map_congr_left
  intro r _
  simp only [Function.comp, fp_rowShape_reversedRow, fp_reversedRow_reversedRow]

theorem fp_map_rowShape_map_reversedRow (rows : List (Row T)) :
    (rows.map rowShape).map reversedRow = rows.map (fun row => rowShape (reversedRow row)) := by
  rw [List.map_map]
  apply List.map_congr_left
  intro r _
  simp only [Function.comp, fp_rowShape_reversedRow]

theorem fp_option_map_transfer {α β γ : Type} (o1 o0 : Option α) (g1 g0 : α → β) (h1 h0 : α → γ)
    (h : o1.map g1 = o0.map g0) (ht : ∀ r1 r0, g1 r1 = g0 r0 → h1 r1 = h0 r0) :
    o1.map h1 = o0.map h0 := by
  cases o1 with
  | none =>
    cases o0 with
    | none => rfl
    | some r0 => simp at h
  | some r1 =>
    cases o0 with
    | none => simp at h
    | some r0 =>
      simp only [Option.map_some', Option.some.injEq] at h ⊢
      exact ht r1 r0 h

/-- Rows that agree in packing order with `axisReverse` on and off are, row by
row and positions left out, the reverse of each other. -/
theorem fp_shape_of_axis (L : AxisLayout T) (r1 r0 : List (Row T))
    (h : packingOrder (L.setAxisReverse true) r1 = packingOrder (L.setAxisReverse false) r0) :
    r1.map (fun row => rowShape (reversedRow row)) = r0.map rowShape := by
  have hc : (L.setAxisReverse true).m_crossReverse = L.m_crossReverse := rfl
  have hc0 : (L.setAxisReverse false).m_crossReverse = L.m_crossReverse := rfl
  have ha : (L.setAxisReverse true).m_axisReverse = true := rfl
  have ha0 : (L.setAxisReverse false).m_axisReverse = false := rfl
  simp only [packingOrder, hc, hc0, ha, ha0, if_true, Bool.false_eq_true, if_false] at h
  by_cases hcr : L.m_crossReverse = true
  · simp only [hcr, if_true, List.map_reverse] at h
    exact List.reverse_injective h
  · have hf : L.m_crossReverse = false := by simpa using hcr
    simpa only [hf, Bool.false_eq_true, if_false] using h

/-- Rows that agree in packing order with `crossReverse` on and off are,
positions left out, the same rows in the opposite order. -/
theorem fp_shape_of_cross (L : AxisLayout T) (r1 r0 : List (Row T))
    (h : packingOrder (L.setCrossAxisReverse true) r1 =
      packingOrder (L.setCrossAxisReverse false) r0) :
    (r1.map rowShape).reverse = r0.map rowShape := by
  have hc : (L.setCrossAxisReverse true).m_crossReverse = true := rfl
  have hc0 : (L.setCrossAxisReverse false).m_crossReverse = false := rfl
  have ha : (L.setCrossAxisReverse true).m_axisReverse = L.m_axisReverse := rfl
  have ha0 : (L.setCrossAxisReverse false).m_axisReverse = L.m_axisReverse := rfl
  simp only [packingOrder, hc, hc0, ha, ha0, if_true, Bool.false_eq_true, if_false] at h
  have hsplit : ∀ X : List (Row T),
      List.map (fun row => rowShape (if L.m_axisReverse = true then reversedRow row else row)) X =
        (X.map rowShape).map (unreversed L) := by
    intro X
    rw [List.map_map]
    apply List.map_congr_left
    intro r _
    exact fp_rowShape_unreversed L r
  rw [hsplit, hsplit] at h
  have h3 := congrArg (List.map (unreversed L)) h
  rw [fp_map_unreversed_reverse, fp_map_unreversed_reverse, List.map_reverse] at h3
  exact h3

/-- The positioned rows of a pass of the layout without reversal are, in
packing order, those of the layout, and the container is the same. -/
theorem fp_acceptPass_plain (hcomm : ∀ a b : T, a + b = b + a) (L : AxisLayout T)
    (K : Defaults T) (parent : CCNode T) (minMaxPrios : Int × Int) (doAutoScale : Bool)
    (p : Pass T) :
    (acceptPass (plain L) K parent minMaxPrios doAutoScale p).1 =
        (acceptPass L K parent minMaxPrios doAutoScale p).1 ∧
      packingOrder (plain L) (acceptPass (plain L) K parent minMaxPrios doAutoScale p).2 =
        packingOrder L (acceptPass L K parent minMaxPrios doAutoScale p).2 := by
  unfold acceptPass
  simp only [fp_fitRows_plain hcomm]
  have hrows : (unreversedState L
      (L.fitRows K parent p.nodes minMaxPrios doAutoScale p.scale p.squish p.prio)).rows =
      (L.fitRows K parent p.nodes minMaxPrios doAutoScale p.scale p.squish p.prio).rows.map
        (unreversed L) := rfl
  have htotal : (unreversedState L
      (L.fitRows K parent p.nodes minMaxPrios doAutoScale p.scale p.squish
        p.prio)).totalRowCrossLength =
      (L.fitRows K parent p.nodes minMaxPrios doAutoScale p.scale p.squish
        p.prio).totalRowCrossLength := rfl
  rw [hrows, htotal, fp_packedNodes_plain]
  exact fp_positionRows_plain L K parent _ p.scale p.squish p.prio _ _

/-- Two layouts that differ in the reversal flags only position, in every
pass, the same container and, read back in packing order, the same rows. -/
theorem fp_acceptPass_packingOrder (hcomm : ∀ a b : T, a + b = b + a) (L1 L0 : AxisLayout T)
    (h : plain L1 = plain L0) (K : Defaults T) (parent : CCNode T) (minMaxPrios : Int × Int)
    (doAutoScale : Bool) (p : Pass T) :
    (acceptPass L1 K parent minMaxPrios doAutoScale p).1 =
        (acceptPass L0 K parent minMaxPrios doAutoScale p).1 ∧
      packingOrder L1 (acceptPass L1 K parent minMaxPrios doAutoScale p).2 =
        packingOrder L0 (acceptPass L0 K parent minMaxPrios doAutoScale p).2 := by
  obtain ⟨a1, b1⟩ := fp_acceptPass_plain hcomm L1 K parent minMaxPrios doAutoScale p
  obtain ⟨a0, b0⟩ := fp_acceptPass_plain hcomm L0 K parent minMaxPrios doAutoScale p
  rw [h] at a1 b1
  exact ⟨a1.symm.trans a0, b1.symm.trans b0⟩

/-- The calls of `tryFitLayout` do not depend on the reversal flags. -/
theorem fp_passes_plain (hcomm : ∀ a b : T, a + b = b + a) (L : AxisLayout T) (K : Defaults T)
    (parent : CCNode T) (minMaxPrios : Int × Int) (doAutoScale : Bool) (fuel : Nat)
    (nodes : List (CCNode T)) (scale squish : T) (prio : Int) :
    passes (plain L) K parent minMaxPrios doAutoScale fuel nodes scale squish prio =
      passes L K parent minMaxPrios doAutoScale fuel nodes scale squish prio := by
  induction fuel generalizing nodes scale squish prio with
  | zero => rfl
  | succ n ih =>
    rw [passes, passes]
    simp only [fp_fitRows_plain hcomm]
    have hrows : (unreversedState L
        (L.fitRows K parent nodes minMaxPrios doAutoScale scale squish prio)).rows =
        (L.fitRows K parent nodes minMaxPrios doAutoScale scale squish prio).rows.map
          (unreversed L) := rfl
    rw [hrows, fp_packedNodes_plain, fp_retryArgs_plain]
    cases hretry : L.retryArgs K parent
        (L.packedNodes (L.fitRows K parent nodes minMaxPrios doAutoScale scale squish prio).rows)
        minMaxPrios doAutoScale scale squish prio
        (L.fitRows K parent nodes minMaxPrios doAutoScale scale squish prio) n with
    | none => rfl
    | some x =>
      cases x with
      | none => rfl
      | some y =>
        obtain ⟨s2, q2, p2⟩ := y
        simp only [ih]

/-- Two layouts that differ in the reversal flags only make the same calls of
`tryFitLayout` from `apply`. -/
theorem fp_applyPasses_congr (hcomm : ∀ a b : T, a + b = b + a) (L1 L0 : AxisLayout T)
    (h : plain L1 = plain L0) (K : Defaults T) (fuel : Nat) (parent : CCNode T)
    (nodes : List (CCNode T)) :
    applyPasses L1 K fuel parent nodes = applyPasses L0 K fuel parent nodes := by
  have e : ∀ L : AxisLayout T, applyPasses (plain L) K fuel parent nodes =
      applyPasses L K fuel parent nodes := by
    intro L
    unfold applyPasses
    have hscan : (plain L).applyScan nodes = L.applyScan nodes := rfl
    have hmax : ∀ q, (plain L).maxScaleForPrio nodes q = L.maxScaleForPrio nodes q := fun _ => rfl
    simp only [hscan, hmax]
    exact fp_passes_plain hcomm L K parent _ _ fuel nodes _ _ _
  rw [← e L1, ← e L0, h]

/-- Without reversal the positioned rows of a pass, one after the other, are
the children of the pass in their order. -/
theorem fp_acceptPass_plain_tags (L : AxisLayout T) (K : Defaults T) (parent : CCNode T)
    (minMaxPrios : Int × Int) (doAutoScale : Bool) (p : Pass T) :
    ((acceptPass (plain L) K parent minMaxPrios doAutoScale p).2.flatMap Row.nodes).map
      CCNode.tag = p.nodes.map CCNode.tag := by
  have hflat : ∀ rows : List (Row T), (rows.flatMap Row.nodes).map CCNode.tag =
      (rows.map (fun r => r.nodes.map CCNode.tag)).flatten := by
    intro rows
    induction rows with
    | nil => rfl
    | cons r t ih => simp [List.flatMap_cons, ih]
  have hpos : ∀ count rows total,
      ((plain L).positionRows K parent count p.scale p.squish p.prio rows total).2.map
        (fun r => r.nodes.map CCNode.tag) = rows.map (fun r => r.nodes.map CCNode.tag) := by
    intro count rows total
    unfold positionRows
    have hc : (plain L).m_crossReverse = false := rfl
    simp only [hc, Bool.false_eq_true, if_false, fp_placeRows_tags]
  have hpacked : ∀ rows : List (Row T), (plain L).packedNodes rows = rows.flatMap Row.nodes := by
    intro rows
    unfold packedNodes
    congr 1
  unfold acceptPass
  rw [hflat, hpos, ← hflat, ← hpacked, fp_fitRows_packedNodes]
  rw [List.map_map]
  apply List.map_congr_left
  intro n _
  exact fp_resetScale_tag _ n

/-- The scan of `apply` and its start scale do not read the reversal flags, so
`apply` is `tryFitLayout` on the same arguments for layouts that differ in
these flags only. -/
theorem fp_apply_eq_acceptPass (L : AxisLayout T) (K : Defaults T) (fuel : Nat)
    (parent : CCNode T) (nodes : List (CCNode T)) (r : CCNode T × List (Row T))
    (h : L.apply K fuel parent nodes = some r) :
    ∃ p, (applyPasses L K fuel parent nodes).getLast? = some p ∧
      r = acceptPass L K parent (L.applyScan nodes).1 (L.applyScan nodes).2 p := by
  unfold apply at h
  unfold applyPasses
  exact fp_tryFitLayout_eq_acceptPass L K parent _ _ fuel nodes _ _ _ r h

/-- With `allowCrossAxisOverflow` the first pass of `apply` is accepted:
`apply` returns its positioning whenever it is given fuel. -/
theorem fp_apply_of_allow (L : AxisLayout T) (K : Defaults T) (fuel : Nat) (parent : CCNode T)
    (nodes : List (CCNode T)) (h : L.m_allowCrossAxisOverflow = true) :
    L.apply K (fuel + 1) parent nodes =
      some (acceptPass L K parent (L.applyScan nodes).1 (L.applyScan nodes).2
        { nodes := nodes
          scale := L.maxScaleForPrio nodes (L.applyScan nodes).1.2
          squish := 1
          prio := (L.applyScan nodes).1.2 }) := by
  unfold apply
  rw [fp_tryFitLayout_of_allow L K parent _ _ fuel nodes _ _ _ h]
  rfl

end AxisLayout

end Fp

/-- Addition in single precision is commutative. -/
theorem f32_add_comm (a b : F32) : a + b = b + a := by
  rw [f32_add_def, f32_add_def, ← flt_add_def, ← flt_add_def, flt_add_comm]

/-- Two children of width 100 in a container of 300 x 100, `axisReverse`
off: `apply` returns one row with the children in their order. -/
theorem fp_apply_two_boxes :
    ((fltLayout false).setAxisReverse false).apply fltDefaults 1 (fltBox 0 300 100 1)
        [fltBox 1 100 40 1, fltBox 2 100 40 1] =
      some (fltBox 0 300 100 1,
        [{ nextOverflowScaleDownFactor := Flt.num (3 / 2)
           nextOverflowSquishFactor := Flt.num (3 / 2)
           axisLength := Flt.num 200
           crossLength := Flt.num 40
           axisEndsLength := Flt.num 100
           nodes := [(fltBox 1 100 40 1).setPosition (Flt.num 50) (Flt.num 20),
             (fltBox 2 100 40 1).setPosition (Flt.num 150) (Flt.num 20)] }]) := by
  simp [Fp.AxisLayout.apply, Fp.AxisLayout.applyScan, Fp.AxisLayout.tryFitLayout,
    Fp.AxisLayout.fitRows, Fp.AxisLayout.rowsInit, Fp.AxisLayout.fitInit,
    Fp.AxisLayout.fitRowsLoop, Fp.AxisLayout.fitRowsStep, Fp.AxisLayout.fitInRow,
    Fp.AxisLayout.fitInRowLoop, Fp.AxisLayout.breaksBefore, Fp.AxisLayout.acceptNode,
    Fp.AxisLayout.passAxis, Fp.AxisLayout.passLength, Fp.AxisLayout.passGap,
    Fp.AxisLayout.retryArgs, Fp.AxisLayout.positionRows,
    Fp.AxisLayout.placeRows, Fp.AxisLayout.placeRow, Fp.AxisLayout.placeNode,
    Fp.AxisLayout.rowFit, Fp.AxisLayout.placeScale, Fp.AxisLayout.placeRescale,
    Fp.AxisLayout.packedNodes, Fp.AxisLayout.packed, Fp.AxisLayout.resetScale,
    Fp.AxisLayout.shouldAutoScale, Fp.AxisLayout.maxScaleForPrio, Fp.AxisLayout.nextGap,
    Fp.AxisLayout.setAxisReverse, Fp.nodeAxis, Fp.scaleByOpts, Fp.optsScalePrio,
    Fp.optsMinScale, Fp.optsMaxScale, Fp.optsRelScale, Fp.isOptsBreakLine, Fp.isOptsSameLine,
    Fp.CCNode.getScaledContentSize, Fp.CCNode.setScale, Fp.CCNode.setPosition,
    Fp.CCNode.setContentSize, Fp.CCNode.setBaseScale, Fp.CCSize.scale, fltLayout, fltBox,
    fltDefaults, flt_add_def, flt_sub_def, flt_mul_def, flt_div_def,
    flt_zero_def, flt_one_def, flt_two_def, flt_half_def, flt_threeHalves_def, flt_ofCount_def,
    flt_lt_def, flt_gt_def, flt_eq_def, Flt.add, Flt.mul, Flt.div,
    Flt.lt, Flt.eq, Flt.ofRat, Flt.toRat, Flt.sign, Flt.neg, Flt.sub, Flt.ofCount]
  norm_num


/-- C22: rows and reversal, over floats whose addition is commutative (as
that of IEEE 754 is).  For every pass of `tryFitLayout` (any children, scale,
squish and tier), with the rows read as the positioning of that pass leaves
them: with both flags off, the rows one after the other are the children of
the pass in their order; with `axisReverse` on, the container is the same and
every row is the row produced with it off in the opposite order, positions
apart (the same children with the same scales, the same two factors, axis
length, cross length and ends length); with `crossReverse` on, the container
is the same and the rows are those produced with it off in the opposite
order, positions apart.  The calls of `tryFitLayout` that `apply` makes are
the same with either flag on or off, what `apply` returns is the positioning
of the last of these calls, so that `apply` returns with a flag on exactly
when it returns with the flag off, with rows related in the same way; with
`allowCrossAxisOverflow` it returns on its first pass.  Reversing a row, or
a list of rows, twice gives it back. -/
theorem apply_rows_reversal {T : Type} [FloatOps T] (hcomm : ∀ a b : T, a + b = b + a)
    (L : Fp.AxisLayout T) (K : Fp.Defaults T) (parent : Fp.CCNode T)
    (nodes : List (Fp.CCNode T)) (minMaxPrios : Int × Int) (doAutoScale : Bool) (fuel : Nat) :
    (∀ p : Fp.AxisLayout.Pass T,
      ((Fp.AxisLayout.acceptPass ((L.setAxisReverse false).setCrossAxisReverse false) K parent
        minMaxPrios doAutoScale p).2.flatMap Fp.Row.nodes).map Fp.CCNode.tag =
          p.nodes.map Fp.CCNode.tag) ∧
    (∀ p : Fp.AxisLayout.Pass T,
      (Fp.AxisLayout.acceptPass (L.setAxisReverse true) K parent minMaxPrios doAutoScale p).1 =
        (Fp.AxisLayout.acceptPass (L.setAxisReverse false) K parent minMaxPrios doAutoScale p).1 ∧
      (Fp.AxisLayout.acceptPass (L.setAxisReverse true) K parent minMaxPrios doAutoScale p).2.map
          Fp.AxisLayout.rowShape =
        (Fp.AxisLayout.acceptPass (L.setAxisReverse false) K parent minMaxPrios doAutoScale
          p).2.map (fun row => Fp.AxisLayout.rowShape (Fp.AxisLayout.reversedRow row))) ∧
    (∀ p : Fp.AxisLayout.Pass T,
      (Fp.AxisLayout.acceptPass (L.setCrossAxisReverse true) K parent minMaxPrios doAutoScale
          p).1 =
        (Fp.AxisLayout.acceptPass (L.setCrossAxisReverse false) K parent minMaxPrios doAutoScale
          p).1 ∧
      (Fp.AxisLayout.acceptPass (L.setCrossAxisReverse true) K parent minMaxPrios doAutoScale
          p).2.map Fp.AxisLayout.rowShape =
        ((Fp.AxisLayout.acceptPass (L.setCrossAxisReverse false) K parent minMaxPrios doAutoScale
          p).2.map Fp.AxisLayout.rowShape).reverse) ∧
    (Fp.AxisLayout.applyPasses (L.setAxisReverse true) K fuel parent nodes =
        Fp.AxisLayout.applyPasses (L.setAxisReverse false) K fuel parent nodes ∧
      Fp.AxisLayout.applyPasses (L.setCrossAxisReverse true) K fuel parent nodes =
        Fp.AxisLayout.applyPasses (L.setCrossAxisReverse false) K fuel parent nodes) ∧
    (∀ r, L.apply K fuel parent nodes = some r →
      ∃ p, (Fp.AxisLayout.applyPasses L K fuel parent nodes).getLast? = some p ∧
        r = Fp.AxisLayout.acceptPass L K parent (L.applyScan nodes).1 (L.applyScan nodes).2 p) ∧
    ((L.setAxisReverse true).apply K fuel parent nodes).map
        (fun r => (r.1, r.2.map Fp.AxisLayout.rowShape)) =
      ((L.setAxisReverse false).apply K fuel parent nodes).map
        (fun r => (r.1,
          r.2.map (fun row => Fp.AxisLayout.rowShape (Fp.AxisLayout.reversedRow row)))) ∧
    ((L.setCrossAxisReverse true).apply K fuel parent nodes).map
        (fun r => (r.1, r.2.map Fp.AxisLayout.rowShape)) =
      ((L.setCrossAxisReverse false).apply K fuel parent nodes).map
        (fun r => (r.1, (r.2.map Fp.AxisLayout.rowShape).reverse)) ∧
    (L.m_allowCrossAxisOverflow = true →
      L.apply K (fuel + 1) parent nodes =
        some (Fp.AxisLayout.acceptPass L K parent (L.applyScan nodes).1 (L.applyScan nodes).2
          { nodes := nodes
            scale := L.maxScaleForPrio nodes (L.applyScan nodes).1.2
            squish := 1
            prio := (L.applyScan nodes).1.2 })) ∧
    (∀ row : Fp.Row T, Fp.AxisLayout.reversedRow (Fp.AxisLayout.reversedRow row) = row) ∧
    (∀ rows : List (Fp.Row T), rows.reverse.reverse = rows) := by
  have haxis : ∀ r1 r0 : List (Fp.Row T),
      Fp.AxisLayout.packingOrder (L.setAxisReverse true) r1 =
        Fp.AxisLayout.packingOrder (L.setAxisReverse false) r0 →
      r1.map Fp.AxisLayout.rowShape =
        r0.map (fun row => Fp.AxisLayout.rowShape (Fp.AxisLayout.reversedRow row)) := by
    intro r1 r0 h
    have h2 := Fp.AxisLayout.fp_shape_of_axis L r1 r0 h
    rw [← Fp.AxisLayout.fp_map_rowShape_reversedRow, h2,
      Fp.AxisLayout.fp_map_rowShape_map_reversedRow]
  have hcross : ∀ r1 r0 : List (Fp.Row T),
      Fp.AxisLayout.packingOrder (L.setCrossAxisReverse true) r1 =
        Fp.AxisLayout.packingOrder (L.setCrossAxisReverse false) r0 →
      r1.map Fp.AxisLayout.rowShape = (r0.map Fp.AxisLayout.rowShape).reverse := by
    intro r1 r0 h
    rw [← Fp.AxisLayout.fp_shape_of_cross L r1 r0 h, List.reverse_reverse]
  refine ⟨fun p => Fp.AxisLayout.fp_acceptPass_plain_tags L K parent minMaxPrios doAutoScale p,
    fun p => ?_, fun p => ?_, ⟨?_, ?_⟩, ?_, ?_, ?_, ?_,
    Fp.AxisLayout.fp_reversedRow_reversedRow, List.reverse_reverse⟩
  · obtain ⟨h1, h2⟩ := Fp.AxisLayout.fp_acceptPass_packingOrder hcomm (L.setAxisReverse true)
      (L.setAxisReverse false) rfl K parent minMaxPrios doAutoScale p
    exact ⟨h1, haxis _ _ h2⟩
  · obtain ⟨h1, h2⟩ := Fp.AxisLayout.fp_acceptPass_packingOrder hcomm
      (L.setCrossAxisReverse true) (L.setCrossAxisReverse false) rfl K parent minMaxPrios
      doAutoScale p
    exact ⟨h1, hcross _ _ h2⟩
  · exact Fp.AxisLayout.fp_applyPasses_congr hcomm (L.setAxisReverse true)
      (L.setAxisReverse false) rfl K fuel parent nodes
  · exact Fp.AxisLayout.fp_applyPasses_congr hcomm (L.setCrossAxisReverse true)
      (L.setCrossAxisReverse false) rfl K fuel parent nodes
  · exact fun r hr => Fp.AxisLayout.fp_apply_eq_acceptPass L K fuel parent nodes r hr
  · refine Fp.AxisLayout.fp_option_map_transfer _ _ _ _ _ _
      (Fp.AxisLayout.fp_apply_packingOrder hcomm (L.setAxisReverse true) (L.setAxisReverse false)
        rfl K fuel parent nodes) ?_
    intro r1 r0 h
    simp only [Prod.mk.injEq] at h ⊢
    exact ⟨h.1, haxis _ _ h.2⟩
  · refine Fp.AxisLayout.fp_option_map_transfer _ _ _ _ _ _
      (Fp.AxisLayout.fp_apply_packingOrder hcomm (L.setCrossAxisReverse true)
        (L.setCrossAxisReverse false) rfl K fuel parent nodes) ?_
    intro r1 r0 h
    simp only [Prod.mk.injEq] at h ⊢
    exact ⟨h.1, hcross _ _ h.2⟩
  · exact fun h => Fp.AxisLayout.fp_apply_of_allow L K fuel parent nodes h

/-- Witness of C22: two children of width 100 in a container of 300 x 100,
over floats.  With `axisReverse` on, `apply` returns one row holding the
second child and then the first, with the lengths of the row returned with it
off. -/
theorem apply_rows_reversal_witness :
    (∀ a b : Flt, a + b = b + a) ∧
    (((fltLayout false).setAxisReverse true).apply fltDefaults 1 (fltBox 0 300 100 1)
        [fltBox 1 100 40 1, fltBox 2 100 40 1]).map
        (fun r => (r.1, r.2.map Fp.AxisLayout.rowShape)) =
      some (fltBox 0 300 100 1,
        [{ nextOverflowScaleDownFactor := Flt.num (3 / 2)
           nextOverflowSquishFactor := Flt.num (3 / 2)
           axisLength := Flt.num 200
           crossLength := Flt.num 40
           axisEndsLength := Flt.num 100
           nodes := [fltBox 2 100 40 1, fltBox 1 100 40 1] }]) := by
  refine ⟨flt_add_comm, ?_⟩
  rw [(apply_rows_reversal flt_add_comm (fltLayout false) fltDefaults (fltBox 0 300 100 1)
    [fltBox 1 100 40 1, fltBox 2 100 40 1] (0, 0) true 1).2.2.2.2.2.1, fp_apply_two_boxes]
  simp [Fp.AxisLayout.rowShape, Fp.AxisLayout.reversedRow, Fp.CCNode.setPosition, fltBox]

end Geode
